import Mathlib

/-!
# osgEarth, engine_osgterrain: CustomTile

A shallow embedding of `src/osgEarthDrivers/engine_osgterrain/CustomTile.cpp`, and of
the call operator of `MoveLayerCallback` in `src/applications/osgearth_toc/osgearth_toc.cpp`.

Conventions of the embedding.

* C++ `int` values (stamps, LODs, UIDs) are mathematical integers (`Int`); the
  `unsigned int` key LOD is a `Nat` and the cast `(int)_key.getLevelOfDetail()` is
  the coercion into `Int`.  Signed overflow has no defined behaviour in C++ and
  is outside the embedding.
* `float` priorities are exact rationals.
* A pointer that the source tests for validity (`ref_ptr::valid()`, `!= NULL`)
  is an `Option`.  Where the source dereferences such a pointer without a test,
  the operation is fallible and yields `none` when the pointer is null.
* An object that is mutated through a pointer is a value in the state that is
  passed in and returned.
* Locks, diagnostic names and log output are not represented.
-/

namespace OsgEarth

/-! ## Collaborators declared outside the translation unit -/

/-- Layer identity (`typedef int UID`). -/
abbrev UID := Int

/-- Modelled from the spec: the base `ProgressCallback` (declared in a header that is
not part of the sources) carries the cancellation flag that `reportProgress` caches and
`wasCanceled` reads; a new callback is not canceled. -/
structure ProgressCallback where
  _canceled : Bool := false
deriving DecidableEq, Repr

/-- Modelled from the spec: `ProgressCallback::cancel`, idempotent. -/
def ProgressCallback.cancel (p : ProgressCallback) : ProgressCallback :=
  { p with _canceled := true }

/-- Modelled from the spec: `ProgressCallback::isCanceled`. -/
def ProgressCallback.isCanceled (p : ProgressCallback) : Bool := p._canceled

/-- The callback of lines 58-79.  The members `_request` and `_service` are pointers;
the two stamps they give are read at each call and are arguments of `reportProgress`. -/
structure StampedProgressCallback extends ProgressCallback
deriving DecidableEq, Repr

/-- The body of `StampedProgressCallback::reportProgress` (lines 68-75): the returned
flag and the callback after the call.  `serviceStamp` is `_service->getStamp()` and
`requestStamp` is `_request->getStamp()`. -/
def StampedProgressCallback.reportProgress (cb : StampedProgressCallback)
    (serviceStamp requestStamp : Int) : Bool × StampedProgressCallback :=
  if cb._canceled then (cb._canceled, cb)
  else
    let c : Bool := decide (serviceStamp - requestStamp > 2)
    (c, { cb with _canceled := c })

/-- A sequence of `reportProgress` calls on one callback, each with the stamps read at
that call; the list of returned flags, in call order. -/
def StampedProgressCallback.reportAll (cb : StampedProgressCallback) :
    List (Int × Int) → List Bool
  | [] => []
  | (s, r) :: rest =>
    (cb.reportProgress s r).1 :: reportAll (cb.reportProgress s r).2 rest

/-! ## Tile data -/

/-- The quadtree key of a tile; `getLevelOfDetail` is `unsigned int`. -/
structure TileKey where
  lod : Nat
  x : Nat
  y : Nat
deriving DecidableEq, Repr

/-- The accessor `TileKey::getLevelOfDetail`. -/
def TileKey.getLevelOfDetail (k : TileKey) : Nat := k.lod

/-- The identifier `osgTerrain::TileID`. -/
structure TileID where
  level : Int
  x : Int
  y : Int
deriving DecidableEq, Repr

/-- The indices of `_family` (`Relative::PARENT` to `Relative::SOUTH`). -/
inductive Direction where
  | PARENT | WEST | NORTH | EAST | SOUTH
deriving DecidableEq, Repr

/-- Modelled from the spec: a family entry (`Relative`, declared in the CustomTerrain
header): whether the relative is expected, its elevation LOD, its LOD per image layer
and its tile identifier. -/
structure Relative where
  expected : Bool
  elevLOD : Int
  imageLODs : List (UID × Int)
  tileID : TileID
deriving DecidableEq, Repr

/-- Modelled from the spec: `Relative::getImageLOD`; a layer the relative has no
record of is reported with the negative LOD -1 (not known). -/
def Relative.getImageLOD (r : Relative) (uid : UID) : Int :=
  (r.imageLODs.lookup uid).getD (-1)

/-- The array `_family`, indexed by `Direction`. -/
structure Family where
  parent : Relative
  west : Relative
  north : Relative
  east : Relative
  south : Relative
deriving DecidableEq, Repr

/-- The indexing `_family[i]`. -/
def Family.get (f : Family) : Direction → Relative
  | .PARENT => f.parent
  | .WEST => f.west
  | .NORTH => f.north
  | .EAST => f.east
  | .SOUTH => f.south

/-- The range `i = Relative::PARENT; i <= Relative::SOUTH; i++`. -/
def Direction.all : List Direction := [.PARENT, .WEST, .NORTH, .EAST, .SOUTH]

/-- An `osg::HeightField`: its samples and its skirt height. -/
structure HeightField where
  heights : List Int
  skirtHeight : Rat
deriving DecidableEq, Repr

/-- An `osgTerrain::HeightFieldLayer`; `getHeightField()` may be null. -/
structure HeightFieldLayer where
  ident : Nat
  heightField : Option HeightField
deriving DecidableEq, Repr

/-- The call `layer->getHeightField()->setSkirtHeight(h)` on a layer that has a height field. -/
def HeightFieldLayer.setSkirtHeight (l : HeightFieldLayer) (h : Rat) : HeightFieldLayer :=
  { l with heightField := l.heightField.map (fun hf => { hf with skirtHeight := h }) }

/-- An image layer of the map: its UID and whether it is dynamic. -/
structure ImageLayer where
  uid : UID
  dynamic : Bool
deriving DecidableEq, Repr

/-- The accessor `ImageLayer::getUID`. -/
def ImageLayer.getUID (l : ImageLayer) : UID := l.uid

/-- The accessor `ImageLayer::isDynamic`. -/
def ImageLayer.isDynamic (l : ImageLayer) : Bool := l.dynamic

/-- A color layer record: map layer, image, locator and LOD. -/
structure CustomColorLayer where
  mapLayer : ImageLayer
  image : Nat
  locator : Nat
  lod : Int
deriving DecidableEq, Repr

/-- The accessor `CustomColorLayer::getUID`, the UID of the map layer. -/
def CustomColorLayer.getUID (c : CustomColorLayer) : UID := c.mapLayer.getUID

/-- The accessor `CustomColorLayer::getLevelOfDetail`. -/
def CustomColorLayer.getLevelOfDetail (c : CustomColorLayer) : Int := c.lod

/-- The container `ColorLayersByUID` (`std::map<UID, CustomColorLayer>`), as the
sequence of its entries in iteration order. -/
abbrev ColorLayersByUID := List (UID × CustomColorLayer)

/-- The lookup `std::map::find`. -/
def ColorLayersByUID.find (m : ColorLayersByUID) (uid : UID) : Option CustomColorLayer :=
  m.lookup uid

/-- The assignment `m[uid] = layer` of `std::map`. -/
def ColorLayersByUID.assign : ColorLayersByUID → UID → CustomColorLayer → ColorLayersByUID
  | [], uid, layer => [(uid, layer)]
  | (k, v) :: rest, uid, layer =>
    if uid < k then (uid, layer) :: (k, v) :: rest
    else if uid = k then (k, layer) :: rest
    else (k, v) :: assign rest uid layer

/-- The removal `std::map::erase` of the entry with key `uid`. -/
def ColorLayersByUID.erase : ColorLayersByUID → UID → ColorLayersByUID
  | [], _ => []
  | (k, v) :: rest, uid => if uid = k then rest else (k, v) :: erase rest uid

/-- The map snapshot `MapFrame`: its image layers, in order. -/
structure MapFrame where
  imageLayers : List ImageLayer
deriving DecidableEq, Repr

/-- The lookup `MapFrame::getImageLayerByUID`. -/
def MapFrame.getImageLayerByUID (m : MapFrame) (uid : UID) : Option ImageLayer :=
  m.imageLayers.find? (fun l => l.getUID == uid)

/-! ## Task requests -/

/-- Modelled from the spec: the lifecycle states of a task request (idle, running,
completed); the class `TaskRequest` is declared outside the sources. -/
inductive TaskState where
  | STATE_IDLE | STATE_RUNNING | STATE_COMPLETED
deriving DecidableEq, Repr

/-- Modelled from the spec: the base `TaskRequest`, with result payload of type `ρ`:
state, stamp, priority, progress callback (which holds the cancellation flag) and result. -/
structure TaskRequest (ρ : Type) where
  _state : TaskState
  _stamp : Int
  _priority : Rat
  _progress : ProgressCallback
  _result : Option ρ
deriving DecidableEq, Repr

namespace TaskRequest
variable {ρ : Type}

/-- Modelled from the spec: `isIdle`. -/
def isIdle (r : TaskRequest ρ) : Bool := r._state == .STATE_IDLE

/-- Modelled from the spec: `isRunning`. -/
def isRunning (r : TaskRequest ρ) : Bool := r._state == .STATE_RUNNING

/-- Modelled from the spec: `isCompleted`. -/
def isCompleted (r : TaskRequest ρ) : Bool := r._state == .STATE_COMPLETED

/-- Modelled from the spec: `wasCanceled`, the flag of the progress callback. -/
def wasCanceled (r : TaskRequest ρ) : Bool := r._progress.isCanceled

/-- Modelled from the spec: `cancel`, idempotent; it sets the cancellation flag. -/
def cancel (r : TaskRequest ρ) : TaskRequest ρ := { r with _progress := r._progress.cancel }

/-- Modelled from the spec: `setState`. -/
def setState (r : TaskRequest ρ) (s : TaskState) : TaskRequest ρ := { r with _state := s }

/-- Modelled from the spec: `setStamp`. -/
def setStamp (r : TaskRequest ρ) (stamp : Int) : TaskRequest ρ := { r with _stamp := stamp }

/-- Modelled from the spec: `setPriority`. -/
def setPriority (r : TaskRequest ρ) (p : Rat) : TaskRequest ρ := { r with _priority := p }

/-- Modelled from the spec: `setProgressCallback`. -/
def setProgressCallback (r : TaskRequest ρ) (p : ProgressCallback) : TaskRequest ρ :=
  { r with _progress := p }

/-- Modelled from the spec: `reset` returns a completed or canceled request to idle and
drops its result, so that it can be resubmitted. -/
def reset (r : TaskRequest ρ) : TaskRequest ρ := { r with _state := .STATE_IDLE, _result := none }

/-- Modelled from the spec: `getResult`. -/
def getResult (r : TaskRequest ρ) : Option ρ := r._result

/-- Modelled from the spec: what `TaskService::add` does to the request it receives:
the request leaves the idle state (lines 771-772: an idle request is one the service is
not holding). -/
def submitted (r : TaskRequest ρ) : TaskRequest ρ := { r with _state := .STATE_RUNNING }

end TaskRequest

/-- The payload `CustomColorLayerRef` of an imagery request. -/
structure CustomColorLayerRef where
  _layer : CustomColorLayer
deriving DecidableEq, Repr

/-- The request `TileColorLayerRequest` (lines 87-122): base request, try counters of
`TileLayerRequest` (`unsigned int`) and the layer UID. -/
structure TileColorLayerRequest extends TaskRequest CustomColorLayerRef where
  _numTries : Nat
  _maxTries : Nat
  _layerUID : UID
deriving DecidableEq, Repr

/-- The request `TileElevationLayerRequest` (lines 124-137). -/
structure TileElevationLayerRequest extends TaskRequest HeightFieldLayer where
  _numTries : Nat
  _maxTries : Nat
deriving DecidableEq, Repr

/-- The request `TileElevationPlaceholderLayerRequest` (lines 139-175). -/
structure TileElevationPlaceholderLayerRequest extends TaskRequest HeightFieldLayer where
  _numTries : Nat
  _maxTries : Nat
  _parentHF : Option HeightField
  _nextLOD : Int
deriving DecidableEq, Repr

/-- The actions of a `TileUpdate`. -/
inductive TileUpdate.Action where
  | UPDATE_IMAGE_LAYER | UPDATE_ELEVATION
deriving DecidableEq, Repr

/-- A pending tile update: action and value (the layer UID for an image update). -/
structure TileUpdate where
  action : TileUpdate.Action
  value : Int
deriving DecidableEq, Repr

/-- Modelled from the spec: the value `queueTileUpdate(action)` passes when the second
argument is left out; the default is declared in the CustomTile header, outside the
sources. -/
def TileUpdate.defaultValue : Int := -1

/-- The request `TileGenRequest` (lines 180-202); the back pointer to the tile is the
tile that owns the request. -/
structure TileGenRequest extends TaskRequest Unit where
  _update : TileUpdate
deriving DecidableEq, Repr

/-- Modelled from the spec: the terrain technique of a tile: the updates compiled in
the background and not yet applied, the updates applied to the scene graph, and the
number of `applyTileUpdates` calls. -/
structure CustomTerrainTechnique where
  compiled : List TileUpdate
  applied : List TileUpdate
  numApplied : Nat
deriving DecidableEq, Repr

/-- Modelled from the spec: `compile` records the update as compiled, without applying it. -/
def CustomTerrainTechnique.compile (t : CustomTerrainTechnique) (u : TileUpdate) :
    CustomTerrainTechnique :=
  { t with compiled := t.compiled ++ [u] }

/-- Modelled from the spec: `applyTileUpdates` swaps in what has been compiled and
reports whether anything was applied. -/
def CustomTerrainTechnique.applyTileUpdates (t : CustomTerrainTechnique) :
    Bool × CustomTerrainTechnique :=
  (!t.compiled.isEmpty,
   { compiled := [], applied := t.applied ++ t.compiled, numApplied := t.numApplied + 1 })

/-! ## The tile -/

/-- The state of a `CustomTile` that the member functions of the translation unit read
or write.  `_tileUpdates` is the `std::queue`, front first.  `_updateTravCount` is the
sum of the `ADJUST_UPDATE_TRAV_COUNT` adjustments; `_dirty` and `_boundDirty` are the
flags set by `setDirty(true)` and `dirtyBound()`. -/
structure CustomTile where
  _key : TileKey
  _terrainRevision : Int
  _tileRevision : Int
  _requestsInstalled : Bool
  _elevationLayerUpToDate : Bool
  _elevationLOD : Int
  _hasBeenTraversed : Bool
  _hasElevation : Bool
  _verticalScale : Rat
  _elevationLayer : Option HeightFieldLayer
  _colorLayers : ColorLayersByUID
  _family : Family
  _requests : List TileColorLayerRequest
  _elevRequest : Option TileElevationLayerRequest
  _elevPlaceholderRequest : Option TileElevationPlaceholderLayerRequest
  _tileGenRequest : Option TileGenRequest
  _tileUpdates : List TileUpdate
  _terrainTechnique : Option CustomTerrainTechnique
  _updateTravCount : Int
  _dirty : Bool
  _boundDirty : Bool
deriving DecidableEq, Repr

namespace CustomTile

/-- The member `_useTileGenRequest`: the constructor initialises it to true (line 218)
and nothing assigns it afterwards. -/
def _useTileGenRequest (_t : CustomTile) : Bool := true

/-- The cast `(int)_key.getLevelOfDetail()`. -/
def keyLOD (t : CustomTile) : Int := (t._key.getLevelOfDetail : Int)

/-- The setter `setElevationLOD` (lines 294-304). -/
def setElevationLOD (t : CustomTile) (lod : Int) : CustomTile :=
  { t with _elevationLOD := lod, _elevationLayerUpToDate := decide (lod = t.keyLOD) }

/-- The accessor `getElevationLOD` (lines 306-310). -/
def getElevationLOD (t : CustomTile) : Int := t._elevationLOD

/-- The setter `setHasElevationHint` (lines 370-374). -/
def setHasElevationHint (t : CustomTile) (hint : Bool) : CustomTile :=
  { t with _hasElevation := hint }

/-- The accessor `isElevationLayerUpToDate` (lines 376-380). -/
def isElevationLayerUpToDate (t : CustomTile) : Bool := t._elevationLayerUpToDate

/-- The loop of lines 576-583 over the family members still to visit: the value of
`ready` when the loop ends (false as soon as a member makes the test true, at which
point the loop breaks). -/
def elevationLoop (t : CustomTile) : List Direction → Bool
  | [] => true
  | i :: rest =>
    if (t._family.get i).expected && decide ((t._family.get i).elevLOD ≥ 0)
        && decide ((t._family.get i).elevLOD < t._elevationLOD) then false
    else elevationLoop t rest

/-- The function `readyForNewElevation` (lines 561-604). -/
def readyForNewElevation (t : CustomTile) : Bool :=
  if t._elevationLOD = t.keyLOD then false
  else if (t._family.get .PARENT).elevLOD < 0 then false
  else
    let ready := t.elevationLoop Direction.all
    if ready && decide (t._elevationLOD + 1 < t.keyLOD)
        && decide (t._elevationLOD = (t._family.get .PARENT).elevLOD) then false
    else ready

/-- The function `readyForNewImagery` (lines 608-645), over the members still to visit. -/
def imageryLoop (t : CustomTile) (layer : ImageLayer) (currentLOD : Int) : List Direction → Bool
  | [] => true
  | i :: rest =>
    if (t._family.get i).expected && decide ((t._family.get i).getImageLOD layer.getUID ≥ 0)
        && decide ((t._family.get i).getImageLOD layer.getUID < currentLOD) then false
    else imageryLoop t layer currentLOD rest

/-- The function `readyForNewImagery` (lines 608-645). -/
def readyForNewImagery (t : CustomTile) (layer : ImageLayer) (currentLOD : Int) : Bool :=
  if currentLOD = t.keyLOD then false
  else if (t._family.get .PARENT).getImageLOD layer.getUID < 0 then false
  else
    let ready := t.imageryLoop layer currentLOD Direction.all
    if ready && decide (currentLOD + 1 < t.keyLOD)
        && decide (currentLOD = (t._family.get .PARENT).getImageLOD layer.getUID) then false
    else ready

/-- The macro `ADJUST_UPDATE_TRAV_COUNT(tile, delta)`: the adjustment is accumulated. -/
def adjustUpdateTravCount (t : CustomTile) (delta : Int) : CustomTile :=
  { t with _updateTravCount := t._updateTravCount + delta }

/-- The unlocked branch of `setCustomColorLayer` (lines 413-426). -/
def setCustomColorLayerUnlocked (t : CustomTile) (layer : CustomColorLayer) : CustomTile :=
  let delta0 : Int :=
    match t._colorLayers.find layer.getUID with
    | some old => if old.mapLayer.isDynamic then -1 else 0
    | none => 0
  let t1 := { t with _colorLayers := t._colorLayers.assign layer.getUID layer }
  let delta : Int := if layer.mapLayer.isDynamic then delta0 + 1 else delta0
  if delta ≠ 0 then t1.adjustUpdateTravCount delta else t1

/-- The function `setCustomColorLayer` (lines 404-427); with `writeLock` it takes the
lock and calls itself without. -/
def setCustomColorLayer (t : CustomTile) (layer : CustomColorLayer) (writeLock : Bool := true) :
    CustomTile :=
  if writeLock then t.setCustomColorLayerUnlocked layer else t.setCustomColorLayerUnlocked layer

/-- The function `getCustomColorLayer` (lines 450-468): `some` of the record when it
returns true (the record is then written to `out`), `none` when it returns false. -/
def getCustomColorLayer (t : CustomTile) (layerUID : UID) (readLock : Bool := true) :
    Option CustomColorLayer :=
  if readLock then t._colorLayers.find layerUID else t._colorLayers.find layerUID

/-- The function `queueTileUpdate` (lines 876-887). -/
def queueTileUpdate (t : CustomTile) (action : TileUpdate.Action)
    (value : Int := TileUpdate.defaultValue) : CustomTile :=
  if t._useTileGenRequest then { t with _tileUpdates := t._tileUpdates ++ [⟨action, value⟩] }
  else { t with _dirty := true }

end CustomTile

/-! ## The terrain -/

/-- The loading modes of `LoadingPolicy` (declared outside the sources; the source
tests for `MODE_SEQUENTIAL` and `MODE_PREEMPTIVE`). -/
inductive LoadingPolicy.Mode where
  | MODE_STANDARD | MODE_SEQUENTIAL | MODE_PREEMPTIVE
deriving DecidableEq, Repr

/-- A request handed to the elevation task service. -/
inductive ElevationTask where
  | final (key : TileKey) (r : TileElevationLayerRequest)
  | placeholder (key : TileKey) (r : TileElevationPlaceholderLayerRequest)
deriving DecidableEq, Repr

/-- Modelled from the spec: the terrain registry as the tile uses it: loading mode,
revision, the table of tiles, and for each task service the sequence of requests
added to it (for imagery, with the UID of the layer whose service received it). -/
structure CustomTerrain where
  loadingMode : LoadingPolicy.Mode
  revision : Int
  tiles : List (TileID × CustomTile)
  elevationService : List ElevationTask
  imageryServices : List (UID × TileKey × TileColorLayerRequest)
  tileGenService : List (TileKey × TileGenRequest)
deriving DecidableEq, Repr

/-- Modelled from the spec: `CustomTerrain::getCustomTile`, the lookup of a tile by
identifier; the result may be invalid. -/
def CustomTerrain.getCustomTile (terrain : CustomTerrain) (tileID : TileID) : Option CustomTile :=
  terrain.tiles.lookup tileID

/-- Modelled from the spec: a request as its constructor leaves it: idle, not
canceled, without result. -/
def TaskRequest.new {ρ : Type} : TaskRequest ρ :=
  { _state := .STATE_IDLE, _stamp := 0, _priority := 0, _progress := {}, _result := none }

/-- The offset `PRI_IMAGE_OFFSET` (line 648). -/
def PRI_IMAGE_OFFSET : Rat := 1 / 10

/-- The offset `PRI_LAYER_OFFSET` (line 649). -/
def PRI_LAYER_OFFSET : Rat := 1 / 10

namespace CustomTile

/-- The function `resetElevationRequests` (lines 678-702).  The requests it cancels
are the old ones, which the assignments then release; the tile keeps the two new
requests.  `indeterminate` is the value of the member `_nextLOD` of the new
placeholder request, which its constructor does not initialise. -/
def resetElevationRequests (t : CustomTile) (_mapf : MapFrame) (indeterminate : Int) :
    CustomTile :=
  let priority : Rat := (t._key.getLevelOfDetail : Rat)
  let er : TileElevationLayerRequest :=
    { toTaskRequest := TaskRequest.new.setPriority priority, _numTries := 0, _maxTries := 3 }
  let pr : TileElevationPlaceholderLayerRequest :=
    { toTaskRequest := TaskRequest.new.setPriority priority, _numTries := 0, _maxTries := 3,
      _parentHF := none, _nextLOD := indeterminate }
  { t with _elevRequest := some er, _elevPlaceholderRequest := some pr }

/-- The request that `updateImagery` creates (lines 715-737). -/
def newColorLayerRequest (t : CustomTile) (terrain : CustomTerrain) (imageLayer : ImageLayer) :
    TileColorLayerRequest :=
  let r0 : TaskRequest CustomColorLayerRef := TaskRequest.new.setState .STATE_IDLE
  let r1 :=
    if terrain.loadingMode = .MODE_SEQUENTIAL then
      r0.setPriority (-(t._key.getLevelOfDetail : Rat) + PRI_IMAGE_OFFSET)
    else
      r0.setPriority (PRI_IMAGE_OFFSET + (t._key.getLevelOfDetail : Rat))
  { toTaskRequest := r1.setProgressCallback ({} : StampedProgressCallback).toProgressCallback,
    _numTries := 0, _maxTries := 3, _layerUID := imageLayer.getUID }

/-- The erase loop of `updateImagery` (lines 740-747). -/
def eraseRequestsOf (uid : UID) : List TileColorLayerRequest → List TileColorLayerRequest
  | [] => []
  | r2 :: rest => if r2._layerUID = uid then eraseRequestsOf uid rest
                  else r2 :: eraseRequestsOf uid rest

/-- The function `updateImagery` (lines 709-751). -/
def updateImagery (t : CustomTile) (terrain : CustomTerrain) (imageLayer : ImageLayer)
    (_mapf : MapFrame) : CustomTile :=
  let r := t.newColorLayerRequest terrain imageLayer
  { t with _requests := eraseRequestsOf imageLayer.getUID t._requests ++ [r] }

/-- The function `installRequests` (lines 651-676). -/
def installRequests (t : CustomTile) (terrain : CustomTerrain) (mapf : MapFrame) (_stamp : Int)
    (indeterminate : Int) : CustomTile :=
  let hasElevationLayer := t._elevationLayer.isSome
  let t1 := if hasElevationLayer then t.resetElevationRequests mapf indeterminate else t
  let t2 := mapf.imageLayers.foldl (fun acc l => acc.updateImagery terrain l mapf) t1
  { t2 with _requestsInstalled := true }

/-- The block of `servicePendingElevationRequests` guarded by the test of line 800
(lines 800-873), on a tile whose requests are installed.  The result is `none` when
the parent tile that was found has no elevation layer: lines 856-857 dereference the
layer without a test. -/
def scheduleElevationRequest (t : CustomTile) (terrain : CustomTerrain) (stamp : Int) :
    Option (CustomTile × CustomTerrain) :=
  match t._hasElevation && !t._elevationLayerUpToDate, t._elevRequest,
      t._elevPlaceholderRequest with
  | true, some er, some pr =>
    if !er.isIdle then
      if !er.isCompleted then
        let er1 : TileElevationLayerRequest := { er with toTaskRequest := er.setStamp stamp }
        some ({ t with _elevRequest := some er1 }, terrain)
      else some (t, terrain)
    else if !pr.isIdle then
      if !pr.isCompleted then
        let pr1 : TileElevationPlaceholderLayerRequest :=
          { pr with toTaskRequest := pr.setStamp stamp }
        some ({ t with _elevPlaceholderRequest := some pr1 }, terrain)
      else some (t, terrain)
    else if t.readyForNewElevation then
      if t._elevationLOD + 1 = t.keyLOD then
        let er1 : TileElevationLayerRequest :=
          { er with toTaskRequest :=
              (((er.setStamp stamp).setProgressCallback {})).submitted }
        some ({ t with _elevRequest := some er1 },
              { terrain with
                elevationService := terrain.elevationService ++ [.final t._key er1] })
      else if (t._family.get .PARENT).elevLOD > t._elevationLOD then
        let parentTile := terrain.getCustomTile (t._family.get .PARENT).tileID
        match decide (t._elevationLOD < (t._family.get .PARENT).elevLOD), parentTile with
        | true, some parent =>
          match parent._elevationLayer with
          | none => none
          | some hfLayer =>
            let priority : Rat := (t._key.getLevelOfDetail : Rat)
            let base := (((pr.setStamp stamp).setProgressCallback {}).setPriority priority)
            let pr1 : TileElevationPlaceholderLayerRequest :=
              { pr with toTaskRequest := base.submitted,
                        _parentHF := hfLayer.heightField,
                        _nextLOD := (t._family.get .PARENT).elevLOD }
            some ({ t with _elevPlaceholderRequest := some pr1 },
                  { terrain with
                    elevationService := terrain.elevationService ++ [.placeholder t._key pr1] })
        | _, _ => some (t, terrain)
      else some (t, terrain)
    else some (t, terrain)
  | _, _, _ => some (t, terrain)

/-- The function `servicePendingElevationRequests` (lines 786-874) on the tile and its
terrain; `none` as for `scheduleElevationRequest`. -/
def servicePendingElevationRequests (t0 : CustomTile) (terrain : CustomTerrain)
    (mapf : MapFrame) (stamp : Int) (_tileTableLocked : Bool) (indeterminate : Int) :
    Option (CustomTile × CustomTerrain) :=
  if !t0._hasBeenTraversed then some (t0, terrain)
  else if !t0._requestsInstalled then
    (t0.installRequests terrain mapf stamp indeterminate).scheduleElevationRequest terrain stamp
  else t0.scheduleElevationRequest terrain stamp

/-- The first part of `serviceCompletedRequests` (lines 917-928): the tile generator.
The Boolean is `tileModified`. -/
def serviceTileGenerator (t : CustomTile) : CustomTile × Bool :=
  match t._tileGenRequest with
  | some g =>
    if g.isCompleted then
      match t._terrainTechnique with
      | some tech =>
        if t._tileUpdates.length = 0 then
          ({ t with _terrainTechnique := some tech.applyTileUpdates.2, _tileGenRequest := none },
           tech.applyTileUpdates.1)
        else ({ t with _tileGenRequest := none }, false)
      | none => ({ t with _tileGenRequest := none }, false)
    else (t, false)
  | none => (t, false)

/-- The first half of the body of the layer loop of `serviceCompletedRequests` (lines
939-982): the tile afterwards and the value of `checkForFinalImagery`.  The result is
`none` when the parent tile is not in the tile table: line 966 dereferences
`parentTile` without a test. -/
def checkImageLayer (t : CustomTile) (terrain : CustomTerrain) (imageLayer : ImageLayer) :
    Option (CustomTile × Bool) :=
  match t.getCustomColorLayer imageLayer.getUID with
  | some colorLayer =>
    if terrain.loadingMode = .MODE_PREEMPTIVE then some (t, true)
    else if terrain.loadingMode = .MODE_SEQUENTIAL
        ∧ t.readyForNewImagery imageLayer colorLayer.getLevelOfDetail = true then
      if colorLayer.getLevelOfDetail + 1 < t.keyLOD then
        if (t._family.get .PARENT).getImageLOD colorLayer.getUID > colorLayer.getLevelOfDetail then
          match terrain.getCustomTile (t._family.get .PARENT).tileID with
          | none => none
          | some parentTile =>
            let t1 :=
              match parentTile.getCustomColorLayer colorLayer.getUID with
              | some parentColorLayer => t.setCustomColorLayer parentColorLayer
              | none => t
            some (t1.queueTileUpdate .UPDATE_IMAGE_LAYER colorLayer.getUID, false)
        else some (t, false)
      else some (t, true)
    else some (t, false)
  | none => some (t, false)

/-- The body of the request loop of `serviceCompletedRequests` (lines 989-1063) for the
request `r` the iterator points to: the tile afterwards, and the request as it stays
in the list, or `none` when it is erased from the list. -/
def serviceImageRequest (t : CustomTile) (mapf : MapFrame) (imageLayer : ImageLayer)
    (r : TileColorLayerRequest) : CustomTile × Option TileColorLayerRequest :=
  if r._layerUID = imageLayer.getUID then
    if r.isCompleted then
      if r.wasCanceled then
        (t, some { r with toTaskRequest :=
            ((r.setState .STATE_IDLE).setProgressCallback
              ({} : StampedProgressCallback).toProgressCallback).reset })
      else
        match mapf.getImageLayerByUID r._layerUID with
        | none => (t, none)
        | some _ =>
          match r.getResult with
          | some result =>
            ((t.setCustomColorLayer result._layer).queueTileUpdate .UPDATE_IMAGE_LAYER r._layerUID,
             none)
          | none =>
            if r._numTries > r._maxTries then
              match t.getCustomColorLayer r._layerUID with
              | some oldLayer =>
                (t.setCustomColorLayer
                  { mapLayer := oldLayer.mapLayer, image := oldLayer.image,
                    locator := oldLayer.locator, lod := (t._key.getLevelOfDetail : Int) },
                 none)
              | none => (t, some r)
            else
              (t, some { r with toTaskRequest := (r.setState .STATE_IDLE).reset })
    else (t, some r)
  else (t, some r)

/-- The request loop of `serviceCompletedRequests` (lines 987-1064) over the part of
`_requests` from the iterator to the end: the tile afterwards (its color layers and
update queue) and what that part of the list has become. -/
def imageRequestsLoop (mapf : MapFrame) (imageLayer : ImageLayer) :
    CustomTile → List TileColorLayerRequest → CustomTile × List TileColorLayerRequest
  | t, [] => (t, [])
  | t, r :: rest =>
    let step := t.serviceImageRequest mapf imageLayer r
    let tail := imageRequestsLoop mapf imageLayer step.1 rest
    (tail.1, step.2.toList ++ tail.2)

/-- The body of the layer loop of `serviceCompletedRequests` (lines 937-1065) for one
image layer of the map snapshot. -/
def serviceImageLayer (t : CustomTile) (terrain : CustomTerrain) (mapf : MapFrame)
    (imageLayer : ImageLayer) : Option CustomTile :=
  match t.checkImageLayer terrain imageLayer with
  | none => none
  | some (t1, checkForFinalImagery) =>
    if checkForFinalImagery then
      let out := imageRequestsLoop mapf imageLayer t1 t1._requests
      some { out.1 with _requests := out.2 }
    else some t1

/-- The layer loop of `serviceCompletedRequests` (lines 934-1066) over the image layers
still to visit. -/
def serviceImagery (terrain : CustomTerrain) (mapf : MapFrame) :
    CustomTile → List ImageLayer → Option CustomTile
  | t, [] => some t
  | t, imageLayer :: rest =>
    match t.serviceImageLayer terrain mapf imageLayer with
    | none => none
    | some t1 => serviceImagery terrain mapf t1 rest

/-- The elevation part of `serviceCompletedRequests` (lines 1068-1166).  `skirtHeight`
is the value of the floating-point product passed to `setSkirtHeight` at lines
1089-1091. -/
def serviceElevationRequests (t : CustomTile) (skirtHeight : Rat) : CustomTile :=
  match t._hasElevation && !t._elevationLayerUpToDate, t._elevRequest,
      t._elevPlaceholderRequest with
  | true, some er, some pr =>
    if er.isCompleted then
      if er.wasCanceled then
        let er1 : TileElevationLayerRequest :=
          { er with toTaskRequest := ((er.setState .STATE_IDLE).setProgressCallback {}).reset }
        { t with _elevRequest := some er1 }
      else
        match er.getResult with
        | some newHFLayer =>
          if newHFLayer.heightField.isSome then
            let t1 := { t with _elevationLayer := some (newHFLayer.setSkirtHeight skirtHeight),
                               _boundDirty := true }
            let t2 := t1.queueTileUpdate .UPDATE_ELEVATION
            { t2 with _elevationLOD := (t._key.getLevelOfDetail : Int),
                      _elevationLayerUpToDate := true }
          else
            let er1 : TileElevationLayerRequest :=
              { er with toTaskRequest := (er.setState .STATE_IDLE).reset }
            { t with _elevRequest := some er1 }
        | none =>
          let er1 : TileElevationLayerRequest :=
            { er with toTaskRequest := (er.setState .STATE_IDLE).reset }
          { t with _elevRequest := some er1 }
    else if pr.isCompleted then
      if pr.wasCanceled then
        let pr1 : TileElevationPlaceholderLayerRequest :=
          { pr with toTaskRequest := ((pr.setState .STATE_IDLE).setProgressCallback {}).reset }
        { t with _elevPlaceholderRequest := some pr1 }
      else
        let pr1 : TileElevationPlaceholderLayerRequest :=
          { pr with toTaskRequest := (pr.setState .STATE_IDLE).reset }
        match pr.getResult with
        | some newPhLayer =>
          if newPhLayer.heightField.isSome then
            let t1 := { t with _elevationLayer := some newPhLayer, _boundDirty := true }
            let t2 := t1.queueTileUpdate .UPDATE_ELEVATION
            { t2 with _elevationLOD := pr._nextLOD, _elevPlaceholderRequest := some pr1 }
          else { t with _elevPlaceholderRequest := some pr1 }
        | none => { t with _elevPlaceholderRequest := some pr1 }
    else t
  | _, _, _ => t

/-- The last part of `serviceCompletedRequests` (lines 1168-1175): a new
`TileGenRequest` for the update at the front of the queue. -/
def queueTileGenRequest (t : CustomTile) (terrain : CustomTerrain) : CustomTile × CustomTerrain :=
  match t._tileUpdates, t._tileGenRequest with
  | update :: rest, none =>
    let g : TileGenRequest := { toTaskRequest := TaskRequest.new.submitted, _update := update }
    ({ t with _tileGenRequest := some g, _tileUpdates := rest },
     { terrain with tileGenService := terrain.tileGenService ++ [(t._key, g)] })
  | _, _ => (t, terrain)

/-- The function `serviceCompletedRequests` (lines 904-1178): the tile and the terrain
afterwards and the returned `tileModified`; `none` when the imagery part fails (see
`checkImageLayer`). -/
def serviceCompletedRequests (t : CustomTile) (terrain : CustomTerrain) (mapf : MapFrame)
    (_tileTableLocked : Bool) (skirtHeight : Rat) : Option (CustomTile × CustomTerrain × Bool) :=
  if !t._hasBeenTraversed then some (t, terrain, false)
  else if !t._requestsInstalled then some (t, terrain, false)
  else
    let gen := t.serviceTileGenerator
    match serviceImagery terrain mapf gen.1 mapf.imageLayers with
    | none => none
    | some t2 =>
      let t3 := t2.serviceElevationRequests skirtHeight
      let out := t3.queueTileGenRequest terrain
      some (out.1, out.2, gen.2)

/-- The body of the loop of `servicePendingImageRequests` (lines 767-783) for one
request: the request afterwards and whether it was added to the imagery task service
of its layer. -/
def servicePendingImageRequest (stamp : Int) (r : TileColorLayerRequest) :
    TileColorLayerRequest × Bool :=
  if r.isIdle then ({ r with toTaskRequest := (r.setStamp stamp).submitted }, true)
  else if !r.isCompleted then ({ r with toTaskRequest := r.setStamp stamp }, false)
  else (r, false)

/-- The loop of `servicePendingImageRequests` (lines 767-783): the requests afterwards
and the sequence of requests added to the imagery task services. -/
def pendingImageRequestsLoop (key : TileKey) (stamp : Int) :
    List TileColorLayerRequest →
      List TileColorLayerRequest × List (UID × TileKey × TileColorLayerRequest)
  | [] => ([], [])
  | r :: rest =>
    let step := servicePendingImageRequest stamp r
    let tail := pendingImageRequestsLoop key stamp rest
    (step.1 :: tail.1, (if step.2 then [(r._layerUID, key, step.1)] else []) ++ tail.2)

/-- The function `servicePendingImageRequests` (lines 753-784). -/
def servicePendingImageRequests (t0 : CustomTile) (terrain : CustomTerrain) (mapf : MapFrame)
    (stamp : Int) (indeterminate : Int) : CustomTile × CustomTerrain :=
  if !t0._hasBeenTraversed then (t0, terrain)
  else
    let t := if !t0._requestsInstalled then t0.installRequests terrain mapf stamp indeterminate
             else t0
    let out := pendingImageRequestsLoop t._key stamp t._requests
    ({ t with _requests := out.1 },
     { terrain with imageryServices := terrain.imageryServices ++ out.2 })

/-- The tile with its request list replaced. -/
def setRequests (t : CustomTile) (rs : List TileColorLayerRequest) : CustomTile :=
  { t with _requests := rs }

/-- The tile with the imagery requests of layer `uid` taken out of its request list. -/
def withoutRequestsOf (t : CustomTile) (uid : UID) : CustomTile :=
  { t with _requests := t._requests.filter (fun r => decide (r._layerUID ≠ uid)) }

/-- The imagery requests of layer `uid` in the tile's request list, in order. -/
def requestsOf (t : CustomTile) (uid : UID) : List TileColorLayerRequest :=
  t._requests.filter (fun r => decide (r._layerUID = uid))

/-- The members that the elevation part of `serviceCompletedRequests` reads: key,
elevation hint, up-to-date flag, elevation LOD, elevation layer and the two elevation
requests. -/
def elevationView (t : CustomTile) :
    TileKey × Bool × Bool × Int × Option HeightFieldLayer × Option TileElevationLayerRequest
      × Option TileElevationPlaceholderLayerRequest :=
  (t._key, t._hasElevation, t._elevationLayerUpToDate, t._elevationLOD, t._elevationLayer,
   t._elevRequest, t._elevPlaceholderRequest)

/-- The function `cancelRequests` (lines 245-279): the tile afterwards (a canceled
request is the request after `cancel()`) and the returned `done`. -/
def cancelRequests (t : CustomTile) : CustomTile × Bool :=
  let done := true
  if t._requestsInstalled then
    ({ t with
       _requests := t._requests.map (fun r => { r with toTaskRequest := r.cancel }),
       _elevRequest := t._elevRequest.map (fun r => { r with toTaskRequest := r.cancel }),
       _elevPlaceholderRequest :=
         t._elevPlaceholderRequest.map (fun r => { r with toTaskRequest := r.cancel }),
       _tileGenRequest := t._tileGenRequest.map (fun r => { r with toTaskRequest := r.cancel }) },
     done)
  else (t, done)

/-- No two requests of the list share a layer UID. -/
def UniqueLayers (l : List TileColorLayerRequest) : Prop :=
  (l.map (fun r => r._layerUID)).Nodup

instance (l : List TileColorLayerRequest) : Decidable (UniqueLayers l) :=
  inferInstanceAs (Decidable (List.Nodup _))

/-- The body `TileColorLayerRequest::operator()` (lines 109-120).  `mapf` is the map
frame the request holds, `produced` is what `createImageLayer` returns, and
`canceledDuring` tells whether the progress callback came to report cancellation while
the layer was being created.  `_numTries` is an `unsigned int`. -/
def colorRequestRun (r : TileColorLayerRequest) (mapf : MapFrame)
    (produced : Option CustomColorLayerRef) (canceledDuring : Bool) : TileColorLayerRequest :=
  match mapf.getImageLayerByUID r._layerUID with
  | some _ =>
    let r1 : TileColorLayerRequest :=
      { r with _result := produced,
               _progress := if canceledDuring then r._progress.cancel else r._progress }
    if !r1.wasCanceled then { r1 with _numTries := (r1._numTries + 1) % 2 ^ 32 } else r1
  | none => r

/-- The body `TileElevationLayerRequest::operator()` (lines 132-136); `produced` is what
`createHeightFieldLayer` returns. -/
def elevationRequestRun (r : TileElevationLayerRequest) (produced : Option HeightFieldLayer) :
    TileElevationLayerRequest :=
  { r with _result := produced, _numTries := (r._numTries + 1) % 2 ^ 32 }

/-- The body `TileElevationPlaceholderLayerRequest::operator()` (lines 159-169);
`produced` is what `createPlaceholderHeightfieldLayer` returns. -/
def placeholderRequestRun (r : TileElevationPlaceholderLayerRequest)
    (produced : Option HeightFieldLayer) : TileElevationPlaceholderLayerRequest :=
  if !r._progress.isCanceled then { r with _result := produced } else r

/-- Modelled from the spec: the task service running an imagery request it holds: the
body of the request runs and the request is then completed. -/
def colorRequestExecute (r : TileColorLayerRequest) (mapf : MapFrame)
    (produced : Option CustomColorLayerRef) (canceledDuring : Bool) : TileColorLayerRequest :=
  { colorRequestRun r mapf produced canceledDuring with _state := .STATE_COMPLETED }

/-- Modelled from the spec: the task service running the FINAL elevation request. -/
def elevationRequestExecute (r : TileElevationLayerRequest) (produced : Option HeightFieldLayer) :
    TileElevationLayerRequest :=
  { elevationRequestRun r produced with _state := .STATE_COMPLETED }

/-- Modelled from the spec: the task service running the placeholder elevation request. -/
def placeholderRequestExecute (r : TileElevationPlaceholderLayerRequest)
    (produced : Option HeightFieldLayer) : TileElevationPlaceholderLayerRequest :=
  { placeholderRequestRun r produced with _state := .STATE_COMPLETED }

/-- One failed attempt on an imagery request: the pending pass stamps and submits it
(lines 773-778), the task runs and produces no result without being canceled, and the
request loop of `serviceCompletedRequests` examines it for its layer. -/
def failedAttempt (t : CustomTile) (mapf : MapFrame) (imageLayer : ImageLayer) (stamp : Int)
    (r : TileColorLayerRequest) : CustomTile × Option TileColorLayerRequest :=
  t.serviceImageRequest mapf imageLayer
    (colorRequestExecute (servicePendingImageRequest stamp r).1 mapf none false)

/-- The body `TileGenRequest::operator()` (lines 185-198) of the regeneration request
`g` of the tile: the technique, when the tile has one, compiles the update of the
request. -/
def tileGenRequestRun (t : CustomTile) (g : TileGenRequest) : CustomTile :=
  match t._terrainTechnique with
  | some tech => { t with _terrainTechnique := some (tech.compile g._update) }
  | none => t

/-- Modelled from the spec: the task service running the regeneration request that the
tile has submitted: the body of the request runs and the request is then completed. -/
def executeTileGenRequest (t : CustomTile) : CustomTile :=
  match t._tileGenRequest with
  | some g =>
    if g.isRunning then
      { t.tileGenRequestRun g with _tileGenRequest := some { g with _state := .STATE_COMPLETED } }
    else t
  | none => t

/-- The request that `serviceCompletedRequests` creates for a tile update (line 1171)
and submits (line 1174). -/
def newTileGenRequest (update : TileUpdate) : TileGenRequest :=
  { toTaskRequest := TaskRequest.new.submitted, _update := update }

/-- The scenario of draining the update queue: `n` rounds, each one update pass
(`serviceCompletedRequests`) followed by the run of the regeneration request to
completion. -/
def regenerationRounds (mapf : MapFrame) (locked : Bool) (skirtHeight : Rat) :
    Nat → CustomTile × CustomTerrain → Option (CustomTile × CustomTerrain)
  | 0, s => some s
  | n + 1, s =>
    match s.1.serviceCompletedRequests s.2 mapf locked skirtHeight with
    | none => none
    | some out => regenerationRounds mapf locked skirtHeight n (out.1.executeTileGenRequest, out.2.1)

/-- The tile after `queueTileUpdate` for each update of the list, in order. -/
def queueTileUpdates (t : CustomTile) (us : List TileUpdate) : CustomTile :=
  us.foldl (fun acc u => acc.queueTileUpdate u.action u.value) t

/-- The constructor `CustomTile::CustomTile` (lines 207-238).  The member `_hasElevation`
is not initialised by the constructor and `_family` is built by the default
constructor of `Relative`, which is declared outside the sources: both are
arguments.  Members of the base class start empty; the update traversal count has
received the adjustment +1 of line 237. -/
def new (key : TileKey) (hasElevation : Bool) (family : Family) : CustomTile :=
  { _key := key, _terrainRevision := -1, _tileRevision := 0, _requestsInstalled := false,
    _elevationLayerUpToDate := decide (key.getLevelOfDetail ≤ 1),
    _elevationLOD := (key.getLevelOfDetail : Int), _hasBeenTraversed := false,
    _hasElevation := hasElevation, _verticalScale := 1, _elevationLayer := none,
    _colorLayers := [], _family := family, _requests := [], _elevRequest := none,
    _elevPlaceholderRequest := none, _tileGenRequest := none, _tileUpdates := [],
    _terrainTechnique := none, _updateTravCount := 1, _dirty := false, _boundDirty := true }

/-- One operation on the tile: a pending-request pass, the run of a request that is in
a task service (task execution), or `serviceCompletedRequests`. -/
inductive UpdateStep : CustomTile → CustomTile → Prop
  | pendingElevation (t t1 : CustomTile) (terrain terrain1 : CustomTerrain) (mapf : MapFrame)
      (stamp : Int) (locked : Bool) (indeterminate : Int)
      (h : t.servicePendingElevationRequests terrain mapf stamp locked indeterminate
            = some (t1, terrain1)) : UpdateStep t t1
  | pendingImage (t : CustomTile) (terrain : CustomTerrain) (mapf : MapFrame)
      (stamp indeterminate : Int) :
      UpdateStep t (t.servicePendingImageRequests terrain mapf stamp indeterminate).1
  | runFinal (t : CustomTile) (er : TileElevationLayerRequest)
      (produced : Option HeightFieldLayer)
      (h1 : t._elevRequest = some er) (h2 : er.isRunning = true) :
      UpdateStep t { t with _elevRequest := some (elevationRequestExecute er produced) }
  | runPlaceholder (t : CustomTile) (pr : TileElevationPlaceholderLayerRequest)
      (produced : Option HeightFieldLayer)
      (h1 : t._elevPlaceholderRequest = some pr) (h2 : pr.isRunning = true) :
      UpdateStep t
        { t with _elevPlaceholderRequest := some (placeholderRequestExecute pr produced) }
  | runImage (t : CustomTile) (before after : List TileColorLayerRequest)
      (r : TileColorLayerRequest) (mapf : MapFrame) (produced : Option CustomColorLayerRef)
      (canceledDuring : Bool)
      (h1 : t._requests = before ++ r :: after) (h2 : r.isRunning = true) :
      UpdateStep t
        (t.setRequests (before ++ colorRequestExecute r mapf produced canceledDuring :: after))
  | runTileGen (t : CustomTile) : UpdateStep t t.executeTileGenRequest
  | completed (t t1 : CustomTile) (terrain terrain1 : CustomTerrain) (mapf : MapFrame)
      (locked : Bool) (skirtHeight : Rat) (modified : Bool)
      (h : t.serviceCompletedRequests terrain mapf locked skirtHeight
            = some (t1, terrain1, modified)) : UpdateStep t t1

/-- The states that a sequence of operations reaches from `t0`. -/
def Reachable (t0 t : CustomTile) : Prop := Relation.ReflTransGen UpdateStep t0 t

/-- The invariant of the elevation refinement: the current elevation LOD does not
exceed the key LOD; of the two elevation requests at most one is not idle; a
placeholder request that is not idle records a next LOD above the current elevation LOD
and not above the key LOD; and the parent's elevation LOD in the family snapshot is
not above the key LOD, unless the tile is at its key LOD. -/
def ElevationInvariant (t : CustomTile) : Prop :=
  t._elevationLOD ≤ t.keyLOD
  ∧ ((t._family.get .PARENT).elevLOD ≤ t.keyLOD ∨ t._elevationLOD = t.keyLOD)
  ∧ (∀ er pr, t._elevRequest = some er → t._elevPlaceholderRequest = some pr →
      (er.isIdle = true ∨ pr.isIdle = true)
      ∧ (pr.isIdle = false → t._elevationLOD < pr._nextLOD ∧ pr._nextLOD ≤ t.keyLOD))

end CustomTile

/-- The visitor types of `osg::NodeVisitor` (an enumeration of OpenSceneGraph, declared
outside the sources; the source tests for `UPDATE_VISITOR`). -/
inductive VisitorType where
  | NODE_VISITOR | UPDATE_VISITOR | EVENT_VISITOR | COLLECT_OCCLUDER_VISITOR | CULL_VISITOR
deriving DecidableEq, Repr

/-- The keys of a `std::map` are strictly increasing in iteration order. -/
def ColorLayersByUID.WellFormed (m : ColorLayersByUID) : Prop :=
  (m.map Prod.fst).Pairwise (fun a b => a < b)

instance (m : ColorLayersByUID) : Decidable (ColorLayersByUID.WellFormed m) :=
  inferInstanceAs (Decidable (List.Pairwise _ _))

/-- The number of records of the map whose map layer is dynamic. -/
def ColorLayersByUID.dynamicCount (m : ColorLayersByUID) : Nat :=
  m.countP (fun e => e.2.mapLayer.isDynamic)

namespace CustomTile

/-- The function `traverse` (lines 1180-1201).  `visitorType` is `nv.getVisitorType()`
and `hasTerrain` tells whether `getCustomTerrain()` is not null.  The call of the base
class at line 1200 (`osgTerrain::TerrainTile::traverse`, declared outside the sources)
reads and writes none of the members of the embedding. -/
def traverse (t : CustomTile) (visitorType : VisitorType) (hasTerrain : Bool) : CustomTile :=
  if !t._hasBeenTraversed && decide (visitorType = .UPDATE_VISITOR) then
    if !t._hasBeenTraversed && hasTerrain then
      ({ t with _hasBeenTraversed := true }).adjustUpdateTravCount (-1)
    else t
  else t

/-- A sequence of `traverse` calls on one tile, each with its visitor type and with
whether the tile has a terrain at that call. -/
def traverseAll (t : CustomTile) (calls : List (VisitorType × Bool)) : CustomTile :=
  calls.foldl (fun acc c => acc.traverse c.1 c.2) t

/-- The number of calls of the sequence that change the traversed flag. -/
def registrations (t : CustomTile) : List (VisitorType × Bool) → Nat
  | [] => 0
  | c :: rest =>
    (if (t.traverse c.1 c.2)._hasBeenTraversed = t._hasBeenTraversed then 0 else 1)
      + registrations (t.traverse c.1 c.2) rest

/-- The unlocked branch of `removeCustomColorLayer` (lines 438-447). -/
def removeCustomColorLayerUnlocked (t : CustomTile) (layerUID : UID) : CustomTile :=
  match t._colorLayers.find layerUID with
  | some old =>
    let t1 := if old.mapLayer.isDynamic then t.adjustUpdateTravCount (-1) else t
    { t1 with _colorLayers := t1._colorLayers.erase layerUID }
  | none => t

/-- The function `removeCustomColorLayer` (lines 429-448); with `writeLock` it takes the
lock and calls itself without. -/
def removeCustomColorLayer (t : CustomTile) (layerUID : UID) (writeLock : Bool := true) :
    CustomTile :=
  if writeLock then t.removeCustomColorLayerUnlocked layerUID
  else t.removeCustomColorLayerUnlocked layerUID

/-- The function `getCustomColorLayer` (lines 450-468) with its output argument: the
returned flag and the value of `out` after the call. -/
def getCustomColorLayerOut (t : CustomTile) (layerUID : UID) (out : CustomColorLayer)
    (readLock : Bool := true) : Bool × CustomColorLayer :=
  let unlocked : Bool × CustomColorLayer :=
    match t._colorLayers.find layerUID with
    | some c => (true, c)
    | none => (false, out)
  if readLock then unlocked else unlocked

/-- The function `getCustomColorLayers` (lines 470-480): the value written to `out`. -/
def getCustomColorLayers (t : CustomTile) (readLock : Bool := true) : ColorLayersByUID :=
  if readLock then t._colorLayers else t._colorLayers

/-- The unlocked branch of `setCustomColorLayers` (lines 491-505). -/
def setCustomColorLayersUnlocked (t : CustomTile) (layers : ColorLayersByUID) : CustomTile :=
  let delta0 : Int :=
    t._colorLayers.foldl (fun d e => if e.2.mapLayer.isDynamic then d - 1 else d) 0
  let t1 := { t with _colorLayers := layers }
  let delta : Int :=
    t1._colorLayers.foldl (fun d e => if e.2.mapLayer.isDynamic then d + 1 else d) delta0
  if delta ≠ 0 then t1.adjustUpdateTravCount delta else t1

/-- The function `setCustomColorLayers` (lines 482-506); with `writeLock` it takes the
lock and calls itself without. -/
def setCustomColorLayers (t : CustomTile) (layers : ColorLayersByUID) (writeLock : Bool := true) :
    CustomTile :=
  if writeLock then t.setCustomColorLayersUnlocked layers
  else t.setCustomColorLayersUnlocked layers

/-- An operation on the tile that adjusts its update-traversal count. -/
inductive TileOp where
  | traverse (visitorType : VisitorType) (hasTerrain : Bool)
  | setCustomColorLayer (layer : CustomColorLayer) (writeLock : Bool)
  | removeCustomColorLayer (layerUID : UID) (writeLock : Bool)
  | setCustomColorLayers (layers : ColorLayersByUID) (writeLock : Bool)
deriving DecidableEq, Repr

/-- The tile after the operation. -/
def applyOp (t : CustomTile) : TileOp → CustomTile
  | .traverse visitorType hasTerrain => t.traverse visitorType hasTerrain
  | .setCustomColorLayer layer writeLock => t.setCustomColorLayer layer writeLock
  | .removeCustomColorLayer layerUID writeLock => t.removeCustomColorLayer layerUID writeLock
  | .setCustomColorLayers layers writeLock => t.setCustomColorLayers layers writeLock

/-- The tile after a sequence of operations. -/
def applyOps (t : CustomTile) (ops : List TileOp) : CustomTile :=
  ops.foldl applyOp t

/-- The map that the operation `setCustomColorLayers` receives is a `std::map`. -/
def TileOp.WellFormed : TileOp → Prop
  | .setCustomColorLayers layers _ => layers.WellFormed
  | _ => True

/-- The bookkeeping of the update-traversal count: the color-layer map is a `std::map`
and the count is 1 for a tile that has not been traversed, 0 otherwise, plus the number
of records whose map layer is dynamic. -/
def TravCountInvariant (t : CustomTile) : Prop :=
  t._colorLayers.WellFormed
  ∧ t._updateTravCount
      = (if t._hasBeenTraversed then 0 else 1) + (t._colorLayers.dynamicCount : Int)

/-- One failed attempt on the FINAL elevation request: the pending pass
(`servicePendingElevationRequests`), the run of the request by the task service when
the pass has submitted it, the request producing no result, and the update pass
(`serviceCompletedRequests`). -/
def failedElevationRound (mapf : MapFrame) (locked : Bool) (indeterminate : Int)
    (skirtHeight : Rat) (stamp : Int) (s : CustomTile × CustomTerrain) :
    Option (CustomTile × CustomTerrain) :=
  match s.1.servicePendingElevationRequests s.2 mapf stamp locked indeterminate with
  | none => none
  | some (t1, terrain1) =>
    let t2 : CustomTile :=
      match t1._elevRequest with
      | some er =>
        if er.isRunning then { t1 with _elevRequest := some (elevationRequestExecute er none) }
        else t1
      | none => t1
    match t2.serviceCompletedRequests terrain1 mapf locked skirtHeight with
    | none => none
    | some out => some (out.1, out.2.1)

/-- The scenario of `n` failed attempts in a row. -/
def failedElevationRounds (mapf : MapFrame) (locked : Bool) (indeterminate : Int)
    (skirtHeight : Rat) (stamp : Int) :
    Nat → CustomTile × CustomTerrain → Option (CustomTile × CustomTerrain)
  | 0, s => some s
  | n + 1, s =>
    match failedElevationRound mapf locked indeterminate skirtHeight stamp s with
    | none => none
    | some s1 => failedElevationRounds mapf locked indeterminate skirtHeight stamp n s1

/-- The invariant of the two elevation requests: they are never both non-idle, and a
tile holds elevation requests only once its requests are installed (they are created by
`resetElevationRequests`, which only `installRequests` calls). -/
def OneActiveInvariant (t : CustomTile) : Prop :=
  (∀ er pr, t._elevRequest = some er → t._elevPlaceholderRequest = some pr →
      er.isIdle = true ∨ pr.isIdle = true)
  ∧ ((t._elevRequest.isSome = true ∨ t._elevPlaceholderRequest.isSome = true) →
      t._requestsInstalled = true)

/-- Modelled from the spec: the family refresh by the terrain registry (a member function
of `CustomTerrain`, outside the sources): the family snapshot of the tile is replaced as
a whole. -/
def refreshFamily (t : CustomTile) (family : Family) : CustomTile :=
  { t with _family := family }

/-- Modelled from the spec: `osgTerrain::TerrainTile::setElevationLayer` of the base class
(OpenSceneGraph, outside the sources), which the tile factory and lines 1096 and 1145
call: the elevation layer of the tile is replaced. -/
def setElevationLayer (t : CustomTile) (layer : Option HeightFieldLayer) : CustomTile :=
  { t with _elevationLayer := layer }

/-- One step in the life of a tile: an operation of `UpdateStep` (pending pass, task
execution, `serviceCompletedRequests`), a `traverse` call, or a write by the owners of
the tile between the passes: the elevation hint, the elevation layer, or a refresh of
the family snapshot with a family that `familyOK` admits.  `setElevationLOD` is not a
step. -/
inductive TileStep (familyOK : CustomTile → Family → Prop) : CustomTile → CustomTile → Prop
  | update (t t1 : CustomTile) (h : UpdateStep t t1) : TileStep familyOK t t1
  | traverse (t : CustomTile) (visitorType : VisitorType) (hasTerrain : Bool) :
      TileStep familyOK t (t.traverse visitorType hasTerrain)
  | setHasElevationHint (t : CustomTile) (hint : Bool) :
      TileStep familyOK t (t.setHasElevationHint hint)
  | setElevationLayer (t : CustomTile) (layer : Option HeightFieldLayer) :
      TileStep familyOK t (t.setElevationLayer layer)
  | refreshFamily (t : CustomTile) (family : Family) (h : familyOK t family) :
      TileStep familyOK t (t.refreshFamily family)

/-- The states that a sequence of steps reaches from `t0`. -/
def TileReachable (familyOK : CustomTile → Family → Prop) (t0 t : CustomTile) : Prop :=
  Relation.ReflTransGen (TileStep familyOK) t0 t

/-- Every family is admitted: the family refresh is not restricted. -/
def anyFamily (_t : CustomTile) (_family : Family) : Prop := True

/-- Neither elevation request of the tile is in flight: each is idle or absent. -/
def ElevationRequestsIdle (t : CustomTile) : Prop :=
  (∀ er, t._elevRequest = some er → er.isIdle = true)
  ∧ (∀ pr, t._elevPlaceholderRequest = some pr → pr.isIdle = true)

/-- The invariant behind the monotonic refinement: the two elevation requests are not
both non-idle; while the FINAL request is not idle the current elevation LOD does not
exceed the key LOD (the request is submitted at current LOD + 1 = key LOD, line 832);
while the placeholder request is not idle its next LOD is above the current elevation
LOD (it is submitted with the parent's LOD, which exceeds the current one, lines 842
and 858). -/
def MonotoneInvariant (t : CustomTile) : Prop :=
  (∀ er pr, t._elevRequest = some er → t._elevPlaceholderRequest = some pr →
      er.isIdle = true ∨ pr.isIdle = true)
  ∧ (∀ er, t._elevRequest = some er → er.isIdle = false → t._elevationLOD ≤ t.keyLOD)
  ∧ (∀ pr, t._elevPlaceholderRequest = some pr → pr.isIdle = false →
      t._elevationLOD < pr._nextLOD)

/-- Whether one call of `serviceCompletedRequests` reaches its last part (line 1168) with
the update queue as the call found it: the imagery part (lines 934-1066) and the
elevation part (lines 1068-1166) have called `queueTileUpdate` for nothing.  True when
the call returns at once (lines 910-915) or its imagery part fails. -/
def passQueuesNothing (t : CustomTile) (terrain : CustomTerrain) (mapf : MapFrame)
    (skirtHeight : Rat) : Bool :=
  if !t._hasBeenTraversed then true
  else if !t._requestsInstalled then true
  else
    match serviceImagery terrain mapf t.serviceTileGenerator.1 mapf.imageLayers with
    | none => true
    | some t2 => decide ((t2.serviceElevationRequests skirtHeight)._tileUpdates = t._tileUpdates)

/-- No tile update is queued during the first `n` rounds of `regenerationRounds` from the
state `s`, nor during the update pass that follows them. -/
def roundsQueueNothing (mapf : MapFrame) (locked : Bool) (skirtHeight : Rat) :
    Nat → CustomTile × CustomTerrain → Bool
  | 0, s => s.1.passQueuesNothing s.2 mapf skirtHeight
  | n + 1, s =>
    s.1.passQueuesNothing s.2 mapf skirtHeight &&
      match s.1.serviceCompletedRequests s.2 mapf locked skirtHeight with
      | none => true
      | some out =>
        roundsQueueNothing mapf locked skirtHeight n (out.1.executeTileGenRequest, out.2.1)

/-- The update passes on the tile return: the terrain does not load imagery in
sequential mode, or the tile table holds the parent that the family snapshot names
(line 966 dereferences the result of the lookup of line 962 without a test). -/
def PassesReturn (t : CustomTile) (terrain : CustomTerrain) : Prop :=
  terrain.loadingMode ≠ .MODE_SEQUENTIAL
    ∨ (terrain.getCustomTile (t._family.get .PARENT).tileID).isSome = true

end CustomTile

/-! ## The layer list of `osgearth_toc` -/

/-- Modelled from the spec: `osg::clampBetween` on `unsigned int` (a template of
OpenSceneGraph, declared outside the sources): `v` raised to `minimum` when it is
below it, then lowered to `maximum` when it is above it. -/
def clampBetween (v minimum maximum : Nat) : Nat :=
  let above := if v < minimum then minimum else v
  if above > maximum then maximum else above

/-- The members of `MoveLayerCallback` (`osgearth_toc.cpp`, lines 223-251) that its
call operator reads: the index of the layer (`unsigned int`) and the direction. -/
structure MoveLayerCallback where
  _layerIndex : Nat
  _up : Bool
deriving DecidableEq, Repr

/-- The value of `newPosition` that `MoveLayerCallback::operator()` computes on a mouse
push (lines 237-238).  `layerCount` is `mapf.imageLayers().size()`.  The arithmetic is
that of `unsigned int`: in `_layerIndex + dir` the `int` operand `dir` is converted to
`unsigned int`, and sums and differences are taken modulo 2^32. -/
def MoveLayerCallback.newPosition (cb : MoveLayerCallback) (layerCount : Nat) : Nat :=
  let dir : Int := if cb._up then 1 else -1
  let dirUnsigned : Nat := (dir % 2 ^ 32).toNat
  clampBetween ((cb._layerIndex + dirUnsigned) % 2 ^ 32) 0
    ((layerCount % 2 ^ 32 + 2 ^ 32 - 1) % 2 ^ 32)

/-! ## Sample states -/

/-- A relative that is not expected and has no data. -/
def Relative.absent : Relative :=
  { expected := false, elevLOD := -1, imageLODs := [], tileID := ⟨0, 0, 0⟩ }

/-- An expected relative whose elevation LOD is `lod`. -/
def Relative.atLOD (lod : Int) : Relative :=
  { expected := true, elevLOD := lod, imageLODs := [], tileID := ⟨0, 0, 0⟩ }

/-- A traversed tile with the given key LOD, current elevation LOD and family, an
elevation hint, elevation not up to date, no layers and no requests. -/
def sampleTile (keyLOD : Nat) (elevLOD : Int) (family : Family) : CustomTile :=
  { _key := ⟨keyLOD, 0, 0⟩, _terrainRevision := 0, _tileRevision := 0,
    _requestsInstalled := true, _elevationLayerUpToDate := false, _elevationLOD := elevLOD,
    _hasBeenTraversed := true, _hasElevation := true, _verticalScale := 1,
    _elevationLayer := none, _colorLayers := [], _family := family, _requests := [],
    _elevRequest := none, _elevPlaceholderRequest := none, _tileGenRequest := none,
    _tileUpdates := [], _terrainTechnique := none, _updateTravCount := 0, _dirty := false,
    _boundDirty := false }

/-- The family of the first scenario: parent at LOD 5, no neighbour expected. -/
def familyParent5 : Family :=
  { parent := Relative.atLOD 5, west := Relative.absent, north := Relative.absent,
    east := Relative.absent, south := Relative.absent }

/-- A family whose parent is at LOD 5 and whose expected west neighbour has no
elevation data yet (LOD -1). -/
def familyWestUnknown : Family :=
  { familyParent5 with west := Relative.atLOD (-1) }

/-- A family whose parent is at LOD 5 and whose expected west neighbour is at LOD 2. -/
def familyWest2 : Family :=
  { familyParent5 with west := Relative.atLOD 2 }

/-- A family whose parent is at LOD 6, no neighbour expected. -/
def familyParent6 : Family :=
  { familyParent5 with parent := Relative.atLOD 6 }

/-- A family whose parent is at LOD 3, no neighbour expected. -/
def familyParent3 : Family :=
  { familyParent5 with parent := Relative.atLOD 3 }

/-- An elevation request as `resetElevationRequests` creates it for key LOD `keyLOD`. -/
def sampleElevRequest (keyLOD : Nat) : TileElevationLayerRequest :=
  { toTaskRequest := TaskRequest.new.setPriority (keyLOD : Rat), _numTries := 0, _maxTries := 3 }

/-- A placeholder request as `resetElevationRequests` creates it for key LOD `keyLOD`. -/
def samplePlaceholderRequest (keyLOD : Nat) : TileElevationPlaceholderLayerRequest :=
  { toTaskRequest := TaskRequest.new.setPriority (keyLOD : Rat), _numTries := 0, _maxTries := 3,
    _parentHF := none, _nextLOD := 0 }

/-- A sample tile that holds its two elevation requests, both idle. -/
def sampleElevTile (keyLOD : Nat) (elevLOD : Int) (family : Family) : CustomTile :=
  { sampleTile keyLOD elevLOD family with
    _elevRequest := some (sampleElevRequest keyLOD),
    _elevPlaceholderRequest := some (samplePlaceholderRequest keyLOD) }

/-- A height field layer with data. -/
def sampleLayer (ident : Nat) : HeightFieldLayer :=
  { ident := ident, heightField := some { heights := [1, 2, 3, 4], skirtHeight := 0 } }

/-- A terrain in preemptive mode whose tile table holds, under the identifier used by
the sample families, the given tile. -/
def sampleTerrain (parent : CustomTile) : CustomTerrain :=
  { loadingMode := .MODE_PREEMPTIVE, revision := 0, tiles := [(⟨0, 0, 0⟩, parent)],
    elevationService := [], imageryServices := [], tileGenService := [] }

/-- A parent tile (key LOD 4) that holds an elevation layer. -/
def sampleParent : CustomTile :=
  { sampleTile 4 4 familyParent3 with _elevationLayer := some (sampleLayer 7) }

/-- A parent tile (key LOD 4) without an elevation layer. -/
def sampleParentNoLayer : CustomTile := sampleTile 4 4 familyParent3

/-- A sample tile (key LOD 5) whose FINAL elevation request is in the given state with
the given cancellation flag and result, and whose placeholder request is idle. -/
def sampleFinalTile (elevLOD : Int) (state : TaskState) (canceled : Bool)
    (result : Option HeightFieldLayer) : CustomTile :=
  { sampleTile 5 elevLOD familyParent5 with
    _elevRequest := some { sampleElevRequest 5 with
      _state := state, _progress := { _canceled := canceled }, _result := result },
    _elevPlaceholderRequest := some (samplePlaceholderRequest 5) }

/-- A sample tile (key LOD 5) whose FINAL elevation request is idle and whose
placeholder request, with next LOD `nextLOD`, is in the given state with the given
cancellation flag and result. -/
def samplePlaceholderTile (elevLOD nextLOD : Int) (state : TaskState) (canceled : Bool)
    (result : Option HeightFieldLayer) : CustomTile :=
  { sampleTile 5 elevLOD familyParent5 with
    _elevRequest := some (sampleElevRequest 5),
    _elevPlaceholderRequest := some { samplePlaceholderRequest 5 with
      _state := state, _progress := { _canceled := canceled }, _result := result,
      _nextLOD := nextLOD } }

/-- An image layer record of layer `uid` at LOD `lod`. -/
def sampleColorLayer (uid : UID) (lod : Int) : CustomColorLayer :=
  { mapLayer := { uid := uid, dynamic := false }, image := 1, locator := 1, lod := lod }

/-- An imagery request of layer `uid` in the given state with the given cancellation
flag and result. -/
def sampleColorRequest (uid : UID) (state : TaskState) (canceled : Bool)
    (result : Option CustomColorLayerRef) : TileColorLayerRequest :=
  { toTaskRequest :=
      { _state := state, _stamp := 0, _priority := 0, _progress := { _canceled := canceled },
        _result := result },
    _numTries := 1, _maxTries := 3, _layerUID := uid }

/-- A sample tile (key LOD 5) that holds a color layer of layer 1 at LOD 5 and two
imagery requests: one of layer 1, idle, and one of layer 9, completed with a result. -/
def sampleImageTile (canceled : Bool) : CustomTile :=
  { sampleTile 5 5 familyParent5 with
    _colorLayers := [(1, sampleColorLayer 1 5)],
    _requests := [sampleColorRequest 1 .STATE_IDLE false none,
                  sampleColorRequest 9 .STATE_COMPLETED canceled
                    (some ⟨sampleColorLayer 9 5⟩)] }

/-- A map snapshot whose only image layer is layer 1. -/
def sampleMap : MapFrame := ⟨[{ uid := 1, dynamic := false }]⟩

/-- A sample tile (key LOD 5, current elevation LOD 4) with two imagery requests (layers
1 and 2) and the FINAL elevation request in flight; `installed` is the value of
`_requestsInstalled`. -/
def sampleBusyTile (installed : Bool) : CustomTile :=
  { sampleTile 5 4 familyParent5 with
    _requestsInstalled := installed,
    _requests := [sampleColorRequest 1 .STATE_RUNNING false none,
                  sampleColorRequest 2 .STATE_RUNNING false none],
    _elevRequest := some { sampleElevRequest 5 with _state := .STATE_RUNNING },
    _elevPlaceholderRequest := some (samplePlaceholderRequest 5) }

/-- A sample terrain in sequential mode with an empty tile table. -/
def sampleSequentialTerrain : CustomTerrain :=
  { loadingMode := .MODE_SEQUENTIAL, revision := 0, tiles := [],
    elevationService := [], imageryServices := [], tileGenService := [] }

/-- A sample tile whose requests are not installed and that owns the imagery request
that `updateImagery` has created for layer 1. -/
def sampleUninstalledTile : CustomTile :=
  { (sampleTile 5 4 familyParent5) with _requestsInstalled := false }.updateImagery
    (sampleTerrain sampleParent) { uid := 1, dynamic := false } sampleMap

/-- A sample tile (key LOD 5) that holds a color layer of layer 1 at LOD 3 and one
imagery request of layer 1, completed without result and not canceled, whose attempt
counter is `numTries`. -/
def sampleRetryTile (numTries : Nat) : CustomTile :=
  { sampleTile 5 5 familyParent5 with
    _colorLayers := [(1, sampleColorLayer 1 3)],
    _requests := [{ sampleColorRequest 1 .STATE_COMPLETED false none with
                    _numTries := numTries }] }

/-- A sample tile (key LOD 5) with final elevation, no imagery request, a terrain
technique that has compiled and applied nothing, an empty update queue and no
regeneration request. -/
def sampleQuietTile : CustomTile :=
  { sampleTile 5 5 familyParent5 with
    _elevationLayerUpToDate := true,
    _terrainTechnique := some { compiled := [], applied := [], numApplied := 0 } }

/-- Two tile updates: elevation, then the image of layer 1. -/
def sampleUpdates : List TileUpdate :=
  [⟨.UPDATE_ELEVATION, TileUpdate.defaultValue⟩, ⟨.UPDATE_IMAGE_LAYER, 1⟩]

/-- A relative, expected, at LOD `lod` for elevation and for the image layer `uid`. -/
def Relative.atImageLOD (uid : UID) (lod : Int) : Relative :=
  { expected := true, elevLOD := lod, imageLODs := [(uid, lod)], tileID := ⟨0, 0, 0⟩ }

/-- A family whose five members are at LOD 5 for elevation and for image layer 1. -/
def sampleImageFamily : Family :=
  { parent := Relative.atImageLOD 1 5, west := Relative.atImageLOD 1 5,
    north := Relative.atImageLOD 1 5, east := Relative.atImageLOD 1 5,
    south := Relative.atImageLOD 1 5 }

/-- A sample tile (key LOD 5) that holds the records of layer 1, at LOD 3, and of
layer 4, at LOD 2. -/
def sampleStoreTile : CustomTile :=
  { sampleTile 5 5 familyParent5 with
    _colorLayers := [(1, sampleColorLayer 1 3), (4, sampleColorLayer 4 2)] }

/-- A color layer record of a dynamic layer `uid` at LOD `lod`. -/
def sampleDynamicLayer (uid : UID) (lod : Int) : CustomColorLayer :=
  { mapLayer := { uid := uid, dynamic := true }, image := 1, locator := 1, lod := lod }

/-- A sequence of operations: a record of the dynamic layer 7 is set, the tile is
traversed by an UPDATE visitor, a record of the static layer 2 is set, the record of
layer 7 is replaced by a static one, and the map is replaced by one of two dynamic
layers. -/
def sampleOps : List CustomTile.TileOp :=
  [.setCustomColorLayer (sampleDynamicLayer 7 3) true,
   .traverse .UPDATE_VISITOR true,
   .setCustomColorLayer (sampleColorLayer 2 3) true,
   .setCustomColorLayer (sampleColorLayer 7 4) false,
   .setCustomColorLayers [(3, sampleDynamicLayer 3 1), (8, sampleDynamicLayer 8 1)] true]

/-- A sample tile (key LOD 5) whose elevation is up to date and whose FINAL elevation
request is still completed, not canceled, with a result. -/
def sampleUpToDateTile : CustomTile :=
  { sampleFinalTile 5 .STATE_COMPLETED false (some (sampleLayer 8)) with
    _elevationLayerUpToDate := true, _elevationLayer := some (sampleLayer 6) }

/-- A sample tile (key LOD 5, current elevation LOD 4, parent at LOD 5) whose FINAL
elevation request has made `numTries` attempts and is in the given state, not canceled
and without result, with stamp 10; the placeholder request is idle. -/
def sampleFailingElevTile (numTries : Nat) (state : TaskState) : CustomTile :=
  { sampleTile 5 4 familyParent5 with
    _elevRequest := some
      { toTaskRequest := { _state := state, _stamp := 10, _priority := 5, _progress := {},
                           _result := none },
        _numTries := numTries, _maxTries := 3 },
    _elevPlaceholderRequest := some (samplePlaceholderRequest 5) }

/-- A map snapshot with the image layers 1 and 9. -/
def sampleMapTwoLayers : MapFrame :=
  ⟨[{ uid := 1, dynamic := false }, { uid := 9, dynamic := false }]⟩

/-- A sample tile (key LOD 5) that holds a color layer of layer 1 at LOD 3 and the
request of layer 1, completed, not canceled, with a result at LOD 5. -/
def sampleSuccessTile : CustomTile :=
  { sampleTile 5 5 familyParent5 with
    _colorLayers := [(1, sampleColorLayer 1 3)],
    _requests := [sampleColorRequest 1 .STATE_COMPLETED false (some ⟨sampleColorLayer 1 5⟩)] }

/-- A traversed tile (key LOD 5, parent at LOD 5 and in the sample tile table) that
holds elevation data of LOD 3 and whose requests are not installed yet. -/
def sampleCoarseTile : CustomTile :=
  { sampleTile 5 3 familyParent5 with
    _elevationLayer := some (sampleLayer 6), _requestsInstalled := false }

/-- The sample coarse tile after `installRequests`: both elevation requests are new. -/
def sampleInstalledTile : CustomTile :=
  sampleCoarseTile.installRequests (sampleTerrain sampleParent) sampleMap 0 0

/-- The placeholder request of the sample installed tile as the pending pass of stamp 10
submits it: running, with the height field of the parent and next LOD 5. -/
def sampleSubmittedPlaceholder : TileElevationPlaceholderLayerRequest :=
  { samplePlaceholderRequest 5 with
    _state := .STATE_RUNNING, _stamp := 10, _parentHF := (sampleLayer 7).heightField,
    _nextLOD := 5 }

/-- The sample installed tile after the pending pass of stamp 10. -/
def sampleSubmittedTile : CustomTile :=
  { sampleInstalledTile with _elevPlaceholderRequest := some sampleSubmittedPlaceholder }

/-- The sample submitted tile after the task service has run the placeholder request,
which produced sample layer 8. -/
def sampleRefinedTile : CustomTile :=
  { sampleSubmittedTile with
    _elevPlaceholderRequest :=
      some (CustomTile.placeholderRequestExecute sampleSubmittedPlaceholder
        (some (sampleLayer 8))) }

/-- The sample terrain in sequential mode; the tile table holds the sample parent. -/
def sampleSequentialTerrainWithParent : CustomTerrain :=
  { sampleTerrain sampleParent with loadingMode := .MODE_SEQUENTIAL }

/-- A sample tile (key LOD 5) with work left besides regeneration: an elevation hint
with elevation not up to date, a color layer of layer 1 at LOD 5, the imagery request of
layer 1 running in its task service, a terrain technique that has compiled and applied
nothing, and the two sample updates in the queue. -/
def sampleLoadingTile : CustomTile :=
  { sampleTile 5 5 familyParent5 with
    _colorLayers := [(1, sampleColorLayer 1 5)],
    _requests := [sampleColorRequest 1 .STATE_RUNNING false none],
    _terrainTechnique := some { compiled := [], applied := [], numApplied := 0 },
    _tileUpdates := sampleUpdates }

/-! ## Lemmas on the readiness predicate -/

namespace CustomTile

theorem elevationLoop_eq_true_iff (t : CustomTile) (l : List Direction) :
    t.elevationLoop l = true ↔
      ∀ i ∈ l, ¬ ((t._family.get i).expected = true ∧ 0 ≤ (t._family.get i).elevLOD
        ∧ (t._family.get i).elevLOD < t._elevationLOD) := by
  induction l with
  | nil => simp [elevationLoop]
  | cons i rest ih =>
    simp only [elevationLoop, List.mem_cons, forall_eq_or_imp]
    by_cases h : (t._family.get i).expected = true ∧ 0 ≤ (t._family.get i).elevLOD
        ∧ (t._family.get i).elevLOD < t._elevationLOD
    · have h1 := h.1
      have h2 := h.2.1
      have h3 := h.2.2
      simp [h1, h2, h3]
    · have : ((t._family.get i).expected && decide ((t._family.get i).elevLOD ≥ 0)
          && decide ((t._family.get i).elevLOD < t._elevationLOD)) = false := by
        rcases Bool.eq_false_or_eq_true ((t._family.get i).expected && decide ((t._family.get i).elevLOD ≥ 0)
          && decide ((t._family.get i).elevLOD < t._elevationLOD)) with hb | hb
        · exfalso
          apply h
          simpa [Bool.and_eq_true, and_assoc] using hb
        · exact hb
      rw [this]
      simp only [Bool.false_eq_true, if_false]
      rw [ih]
      exact ⟨fun hr => ⟨h, hr⟩, fun hr => hr.2⟩

theorem mem_directions (i : Direction) : i ∈ Direction.all := by
  cases i <;> simp [Direction.all]

theorem readyForNewElevation_eq_true_iff (t : CustomTile) :
    t.readyForNewElevation = true ↔
      t._elevationLOD ≠ t.keyLOD ∧ 0 ≤ (t._family.get .PARENT).elevLOD
      ∧ (∀ i, ¬ ((t._family.get i).expected = true ∧ 0 ≤ (t._family.get i).elevLOD
          ∧ (t._family.get i).elevLOD < t._elevationLOD))
      ∧ ¬ (t._elevationLOD + 1 < t.keyLOD ∧ t._elevationLOD = (t._family.get .PARENT).elevLOD) := by
  have hloop := elevationLoop_eq_true_iff t Direction.all
  have hall : (∀ i ∈ Direction.all, ¬ ((t._family.get i).expected = true
        ∧ 0 ≤ (t._family.get i).elevLOD ∧ (t._family.get i).elevLOD < t._elevationLOD))
      ↔ (∀ i, ¬ ((t._family.get i).expected = true ∧ 0 ≤ (t._family.get i).elevLOD
        ∧ (t._family.get i).elevLOD < t._elevationLOD)) :=
    ⟨fun h i => h i (mem_directions i), fun h i _ => h i⟩
  rw [← hall, ← hloop]
  unfold readyForNewElevation
  by_cases h1 : t._elevationLOD = t.keyLOD
  · simp [h1]
  · by_cases h2 : (t._family.get .PARENT).elevLOD < 0
    · simp only [h1, h2, if_false, if_true]
      constructor
      · intro h; exact absurd h (by simp)
      · intro h; omega
    · simp only [h1, h2, if_false]
      cases hl : t.elevationLoop Direction.all
      · simp
      · by_cases h3 : t._elevationLOD + 1 < t.keyLOD ∧ t._elevationLOD = (t._family.get .PARENT).elevLOD
        · have hb : (true && decide (t._elevationLOD + 1 < t.keyLOD)
              && decide (t._elevationLOD = (t._family.get .PARENT).elevLOD)) = true := by
            rw [decide_eq_true h3.1, decide_eq_true h3.2]; rfl
          rw [hb]
          simp only [if_true]
          exact ⟨fun h => absurd h (by decide), fun h => absurd h3 h.2.2.2⟩
        · have hb : (true && decide (t._elevationLOD + 1 < t.keyLOD)
              && decide (t._elevationLOD = (t._family.get .PARENT).elevLOD)) = false := by
            cases hc : (true && decide (t._elevationLOD + 1 < t.keyLOD)
              && decide (t._elevationLOD = (t._family.get .PARENT).elevLOD))
            · rfl
            · exfalso; apply h3
              simpa using hc
          rw [hb]
          simp only [Bool.false_eq_true, if_false, true_and, ne_eq]
          exact ⟨fun _ => ⟨h1, by omega, h3⟩, fun _ => trivial⟩

/-! ## Lemmas on the parts of `serviceCompletedRequests` -/

theorem queueTileUpdate_eq (t : CustomTile) (a : TileUpdate.Action) (v : Int) :
    t.queueTileUpdate a v = { t with _tileUpdates := t._tileUpdates ++ [⟨a, v⟩] } := rfl

theorem elevationView_adjustUpdateTravCount (t : CustomTile) (d : Int) :
    (t.adjustUpdateTravCount d).elevationView = t.elevationView := rfl

theorem elevationView_setCustomColorLayer (t : CustomTile) (c : CustomColorLayer) (w : Bool) :
    (t.setCustomColorLayer c w).elevationView = t.elevationView := by
  unfold setCustomColorLayer setCustomColorLayerUnlocked
  cases w <;> simp only [Bool.false_eq_true, if_true, if_false] <;> split_ifs <;> rfl

theorem elevationView_queueTileUpdate (t : CustomTile) (a : TileUpdate.Action) (v : Int) :
    (t.queueTileUpdate a v).elevationView = t.elevationView := by
  unfold queueTileUpdate
  split <;> rfl

theorem elevationView_serviceImageRequest (t : CustomTile) (mapf : MapFrame)
    (imageLayer : ImageLayer) (r : TileColorLayerRequest) :
    (t.serviceImageRequest mapf imageLayer r).1.elevationView = t.elevationView := by
  unfold serviceImageRequest
  repeat' split
  all_goals first
    | rfl
    | simp only [elevationView_queueTileUpdate, elevationView_setCustomColorLayer]

theorem elevationView_imageRequestsLoop (mapf : MapFrame) (imageLayer : ImageLayer)
    (t : CustomTile) (l : List TileColorLayerRequest) :
    (imageRequestsLoop mapf imageLayer t l).1.elevationView = t.elevationView := by
  induction l generalizing t with
  | nil => rfl
  | cons r rest ih =>
    simp only [imageRequestsLoop]
    rw [ih, elevationView_serviceImageRequest]

theorem elevationView_checkImageLayer (t t1 : CustomTile) (terrain : CustomTerrain)
    (imageLayer : ImageLayer) (b : Bool) (h : t.checkImageLayer terrain imageLayer = some (t1, b)) :
    t1.elevationView = t.elevationView := by
  unfold checkImageLayer at h
  repeat' split at h
  all_goals
    cases h
    try first
      | rfl
      | simp only [elevationView_queueTileUpdate, elevationView_setCustomColorLayer]

theorem elevationView_serviceImageLayer (t t1 : CustomTile) (terrain : CustomTerrain)
    (mapf : MapFrame) (imageLayer : ImageLayer)
    (h : t.serviceImageLayer terrain mapf imageLayer = some t1) :
    t1.elevationView = t.elevationView := by
  unfold serviceImageLayer at h
  split at h
  · cases h
  · rename_i t2 b hc
    have h2 := elevationView_checkImageLayer t t2 terrain imageLayer b hc
    split at h
    · simp only [Option.some.injEq] at h
      subst h
      rw [← h2, ← elevationView_imageRequestsLoop mapf imageLayer t2 t2._requests]
      rfl
    · simp only [Option.some.injEq] at h
      subst h
      exact h2

theorem elevationView_serviceImagery (terrain : CustomTerrain) (mapf : MapFrame)
    (ls : List ImageLayer) (t t1 : CustomTile)
    (h : serviceImagery terrain mapf t ls = some t1) :
    t1.elevationView = t.elevationView := by
  induction ls generalizing t with
  | nil =>
    simp only [serviceImagery, Option.some.injEq] at h
    subst h; rfl
  | cons l rest ih =>
    simp only [serviceImagery] at h
    split at h
    · cases h
    · rename_i t2 h2
      rw [ih t2 h, elevationView_serviceImageLayer t t2 terrain mapf l h2]

theorem elevationView_serviceTileGenerator (t : CustomTile) :
    t.serviceTileGenerator.1.elevationView = t.elevationView := by
  unfold serviceTileGenerator
  repeat' split
  all_goals rfl

theorem elevationView_queueTileGenRequest (t : CustomTile) (terrain : CustomTerrain) :
    (t.queueTileGenRequest terrain).1.elevationView = t.elevationView := by
  unfold queueTileGenRequest
  split <;> rfl

theorem serviceElevationRequests_congr (t t2 : CustomTile) (skirtHeight : Rat)
    (h : t2.elevationView = t.elevationView) :
    (t2.serviceElevationRequests skirtHeight).elevationView
      = (t.serviceElevationRequests skirtHeight).elevationView := by
  simp only [elevationView, Prod.mk.injEq] at h
  obtain ⟨h1, h2, h3, h4, h5, h6, h7⟩ := h
  unfold serviceElevationRequests
  rw [h2, h3, h6, h7]
  repeat' split
  all_goals simp_all [elevationView, queueTileUpdate_eq]

/-- The call returns whenever its imagery part does, and its result is then built from
the tile the imagery part leaves. -/
theorem serviceCompletedRequests_of_imagery (t t2 : CustomTile) (terrain : CustomTerrain)
    (mapf : MapFrame) (locked : Bool) (skirtHeight : Rat)
    (htrav : t._hasBeenTraversed = true) (hinst : t._requestsInstalled = true)
    (h : serviceImagery terrain mapf t.serviceTileGenerator.1 mapf.imageLayers = some t2) :
    t.serviceCompletedRequests terrain mapf locked skirtHeight
      = some (((t2.serviceElevationRequests skirtHeight).queueTileGenRequest terrain).1,
              ((t2.serviceElevationRequests skirtHeight).queueTileGenRequest terrain).2,
              t.serviceTileGenerator.2) := by
  unfold serviceCompletedRequests
  simp only [htrav, hinst, Bool.not_true, Bool.false_eq_true, if_false]
  rw [h]

/-- The elevation members after the whole call are those the elevation part computes
from the tile as it is before the call. -/
theorem serviceCompletedRequests_elevationView (t t2 : CustomTile) (terrain : CustomTerrain)
    (mapf : MapFrame) (locked : Bool) (skirtHeight : Rat)
    (htrav : t._hasBeenTraversed = true) (hinst : t._requestsInstalled = true)
    (h : serviceImagery terrain mapf t.serviceTileGenerator.1 mapf.imageLayers = some t2) :
    ∃ out, t.serviceCompletedRequests terrain mapf locked skirtHeight = some out
      ∧ out.1.elevationView = (t.serviceElevationRequests skirtHeight).elevationView := by
  refine ⟨_, serviceCompletedRequests_of_imagery t t2 terrain mapf locked skirtHeight htrav hinst h, ?_⟩
  rw [elevationView_queueTileGenRequest]
  apply serviceElevationRequests_congr
  rw [elevationView_serviceImagery terrain mapf _ _ _ h, elevationView_serviceTileGenerator]

/-! ## Lemmas on the request list -/

theorem withoutRequestsOf_eq (t : CustomTile) (u : UID) :
    t.withoutRequestsOf u
      = t.setRequests (t._requests.filter (fun r => decide (r._layerUID ≠ u))) := rfl

theorem setRequests_setRequests (t : CustomTile) (a b : List TileColorLayerRequest) :
    (t.setRequests a).setRequests b = t.setRequests b := rfl

theorem setCustomColorLayer_setRequests (t : CustomTile) (rs : List TileColorLayerRequest)
    (c : CustomColorLayer) (w : Bool) :
    (t.setRequests rs).setCustomColorLayer c w = (t.setCustomColorLayer c w).setRequests rs := by
  unfold setCustomColorLayer setCustomColorLayerUnlocked
  cases w <;> simp only [Bool.false_eq_true, if_true, if_false, setRequests] <;>
    split_ifs <;> rfl

theorem queueTileUpdate_setRequests (t : CustomTile) (rs : List TileColorLayerRequest)
    (a : TileUpdate.Action) (v : Int) :
    (t.setRequests rs).queueTileUpdate a v = (t.queueTileUpdate a v).setRequests rs := rfl

theorem requests_setCustomColorLayer (t : CustomTile) (c : CustomColorLayer) (w : Bool) :
    (t.setCustomColorLayer c w)._requests = t._requests := by
  unfold setCustomColorLayer setCustomColorLayerUnlocked
  cases w <;> simp only [Bool.false_eq_true, if_true, if_false] <;> split_ifs <;> rfl

theorem serviceImageRequest_setRequests (t : CustomTile) (rs : List TileColorLayerRequest)
    (mapf : MapFrame) (imageLayer : ImageLayer) (r : TileColorLayerRequest) :
    (t.setRequests rs).serviceImageRequest mapf imageLayer r
      = ((t.serviceImageRequest mapf imageLayer r).1.setRequests rs,
         (t.serviceImageRequest mapf imageLayer r).2) := by
  unfold serviceImageRequest
  have hg : ∀ uid, (t.setRequests rs).getCustomColorLayer uid = t.getCustomColorLayer uid :=
    fun _ => rfl
  simp only [hg]
  repeat' split
  all_goals first
    | rfl
    | (simp only [setCustomColorLayer_setRequests, queueTileUpdate_setRequests]; try rfl)

theorem imageRequestsLoop_setRequests (mapf : MapFrame) (imageLayer : ImageLayer)
    (rs : List TileColorLayerRequest) (t : CustomTile) (l : List TileColorLayerRequest) :
    imageRequestsLoop mapf imageLayer (t.setRequests rs) l
      = ((imageRequestsLoop mapf imageLayer t l).1.setRequests rs,
         (imageRequestsLoop mapf imageLayer t l).2) := by
  induction l generalizing t with
  | nil => rfl
  | cons r rest ih =>
    simp only [imageRequestsLoop, serviceImageRequest_setRequests, ih]

theorem serviceImageRequest_other_layer (t : CustomTile) (mapf : MapFrame)
    (imageLayer : ImageLayer) (r : TileColorLayerRequest)
    (h : r._layerUID ≠ imageLayer.getUID) :
    t.serviceImageRequest mapf imageLayer r = (t, some r) := by
  simp [serviceImageRequest, h]

theorem serviceImageRequest_layerUID (t : CustomTile) (mapf : MapFrame)
    (imageLayer : ImageLayer) (r r1 : TileColorLayerRequest)
    (h : (t.serviceImageRequest mapf imageLayer r).2 = some r1) :
    r1._layerUID = r._layerUID := by
  unfold serviceImageRequest at h
  repeat' split at h
  all_goals
    simp only [Option.some.injEq, reduceCtorEq] at h
    try (subst h; rfl)

theorem imageRequestsLoop_filter (mapf : MapFrame) (imageLayer : ImageLayer) (u : UID)
    (hu : imageLayer.getUID ≠ u) (t : CustomTile) (l : List TileColorLayerRequest) :
    imageRequestsLoop mapf imageLayer t (l.filter (fun r => decide (r._layerUID ≠ u)))
        = ((imageRequestsLoop mapf imageLayer t l).1,
           (imageRequestsLoop mapf imageLayer t l).2.filter (fun r => decide (r._layerUID ≠ u)))
    ∧ (imageRequestsLoop mapf imageLayer t l).2.filter (fun r => decide (r._layerUID = u))
        = l.filter (fun r => decide (r._layerUID = u)) := by
  induction l generalizing t with
  | nil => exact ⟨rfl, rfl⟩
  | cons r rest ih =>
    by_cases hr : r._layerUID = u
    · have hstep : t.serviceImageRequest mapf imageLayer r = (t, some r) :=
        serviceImageRequest_other_layer t mapf imageLayer r (by rw [hr]; exact fun h => hu h.symm)
      have h1 := (ih t).1
      have h2 := (ih t).2
      constructor
      · simp only [List.filter_cons, hr, ne_eq, not_true_eq_false, decide_False,
          Bool.false_eq_true, if_false, imageRequestsLoop, hstep, Option.toList,
          List.singleton_append]
        rw [h1]
      · simp only [imageRequestsLoop, hstep, Option.toList, List.singleton_append,
          List.filter_cons, hr, decide_True, if_true]
        rw [h2]
    · have h1 := (ih (t.serviceImageRequest mapf imageLayer r).1).1
      have h2 := (ih (t.serviceImageRequest mapf imageLayer r).1).2
      constructor
      · simp only [List.filter_cons, hr, ne_eq, not_false_eq_true, decide_True, if_true,
          imageRequestsLoop, List.filter_append]
        rw [h1]
        congr 1
        congr 1
        cases hs : (t.serviceImageRequest mapf imageLayer r).2 with
        | none => rfl
        | some r1 =>
          have := serviceImageRequest_layerUID t mapf imageLayer r r1 hs
          simp [Option.toList, List.filter_cons, this, hr]
      · simp only [imageRequestsLoop, List.filter_append, List.filter_cons, hr, decide_False,
          Bool.false_eq_true, if_false]
        rw [h2]
        cases hs : (t.serviceImageRequest mapf imageLayer r).2 with
        | none => rfl
        | some r1 =>
          have := serviceImageRequest_layerUID t mapf imageLayer r r1 hs
          simp [Option.toList, List.filter_cons, this, hr]

theorem checkImageLayer_setRequests (t : CustomTile) (rs : List TileColorLayerRequest)
    (terrain : CustomTerrain) (imageLayer : ImageLayer) :
    (t.setRequests rs).checkImageLayer terrain imageLayer
      = (t.checkImageLayer terrain imageLayer).map (fun p => (p.1.setRequests rs, p.2)) := by
  unfold checkImageLayer
  have hg : ∀ uid, (t.setRequests rs).getCustomColorLayer uid = t.getCustomColorLayer uid :=
    fun _ => rfl
  have hr : ∀ l c, (t.setRequests rs).readyForNewImagery l c = t.readyForNewImagery l c :=
    fun _ _ => rfl
  have hk : (t.setRequests rs).keyLOD = t.keyLOD := rfl
  have hf : (t.setRequests rs)._family = t._family := rfl
  simp only [hg, hr, hk, hf]
  repeat' split
  all_goals first
    | rfl
    | (simp only [Option.map_some', setCustomColorLayer_setRequests,
        queueTileUpdate_setRequests]; try rfl)

theorem requests_checkImageLayer (t t1 : CustomTile) (terrain : CustomTerrain)
    (imageLayer : ImageLayer) (b : Bool)
    (h : t.checkImageLayer terrain imageLayer = some (t1, b)) :
    t1._requests = t._requests := by
  unfold checkImageLayer at h
  repeat' split at h
  all_goals
    cases h
    try first
      | rfl
      | (simp only [queueTileUpdate_eq, requests_setCustomColorLayer])

theorem serviceImageLayer_without (t : CustomTile) (terrain : CustomTerrain) (mapf : MapFrame)
    (imageLayer : ImageLayer) (u : UID) (hu : imageLayer.getUID ≠ u) :
    (t.withoutRequestsOf u).serviceImageLayer terrain mapf imageLayer
        = (t.serviceImageLayer terrain mapf imageLayer).map (fun t1 => t1.withoutRequestsOf u)
    ∧ ∀ t1, t.serviceImageLayer terrain mapf imageLayer = some t1 →
        t1.requestsOf u = t.requestsOf u := by
  unfold serviceImageLayer
  rw [withoutRequestsOf_eq, checkImageLayer_setRequests]
  cases hc : t.checkImageLayer terrain imageLayer with
  | none => exact ⟨rfl, fun _ h => by cases h⟩
  | some p =>
    obtain ⟨t1, b⟩ := p
    have hreq := requests_checkImageLayer t t1 terrain imageLayer b hc
    have hloop := imageRequestsLoop_filter mapf imageLayer u hu t1 t1._requests
    cases b with
    | false =>
      simp only [Option.map_some', Bool.false_eq_true, if_false, withoutRequestsOf_eq,
        setRequests, hreq]
      refine ⟨trivial, fun t2 h => ?_⟩
      cases h
      simp only [requestsOf, hreq]
    | true =>
      simp only [Option.map_some', if_true]
      constructor
      · have e1 : (t1.setRequests (t._requests.filter (fun r => decide (r._layerUID ≠ u))))._requests
            = t1._requests.filter (fun r => decide (r._layerUID ≠ u)) := by
          rw [← hreq]; rfl
        rw [e1, imageRequestsLoop_setRequests, hloop.1]
        rfl
      · intro t2 h
        cases h
        simp only [requestsOf]
        rw [hloop.2, hreq]

theorem serviceImagery_without (terrain : CustomTerrain) (mapf : MapFrame) (u : UID)
    (ls : List ImageLayer) (hls : ∀ l ∈ ls, l.getUID ≠ u) (t : CustomTile) :
    serviceImagery terrain mapf (t.withoutRequestsOf u) ls
        = (serviceImagery terrain mapf t ls).map (fun t1 => t1.withoutRequestsOf u)
    ∧ ∀ t1, serviceImagery terrain mapf t ls = some t1 → t1.requestsOf u = t.requestsOf u := by
  induction ls generalizing t with
  | nil =>
    refine ⟨rfl, fun t1 h => ?_⟩
    simp only [serviceImagery, Option.some.injEq] at h
    subst h; rfl
  | cons l rest ih =>
    have hl := serviceImageLayer_without t terrain mapf l u (hls l (List.mem_cons_self _ _))
    have hrest : ∀ l1 ∈ rest, l1.getUID ≠ u := fun l1 h1 => hls l1 (List.mem_cons_of_mem _ h1)
    simp only [serviceImagery]
    rw [hl.1]
    cases hs : t.serviceImageLayer terrain mapf l with
    | none => exact ⟨rfl, fun _ h => by cases h⟩
    | some t2 =>
      simp only [Option.map_some']
      refine ⟨(ih hrest t2).1, fun t1 h => ?_⟩
      rw [(ih hrest t2).2 t1 h, hl.2 t2 hs]

theorem serviceTileGenerator_without (t : CustomTile) (u : UID) :
    (t.withoutRequestsOf u).serviceTileGenerator
      = (t.serviceTileGenerator.1.withoutRequestsOf u, t.serviceTileGenerator.2) := by
  unfold serviceTileGenerator
  simp only [withoutRequestsOf]
  repeat' split
  all_goals rfl

theorem serviceElevationRequests_without (t : CustomTile) (u : UID) (skirtHeight : Rat) :
    (t.withoutRequestsOf u).serviceElevationRequests skirtHeight
      = (t.serviceElevationRequests skirtHeight).withoutRequestsOf u := by
  unfold serviceElevationRequests
  simp only [withoutRequestsOf]
  repeat' split
  all_goals rfl

theorem queueTileGenRequest_without (t : CustomTile) (u : UID) (terrain : CustomTerrain) :
    (t.withoutRequestsOf u).queueTileGenRequest terrain
      = ((t.queueTileGenRequest terrain).1.withoutRequestsOf u,
         (t.queueTileGenRequest terrain).2) := by
  unfold queueTileGenRequest
  simp only [withoutRequestsOf]
  split <;> rfl

theorem requestsOf_serviceTileGenerator (t : CustomTile) (u : UID) :
    t.serviceTileGenerator.1.requestsOf u = t.requestsOf u := by
  unfold serviceTileGenerator
  repeat' split
  all_goals rfl

theorem requestsOf_serviceElevationRequests (t : CustomTile) (u : UID) (skirtHeight : Rat) :
    (t.serviceElevationRequests skirtHeight).requestsOf u = t.requestsOf u := by
  unfold serviceElevationRequests
  repeat' split
  all_goals rfl

theorem requestsOf_queueTileGenRequest (t : CustomTile) (u : UID) (terrain : CustomTerrain) :
    (t.queueTileGenRequest terrain).1.requestsOf u = t.requestsOf u := by
  unfold queueTileGenRequest
  split <;> rfl

/-! ## Lemmas on `updateImagery` and the uniqueness of layers -/

theorem eraseRequestsOf_eq_filter (uid : UID) (l : List TileColorLayerRequest) :
    eraseRequestsOf uid l = l.filter (fun r => decide (r._layerUID ≠ uid)) := by
  induction l with
  | nil => rfl
  | cons r rest ih =>
    by_cases h : r._layerUID = uid
    · simp [eraseRequestsOf, h, ih]
    · simp [eraseRequestsOf, h, ih]

theorem uniqueLayers_of_sublist {l1 l2 : List TileColorLayerRequest}
    (h : (l1.map (fun r => r._layerUID)).Sublist (l2.map (fun r => r._layerUID)))
    (h2 : UniqueLayers l2) : UniqueLayers l1 :=
  List.Nodup.sublist h h2

theorem uniqueLayers_updateImagery (t : CustomTile) (terrain : CustomTerrain)
    (imageLayer : ImageLayer) (mapf : MapFrame) (h : UniqueLayers t._requests) :
    UniqueLayers (t.updateImagery terrain imageLayer mapf)._requests := by
  unfold updateImagery UniqueLayers
  simp only [eraseRequestsOf_eq_filter, List.map_append, List.map_cons, List.map_nil]
  rw [List.nodup_append]
  refine ⟨?_, List.nodup_singleton _, ?_⟩
  · exact List.Nodup.sublist (List.Sublist.map _ (List.filter_sublist _)) h
  · intro a ha hb
    simp only [List.mem_singleton] at hb
    simp only [List.mem_map, List.mem_filter, decide_eq_true_eq] at ha
    obtain ⟨r, ⟨_, hr⟩, hra⟩ := ha
    apply hr
    rw [hra, hb]
    rfl

theorem uniqueLayers_foldl_updateImagery (terrain : CustomTerrain) (mapf : MapFrame)
    (ls : List ImageLayer) (t : CustomTile) (h : UniqueLayers t._requests) :
    UniqueLayers (ls.foldl (fun acc l => acc.updateImagery terrain l mapf) t)._requests := by
  induction ls generalizing t with
  | nil => exact h
  | cons l rest ih => exact ih _ (uniqueLayers_updateImagery t terrain l mapf h)

theorem uniqueLayers_installRequests (t : CustomTile) (terrain : CustomTerrain) (mapf : MapFrame)
    (stamp indeterminate : Int) (h : UniqueLayers t._requests) :
    UniqueLayers (t.installRequests terrain mapf stamp indeterminate)._requests := by
  unfold installRequests
  apply uniqueLayers_foldl_updateImagery
  split <;> exact h

theorem imageRequestsLoop_layers_sublist (mapf : MapFrame) (imageLayer : ImageLayer)
    (t : CustomTile) (l : List TileColorLayerRequest) :
    ((imageRequestsLoop mapf imageLayer t l).2.map (fun r => r._layerUID)).Sublist
      (l.map (fun r => r._layerUID)) := by
  induction l generalizing t with
  | nil => exact List.Sublist.refl _
  | cons r rest ih =>
    simp only [imageRequestsLoop, List.map_append, List.map_cons]
    cases hs : (t.serviceImageRequest mapf imageLayer r).2 with
    | none =>
      simp only [Option.toList, List.map_nil, List.nil_append]
      exact List.Sublist.cons _ (ih _)
    | some r1 =>
      have := serviceImageRequest_layerUID t mapf imageLayer r r1 hs
      simp only [Option.toList, List.map_cons, List.map_nil, List.singleton_append, this]
      exact List.Sublist.cons₂ _ (ih _)

theorem requests_serviceImageLayer_sublist (t t1 : CustomTile) (terrain : CustomTerrain)
    (mapf : MapFrame) (imageLayer : ImageLayer)
    (h : t.serviceImageLayer terrain mapf imageLayer = some t1) :
    (t1._requests.map (fun r => r._layerUID)).Sublist (t._requests.map (fun r => r._layerUID)) := by
  unfold serviceImageLayer at h
  split at h
  · cases h
  · rename_i t2 b hc
    have hreq := requests_checkImageLayer t t2 terrain imageLayer b hc
    split at h
    · cases h
      rw [← hreq]
      exact imageRequestsLoop_layers_sublist mapf imageLayer t2 t2._requests
    · cases h
      rw [hreq]

theorem requests_serviceImagery_sublist (terrain : CustomTerrain) (mapf : MapFrame)
    (ls : List ImageLayer) (t t1 : CustomTile)
    (h : serviceImagery terrain mapf t ls = some t1) :
    (t1._requests.map (fun r => r._layerUID)).Sublist (t._requests.map (fun r => r._layerUID)) := by
  induction ls generalizing t with
  | nil =>
    simp only [serviceImagery, Option.some.injEq] at h
    subst h
    exact List.Sublist.refl _
  | cons l rest ih =>
    simp only [serviceImagery] at h
    split at h
    · cases h
    · rename_i t2 h2
      exact (ih t2 h).trans (requests_serviceImageLayer_sublist t t2 terrain mapf l h2)

theorem requests_serviceTileGenerator (t : CustomTile) :
    t.serviceTileGenerator.1._requests = t._requests := by
  unfold serviceTileGenerator
  repeat' split
  all_goals rfl

theorem requests_serviceElevationRequests (t : CustomTile) (skirtHeight : Rat) :
    (t.serviceElevationRequests skirtHeight)._requests = t._requests := by
  unfold serviceElevationRequests
  repeat' split
  all_goals rfl

theorem requests_queueTileGenRequest (t : CustomTile) (terrain : CustomTerrain) :
    (t.queueTileGenRequest terrain).1._requests = t._requests := by
  unfold queueTileGenRequest
  split <;> rfl

theorem requests_serviceCompletedRequests_sublist (t : CustomTile) (terrain : CustomTerrain)
    (mapf : MapFrame) (locked : Bool) (skirtHeight : Rat)
    (out : CustomTile × CustomTerrain × Bool)
    (h : t.serviceCompletedRequests terrain mapf locked skirtHeight = some out) :
    (out.1._requests.map (fun r => r._layerUID)).Sublist
      (t._requests.map (fun r => r._layerUID)) := by
  unfold serviceCompletedRequests at h
  split at h
  · cases h; exact List.Sublist.refl _
  · split at h
    · cases h; exact List.Sublist.refl _
    · simp only [] at h
      cases h2 : serviceImagery terrain mapf t.serviceTileGenerator.1 mapf.imageLayers with
      | none => rw [h2] at h; cases h
      | some t2 =>
        rw [h2] at h
        cases h
        simp only []
        rw [requests_queueTileGenRequest, requests_serviceElevationRequests]
        have := requests_serviceImagery_sublist terrain mapf _ _ _ h2
        rw [requests_serviceTileGenerator] at this
        exact this

/-! ## Lemmas on the imagery retry path -/

theorem getImageLayerByUID_of_mem (mapf : MapFrame) (imageLayer : ImageLayer)
    (h : imageLayer ∈ mapf.imageLayers) :
    ∃ l, mapf.getImageLayerByUID imageLayer.getUID = some l := by
  unfold MapFrame.getImageLayerByUID
  cases hf : mapf.imageLayers.find? (fun l => l.getUID == imageLayer.getUID) with
  | some l => exact ⟨l, rfl⟩
  | none =>
    rw [List.find?_eq_none] at hf
    exact absurd (hf imageLayer h) (by simp)

theorem serviceImageRequest_retry (t : CustomTile) (mapf : MapFrame) (imageLayer : ImageLayer)
    (r : TileColorLayerRequest) (hl : imageLayer ∈ mapf.imageLayers)
    (huid : r._layerUID = imageLayer.getUID) (hdone : r.isCompleted = true)
    (hnc : r.wasCanceled = false) (hres : r.getResult = none)
    (htries : r._numTries ≤ r._maxTries) :
    t.serviceImageRequest mapf imageLayer r
      = (t, some { r with toTaskRequest := (r.setState .STATE_IDLE).reset }) := by
  obtain ⟨l, hfound⟩ := getImageLayerByUID_of_mem mapf imageLayer hl
  have hnot : ¬ r._numTries > r._maxTries := by omega
  simp [serviceImageRequest, huid, hdone, hnc, hres, hfound, hnot]

theorem serviceImageRequest_giveUp (t : CustomTile) (mapf : MapFrame) (imageLayer : ImageLayer)
    (r : TileColorLayerRequest) (old : CustomColorLayer) (hl : imageLayer ∈ mapf.imageLayers)
    (huid : r._layerUID = imageLayer.getUID) (hdone : r.isCompleted = true)
    (hnc : r.wasCanceled = false) (hres : r.getResult = none)
    (htries : r._numTries > r._maxTries)
    (hold : t.getCustomColorLayer r._layerUID = some old) :
    t.serviceImageRequest mapf imageLayer r
      = (t.setCustomColorLayer
          { mapLayer := old.mapLayer, image := old.image, locator := old.locator,
            lod := (t._key.getLevelOfDetail : Int) }, none) := by
  obtain ⟨l, hfound⟩ := getImageLayerByUID_of_mem mapf imageLayer hl
  rw [huid] at hold
  simp [serviceImageRequest, huid, hdone, hnc, hres, hfound, htries, hold]

theorem failedAttempt_eq (mapf : MapFrame) (imageLayer : ImageLayer)
    (stamp : Int) (r : TileColorLayerRequest) (hl : imageLayer ∈ mapf.imageLayers)
    (huid : r._layerUID = imageLayer.getUID) (hidle : r.isIdle = true)
    (hnc : r.wasCanceled = false) (hsmall : r._numTries + 1 < 2 ^ 32) :
    (colorRequestExecute (servicePendingImageRequest stamp r).1 mapf none false)._numTries
        = r._numTries + 1
    ∧ (colorRequestExecute (servicePendingImageRequest stamp r).1 mapf none false)._maxTries
        = r._maxTries
    ∧ (colorRequestExecute (servicePendingImageRequest stamp r).1 mapf none false)._layerUID
        = r._layerUID
    ∧ (colorRequestExecute (servicePendingImageRequest stamp r).1 mapf none false).isCompleted
        = true
    ∧ (colorRequestExecute (servicePendingImageRequest stamp r).1 mapf none false).wasCanceled
        = false
    ∧ (colorRequestExecute (servicePendingImageRequest stamp r).1 mapf none false).getResult
        = none := by
  obtain ⟨l, hfound⟩ := getImageLayerByUID_of_mem mapf imageLayer hl
  rw [← huid] at hfound
  have hc : r._progress.isCanceled = false := hnc
  have hs2 : r._numTries + 1 < 4294967296 := by
    have e : (2 : Nat) ^ 32 = 4294967296 := by norm_num
    rw [e] at hsmall
    exact hsmall
  have hmod : (r._numTries + 1) % 4294967296 = r._numTries + 1 := Nat.mod_eq_of_lt hs2
  simp [colorRequestExecute, colorRequestRun, servicePendingImageRequest, hidle, hfound,
    TaskRequest.wasCanceled, TaskRequest.setStamp, TaskRequest.submitted, hc, hmod,
    TaskRequest.isCompleted, TaskRequest.getResult]

theorem failedAttempt_retry (t : CustomTile) (mapf : MapFrame) (imageLayer : ImageLayer)
    (stamp : Int) (r : TileColorLayerRequest) (hl : imageLayer ∈ mapf.imageLayers)
    (huid : r._layerUID = imageLayer.getUID) (hidle : r.isIdle = true)
    (hnc : r.wasCanceled = false) (hsmall : r._numTries + 1 < 2 ^ 32)
    (htries : r._numTries + 1 ≤ r._maxTries) :
    ∃ r1 : TileColorLayerRequest,
      t.failedAttempt mapf imageLayer stamp r = (t, some r1)
      ∧ r1._layerUID = imageLayer.getUID ∧ r1.isIdle = true ∧ r1.wasCanceled = false
      ∧ r1._numTries = r._numTries + 1 ∧ r1._maxTries = r._maxTries := by
  obtain ⟨h1, h2, h3, h4, h5, h6⟩ := failedAttempt_eq mapf imageLayer stamp r hl huid hidle hnc hsmall
  refine ⟨_, serviceImageRequest_retry t mapf imageLayer _ hl (h3.trans huid) h4 h5 h6
    (by rw [h1, h2]; exact htries), h3.trans huid, rfl, h5, h1, h2⟩

theorem failedAttempt_giveUp (t : CustomTile) (mapf : MapFrame) (imageLayer : ImageLayer)
    (stamp : Int) (r : TileColorLayerRequest) (old : CustomColorLayer)
    (hl : imageLayer ∈ mapf.imageLayers)
    (huid : r._layerUID = imageLayer.getUID) (hidle : r.isIdle = true)
    (hnc : r.wasCanceled = false) (hsmall : r._numTries + 1 < 2 ^ 32)
    (htries : r._numTries + 1 > r._maxTries)
    (hold : t.getCustomColorLayer imageLayer.getUID = some old) :
    t.failedAttempt mapf imageLayer stamp r
      = (t.setCustomColorLayer
          { mapLayer := old.mapLayer, image := old.image, locator := old.locator,
            lod := (t._key.getLevelOfDetail : Int) }, none) := by
  obtain ⟨h1, h2, h3, h4, h5, h6⟩ := failedAttempt_eq mapf imageLayer stamp r hl huid hidle hnc hsmall
  exact serviceImageRequest_giveUp t mapf imageLayer _ old hl (h3.trans huid) h4 h5 h6
    (by rw [h1, h2]; exact htries) (by rw [h3, huid]; exact hold)

theorem find_assign_self (m : ColorLayersByUID) (uid : UID) (c : CustomColorLayer) :
    (m.assign uid c).find uid = some c := by
  induction m with
  | nil => simp [ColorLayersByUID.assign, ColorLayersByUID.find, List.lookup]
  | cons e rest ih =>
    obtain ⟨k, v⟩ := e
    unfold ColorLayersByUID.assign
    by_cases h1 : uid < k
    · simp [h1, ColorLayersByUID.find, List.lookup]
    · by_cases h2 : uid = k
      · subst h2
        simp [ColorLayersByUID.find, List.lookup]
      · have h3 : (uid == k) = false := by simpa using h2
        simp only [h1, h2, if_false, ColorLayersByUID.find, List.lookup, h3]
        exact ih

theorem getCustomColorLayer_setCustomColorLayer (t : CustomTile) (c : CustomColorLayer)
    (w1 w2 : Bool) :
    (t.setCustomColorLayer c w1).getCustomColorLayer c.getUID w2 = some c := by
  have h : (t.setCustomColorLayer c w1)._colorLayers = t._colorLayers.assign c.getUID c := by
    unfold setCustomColorLayer setCustomColorLayerUnlocked
    cases w1 <;> simp only [Bool.false_eq_true, if_true, if_false] <;> split_ifs <;> rfl
  unfold getCustomColorLayer
  rw [h]
  cases w2 <;> simp only [Bool.false_eq_true, if_true, if_false] <;> exact find_assign_self _ _ _

theorem imageRequestsLoop_skip (mapf : MapFrame) (imageLayer : ImageLayer) (t : CustomTile)
    (l : List TileColorLayerRequest) (h : ∀ r ∈ l, r._layerUID ≠ imageLayer.getUID) :
    imageRequestsLoop mapf imageLayer t l = (t, l) := by
  induction l with
  | nil => rfl
  | cons r rest ih =>
    have hr := serviceImageRequest_other_layer t mapf imageLayer r (h r (List.mem_cons_self _ _))
    simp only [imageRequestsLoop, hr, Option.toList, List.singleton_append]
    rw [ih (fun x hx => h x (List.mem_cons_of_mem _ hx))]

theorem imageRequestsLoop_giveUp (mapf : MapFrame) (imageLayer : ImageLayer) (t : CustomTile)
    (l : List TileColorLayerRequest) (r : TileColorLayerRequest) (old : CustomColorLayer)
    (hu : UniqueLayers l) (hr : r ∈ l) (hl : imageLayer ∈ mapf.imageLayers)
    (huid : r._layerUID = imageLayer.getUID) (hdone : r.isCompleted = true)
    (hnc : r.wasCanceled = false) (hres : r.getResult = none)
    (htries : r._numTries > r._maxTries)
    (hold : t.getCustomColorLayer r._layerUID = some old) :
    imageRequestsLoop mapf imageLayer t l
      = (t.setCustomColorLayer
          { mapLayer := old.mapLayer, image := old.image, locator := old.locator,
            lod := (t._key.getLevelOfDetail : Int) },
         l.filter (fun x => decide (x._layerUID ≠ r._layerUID))) := by
  induction l with
  | nil => cases hr
  | cons x rest ih =>
    unfold UniqueLayers at hu
    simp only [List.map_cons, List.nodup_cons, List.mem_map, not_exists, not_and] at hu
    obtain ⟨hx, hrest⟩ := hu
    rcases List.mem_cons.mp hr with hxr | hmem
    · subst hxr
      have hothers : ∀ y ∈ rest, y._layerUID ≠ imageLayer.getUID := by
        intro y hy h
        exact hx y hy (by rw [h, huid])
      have hstep := serviceImageRequest_giveUp t mapf imageLayer r old hl huid hdone hnc hres
        htries hold
      simp only [imageRequestsLoop, hstep, Option.toList, List.nil_append]
      rw [imageRequestsLoop_skip mapf imageLayer _ rest hothers]
      have hf : rest.filter (fun y => !decide (y._layerUID = r._layerUID)) = rest := by
        rw [List.filter_eq_self]
        intro y hy
        have := hx y hy
        simpa using this
      simp [List.filter_cons, hf]
    · have hne : x._layerUID ≠ r._layerUID := fun h => hx r hmem h.symm
      have hstep := serviceImageRequest_other_layer t mapf imageLayer x
        (by rw [← huid]; exact hne)
      simp only [imageRequestsLoop, hstep, Option.toList, List.singleton_append]
      rw [ih hrest hmem]
      simp [List.filter_cons, hne]

theorem pendingImageRequestsLoop_added (key : TileKey) (stamp : Int)
    (l : List TileColorLayerRequest) :
    ∀ e ∈ (pendingImageRequestsLoop key stamp l).2, ∃ r ∈ l, e.1 = r._layerUID := by
  induction l with
  | nil => intro e he; cases he
  | cons r rest ih =>
    intro e he
    simp only [pendingImageRequestsLoop, List.mem_append] at he
    rcases he with he | he
    · split at he
      · simp only [List.mem_singleton] at he
        exact ⟨r, List.mem_cons_self _ _, by rw [he]⟩
      · cases he
    · obtain ⟨r1, h1, h2⟩ := ih e he
      exact ⟨r1, List.mem_cons_of_mem _ h1, h2⟩

/-! ## Lemmas on queuing several updates -/

theorem queueTileUpdates_eq (us : List TileUpdate) (t : CustomTile) :
    t.queueTileUpdates us = { t with _tileUpdates := t._tileUpdates ++ us } := by
  induction us generalizing t with
  | nil => simp [queueTileUpdates]
  | cons u rest ih =>
    have h := ih (t.queueTileUpdate u.action u.value)
    unfold queueTileUpdates at h ⊢
    rw [List.foldl_cons, h, queueTileUpdate_eq]
    simp

/-! ## Lemmas on the elevation invariant -/

theorem family_setCustomColorLayer (t : CustomTile) (c : CustomColorLayer) (w : Bool) :
    (t.setCustomColorLayer c w)._family = t._family := by
  unfold setCustomColorLayer setCustomColorLayerUnlocked
  cases w <;> simp only [Bool.false_eq_true, if_true, if_false] <;> split_ifs <;> rfl

theorem family_serviceImageRequest (t : CustomTile) (mapf : MapFrame)
    (imageLayer : ImageLayer) (r : TileColorLayerRequest) :
    (t.serviceImageRequest mapf imageLayer r).1._family = t._family := by
  unfold serviceImageRequest
  repeat' split
  all_goals first
    | rfl
    | simp only [queueTileUpdate_eq, family_setCustomColorLayer]

theorem family_imageRequestsLoop (mapf : MapFrame) (imageLayer : ImageLayer)
    (t : CustomTile) (l : List TileColorLayerRequest) :
    (imageRequestsLoop mapf imageLayer t l).1._family = t._family := by
  induction l generalizing t with
  | nil => rfl
  | cons r rest ih =>
    simp only [imageRequestsLoop]
    rw [ih, family_serviceImageRequest]

theorem family_checkImageLayer (t t1 : CustomTile) (terrain : CustomTerrain)
    (imageLayer : ImageLayer) (b : Bool) (h : t.checkImageLayer terrain imageLayer = some (t1, b)) :
    t1._family = t._family := by
  unfold checkImageLayer at h
  repeat' split at h
  all_goals
    cases h
    try first
      | rfl
      | simp only [queueTileUpdate_eq, family_setCustomColorLayer]

theorem family_serviceImageLayer (t t1 : CustomTile) (terrain : CustomTerrain)
    (mapf : MapFrame) (imageLayer : ImageLayer)
    (h : t.serviceImageLayer terrain mapf imageLayer = some t1) :
    t1._family = t._family := by
  unfold serviceImageLayer at h
  split at h
  · cases h
  · rename_i t2 b hc
    have h2 := family_checkImageLayer t t2 terrain imageLayer b hc
    split at h
    · cases h
      rw [← h2, ← family_imageRequestsLoop mapf imageLayer t2 t2._requests]
    · cases h
      exact h2

theorem family_serviceImagery (terrain : CustomTerrain) (mapf : MapFrame)
    (ls : List ImageLayer) (t t1 : CustomTile)
    (h : serviceImagery terrain mapf t ls = some t1) :
    t1._family = t._family := by
  induction ls generalizing t with
  | nil =>
    simp only [serviceImagery, Option.some.injEq] at h
    subst h; rfl
  | cons l rest ih =>
    simp only [serviceImagery] at h
    split at h
    · cases h
    · rename_i t2 h2
      rw [ih t2 h, family_serviceImageLayer t t2 terrain mapf l h2]

theorem family_serviceTileGenerator (t : CustomTile) :
    t.serviceTileGenerator.1._family = t._family := by
  unfold serviceTileGenerator
  repeat' split
  all_goals rfl

theorem family_serviceElevationRequests (t : CustomTile) (skirtHeight : Rat) :
    (t.serviceElevationRequests skirtHeight)._family = t._family := by
  unfold serviceElevationRequests
  repeat' split
  all_goals rfl

theorem family_queueTileGenRequest (t : CustomTile) (terrain : CustomTerrain) :
    (t.queueTileGenRequest terrain).1._family = t._family := by
  unfold queueTileGenRequest
  split <;> rfl

/-- What `serviceCompletedRequests` does to the elevation members and the family: either
nothing (the call returns at once), or what its elevation part does. -/
theorem serviceCompletedRequests_view (t : CustomTile) (terrain : CustomTerrain)
    (mapf : MapFrame) (locked : Bool) (skirtHeight : Rat)
    (out : CustomTile × CustomTerrain × Bool)
    (h : t.serviceCompletedRequests terrain mapf locked skirtHeight = some out) :
    out.1._family = t._family
    ∧ (out.1.elevationView = t.elevationView
        ∨ out.1.elevationView = (t.serviceElevationRequests skirtHeight).elevationView) := by
  by_cases htrav : t._hasBeenTraversed = true
  · by_cases hinst : t._requestsInstalled = true
    · cases himg : serviceImagery terrain mapf t.serviceTileGenerator.1 mapf.imageLayers with
      | none =>
        simp [serviceCompletedRequests, htrav, hinst, himg] at h
      | some t2 =>
        obtain ⟨out1, ho, hv⟩ := serviceCompletedRequests_elevationView t t2 terrain mapf locked
          skirtHeight htrav hinst himg
        rw [h] at ho
        cases ho
        refine ⟨?_, Or.inr hv⟩
        have e := serviceCompletedRequests_of_imagery t t2 terrain mapf locked skirtHeight htrav
          hinst himg
        rw [h] at e
        cases e
        simp only []
        rw [family_queueTileGenRequest, family_serviceElevationRequests,
          family_serviceImagery terrain mapf _ _ _ himg, family_serviceTileGenerator]
    · simp only [serviceCompletedRequests, htrav, hinst, Bool.not_true, Bool.not_false,
        Bool.false_eq_true, if_false, if_true, Option.some.injEq] at h
      subst h
      exact ⟨rfl, Or.inl rfl⟩
  · simp only [serviceCompletedRequests, htrav, Bool.not_false, if_true,
      Option.some.injEq] at h
    subst h
    exact ⟨rfl, Or.inl rfl⟩

theorem elevationInvariant_congr (t t1 : CustomTile) (hv : t1.elevationView = t.elevationView)
    (hf : t1._family = t._family) (h : t.ElevationInvariant) : t1.ElevationInvariant := by
  simp only [elevationView, Prod.mk.injEq] at hv
  obtain ⟨h1, _, _, h4, _, h6, h7⟩ := hv
  have hk : t1.keyLOD = t.keyLOD := by unfold keyLOD; rw [h1]
  unfold ElevationInvariant at h ⊢
  rw [h4, hk, hf, h6, h7]
  exact h

theorem isIdle_false_of_isCompleted {ρ : Type} (r : TaskRequest ρ) (h : r.isCompleted = true) :
    r.isIdle = false := by
  unfold TaskRequest.isCompleted at h
  unfold TaskRequest.isIdle
  cases hs : r._state <;> simp_all

theorem isIdle_false_of_isRunning {ρ : Type} (r : TaskRequest ρ) (h : r.isRunning = true) :
    r.isIdle = false := by
  unfold TaskRequest.isRunning at h
  unfold TaskRequest.isIdle
  cases hs : r._state <;> simp_all

/-- The elevation part of `serviceCompletedRequests` keeps the elevation invariant and
does not lower the elevation LOD. -/
theorem elevationInvariant_serviceElevationRequests (t : CustomTile) (skirtHeight : Rat)
    (h : t.ElevationInvariant) :
    (t.serviceElevationRequests skirtHeight).ElevationInvariant
    ∧ t._elevationLOD ≤ (t.serviceElevationRequests skirtHeight)._elevationLOD := by
  obtain ⟨hb, hp, hr⟩ := h
  unfold serviceElevationRequests
  split
  · rename_i er pr _ her hpr
    obtain ⟨hk, hj⟩ := hr er pr her hpr
    by_cases hdone : er.isCompleted = true
    · have heidle := isIdle_false_of_isCompleted er.toTaskRequest hdone
      have hpidle : pr.isIdle = true := by
        rcases hk with h1 | h1
        · rw [heidle] at h1; cases h1
        · exact h1
      simp only [hdone, if_true]
      by_cases hcan : er.wasCanceled = true
      · simp only [hcan, if_true]
        refine ⟨⟨hb, hp, ?_⟩, le_refl _⟩
        intro er1 pr1 h1 h2
        simp only [Option.some.injEq] at h1
        rw [hpr] at h2
        cases h2
        exact ⟨Or.inr hpidle, fun hc => by rw [hpidle] at hc; cases hc⟩
      · simp only [hcan, Bool.false_eq_true, if_false]
        split
        · split
          · refine ⟨⟨le_refl _, Or.inr rfl, ?_⟩, hb⟩
            intro er1 pr1 _ h2
            simp only [queueTileUpdate_eq] at h2
            rw [hpr] at h2
            cases h2
            exact ⟨Or.inr hpidle, fun hc => by rw [hpidle] at hc; cases hc⟩
          · refine ⟨⟨hb, hp, ?_⟩, le_refl _⟩
            intro er1 pr1 _ h2
            rw [hpr] at h2
            cases h2
            exact ⟨Or.inr hpidle, fun hc => by rw [hpidle] at hc; cases hc⟩
        · refine ⟨⟨hb, hp, ?_⟩, le_refl _⟩
          intro er1 pr1 _ h2
          rw [hpr] at h2
          cases h2
          exact ⟨Or.inr hpidle, fun hc => by rw [hpidle] at hc; cases hc⟩
    · simp only [hdone, Bool.false_eq_true, if_false]
      by_cases hpdone : pr.isCompleted = true
      · have hpidle := isIdle_false_of_isCompleted pr.toTaskRequest hpdone
        obtain ⟨hlt, hle⟩ := hj hpidle
        simp only [hpdone, if_true]
        have hreset : ∀ (er1 : TileElevationLayerRequest)
            (pr1 : TileElevationPlaceholderLayerRequest) (lod : Int),
            pr1.isIdle = true →
            (er1.isIdle = true ∨ pr1.isIdle = true)
            ∧ (pr1.isIdle = false → lod < pr1._nextLOD ∧ pr1._nextLOD ≤ t.keyLOD) :=
          fun _ _ _ hi => ⟨Or.inr hi, fun hc => by rw [hi] at hc; cases hc⟩
        by_cases hcan : pr.wasCanceled = true
        · simp only [hcan, if_true]
          refine ⟨⟨hb, hp, ?_⟩, le_refl _⟩
          intro er1 pr1 _ h2
          simp only [Option.some.injEq] at h2
          subst h2
          exact hreset _ _ _ rfl
        · simp only [hcan, Bool.false_eq_true, if_false]
          split
          · split
            · refine ⟨⟨hle, ?_, ?_⟩, le_of_lt hlt⟩
              · rcases hp with hp1 | hp1
                · exact Or.inl hp1
                · exfalso; rw [hp1] at hlt; omega
              · intro er1 pr1 _ h2
                simp only [queueTileUpdate_eq, Option.some.injEq] at h2
                subst h2
                exact hreset _ _ _ rfl
            · refine ⟨⟨hb, hp, ?_⟩, le_refl _⟩
              intro er1 pr1 _ h2
              simp only [Option.some.injEq] at h2
              subst h2
              exact hreset _ _ _ rfl
          · refine ⟨⟨hb, hp, ?_⟩, le_refl _⟩
            intro er1 pr1 _ h2
            simp only [Option.some.injEq] at h2
            subst h2
            exact hreset _ _ _ rfl
      · simp only [hpdone, Bool.false_eq_true, if_false]
        exact ⟨⟨hb, hp, hr⟩, le_refl _⟩
  · exact ⟨⟨hb, hp, hr⟩, le_refl _⟩

/-- The scheduling block of `servicePendingElevationRequests` keeps the elevation
invariant and the elevation LOD. -/
theorem elevationInvariant_scheduleElevationRequest (t t1 : CustomTile)
    (terrain terrain1 : CustomTerrain) (stamp : Int) (h : t.ElevationInvariant)
    (hs : t.scheduleElevationRequest terrain stamp = some (t1, terrain1)) :
    t1.ElevationInvariant ∧ t1._elevationLOD = t._elevationLOD := by
  obtain ⟨hb, hp, hr⟩ := h
  unfold scheduleElevationRequest at hs
  split at hs
  · rename_i er pr _ her hpr
    obtain ⟨hk, hj⟩ := hr er pr her hpr
    by_cases heidle : er.isIdle = true
    · simp only [heidle, Bool.not_true, Bool.false_eq_true, if_false] at hs
      by_cases hpidle : pr.isIdle = true
      · simp only [hpidle, Bool.not_true, Bool.false_eq_true, if_false] at hs
        by_cases hready : t.readyForNewElevation = true
        · simp only [hready, if_true] at hs
          have hne := ((readyForNewElevation_eq_true_iff t).mp hready).1
          by_cases hfinal : t._elevationLOD + 1 = t.keyLOD
          · simp only [hfinal, if_true, Option.some.injEq, Prod.mk.injEq] at hs
            obtain ⟨hs1, _⟩ := hs
            subst hs1
            refine ⟨⟨hb, hp, ?_⟩, rfl⟩
            intro er1 pr1 _ h2
            rw [hpr] at h2
            cases h2
            exact ⟨Or.inr hpidle, fun hc => by rw [hpidle] at hc; cases hc⟩
          · simp only [hfinal, if_false] at hs
            by_cases hgt : (t._family.get .PARENT).elevLOD > t._elevationLOD
            · simp only [hgt, if_true] at hs
              simp only [decide_True] at hs
              cases hpt : terrain.getCustomTile (t._family.get .PARENT).tileID with
              | none =>
                rw [hpt] at hs
                simp only [Option.some.injEq, Prod.mk.injEq] at hs
                obtain ⟨hs1, _⟩ := hs
                subst hs1
                exact ⟨⟨hb, hp, hr⟩, rfl⟩
              | some parent =>
                rw [hpt] at hs
                simp only [] at hs
                cases hl : parent._elevationLayer with
                | none => rw [hl] at hs; cases hs
                | some hfLayer =>
                  rw [hl] at hs
                  simp only [Option.some.injEq, Prod.mk.injEq] at hs
                  obtain ⟨hs1, _⟩ := hs
                  subst hs1
                  have hpb : (t._family.get .PARENT).elevLOD ≤ t.keyLOD := by
                    rcases hp with hp1 | hp1
                    · exact hp1
                    · exact absurd hp1 hne
                  refine ⟨⟨hb, hp, ?_⟩, rfl⟩
                  intro er1 pr1 h1 h2
                  rw [her] at h1
                  cases h1
                  simp only [Option.some.injEq] at h2
                  subst h2
                  exact ⟨Or.inl heidle, fun _ => ⟨hgt, hpb⟩⟩
            · simp only [hgt, if_false, Option.some.injEq, Prod.mk.injEq] at hs
              obtain ⟨hs1, _⟩ := hs
              subst hs1
              exact ⟨⟨hb, hp, hr⟩, rfl⟩
        · simp only [hready, Bool.false_eq_true, if_false, Option.some.injEq,
            Prod.mk.injEq] at hs
          obtain ⟨hs1, _⟩ := hs
          subst hs1
          exact ⟨⟨hb, hp, hr⟩, rfl⟩
      · have hpf : pr.isIdle = false := by
          cases hv : pr.isIdle
          · rfl
          · exact absurd hv hpidle
        simp only [hpf, Bool.not_false, if_true] at hs
        split at hs
        · simp only [Option.some.injEq, Prod.mk.injEq] at hs
          obtain ⟨hs1, _⟩ := hs
          subst hs1
          refine ⟨⟨hb, hp, ?_⟩, rfl⟩
          intro er1 pr1 h1 h2
          rw [her] at h1
          cases h1
          simp only [Option.some.injEq] at h2
          subst h2
          exact ⟨Or.inl heidle, fun _ => hj hpf⟩
        · simp only [Option.some.injEq, Prod.mk.injEq] at hs
          obtain ⟨hs1, _⟩ := hs
          subst hs1
          exact ⟨⟨hb, hp, hr⟩, rfl⟩
    · have hef : er.isIdle = false := by
        cases hv : er.isIdle
        · rfl
        · exact absurd hv heidle
      have hpidle : pr.isIdle = true := by
        rcases hk with h1 | h1
        · rw [hef] at h1; cases h1
        · exact h1
      simp only [hef, Bool.not_false, if_true] at hs
      split at hs
      · simp only [Option.some.injEq, Prod.mk.injEq] at hs
        obtain ⟨hs1, _⟩ := hs
        subst hs1
        refine ⟨⟨hb, hp, ?_⟩, rfl⟩
        intro er1 pr1 _ h2
        rw [hpr] at h2
        cases h2
        exact ⟨Or.inr hpidle, fun hc => by rw [hpidle] at hc; cases hc⟩
      · simp only [Option.some.injEq, Prod.mk.injEq] at hs
        obtain ⟨hs1, _⟩ := hs
        subst hs1
        exact ⟨⟨hb, hp, hr⟩, rfl⟩
  · simp only [Option.some.injEq, Prod.mk.injEq] at hs
    obtain ⟨hs1, _⟩ := hs
    subst hs1
    exact ⟨⟨hb, hp, hr⟩, rfl⟩

theorem view_foldl_updateImagery (terrain : CustomTerrain) (mapf : MapFrame)
    (ls : List ImageLayer) (t : CustomTile) :
    (ls.foldl (fun acc l => acc.updateImagery terrain l mapf) t).elevationView = t.elevationView
    ∧ (ls.foldl (fun acc l => acc.updateImagery terrain l mapf) t)._family = t._family := by
  induction ls generalizing t with
  | nil => exact ⟨rfl, rfl⟩
  | cons l rest ih =>
    simp only [List.foldl_cons]
    exact ⟨(ih _).1.trans rfl, (ih _).2.trans rfl⟩

theorem elevationInvariant_resetElevationRequests (t : CustomTile) (mapf : MapFrame)
    (indeterminate : Int) (h : t.ElevationInvariant) :
    (t.resetElevationRequests mapf indeterminate).ElevationInvariant := by
  obtain ⟨hb, hp, _⟩ := h
  refine ⟨hb, hp, ?_⟩
  intro er pr h1 h2
  simp only [resetElevationRequests, Option.some.injEq] at h1 h2
  subst h1 h2
  exact ⟨Or.inl rfl, fun hc => by cases hc⟩

theorem elevationInvariant_installRequests (t : CustomTile) (terrain : CustomTerrain)
    (mapf : MapFrame) (stamp indeterminate : Int) (h : t.ElevationInvariant) :
    (t.installRequests terrain mapf stamp indeterminate).ElevationInvariant
    ∧ (t.installRequests terrain mapf stamp indeterminate)._elevationLOD = t._elevationLOD := by
  unfold installRequests
  simp only []
  have hv := view_foldl_updateImagery terrain mapf mapf.imageLayers
    (if t._elevationLayer.isSome = true then t.resetElevationRequests mapf indeterminate else t)
  have hinv : (if t._elevationLayer.isSome = true then t.resetElevationRequests mapf indeterminate
      else t).ElevationInvariant := by
    split
    · exact elevationInvariant_resetElevationRequests t mapf indeterminate h
    · exact h
  have hlod : (if t._elevationLayer.isSome = true then t.resetElevationRequests mapf indeterminate
      else t)._elevationLOD = t._elevationLOD := by
    split <;> rfl
  constructor
  · exact elevationInvariant_congr _ _ hv.1 hv.2 hinv
  · have := hv.1
    simp only [elevationView, Prod.mk.injEq] at this
    exact this.2.2.2.1.trans hlod

theorem elevationInvariant_servicePendingElevationRequests (t t1 : CustomTile)
    (terrain terrain1 : CustomTerrain) (mapf : MapFrame) (stamp : Int) (locked : Bool)
    (indeterminate : Int) (h : t.ElevationInvariant)
    (hs : t.servicePendingElevationRequests terrain mapf stamp locked indeterminate
            = some (t1, terrain1)) :
    t1.ElevationInvariant ∧ t1._elevationLOD = t._elevationLOD := by
  unfold servicePendingElevationRequests at hs
  split at hs
  · cases hs
    exact ⟨h, rfl⟩
  · split at hs
    · have hi := elevationInvariant_installRequests t terrain mapf stamp indeterminate h
      have := elevationInvariant_scheduleElevationRequest _ t1 terrain terrain1 stamp hi.1 hs
      exact ⟨this.1, this.2.trans hi.2⟩
    · exact elevationInvariant_scheduleElevationRequest t t1 terrain terrain1 stamp h hs

theorem elevationInvariant_servicePendingImageRequests (t : CustomTile)
    (terrain : CustomTerrain) (mapf : MapFrame) (stamp indeterminate : Int)
    (h : t.ElevationInvariant) :
    (t.servicePendingImageRequests terrain mapf stamp indeterminate).1.ElevationInvariant
    ∧ (t.servicePendingImageRequests terrain mapf stamp indeterminate).1._elevationLOD
        = t._elevationLOD := by
  unfold servicePendingImageRequests
  split
  · exact ⟨h, rfl⟩
  · simp only []
    split
    · have hi := elevationInvariant_installRequests t terrain mapf stamp indeterminate h
      exact ⟨elevationInvariant_congr _ _ rfl rfl hi.1, hi.2⟩
    · exact ⟨elevationInvariant_congr _ _ rfl rfl h, rfl⟩

theorem elevationInvariant_executeTileGenRequest (t : CustomTile) (h : t.ElevationInvariant) :
    t.executeTileGenRequest.ElevationInvariant
    ∧ t.executeTileGenRequest._elevationLOD = t._elevationLOD := by
  unfold executeTileGenRequest tileGenRequestRun
  repeat' split
  all_goals exact ⟨elevationInvariant_congr _ _ rfl rfl h, rfl⟩

/-- Every operation keeps the elevation invariant. -/
theorem elevationInvariant_step (t t1 : CustomTile) (h : t.ElevationInvariant)
    (hs : UpdateStep t t1) : t1.ElevationInvariant := by
  cases hs with
  | pendingElevation _ terrain terrain1 mapf stamp locked indeterminate hp =>
    exact (elevationInvariant_servicePendingElevationRequests t t1 terrain terrain1 mapf stamp
      locked indeterminate h hp).1
  | pendingImage terrain mapf stamp indeterminate =>
    exact (elevationInvariant_servicePendingImageRequests t terrain mapf stamp indeterminate h).1
  | runFinal er produced h1 h2 =>
    obtain ⟨hb, hp, hr⟩ := h
    refine ⟨hb, hp, ?_⟩
    intro er1 pr1 he hpr
    obtain ⟨hk, hj⟩ := hr er pr1 h1 hpr
    have hidle := isIdle_false_of_isRunning er.toTaskRequest h2
    have hpi : pr1.isIdle = true := by
      rcases hk with hk1 | hk1
      · rw [hidle] at hk1; cases hk1
      · exact hk1
    exact ⟨Or.inr hpi, hj⟩
  | runPlaceholder pr produced h1 h2 =>
    obtain ⟨hb, hp, hr⟩ := h
    refine ⟨hb, hp, ?_⟩
    intro er1 pr1 he hpr
    obtain ⟨hk, hj⟩ := hr er1 pr he h1
    have hidle := isIdle_false_of_isRunning pr.toTaskRequest h2
    have hei : er1.isIdle = true := by
      rcases hk with hk1 | hk1
      · exact hk1
      · rw [hidle] at hk1; cases hk1
    simp only [Option.some.injEq] at hpr
    subst hpr
    refine ⟨Or.inl hei, fun _ => ?_⟩
    have hn : (placeholderRequestExecute pr produced)._nextLOD = pr._nextLOD := by
      unfold placeholderRequestExecute placeholderRequestRun
      split <;> rfl
    rw [hn]
    exact hj hidle
  | runImage before after r mapf produced canceledDuring h1 h2 =>
    exact elevationInvariant_congr _ _ rfl rfl h
  | runTileGen => exact (elevationInvariant_executeTileGenRequest t h).1
  | completed _ terrain terrain1 mapf locked skirtHeight modified hc =>
    obtain ⟨hf, hv⟩ := serviceCompletedRequests_view t terrain mapf locked skirtHeight _ hc
    rcases hv with hv | hv
    · exact elevationInvariant_congr _ _ hv hf h
    · exact elevationInvariant_congr _ _ hv
        (hf.trans (family_serviceElevationRequests t skirtHeight).symm)
        (elevationInvariant_serviceElevationRequests t skirtHeight h).1

theorem elevationInvariant_reachable (t0 t : CustomTile) (h : t0.ElevationInvariant)
    (hr : Reachable t0 t) : t.ElevationInvariant := by
  induction hr with
  | refl => exact h
  | tail _ hstep ih => exact elevationInvariant_step _ _ ih hstep

theorem elevationInvariant_new (key : TileKey) (hasElevation : Bool) (family : Family) :
    (CustomTile.new key hasElevation family).ElevationInvariant :=
  ⟨le_refl _, Or.inr rfl, fun _ _ h _ => by cases h⟩

/-- One call of `serviceCompletedRequests` on a state that satisfies the elevation
invariant does not lower the elevation LOD. -/
theorem elevationLOD_serviceCompletedRequests (t : CustomTile) (terrain : CustomTerrain)
    (mapf : MapFrame) (locked : Bool) (skirtHeight : Rat)
    (out : CustomTile × CustomTerrain × Bool) (h : t.ElevationInvariant)
    (hc : t.serviceCompletedRequests terrain mapf locked skirtHeight = some out) :
    t._elevationLOD ≤ out.1._elevationLOD := by
  obtain ⟨_, hv⟩ := serviceCompletedRequests_view t terrain mapf locked skirtHeight _ hc
  rcases hv with hv | hv
  · simp only [elevationView, Prod.mk.injEq] at hv
    rw [hv.2.2.2.1]
  · simp only [elevationView, Prod.mk.injEq] at hv
    rw [hv.2.2.2.1]
    exact (elevationInvariant_serviceElevationRequests t skirtHeight h).2

/-! ## Lemmas for the imagery readiness predicate -/

theorem imageryLoop_eq_elevationLoop (t : CustomTile) (layer : ImageLayer)
    (hf : ∀ i : Direction, (t._family.get i).getImageLOD layer.getUID = (t._family.get i).elevLOD)
    (l : List Direction) :
    t.imageryLoop layer t._elevationLOD l = t.elevationLoop l := by
  induction l with
  | nil => rfl
  | cons i rest ih =>
    unfold imageryLoop elevationLoop
    rw [hf i, ih]

/-! ## Lemmas on request priorities -/

theorem priority_newColorLayerRequest (t : CustomTile) (terrain : CustomTerrain)
    (imageLayer : ImageLayer) :
    (t.newColorLayerRequest terrain imageLayer)._priority
      = if terrain.loadingMode = .MODE_SEQUENTIAL
        then -(t._key.getLevelOfDetail : Rat) + PRI_IMAGE_OFFSET
        else PRI_IMAGE_OFFSET + (t._key.getLevelOfDetail : Rat) := by
  unfold newColorLayerRequest
  split_ifs <;> rfl

/-! ## Lemmas on the first traversal -/

theorem traverse_eq (t : CustomTile) (v : VisitorType) (h : Bool) :
    t.traverse v h
      = if t._hasBeenTraversed = false ∧ v = .UPDATE_VISITOR ∧ h = true
        then ({ t with _hasBeenTraversed := true }).adjustUpdateTravCount (-1) else t := by
  unfold traverse
  cases ht : t._hasBeenTraversed <;> cases h <;> by_cases hv : v = .UPDATE_VISITOR <;> simp [hv]

theorem traverse_of_traversed (t : CustomTile) (v : VisitorType) (h : Bool)
    (ht : t._hasBeenTraversed = true) : t.traverse v h = t := by
  rw [traverse_eq, if_neg]
  rw [ht]
  simp

theorem traverse_of_not_update (t : CustomTile) (v : VisitorType) (h : Bool)
    (hv : v ≠ .UPDATE_VISITOR) : t.traverse v h = t := by
  rw [traverse_eq, if_neg]
  exact fun hc => hv hc.2.1

theorem traverseAll_spec (calls : List (VisitorType × Bool)) (t : CustomTile) :
    t.registrations calls
        = (if t._hasBeenTraversed = false ∧ (VisitorType.UPDATE_VISITOR, true) ∈ calls
           then 1 else 0)
    ∧ t.traverseAll calls
        = (if t._hasBeenTraversed = false ∧ (VisitorType.UPDATE_VISITOR, true) ∈ calls
           then ({ t with _hasBeenTraversed := true }).adjustUpdateTravCount (-1) else t) := by
  induction calls generalizing t with
  | nil => simp [registrations, traverseAll]
  | cons c rest ih =>
    obtain ⟨v, h⟩ := c
    have hAll : t.traverseAll ((v, h) :: rest) = (t.traverse v h).traverseAll rest := rfl
    have hReg : t.registrations ((v, h) :: rest)
        = (if (t.traverse v h)._hasBeenTraversed = t._hasBeenTraversed then 0 else 1)
          + (t.traverse v h).registrations rest := rfl
    rw [hAll, hReg]
    by_cases hc : t._hasBeenTraversed = false ∧ v = .UPDATE_VISITOR ∧ h = true
    · have e : t.traverse v h
          = ({ t with _hasBeenTraversed := true }).adjustUpdateTravCount (-1) := by
        rw [traverse_eq, if_pos hc]
      obtain ⟨h1, h2, h3⟩ := hc
      subst h2 h3
      have hflag : (({ t with _hasBeenTraversed := true } : CustomTile).adjustUpdateTravCount
          (-1))._hasBeenTraversed = true := rfl
      obtain ⟨i1, i2⟩ := ih (({ t with _hasBeenTraversed := true } : CustomTile).adjustUpdateTravCount
          (-1))
      rw [e, i1, i2, hflag, h1]
      simp
    · have e : t.traverse v h = t := by rw [traverse_eq, if_neg hc]
      obtain ⟨i1, i2⟩ := ih t
      rw [e, i1, i2]
      have hmem : (t._hasBeenTraversed = false ∧ (VisitorType.UPDATE_VISITOR, true) ∈ (v, h) :: rest)
          ↔ (t._hasBeenTraversed = false ∧ (VisitorType.UPDATE_VISITOR, true) ∈ rest) := by
        constructor
        · rintro ⟨a, b⟩
          refine ⟨a, ?_⟩
          rcases List.mem_cons.mp b with b | b
          · exfalso
            injection b with b1 b2
            exact hc ⟨a, b1.symm, b2.symm⟩
          · exact b
        · rintro ⟨a, b⟩
          exact ⟨a, List.mem_cons_of_mem _ b⟩
      simp only [hmem, if_true, zero_add, and_self]

/-! ## Lemmas on the color-layer map -/

theorem find_assign_other (m : ColorLayersByUID) (uid other : UID) (c : CustomColorLayer)
    (hne : other ≠ uid) : (m.assign uid c).find other = m.find other := by
  have hb : (other == uid) = false := by simpa using hne
  induction m with
  | nil => simp [ColorLayersByUID.assign, ColorLayersByUID.find, List.lookup, hb]
  | cons e rest ih =>
    obtain ⟨k, v⟩ := e
    unfold ColorLayersByUID.assign
    by_cases h1 : uid < k
    · simp only [h1, if_true, ColorLayersByUID.find, List.lookup, hb]
    · by_cases h2 : uid = k
      · subst h2
        simp only [h1, if_false, if_true, ColorLayersByUID.find, List.lookup, hb]
      · simp only [h1, h2, if_false, ColorLayersByUID.find, List.lookup]
        cases other == k
        · exact ih
        · rfl

theorem find_erase_other (m : ColorLayersByUID) (uid other : UID) (hne : other ≠ uid) :
    (m.erase uid).find other = m.find other := by
  have hb : (other == uid) = false := by simpa using hne
  induction m with
  | nil => rfl
  | cons e rest ih =>
    obtain ⟨k, v⟩ := e
    unfold ColorLayersByUID.erase
    by_cases h2 : uid = k
    · subst h2
      simp only [if_true, ColorLayersByUID.find, List.lookup, hb]
    · simp only [h2, if_false, ColorLayersByUID.find, List.lookup]
      cases other == k
      · exact ih
      · rfl

theorem find_eq_none_of_lt (m : ColorLayersByUID) (uid : UID)
    (h : ∀ k ∈ m.map Prod.fst, uid < k) : m.find uid = none := by
  induction m with
  | nil => rfl
  | cons e rest ih =>
    obtain ⟨k, v⟩ := e
    have hk : uid < k := h k (by simp)
    have hb : (uid == k) = false := by
      have : uid ≠ k := ne_of_lt hk
      simpa using this
    simp only [ColorLayersByUID.find, List.lookup, hb]
    exact ih (fun x hx => h x (by simp only [List.map_cons, List.mem_cons]; exact Or.inr hx))

theorem find_erase_self (m : ColorLayersByUID) (uid : UID) (hw : m.WellFormed) :
    (m.erase uid).find uid = none := by
  induction m with
  | nil => rfl
  | cons e rest ih =>
    obtain ⟨k, v⟩ := e
    unfold ColorLayersByUID.WellFormed at hw
    simp only [List.map_cons, List.pairwise_cons] at hw
    unfold ColorLayersByUID.erase
    by_cases h2 : uid = k
    · subst h2
      simp only [if_true]
      exact find_eq_none_of_lt rest uid hw.1
    · have hb : (uid == k) = false := by simpa using h2
      simp only [h2, if_false, ColorLayersByUID.find, List.lookup, hb]
      exact ih hw.2

theorem keys_assign (m : ColorLayersByUID) (uid : UID) (c : CustomColorLayer) (x : UID) :
    x ∈ (m.assign uid c).map Prod.fst ↔ x = uid ∨ x ∈ m.map Prod.fst := by
  induction m with
  | nil => simp [ColorLayersByUID.assign]
  | cons e rest ih =>
    obtain ⟨k, v⟩ := e
    unfold ColorLayersByUID.assign
    by_cases h1 : uid < k
    · simp [h1]
    · by_cases h2 : uid = k
      · subst h2
        simp
      · simp only [h1, h2, if_false, List.map_cons, List.mem_cons, ih]
        tauto

theorem wellFormed_assign (m : ColorLayersByUID) (uid : UID) (c : CustomColorLayer)
    (hw : m.WellFormed) : (m.assign uid c).WellFormed := by
  induction m with
  | nil => simp [ColorLayersByUID.assign, ColorLayersByUID.WellFormed]
  | cons e rest ih =>
    obtain ⟨k, v⟩ := e
    unfold ColorLayersByUID.WellFormed at hw ih ⊢
    simp only [List.map_cons, List.pairwise_cons] at hw
    unfold ColorLayersByUID.assign
    by_cases h1 : uid < k
    · simp only [h1, if_true, List.map_cons, List.pairwise_cons, List.mem_cons]
      refine ⟨?_, hw.1, hw.2⟩
      rintro x (hx | hx)
      · rw [hx]
        exact h1
      · exact lt_trans h1 (hw.1 x hx)
    · by_cases h2 : uid = k
      · subst h2
        simp only [h1, if_false, if_true, List.map_cons, List.pairwise_cons]
        exact hw
      · simp only [h1, h2, if_false, List.map_cons, List.pairwise_cons]
        refine ⟨?_, ih hw.2⟩
        intro x hx
        rcases (keys_assign rest uid c x).mp hx with hx | hx
        · rw [hx]
          exact lt_of_le_of_ne (not_lt.mp h1) (Ne.symm h2)
        · exact hw.1 x hx

theorem keys_erase_subset (m : ColorLayersByUID) (uid : UID) (x : UID)
    (hx : x ∈ (m.erase uid).map Prod.fst) : x ∈ m.map Prod.fst := by
  induction m with
  | nil => exact hx
  | cons e rest ih =>
    obtain ⟨k, v⟩ := e
    unfold ColorLayersByUID.erase at hx
    by_cases h2 : uid = k
    · simp only [h2, if_true] at hx
      simp only [List.map_cons, List.mem_cons]
      exact Or.inr hx
    · simp only [h2, if_false, List.map_cons, List.mem_cons] at hx ⊢
      rcases hx with hx | hx
      · exact Or.inl hx
      · exact Or.inr (ih hx)

theorem wellFormed_erase (m : ColorLayersByUID) (uid : UID) (hw : m.WellFormed) :
    (m.erase uid).WellFormed := by
  induction m with
  | nil => exact hw
  | cons e rest ih =>
    obtain ⟨k, v⟩ := e
    unfold ColorLayersByUID.WellFormed at hw ih ⊢
    simp only [List.map_cons, List.pairwise_cons] at hw
    unfold ColorLayersByUID.erase
    by_cases h2 : uid = k
    · simp only [h2, if_true]
      exact hw.2
    · simp only [h2, if_false, List.map_cons, List.pairwise_cons]
      exact ⟨fun x hx => hw.1 x (keys_erase_subset rest uid x hx), ih hw.2⟩

theorem colorLayers_setCustomColorLayer (t : CustomTile) (c : CustomColorLayer) (w : Bool) :
    (t.setCustomColorLayer c w)._colorLayers = t._colorLayers.assign c.getUID c := by
  unfold setCustomColorLayer setCustomColorLayerUnlocked
  cases w <;> simp only [Bool.false_eq_true, if_true, if_false] <;> split_ifs <;> rfl

theorem colorLayers_removeCustomColorLayer (t : CustomTile) (uid : UID) (w : Bool) :
    (t.removeCustomColorLayer uid w)._colorLayers = t._colorLayers.erase uid := by
  have hnone : t._colorLayers.find uid = none → t._colorLayers.erase uid = t._colorLayers := by
    intro h
    generalize t._colorLayers = m at h
    induction m with
    | nil => rfl
    | cons e rest ih =>
      obtain ⟨k, v⟩ := e
      unfold ColorLayersByUID.erase
      by_cases h2 : uid = k
      · subst h2
        simp [ColorLayersByUID.find, List.lookup] at h
      · have hb : (uid == k) = false := by simpa using h2
        simp only [ColorLayersByUID.find, List.lookup, hb] at h
        simp only [h2, if_false]
        rw [ih h]
  have hu : (t.removeCustomColorLayerUnlocked uid)._colorLayers = t._colorLayers.erase uid := by
    unfold removeCustomColorLayerUnlocked
    cases hf : t._colorLayers.find uid with
    | none => simp only []; exact (hnone hf).symm
    | some old =>
      simp only []
      split_ifs <;> rfl
  unfold removeCustomColorLayer
  cases w <;> simp only [Bool.false_eq_true, if_true, if_false] <;> exact hu

theorem colorLayers_setCustomColorLayers (t : CustomTile) (m : ColorLayersByUID) (w : Bool) :
    (t.setCustomColorLayers m w)._colorLayers = m := by
  unfold setCustomColorLayers setCustomColorLayersUnlocked
  cases w <;> simp only [Bool.false_eq_true, if_true, if_false] <;> split_ifs <;> rfl

theorem getCustomColorLayerOut_eq (t : CustomTile) (uid : UID) (out : CustomColorLayer)
    (r : Bool) :
    t.getCustomColorLayerOut uid out r
      = match t._colorLayers.find uid with
        | some c => (true, c)
        | none => (false, out) := by
  unfold getCustomColorLayerOut
  cases r <;> rfl

theorem getCustomColorLayer_eq (t : CustomTile) (uid : UID) (r : Bool) :
    t.getCustomColorLayer uid r = t._colorLayers.find uid := by
  unfold getCustomColorLayer
  cases r <;> rfl

/-! ## Lemmas on the update-traversal count -/

theorem dynamicCount_cons (e : UID × CustomColorLayer) (m : ColorLayersByUID) :
    (ColorLayersByUID.dynamicCount (e :: m) : Int)
      = (if e.2.mapLayer.isDynamic then 1 else 0) + (ColorLayersByUID.dynamicCount m : Int) := by
  unfold ColorLayersByUID.dynamicCount
  rw [List.countP_cons]
  split
  · simp
    ring
  · simp

theorem dynamicCount_assign (m : ColorLayersByUID) (uid : UID) (c : CustomColorLayer)
    (hw : m.WellFormed) :
    ((m.assign uid c).dynamicCount : Int)
      = (m.dynamicCount : Int)
        + (match m.find uid with
           | some old => if old.mapLayer.isDynamic then -1 else 0
           | none => 0)
        + (if c.mapLayer.isDynamic then 1 else 0) := by
  induction m with
  | nil =>
    simp only [ColorLayersByUID.assign, ColorLayersByUID.find, List.lookup, dynamicCount_cons]
    simp [ColorLayersByUID.dynamicCount]
  | cons e rest ih =>
    obtain ⟨k, v⟩ := e
    have hw0 := hw
    unfold ColorLayersByUID.WellFormed at hw
    simp only [List.map_cons, List.pairwise_cons] at hw
    unfold ColorLayersByUID.assign
    by_cases h1 : uid < k
    · have hnone : ColorLayersByUID.find ((k, v) :: rest) uid = none := by
        apply find_eq_none_of_lt
        intro x hx
        simp only [List.map_cons, List.mem_cons] at hx
        rcases hx with hx | hx
        · rw [hx]
          exact h1
        · exact lt_trans h1 (hw.1 x hx)
      simp only [h1, if_true, hnone, dynamicCount_cons]
      ring
    · by_cases h2 : uid = k
      · subst h2
        have hsome : ColorLayersByUID.find ((uid, v) :: rest) uid = some v := by
          simp [ColorLayersByUID.find, List.lookup]
        simp only [h1, if_false, if_true, hsome, dynamicCount_cons]
        split <;> split <;> ring
      · have hb : (uid == k) = false := by simpa using h2
        have hfind : ColorLayersByUID.find ((k, v) :: rest) uid = ColorLayersByUID.find rest uid := by
          simp only [ColorLayersByUID.find, List.lookup, hb]
        simp only [h1, h2, if_false, hfind, dynamicCount_cons]
        rw [ih hw.2]
        ring

theorem dynamicCount_erase (m : ColorLayersByUID) (uid : UID) :
    ((m.erase uid).dynamicCount : Int)
      = (m.dynamicCount : Int)
        + (match m.find uid with
           | some old => if old.mapLayer.isDynamic then -1 else 0
           | none => 0) := by
  induction m with
  | nil => simp [ColorLayersByUID.erase, ColorLayersByUID.find, List.lookup]
  | cons e rest ih =>
    obtain ⟨k, v⟩ := e
    unfold ColorLayersByUID.erase
    by_cases h2 : uid = k
    · subst h2
      have hsome : ColorLayersByUID.find ((uid, v) :: rest) uid = some v := by
        simp [ColorLayersByUID.find, List.lookup]
      simp only [if_true, hsome, dynamicCount_cons]
      split <;> ring
    · have hb : (uid == k) = false := by simpa using h2
      have hfind : ColorLayersByUID.find ((k, v) :: rest) uid = ColorLayersByUID.find rest uid := by
        simp only [ColorLayersByUID.find, List.lookup, hb]
      simp only [h2, if_false, hfind, dynamicCount_cons]
      rw [ih]
      ring

theorem foldl_decrement (m : ColorLayersByUID) (d : Int) :
    m.foldl (fun d e => if e.2.mapLayer.isDynamic then d - 1 else d) d
      = d - (ColorLayersByUID.dynamicCount m : Int) := by
  induction m generalizing d with
  | nil => simp [ColorLayersByUID.dynamicCount]
  | cons e rest ih =>
    rw [List.foldl_cons, ih, dynamicCount_cons]
    split <;> ring

theorem foldl_increment (m : ColorLayersByUID) (d : Int) :
    m.foldl (fun d e => if e.2.mapLayer.isDynamic then d + 1 else d) d
      = d + (ColorLayersByUID.dynamicCount m : Int) := by
  induction m generalizing d with
  | nil => simp [ColorLayersByUID.dynamicCount]
  | cons e rest ih =>
    rw [List.foldl_cons, ih, dynamicCount_cons]
    split <;> ring

theorem travCount_setCustomColorLayer (t : CustomTile) (c : CustomColorLayer) (w : Bool) :
    (t.setCustomColorLayer c w)._updateTravCount
        = t._updateTravCount
          + (match t._colorLayers.find c.getUID with
             | some old => if old.mapLayer.isDynamic then -1 else 0
             | none => 0)
          + (if c.mapLayer.isDynamic then 1 else 0)
    ∧ (t.setCustomColorLayer c w)._hasBeenTraversed = t._hasBeenTraversed := by
  have hu : (t.setCustomColorLayerUnlocked c)._updateTravCount
        = t._updateTravCount
          + (match t._colorLayers.find c.getUID with
             | some old => if old.mapLayer.isDynamic then -1 else 0
             | none => 0)
          + (if c.mapLayer.isDynamic then 1 else 0)
      ∧ (t.setCustomColorLayerUnlocked c)._hasBeenTraversed = t._hasBeenTraversed := by
    unfold setCustomColorLayerUnlocked
    simp only []
    split_ifs with h1 h2 h3
    · refine ⟨?_, rfl⟩
      simp only [adjustUpdateTravCount]
      ring
    · refine ⟨?_, rfl⟩
      simp only [ne_eq, not_not] at h2
      show t._updateTravCount = _
      linarith
    · refine ⟨?_, rfl⟩
      simp only [adjustUpdateTravCount]
      ring
    · refine ⟨?_, rfl⟩
      simp only [ne_eq, not_not] at h3
      show t._updateTravCount = _
      linarith
  unfold setCustomColorLayer
  cases w <;> simp only [Bool.false_eq_true, if_true, if_false] <;> exact hu

theorem travCount_removeCustomColorLayer (t : CustomTile) (uid : UID) (w : Bool) :
    (t.removeCustomColorLayer uid w)._updateTravCount
        = t._updateTravCount
          + (match t._colorLayers.find uid with
             | some old => if old.mapLayer.isDynamic then -1 else 0
             | none => 0)
    ∧ (t.removeCustomColorLayer uid w)._hasBeenTraversed = t._hasBeenTraversed := by
  have hu : (t.removeCustomColorLayerUnlocked uid)._updateTravCount
        = t._updateTravCount
          + (match t._colorLayers.find uid with
             | some old => if old.mapLayer.isDynamic then -1 else 0
             | none => 0)
      ∧ (t.removeCustomColorLayerUnlocked uid)._hasBeenTraversed = t._hasBeenTraversed := by
    unfold removeCustomColorLayerUnlocked
    cases hf : t._colorLayers.find uid with
    | none => simp
    | some old =>
      simp only []
      split_ifs
      · exact ⟨rfl, rfl⟩
      · refine ⟨?_, rfl⟩
        show t._updateTravCount = _
        ring
  unfold removeCustomColorLayer
  cases w <;> simp only [Bool.false_eq_true, if_true, if_false] <;> exact hu

theorem travCount_setCustomColorLayers (t : CustomTile) (m : ColorLayersByUID) (w : Bool) :
    (t.setCustomColorLayers m w)._updateTravCount
        = t._updateTravCount - (t._colorLayers.dynamicCount : Int) + (m.dynamicCount : Int)
    ∧ (t.setCustomColorLayers m w)._hasBeenTraversed = t._hasBeenTraversed := by
  have hu : (t.setCustomColorLayersUnlocked m)._updateTravCount
        = t._updateTravCount - (t._colorLayers.dynamicCount : Int) + (m.dynamicCount : Int)
      ∧ (t.setCustomColorLayersUnlocked m)._hasBeenTraversed = t._hasBeenTraversed := by
    unfold setCustomColorLayersUnlocked
    simp only [foldl_decrement, foldl_increment]
    split_ifs with h1
    · refine ⟨?_, rfl⟩
      simp only [adjustUpdateTravCount]
      ring
    · refine ⟨?_, rfl⟩
      simp only [ne_eq, not_not] at h1
      show t._updateTravCount = _
      linarith
  unfold setCustomColorLayers
  cases w <;> simp only [Bool.false_eq_true, if_true, if_false] <;> exact hu

theorem travCountInvariant_new (key : TileKey) (hasElevation : Bool) (family : Family) :
    (CustomTile.new key hasElevation family).TravCountInvariant := by
  refine ⟨?_, ?_⟩
  · simp [CustomTile.new, ColorLayersByUID.WellFormed]
  · simp [CustomTile.new, ColorLayersByUID.dynamicCount]

theorem travCountInvariant_applyOp (t : CustomTile) (op : TileOp) (hop : op.WellFormed)
    (h : t.TravCountInvariant) : (t.applyOp op).TravCountInvariant := by
  obtain ⟨hw, hc⟩ := h
  cases op with
  | traverse v b =>
    simp only [applyOp]
    rw [traverse_eq]
    split
    · rename_i hreg
      refine ⟨hw, ?_⟩
      simp only [adjustUpdateTravCount, if_true]
      rw [hc, hreg.1]
      simp
    · exact ⟨hw, hc⟩
  | setCustomColorLayer c w =>
    simp only [applyOp]
    obtain ⟨h1, h2⟩ := travCount_setCustomColorLayer t c w
    refine ⟨?_, ?_⟩
    · rw [colorLayers_setCustomColorLayer]
      exact wellFormed_assign _ _ _ hw
    · rw [h1, h2, colorLayers_setCustomColorLayer, dynamicCount_assign _ _ _ hw, hc]
      ring
  | removeCustomColorLayer u w =>
    simp only [applyOp]
    obtain ⟨h1, h2⟩ := travCount_removeCustomColorLayer t u w
    refine ⟨?_, ?_⟩
    · rw [colorLayers_removeCustomColorLayer]
      exact wellFormed_erase _ _ hw
    · rw [h1, h2, colorLayers_removeCustomColorLayer, dynamicCount_erase, hc]
      ring
  | setCustomColorLayers m w =>
    simp only [applyOp]
    obtain ⟨h1, h2⟩ := travCount_setCustomColorLayers t m w
    refine ⟨?_, ?_⟩
    · rw [colorLayers_setCustomColorLayers]
      exact hop
    · rw [h1, h2, colorLayers_setCustomColorLayers, hc]
      ring

theorem travCountInvariant_applyOps (ops : List TileOp) (t : CustomTile)
    (hops : ∀ op ∈ ops, op.WellFormed) (h : t.TravCountInvariant) :
    (t.applyOps ops).TravCountInvariant := by
  induction ops generalizing t with
  | nil => exact h
  | cons op rest ih =>
    have e : t.applyOps (op :: rest) = (t.applyOp op).applyOps rest := rfl
    rw [e]
    exact ih _ (fun o ho => hops o (List.mem_cons_of_mem _ ho))
      (travCountInvariant_applyOp t op (hops op (List.mem_cons_self _ _)) h)

/-! ## Lemmas on a tile whose elevation is up to date -/

theorem scheduleElevationRequest_upToDate (t : CustomTile) (terrain : CustomTerrain)
    (stamp : Int) (hup : t._elevationLayerUpToDate = true) :
    t.scheduleElevationRequest terrain stamp = some (t, terrain) := by
  unfold scheduleElevationRequest
  simp [hup]

theorem serviceElevationRequests_upToDate (t : CustomTile) (skirtHeight : Rat)
    (hup : t._elevationLayerUpToDate = true) : t.serviceElevationRequests skirtHeight = t := by
  unfold serviceElevationRequests
  simp [hup]

theorem elevationView_installRequests (t : CustomTile) (terrain : CustomTerrain)
    (mapf : MapFrame) (stamp indeterminate : Int) :
    (t.installRequests terrain mapf stamp indeterminate).elevationView
      = (if t._elevationLayer.isSome = true then t.resetElevationRequests mapf indeterminate
         else t).elevationView := by
  unfold installRequests
  simp only []
  exact (view_foldl_updateImagery terrain mapf mapf.imageLayers _).1

/-! ## Lemmas on failed elevation attempts -/

theorem failedElevationRound_sample (k : Nat) (terrain : CustomTerrain) :
    failedElevationRound sampleMap false 0 0 10 (sampleFailingElevTile k .STATE_IDLE, terrain)
      = some (sampleFailingElevTile ((k + 1) % 2 ^ 32) .STATE_IDLE,
              { terrain with
                elevationService := terrain.elevationService ++
                  [.final ⟨5, 0, 0⟩
                    { toTaskRequest := { _state := .STATE_RUNNING, _stamp := 10, _priority := 5,
                                         _progress := {}, _result := none },
                      _numTries := k, _maxTries := 3 }] }) := by
  rfl

theorem failedElevationRounds_sample (n : Nat) (k : Nat) (terrain : CustomTerrain) :
    (failedElevationRounds sampleMap false 0 0 10 n
        (sampleFailingElevTile (k % 2 ^ 32) .STATE_IDLE, terrain)).map
      (fun s => (s.1, s.2.elevationService.length))
      = some (sampleFailingElevTile ((k + n) % 2 ^ 32) .STATE_IDLE,
              terrain.elevationService.length + n) := by
  induction n generalizing k terrain with
  | zero => rfl
  | succ n ih =>
    have hstep : failedElevationRounds sampleMap false 0 0 10 (n + 1)
        (sampleFailingElevTile (k % 2 ^ 32) .STATE_IDLE, terrain)
        = failedElevationRounds sampleMap false 0 0 10 n
            (sampleFailingElevTile ((k % 2 ^ 32 + 1) % 2 ^ 32) .STATE_IDLE,
              { terrain with
                elevationService := terrain.elevationService ++
                  [.final ⟨5, 0, 0⟩
                    { toTaskRequest := { _state := .STATE_RUNNING, _stamp := 10, _priority := 5,
                                         _progress := {}, _result := none },
                      _numTries := k % 2 ^ 32, _maxTries := 3 }] }) := by
      show (match failedElevationRound sampleMap false 0 0 10
              (sampleFailingElevTile (k % 2 ^ 32) .STATE_IDLE, terrain) with
            | none => none
            | some s1 => failedElevationRounds sampleMap false 0 0 10 n s1) = _
      rw [failedElevationRound_sample]
    have hk : (k % 2 ^ 32 + 1) % 2 ^ 32 = (k + 1) % 2 ^ 32 := by omega
    rw [hstep, hk, ih (k + 1)]
    have hk2 : (k + 1 + n) % 2 ^ 32 = (k + (n + 1)) % 2 ^ 32 := by
      congr 1
      omega
    rw [hk2]
    simp only [List.length_append, List.length_singleton]
    congr 2
    omega

/-! ## Lemmas on the installed flag -/

theorem installed_setCustomColorLayer (t : CustomTile) (c : CustomColorLayer) (w : Bool) :
    (t.setCustomColorLayer c w)._requestsInstalled = t._requestsInstalled := by
  unfold setCustomColorLayer setCustomColorLayerUnlocked
  cases w <;> simp only [Bool.false_eq_true, if_true, if_false] <;> split_ifs <;> rfl

theorem installed_serviceImageRequest (t : CustomTile) (mapf : MapFrame)
    (imageLayer : ImageLayer) (r : TileColorLayerRequest) :
    (t.serviceImageRequest mapf imageLayer r).1._requestsInstalled = t._requestsInstalled := by
  unfold serviceImageRequest
  repeat' split
  all_goals first
    | rfl
    | simp only [queueTileUpdate_eq, installed_setCustomColorLayer]

theorem installed_imageRequestsLoop (mapf : MapFrame) (imageLayer : ImageLayer)
    (t : CustomTile) (l : List TileColorLayerRequest) :
    (imageRequestsLoop mapf imageLayer t l).1._requestsInstalled = t._requestsInstalled := by
  induction l generalizing t with
  | nil => rfl
  | cons r rest ih =>
    simp only [imageRequestsLoop]
    rw [ih, installed_serviceImageRequest]

theorem installed_checkImageLayer (t t1 : CustomTile) (terrain : CustomTerrain)
    (imageLayer : ImageLayer) (b : Bool) (h : t.checkImageLayer terrain imageLayer = some (t1, b)) :
    t1._requestsInstalled = t._requestsInstalled := by
  unfold checkImageLayer at h
  repeat' split at h
  all_goals
    cases h
    try first
      | rfl
      | simp only [queueTileUpdate_eq, installed_setCustomColorLayer]

theorem installed_serviceImageLayer (t t1 : CustomTile) (terrain : CustomTerrain)
    (mapf : MapFrame) (imageLayer : ImageLayer)
    (h : t.serviceImageLayer terrain mapf imageLayer = some t1) :
    t1._requestsInstalled = t._requestsInstalled := by
  unfold serviceImageLayer at h
  split at h
  · cases h
  · rename_i t2 b hc
    have h2 := installed_checkImageLayer t t2 terrain imageLayer b hc
    split at h
    · cases h
      rw [← h2, ← installed_imageRequestsLoop mapf imageLayer t2 t2._requests]
    · cases h
      exact h2

theorem installed_serviceImagery (terrain : CustomTerrain) (mapf : MapFrame)
    (ls : List ImageLayer) (t t1 : CustomTile)
    (h : serviceImagery terrain mapf t ls = some t1) :
    t1._requestsInstalled = t._requestsInstalled := by
  induction ls generalizing t with
  | nil =>
    simp only [serviceImagery, Option.some.injEq] at h
    subst h; rfl
  | cons l rest ih =>
    simp only [serviceImagery] at h
    split at h
    · cases h
    · rename_i t2 h2
      rw [ih t2 h, installed_serviceImageLayer t t2 terrain mapf l h2]

theorem installed_serviceTileGenerator (t : CustomTile) :
    t.serviceTileGenerator.1._requestsInstalled = t._requestsInstalled := by
  unfold serviceTileGenerator
  repeat' split
  all_goals rfl

theorem installed_serviceElevationRequests (t : CustomTile) (skirtHeight : Rat) :
    (t.serviceElevationRequests skirtHeight)._requestsInstalled = t._requestsInstalled := by
  unfold serviceElevationRequests
  repeat' split
  all_goals rfl

theorem installed_queueTileGenRequest (t : CustomTile) (terrain : CustomTerrain) :
    (t.queueTileGenRequest terrain).1._requestsInstalled = t._requestsInstalled := by
  unfold queueTileGenRequest
  split <;> rfl

/-! ## Lemmas on the activity of the elevation requests -/

theorem oneActive_congr (t t1 : CustomTile) (hv : t1.elevationView = t.elevationView)
    (hi : t1._requestsInstalled = t._requestsInstalled) (h : t.OneActiveInvariant) :
    t1.OneActiveInvariant := by
  simp only [elevationView, Prod.mk.injEq] at hv
  obtain ⟨_, _, _, _, _, h6, h7⟩ := hv
  unfold OneActiveInvariant
  rw [h6, h7, hi]
  exact h

theorem oneActive_new (key : TileKey) (hasElevation : Bool) (family : Family) :
    (CustomTile.new key hasElevation family).OneActiveInvariant := by
  refine ⟨fun _ _ h _ => (by cases h), ?_⟩
  rintro (h | h) <;> cases h

theorem oneActive_installRequests (t : CustomTile) (terrain : CustomTerrain) (mapf : MapFrame)
    (stamp indeterminate : Int)
    (h : t._elevationLayer.isSome = true ∨ t.OneActiveInvariant) :
    (t.installRequests terrain mapf stamp indeterminate).OneActiveInvariant := by
  have hv := elevationView_installRequests t terrain mapf stamp indeterminate
  simp only [elevationView, Prod.mk.injEq] at hv
  obtain ⟨_, _, _, _, _, h6, h7⟩ := hv
  refine ⟨?_, fun _ => rfl⟩
  rw [h6, h7]
  by_cases hl : t._elevationLayer.isSome = true
  · simp only [hl, if_true]
    intro er pr h1 _
    simp only [resetElevationRequests, Option.some.injEq] at h1
    subst h1
    exact Or.inl rfl
  · simp only [hl, if_false]
    rcases h with h | h
    · exact absurd h hl
    · exact h.1

theorem scheduleElevationRequest_cases (t t1 : CustomTile) (terrain terrain1 : CustomTerrain)
    (stamp : Int) (hs : t.scheduleElevationRequest terrain stamp = some (t1, terrain1)) :
    t1._requestsInstalled = t._requestsInstalled
    ∧ ((t1 = t ∧ terrain1 = terrain)
      ∨ (∃ er, t._elevRequest = some er ∧ er.isIdle = false ∧ terrain1 = terrain
          ∧ t1 = { t with _elevRequest := some { er with toTaskRequest := er.setStamp stamp } })
      ∨ (∃ er pr, t._elevRequest = some er ∧ t._elevPlaceholderRequest = some pr
          ∧ er.isIdle = true ∧ pr.isIdle = false ∧ terrain1 = terrain
          ∧ t1 = { t with _elevPlaceholderRequest :=
                      some { pr with toTaskRequest := pr.setStamp stamp } })
      ∨ (∃ er pr er1, t._elevRequest = some er ∧ t._elevPlaceholderRequest = some pr
          ∧ er.isIdle = true ∧ pr.isIdle = true ∧ er1.isIdle = false
          ∧ t1 = { t with _elevRequest := some er1 }
          ∧ terrain1 = { terrain with
              elevationService := terrain.elevationService ++ [.final t._key er1] })
      ∨ (∃ er pr pr1, t._elevRequest = some er ∧ t._elevPlaceholderRequest = some pr
          ∧ er.isIdle = true ∧ pr.isIdle = true ∧ pr1.isIdle = false
          ∧ t1 = { t with _elevPlaceholderRequest := some pr1 }
          ∧ terrain1 = { terrain with
              elevationService := terrain.elevationService ++ [.placeholder t._key pr1] })) := by
  unfold scheduleElevationRequest at hs
  split at hs
  · rename_i er pr _ her hpr
    by_cases heidle : er.isIdle = true
    · simp only [heidle, Bool.not_true, Bool.false_eq_true, if_false] at hs
      by_cases hpidle : pr.isIdle = true
      · simp only [hpidle, Bool.not_true, Bool.false_eq_true, if_false] at hs
        split at hs
        · split at hs
          · simp only [Option.some.injEq, Prod.mk.injEq] at hs
            obtain ⟨hs1, hs2⟩ := hs
            subst hs1 hs2
            refine ⟨rfl, Or.inr (Or.inr (Or.inr (Or.inl
              ⟨er, pr, _, her, hpr, heidle, hpidle, ?_, rfl, rfl⟩)))⟩
            rfl
          · split at hs
            · split at hs
              · split at hs
                · cases hs
                · simp only [Option.some.injEq, Prod.mk.injEq] at hs
                  obtain ⟨hs1, hs2⟩ := hs
                  subst hs1 hs2
                  refine ⟨rfl, Or.inr (Or.inr (Or.inr (Or.inr
                    ⟨er, pr, _, her, hpr, heidle, hpidle, ?_, rfl, rfl⟩)))⟩
                  rfl
              · simp only [Option.some.injEq, Prod.mk.injEq] at hs
                obtain ⟨hs1, hs2⟩ := hs
                subst hs1 hs2
                exact ⟨rfl, Or.inl ⟨rfl, rfl⟩⟩
            · simp only [Option.some.injEq, Prod.mk.injEq] at hs
              obtain ⟨hs1, hs2⟩ := hs
              subst hs1 hs2
              exact ⟨rfl, Or.inl ⟨rfl, rfl⟩⟩
        · simp only [Option.some.injEq, Prod.mk.injEq] at hs
          obtain ⟨hs1, hs2⟩ := hs
          subst hs1 hs2
          exact ⟨rfl, Or.inl ⟨rfl, rfl⟩⟩
      · have hpf : pr.isIdle = false := by
          cases hp : pr.isIdle
          · rfl
          · exact absurd hp hpidle
        simp only [hpf, Bool.not_false, if_true] at hs
        split at hs
        · simp only [Option.some.injEq, Prod.mk.injEq] at hs
          obtain ⟨hs1, hs2⟩ := hs
          subst hs1 hs2
          exact ⟨rfl, Or.inr (Or.inr (Or.inl ⟨er, pr, her, hpr, heidle, hpf, rfl, rfl⟩))⟩
        · simp only [Option.some.injEq, Prod.mk.injEq] at hs
          obtain ⟨hs1, hs2⟩ := hs
          subst hs1 hs2
          exact ⟨rfl, Or.inl ⟨rfl, rfl⟩⟩
    · have hef : er.isIdle = false := by
        cases he : er.isIdle
        · rfl
        · exact absurd he heidle
      simp only [hef, Bool.not_false, if_true] at hs
      split at hs
      · simp only [Option.some.injEq, Prod.mk.injEq] at hs
        obtain ⟨hs1, hs2⟩ := hs
        subst hs1 hs2
        exact ⟨rfl, Or.inr (Or.inl ⟨er, her, hef, rfl, rfl⟩)⟩
      · simp only [Option.some.injEq, Prod.mk.injEq] at hs
        obtain ⟨hs1, hs2⟩ := hs
        subst hs1 hs2
        exact ⟨rfl, Or.inl ⟨rfl, rfl⟩⟩
  · simp only [Option.some.injEq, Prod.mk.injEq] at hs
    obtain ⟨hs1, hs2⟩ := hs
    subst hs1 hs2
    exact ⟨rfl, Or.inl ⟨rfl, rfl⟩⟩

theorem oneActive_scheduleElevationRequest (t t1 : CustomTile) (terrain terrain1 : CustomTerrain)
    (stamp : Int) (h : t.OneActiveInvariant)
    (hs : t.scheduleElevationRequest terrain stamp = some (t1, terrain1)) :
    t1.OneActiveInvariant := by
  obtain ⟨hi, hc⟩ := scheduleElevationRequest_cases t t1 terrain terrain1 stamp hs
  obtain ⟨h1, h2⟩ := h
  rcases hc with ⟨e, _⟩ | ⟨er, her, hef, _, e⟩ | ⟨er, pr, her, hpr, hei, hpf, _, e⟩
      | ⟨er, pr, er1, her, hpr, hei, hpi, _, e, _⟩ | ⟨er, pr, pr1, her, hpr, hei, hpi, _, e, _⟩
  · rw [e]
    exact ⟨h1, h2⟩
  · subst e
    refine ⟨?_, fun _ => h2 (Or.inl (by rw [her]; rfl))⟩
    intro er2 pr2 _ hp2
    rcases h1 er pr2 her hp2 with h | h
    · rw [hef] at h
      cases h
    · exact Or.inr h
  · subst e
    refine ⟨?_, fun _ => h2 (Or.inl (by rw [her]; rfl))⟩
    intro er2 pr2 he2 _
    rw [her] at he2
    cases he2
    exact Or.inl hei
  · subst e
    refine ⟨?_, fun _ => h2 (Or.inl (by rw [her]; rfl))⟩
    intro er2 pr2 _ hp2
    rw [hpr] at hp2
    cases hp2
    exact Or.inr hpi
  · subst e
    refine ⟨?_, fun _ => h2 (Or.inl (by rw [her]; rfl))⟩
    intro er2 pr2 he2 _
    rw [her] at he2
    cases he2
    exact Or.inl hei

theorem oneActive_servicePendingElevationRequests (t t1 : CustomTile)
    (terrain terrain1 : CustomTerrain) (mapf : MapFrame) (stamp : Int) (locked : Bool)
    (indeterminate : Int) (h : t.OneActiveInvariant)
    (hs : t.servicePendingElevationRequests terrain mapf stamp locked indeterminate
            = some (t1, terrain1)) :
    t1.OneActiveInvariant := by
  unfold servicePendingElevationRequests at hs
  split at hs
  · cases hs
    exact h
  · split at hs
    · exact oneActive_scheduleElevationRequest _ t1 terrain terrain1 stamp
        (oneActive_installRequests t terrain mapf stamp indeterminate (Or.inr h)) hs
    · exact oneActive_scheduleElevationRequest t t1 terrain terrain1 stamp h hs

theorem oneActive_servicePendingImageRequests (t : CustomTile) (terrain : CustomTerrain)
    (mapf : MapFrame) (stamp indeterminate : Int) (h : t.OneActiveInvariant) :
    (t.servicePendingImageRequests terrain mapf stamp indeterminate).1.OneActiveInvariant := by
  unfold servicePendingImageRequests
  split
  · exact h
  · simp only []
    split
    · exact oneActive_congr _ _ rfl rfl
        (oneActive_installRequests t terrain mapf stamp indeterminate (Or.inr h))
    · exact oneActive_congr _ _ rfl rfl h

theorem oneActive_serviceElevationRequests (t : CustomTile) (skirtHeight : Rat)
    (h : t.OneActiveInvariant) : (t.serviceElevationRequests skirtHeight).OneActiveInvariant := by
  obtain ⟨h1, h2⟩ := h
  unfold serviceElevationRequests
  split
  · rename_i er pr _ her hpr
    have hinst : t._requestsInstalled = true := h2 (Or.inl (by rw [her]; rfl))
    have hk := h1 er pr her hpr
    repeat' split
    all_goals first
      | exact ⟨h1, h2⟩
      | (refine ⟨?_, fun _ => hinst⟩
         intro er2 pr2 he2 hp2
         simp only [queueTileUpdate_eq, Option.some.injEq] at he2 hp2
         first
           | (subst he2; exact Or.inl rfl)
           | (subst hp2; exact Or.inr rfl))
  · exact ⟨h1, h2⟩

theorem installed_serviceCompletedRequests (t : CustomTile) (terrain : CustomTerrain)
    (mapf : MapFrame) (locked : Bool) (skirtHeight : Rat)
    (out : CustomTile × CustomTerrain × Bool)
    (h : t.serviceCompletedRequests terrain mapf locked skirtHeight = some out) :
    out.1._requestsInstalled = t._requestsInstalled := by
  unfold serviceCompletedRequests at h
  split at h
  · cases h
    rfl
  · split at h
    · cases h
      rfl
    · simp only [] at h
      cases h2 : serviceImagery terrain mapf t.serviceTileGenerator.1 mapf.imageLayers with
      | none => rw [h2] at h; cases h
      | some t2 =>
        rw [h2] at h
        cases h
        rw [installed_queueTileGenRequest, installed_serviceElevationRequests,
          installed_serviceImagery terrain mapf _ _ _ h2, installed_serviceTileGenerator]

theorem oneActive_step (t t1 : CustomTile) (h : t.OneActiveInvariant)
    (hs : UpdateStep t t1) : t1.OneActiveInvariant := by
  cases hs with
  | pendingElevation _ terrain terrain1 mapf stamp locked indeterminate hp =>
    exact oneActive_servicePendingElevationRequests t t1 terrain terrain1 mapf stamp locked
      indeterminate h hp
  | pendingImage terrain mapf stamp indeterminate =>
    exact oneActive_servicePendingImageRequests t terrain mapf stamp indeterminate h
  | runFinal er produced h1 h2 =>
    obtain ⟨ha, hb⟩ := h
    refine ⟨?_, fun _ => hb (Or.inl (by rw [h1]; rfl))⟩
    intro er1 pr1 _ hpr
    rcases ha er pr1 h1 hpr with hk | hk
    · rw [isIdle_false_of_isRunning er.toTaskRequest h2] at hk
      cases hk
    · exact Or.inr hk
  | runPlaceholder pr produced h1 h2 =>
    obtain ⟨ha, hb⟩ := h
    refine ⟨?_, fun _ => hb (Or.inr (by rw [h1]; rfl))⟩
    intro er1 pr1 he _
    rcases ha er1 pr he h1 with hk | hk
    · exact Or.inl hk
    · rw [isIdle_false_of_isRunning pr.toTaskRequest h2] at hk
      cases hk
  | runImage before after r mapf produced canceledDuring h1 h2 =>
    exact oneActive_congr _ _ rfl rfl h
  | runTileGen =>
    have e : t.executeTileGenRequest.elevationView = t.elevationView
        ∧ t.executeTileGenRequest._requestsInstalled = t._requestsInstalled := by
      unfold executeTileGenRequest tileGenRequestRun
      repeat' split
      all_goals exact ⟨rfl, rfl⟩
    exact oneActive_congr _ _ e.1 e.2 h
  | completed _ terrain terrain1 mapf locked skirtHeight modified hc =>
    have hi := installed_serviceCompletedRequests t terrain mapf locked skirtHeight _ hc
    obtain ⟨_, hv⟩ := serviceCompletedRequests_view t terrain mapf locked skirtHeight _ hc
    rcases hv with hv | hv
    · exact oneActive_congr _ _ hv hi h
    · exact oneActive_congr _ _ hv
        (hi.trans (installed_serviceElevationRequests t skirtHeight).symm)
        (oneActive_serviceElevationRequests t skirtHeight h)

theorem oneActive_reachable (t0 t : CustomTile) (h : t0.OneActiveInvariant)
    (hr : Reachable t0 t) : t.OneActiveInvariant := by
  induction hr with
  | refl => exact h
  | tail _ hstep ih => exact oneActive_step _ _ ih hstep

/-! ## Lemmas on a successful imagery request -/

theorem serviceImageRequest_success (t : CustomTile) (mapf : MapFrame) (imageLayer : ImageLayer)
    (r : TileColorLayerRequest) (res : CustomColorLayerRef) (hl : imageLayer ∈ mapf.imageLayers)
    (huid : r._layerUID = imageLayer.getUID) (hdone : r.isCompleted = true)
    (hnc : r.wasCanceled = false) (hres : r.getResult = some res) :
    t.serviceImageRequest mapf imageLayer r
      = ((t.setCustomColorLayer res._layer).queueTileUpdate .UPDATE_IMAGE_LAYER r._layerUID,
         none) := by
  obtain ⟨l, hfound⟩ := getImageLayerByUID_of_mem mapf imageLayer hl
  simp [serviceImageRequest, huid, hdone, hnc, hres, hfound]

theorem imageRequestsLoop_success (mapf : MapFrame) (imageLayer : ImageLayer) (t : CustomTile)
    (l : List TileColorLayerRequest) (r : TileColorLayerRequest) (res : CustomColorLayerRef)
    (hu : UniqueLayers l) (hr : r ∈ l) (hl : imageLayer ∈ mapf.imageLayers)
    (huid : r._layerUID = imageLayer.getUID) (hdone : r.isCompleted = true)
    (hnc : r.wasCanceled = false) (hres : r.getResult = some res) :
    imageRequestsLoop mapf imageLayer t l
      = ((t.setCustomColorLayer res._layer).queueTileUpdate .UPDATE_IMAGE_LAYER r._layerUID,
         l.filter (fun x => decide (x._layerUID ≠ r._layerUID))) := by
  induction l with
  | nil => cases hr
  | cons x rest ih =>
    unfold UniqueLayers at hu
    simp only [List.map_cons, List.nodup_cons, List.mem_map, not_exists, not_and] at hu
    obtain ⟨hx, hrest⟩ := hu
    rcases List.mem_cons.mp hr with hxr | hmem
    · subst hxr
      have hothers : ∀ y ∈ rest, y._layerUID ≠ imageLayer.getUID := by
        intro y hy h
        exact hx y hy (by rw [h, huid])
      have hstep := serviceImageRequest_success t mapf imageLayer r res hl huid hdone hnc hres
      simp only [imageRequestsLoop, hstep, Option.toList, List.nil_append]
      rw [imageRequestsLoop_skip mapf imageLayer _ rest hothers]
      have hf : rest.filter (fun y => !decide (y._layerUID = r._layerUID)) = rest := by
        rw [List.filter_eq_self]
        intro y hy
        have := hx y hy
        simpa using this
      simp [List.filter_cons, hf]
    · have hne : x._layerUID ≠ r._layerUID := fun h => hx r hmem h.symm
      have hstep := serviceImageRequest_other_layer t mapf imageLayer x
        (by rw [← huid]; exact hne)
      simp only [imageRequestsLoop, hstep, Option.toList, List.singleton_append]
      rw [ih hrest hmem]
      simp [List.filter_cons, hne]

/-! ## Lemmas on the monotonic refinement -/

/-- What the scheduling block does, with the tests that guard a submission. -/
theorem scheduleElevationRequest_submits (t t1 : CustomTile) (terrain terrain1 : CustomTerrain)
    (stamp : Int) (hs : t.scheduleElevationRequest terrain stamp = some (t1, terrain1)) :
    (t1.elevationView = t.elevationView ∧ t1._family = t._family)
    ∨ (∃ er er1, t._elevRequest = some er ∧ er.isIdle = false ∧ er1.isIdle = false
        ∧ t1 = { t with _elevRequest := some er1 })
    ∨ (∃ er pr pr1, t._elevRequest = some er ∧ t._elevPlaceholderRequest = some pr
        ∧ er.isIdle = true ∧ pr.isIdle = false ∧ pr1.isIdle = false
        ∧ pr1._nextLOD = pr._nextLOD
        ∧ t1 = { t with _elevPlaceholderRequest := some pr1 })
    ∨ (∃ er pr er1, t._elevRequest = some er ∧ t._elevPlaceholderRequest = some pr
        ∧ er.isIdle = true ∧ pr.isIdle = true ∧ er1.isIdle = false
        ∧ t.readyForNewElevation = true ∧ t._elevationLOD + 1 = t.keyLOD
        ∧ t1 = { t with _elevRequest := some er1 })
    ∨ (∃ er pr pr1, t._elevRequest = some er ∧ t._elevPlaceholderRequest = some pr
        ∧ er.isIdle = true ∧ pr.isIdle = true ∧ pr1.isIdle = false
        ∧ t.readyForNewElevation = true
        ∧ t._elevationLOD < (t._family.get .PARENT).elevLOD
        ∧ pr1._nextLOD = (t._family.get .PARENT).elevLOD
        ∧ t1 = { t with _elevPlaceholderRequest := some pr1 }) := by
  unfold scheduleElevationRequest at hs
  split at hs
  · rename_i er pr _ her hpr
    by_cases heidle : er.isIdle = true
    · simp only [heidle, Bool.not_true, Bool.false_eq_true, if_false] at hs
      by_cases hpidle : pr.isIdle = true
      · simp only [hpidle, Bool.not_true, Bool.false_eq_true, if_false] at hs
        by_cases hready : t.readyForNewElevation = true
        · simp only [hready, if_true] at hs
          by_cases hfinal : t._elevationLOD + 1 = t.keyLOD
          · simp only [hfinal, if_true, Option.some.injEq, Prod.mk.injEq] at hs
            obtain ⟨hs1, _⟩ := hs
            subst hs1
            refine Or.inr (Or.inr (Or.inr (Or.inl
              ⟨er, pr, _, her, hpr, heidle, hpidle, ?_, hready, hfinal, rfl⟩)))
            rfl
          · simp only [hfinal, if_false] at hs
            by_cases hgt : (t._family.get .PARENT).elevLOD > t._elevationLOD
            · simp only [hgt, if_true] at hs
              simp only [decide_True] at hs
              cases hpt : terrain.getCustomTile (t._family.get .PARENT).tileID with
              | none =>
                rw [hpt] at hs
                simp only [Option.some.injEq, Prod.mk.injEq] at hs
                obtain ⟨hs1, _⟩ := hs
                subst hs1
                exact Or.inl ⟨rfl, rfl⟩
              | some parent =>
                rw [hpt] at hs
                simp only [] at hs
                cases hl : parent._elevationLayer with
                | none => rw [hl] at hs; cases hs
                | some hfLayer =>
                  rw [hl] at hs
                  simp only [Option.some.injEq, Prod.mk.injEq] at hs
                  obtain ⟨hs1, _⟩ := hs
                  subst hs1
                  refine Or.inr (Or.inr (Or.inr (Or.inr
                    ⟨er, pr, _, her, hpr, heidle, hpidle, ?_, hready, hgt, ?_, rfl⟩)))
                  · rfl
                  · rfl
            · simp only [hgt, if_false, Option.some.injEq, Prod.mk.injEq] at hs
              obtain ⟨hs1, _⟩ := hs
              subst hs1
              exact Or.inl ⟨rfl, rfl⟩
        · simp only [hready, Bool.false_eq_true, if_false, Option.some.injEq,
            Prod.mk.injEq] at hs
          obtain ⟨hs1, _⟩ := hs
          subst hs1
          exact Or.inl ⟨rfl, rfl⟩
      · have hpf : pr.isIdle = false := by
          cases hv : pr.isIdle
          · rfl
          · exact absurd hv hpidle
        simp only [hpf, Bool.not_false, if_true] at hs
        split at hs
        · simp only [Option.some.injEq, Prod.mk.injEq] at hs
          obtain ⟨hs1, _⟩ := hs
          subst hs1
          refine Or.inr (Or.inr (Or.inl ⟨er, pr, _, her, hpr, heidle, hpf, ?_, ?_, rfl⟩))
          · exact hpf
          · rfl
        · simp only [Option.some.injEq, Prod.mk.injEq] at hs
          obtain ⟨hs1, _⟩ := hs
          subst hs1
          exact Or.inl ⟨rfl, rfl⟩
    · have hef : er.isIdle = false := by
        cases hv : er.isIdle
        · rfl
        · exact absurd hv heidle
      simp only [hef, Bool.not_false, if_true] at hs
      split at hs
      · simp only [Option.some.injEq, Prod.mk.injEq] at hs
        obtain ⟨hs1, _⟩ := hs
        subst hs1
        refine Or.inr (Or.inl ⟨er, _, her, hef, ?_, rfl⟩)
        exact hef
      · simp only [Option.some.injEq, Prod.mk.injEq] at hs
        obtain ⟨hs1, _⟩ := hs
        subst hs1
        exact Or.inl ⟨rfl, rfl⟩
  · simp only [Option.some.injEq, Prod.mk.injEq] at hs
    obtain ⟨hs1, _⟩ := hs
    subst hs1
    exact Or.inl ⟨rfl, rfl⟩

theorem monotone_congr (t t1 : CustomTile) (hv : t1.elevationView = t.elevationView)
    (h : t.MonotoneInvariant) : t1.MonotoneInvariant := by
  simp only [elevationView, Prod.mk.injEq] at hv
  obtain ⟨h1, _, _, h4, _, h6, h7⟩ := hv
  unfold MonotoneInvariant keyLOD
  rw [h1, h4, h6, h7]
  exact h

theorem monotone_of_idle (t : CustomTile) (h : t.ElevationRequestsIdle) :
    t.MonotoneInvariant := by
  refine ⟨fun er _ he _ => Or.inl (h.1 er he), fun er he hf => ?_, fun pr hp hf => ?_⟩
  · rw [h.1 er he] at hf
    cases hf
  · rw [h.2 pr hp] at hf
    cases hf

theorem requestsIdle_new (key : TileKey) (hasElevation : Bool) (family : Family) :
    (CustomTile.new key hasElevation family).ElevationRequestsIdle :=
  ⟨fun _ h => (by cases h), fun _ h => (by cases h)⟩

theorem requestsIdle_installRequests (t : CustomTile) (terrain : CustomTerrain)
    (mapf : MapFrame) (stamp indeterminate : Int)
    (h : t._elevationLayer.isSome = true ∨ t.ElevationRequestsIdle) :
    (t.installRequests terrain mapf stamp indeterminate).ElevationRequestsIdle := by
  have hv := elevationView_installRequests t terrain mapf stamp indeterminate
  simp only [elevationView, Prod.mk.injEq] at hv
  obtain ⟨_, _, _, _, _, h6, h7⟩ := hv
  unfold ElevationRequestsIdle
  rw [h6, h7]
  by_cases hl : t._elevationLayer.isSome = true
  · simp only [hl, if_true]
    constructor
    · intro er he
      simp only [resetElevationRequests, Option.some.injEq] at he
      subst he
      rfl
    · intro pr hp
      simp only [resetElevationRequests, Option.some.injEq] at hp
      subst hp
      rfl
  · simp only [hl, if_false]
    rcases h with h | h
    · exact absurd h hl
    · exact h

theorem monotone_installRequests (t : CustomTile) (terrain : CustomTerrain)
    (mapf : MapFrame) (stamp indeterminate : Int) (h : t.MonotoneInvariant) :
    (t.installRequests terrain mapf stamp indeterminate).MonotoneInvariant := by
  by_cases hl : t._elevationLayer.isSome = true
  · exact monotone_of_idle _
      (requestsIdle_installRequests t terrain mapf stamp indeterminate (Or.inl hl))
  · apply monotone_congr _ _ _ h
    rw [elevationView_installRequests, if_neg hl]

theorem monotone_scheduleElevationRequest (t t1 : CustomTile) (terrain terrain1 : CustomTerrain)
    (stamp : Int) (h : t.MonotoneInvariant)
    (hs : t.scheduleElevationRequest terrain stamp = some (t1, terrain1)) :
    t1.MonotoneInvariant := by
  obtain ⟨ha, hb, hc⟩ := h
  rcases scheduleElevationRequest_submits t t1 terrain terrain1 stamp hs with
      ⟨hv, _⟩ | ⟨er, er1, her, hef, hef1, e⟩ | ⟨er, pr, pr1, her, hpr, hei, hpf, hpf1, hn, e⟩
      | ⟨er, pr, er1, her, hpr, hei, hpi, hef1, _, hfin, e⟩
      | ⟨er, pr, pr1, her, hpr, hei, hpi, hpf1, _, hlt, hn, e⟩
  · exact monotone_congr _ _ hv ⟨ha, hb, hc⟩
  · subst e
    refine ⟨?_, fun _ _ _ => hb er her hef, hc⟩
    intro er2 pr2 _ hp2
    rcases ha er pr2 her hp2 with h | h
    · rw [hef] at h
      cases h
    · exact Or.inr h
  · subst e
    refine ⟨?_, hb, ?_⟩
    · intro er2 pr2 he2 _
      rw [her] at he2
      cases he2
      exact Or.inl hei
    · intro pr2 hp2 _
      simp only [Option.some.injEq] at hp2
      subst hp2
      rw [hn]
      exact hc pr hpr hpf
  · subst e
    refine ⟨?_, fun _ _ _ => ?_, hc⟩
    · intro er2 pr2 _ hp2
      rw [hpr] at hp2
      cases hp2
      exact Or.inr hpi
    · show t._elevationLOD ≤ t.keyLOD
      omega
  · subst e
    refine ⟨?_, hb, ?_⟩
    · intro er2 pr2 he2 _
      rw [her] at he2
      cases he2
      exact Or.inl hei
    · intro pr2 hp2 _
      simp only [Option.some.injEq] at hp2
      subst hp2
      rw [hn]
      exact hlt

theorem monotone_serviceElevationRequests (t : CustomTile) (skirtHeight : Rat)
    (h : t.MonotoneInvariant) :
    (t.serviceElevationRequests skirtHeight).MonotoneInvariant
    ∧ t._elevationLOD ≤ (t.serviceElevationRequests skirtHeight)._elevationLOD := by
  obtain ⟨ha, hb, hc⟩ := h
  unfold serviceElevationRequests
  split
  · rename_i er pr _ her hpr
    have hk := ha er pr her hpr
    by_cases hed : er.isCompleted = true
    · have hef := isIdle_false_of_isCompleted er.toTaskRequest hed
      have hpi : pr.isIdle = true := by
        rcases hk with h | h
        · rw [hef] at h
          cases h
        · exact h
      have hle := hb er her hef
      simp only [hed, if_true]
      repeat' split
      all_goals first
        | (refine ⟨⟨?_, ?_, ?_⟩, le_refl _⟩
           · intro er2 pr2 he2 hp2
             simp only [Option.some.injEq] at he2
             subst he2
             exact Or.inl rfl
           · intro er2 he2 hf
             simp only [Option.some.injEq] at he2
             subst he2
             cases hf
           · exact hc)
        | (refine ⟨⟨?_, ?_, ?_⟩, hle⟩
           · intro er2 pr2 _ hp2
             simp only [queueTileUpdate_eq] at hp2
             rw [hpr] at hp2
             cases hp2
             exact Or.inr hpi
           · intro _ _ _
             exact le_refl _
           · intro pr2 hp2 hf
             simp only [queueTileUpdate_eq] at hp2
             rw [hpr] at hp2
             cases hp2
             rw [hpi] at hf
             cases hf)
    · have hedf : er.isCompleted = false := by
        cases hv : er.isCompleted
        · rfl
        · exact absurd hv hed
      simp only [hedf, Bool.false_eq_true, if_false]
      by_cases hpd : pr.isCompleted = true
      · have hpf := isIdle_false_of_isCompleted pr.toTaskRequest hpd
        have hei : er.isIdle = true := by
          rcases hk with h | h
          · exact h
          · rw [hpf] at h
            cases h
        have hlt := hc pr hpr hpf
        simp only [hpd, if_true]
        repeat' split
        all_goals first
          | (refine ⟨⟨?_, ?_, ?_⟩, le_refl _⟩
             · intro er2 pr2 he2 _
               rw [her] at he2
               cases he2
               exact Or.inl hei
             · intro er2 he2 hf
               rw [her] at he2
               cases he2
               rw [hei] at hf
               cases hf
             · intro pr2 hp2 hf
               simp only [Option.some.injEq] at hp2
               subst hp2
               cases hf)
          | (refine ⟨⟨?_, ?_, ?_⟩, le_of_lt hlt⟩
             · intro er2 pr2 he2 _
               simp only [queueTileUpdate_eq] at he2
               rw [her] at he2
               cases he2
               exact Or.inl hei
             · intro er2 he2 hf
               simp only [queueTileUpdate_eq] at he2
               rw [her] at he2
               cases he2
               rw [hei] at hf
               cases hf
             · intro pr2 hp2 hf
               simp only [Option.some.injEq] at hp2
               subst hp2
               cases hf)
      · have hpdf : pr.isCompleted = false := by
          cases hv : pr.isCompleted
          · rfl
          · exact absurd hv hpd
        simp only [hpdf, Bool.false_eq_true, if_false]
        exact ⟨⟨ha, hb, hc⟩, le_refl _⟩
  · exact ⟨⟨ha, hb, hc⟩, le_refl _⟩

theorem monotone_updateStep (t t1 : CustomTile) (h : t.MonotoneInvariant)
    (hs : UpdateStep t t1) : t1.MonotoneInvariant := by
  cases hs with
  | pendingElevation _ terrain terrain1 mapf stamp locked indeterminate hp =>
    unfold servicePendingElevationRequests at hp
    split at hp
    · cases hp
      exact h
    · split at hp
      · exact monotone_scheduleElevationRequest _ t1 terrain terrain1 stamp
          (monotone_installRequests t terrain mapf stamp indeterminate h) hp
      · exact monotone_scheduleElevationRequest t t1 terrain terrain1 stamp h hp
  | pendingImage terrain mapf stamp indeterminate =>
    unfold servicePendingImageRequests
    split
    · exact h
    · simp only []
      split
      · exact monotone_congr _ _ rfl (monotone_installRequests t terrain mapf stamp indeterminate h)
      · exact monotone_congr _ _ rfl h
  | runFinal er produced h1 h2 =>
    obtain ⟨ha, hb, hc⟩ := h
    have hef := isIdle_false_of_isRunning er.toTaskRequest h2
    refine ⟨?_, fun _ _ _ => hb er h1 hef, hc⟩
    intro er1 pr1 _ hpr
    rcases ha er pr1 h1 hpr with hk | hk
    · rw [hef] at hk
      cases hk
    · exact Or.inr hk
  | runPlaceholder pr produced h1 h2 =>
    obtain ⟨ha, hb, hc⟩ := h
    have hpf := isIdle_false_of_isRunning pr.toTaskRequest h2
    refine ⟨?_, hb, ?_⟩
    · intro er1 pr1 he _
      rcases ha er1 pr he h1 with hk | hk
      · exact Or.inl hk
      · rw [hpf] at hk
        cases hk
    · intro pr1 hp1 _
      simp only [Option.some.injEq] at hp1
      subst hp1
      have hn : (placeholderRequestExecute pr produced)._nextLOD = pr._nextLOD := by
        unfold placeholderRequestExecute placeholderRequestRun
        split <;> rfl
      rw [hn]
      exact hc pr h1 hpf
  | runImage before after r mapf produced canceledDuring h1 h2 =>
    exact monotone_congr _ _ rfl h
  | runTileGen =>
    have e : t.executeTileGenRequest.elevationView = t.elevationView := by
      unfold executeTileGenRequest tileGenRequestRun
      repeat' split
      all_goals rfl
    exact monotone_congr _ _ e h
  | completed _ terrain terrain1 mapf locked skirtHeight modified hc =>
    obtain ⟨_, hv⟩ := serviceCompletedRequests_view t terrain mapf locked skirtHeight _ hc
    rcases hv with hv | hv
    · exact monotone_congr _ _ hv h
    · exact monotone_congr _ _ hv (monotone_serviceElevationRequests t skirtHeight h).1

theorem elevationView_traverse (t : CustomTile) (v : VisitorType) (b : Bool) :
    (t.traverse v b).elevationView = t.elevationView
    ∧ (t.traverse v b)._family = t._family := by
  rw [traverse_eq]
  split <;> exact ⟨rfl, rfl⟩

theorem monotone_tileStep (familyOK : CustomTile → Family → Prop) (t t1 : CustomTile)
    (h : t.MonotoneInvariant) (hs : TileStep familyOK t t1) : t1.MonotoneInvariant := by
  cases hs with
  | update _ hu => exact monotone_updateStep t t1 h hu
  | traverse v b => exact monotone_congr _ _ (elevationView_traverse t v b).1 h
  | setHasElevationHint hint => exact h
  | setElevationLayer layer => exact h
  | refreshFamily family hf => exact h

theorem monotone_tileReachable (familyOK : CustomTile → Family → Prop) (t0 t : CustomTile)
    (h : t0.MonotoneInvariant) (hr : TileReachable familyOK t0 t) : t.MonotoneInvariant := by
  induction hr with
  | refl => exact h
  | tail _ hstep ih => exact monotone_tileStep familyOK _ _ ih hstep

/-! ## Lemmas on the bound of the elevation LOD -/

theorem traversed_setCustomColorLayer (t : CustomTile) (c : CustomColorLayer) (w : Bool) :
    (t.setCustomColorLayer c w)._hasBeenTraversed = t._hasBeenTraversed := by
  unfold setCustomColorLayer setCustomColorLayerUnlocked
  cases w <;> simp only [Bool.false_eq_true, if_true, if_false] <;> split_ifs <;> rfl

theorem traversed_serviceImageRequest (t : CustomTile) (mapf : MapFrame)
    (imageLayer : ImageLayer) (r : TileColorLayerRequest) :
    (t.serviceImageRequest mapf imageLayer r).1._hasBeenTraversed = t._hasBeenTraversed := by
  unfold serviceImageRequest
  repeat' split
  all_goals first
    | rfl
    | simp only [queueTileUpdate_eq, traversed_setCustomColorLayer]

theorem traversed_imageRequestsLoop (mapf : MapFrame) (imageLayer : ImageLayer)
    (t : CustomTile) (l : List TileColorLayerRequest) :
    (imageRequestsLoop mapf imageLayer t l).1._hasBeenTraversed = t._hasBeenTraversed := by
  induction l generalizing t with
  | nil => rfl
  | cons r rest ih =>
    simp only [imageRequestsLoop]
    rw [ih, traversed_serviceImageRequest]

theorem traversed_checkImageLayer (t t1 : CustomTile) (terrain : CustomTerrain)
    (imageLayer : ImageLayer) (b : Bool) (h : t.checkImageLayer terrain imageLayer = some (t1, b)) :
    t1._hasBeenTraversed = t._hasBeenTraversed := by
  unfold checkImageLayer at h
  repeat' split at h
  all_goals
    cases h
    try first
      | rfl
      | simp only [queueTileUpdate_eq, traversed_setCustomColorLayer]

theorem traversed_serviceImageLayer (t t1 : CustomTile) (terrain : CustomTerrain)
    (mapf : MapFrame) (imageLayer : ImageLayer)
    (h : t.serviceImageLayer terrain mapf imageLayer = some t1) :
    t1._hasBeenTraversed = t._hasBeenTraversed := by
  unfold serviceImageLayer at h
  split at h
  · cases h
  · rename_i t2 b hc
    have h2 := traversed_checkImageLayer t t2 terrain imageLayer b hc
    split at h
    · cases h
      rw [← h2, ← traversed_imageRequestsLoop mapf imageLayer t2 t2._requests]
    · cases h
      exact h2

theorem traversed_serviceImagery (terrain : CustomTerrain) (mapf : MapFrame)
    (ls : List ImageLayer) (t t1 : CustomTile)
    (h : serviceImagery terrain mapf t ls = some t1) :
    t1._hasBeenTraversed = t._hasBeenTraversed := by
  induction ls generalizing t with
  | nil =>
    simp only [serviceImagery, Option.some.injEq] at h
    subst h; rfl
  | cons l rest ih =>
    simp only [serviceImagery] at h
    split at h
    · cases h
    · rename_i t2 h2
      rw [ih t2 h, traversed_serviceImageLayer t t2 terrain mapf l h2]

theorem traversed_serviceTileGenerator (t : CustomTile) :
    t.serviceTileGenerator.1._hasBeenTraversed = t._hasBeenTraversed := by
  unfold serviceTileGenerator
  repeat' split
  all_goals rfl

theorem traversed_serviceElevationRequests (t : CustomTile) (skirtHeight : Rat) :
    (t.serviceElevationRequests skirtHeight)._hasBeenTraversed = t._hasBeenTraversed := by
  unfold serviceElevationRequests
  repeat' split
  all_goals rfl

theorem traversed_queueTileGenRequest (t : CustomTile) (terrain : CustomTerrain) :
    (t.queueTileGenRequest terrain).1._hasBeenTraversed = t._hasBeenTraversed := by
  unfold queueTileGenRequest
  split <;> rfl

theorem genRequest_setCustomColorLayer (t : CustomTile) (c : CustomColorLayer) (w : Bool) :
    (t.setCustomColorLayer c w)._tileGenRequest = t._tileGenRequest := by
  unfold setCustomColorLayer setCustomColorLayerUnlocked
  cases w <;> simp only [Bool.false_eq_true, if_true, if_false] <;> split_ifs <;> rfl

theorem genRequest_serviceImageRequest (t : CustomTile) (mapf : MapFrame)
    (imageLayer : ImageLayer) (r : TileColorLayerRequest) :
    (t.serviceImageRequest mapf imageLayer r).1._tileGenRequest = t._tileGenRequest := by
  unfold serviceImageRequest
  repeat' split
  all_goals first
    | rfl
    | simp only [queueTileUpdate_eq, genRequest_setCustomColorLayer]

theorem genRequest_imageRequestsLoop (mapf : MapFrame) (imageLayer : ImageLayer)
    (t : CustomTile) (l : List TileColorLayerRequest) :
    (imageRequestsLoop mapf imageLayer t l).1._tileGenRequest = t._tileGenRequest := by
  induction l generalizing t with
  | nil => rfl
  | cons r rest ih =>
    simp only [imageRequestsLoop]
    rw [ih, genRequest_serviceImageRequest]

theorem genRequest_checkImageLayer (t t1 : CustomTile) (terrain : CustomTerrain)
    (imageLayer : ImageLayer) (b : Bool) (h : t.checkImageLayer terrain imageLayer = some (t1, b)) :
    t1._tileGenRequest = t._tileGenRequest := by
  unfold checkImageLayer at h
  repeat' split at h
  all_goals
    cases h
    try first
      | rfl
      | simp only [queueTileUpdate_eq, genRequest_setCustomColorLayer]

theorem genRequest_serviceImageLayer (t t1 : CustomTile) (terrain : CustomTerrain)
    (mapf : MapFrame) (imageLayer : ImageLayer)
    (h : t.serviceImageLayer terrain mapf imageLayer = some t1) :
    t1._tileGenRequest = t._tileGenRequest := by
  unfold serviceImageLayer at h
  split at h
  · cases h
  · rename_i t2 b hc
    have h2 := genRequest_checkImageLayer t t2 terrain imageLayer b hc
    split at h
    · cases h
      rw [← h2, ← genRequest_imageRequestsLoop mapf imageLayer t2 t2._requests]
    · cases h
      exact h2

theorem genRequest_serviceImagery (terrain : CustomTerrain) (mapf : MapFrame)
    (ls : List ImageLayer) (t t1 : CustomTile)
    (h : serviceImagery terrain mapf t ls = some t1) :
    t1._tileGenRequest = t._tileGenRequest := by
  induction ls generalizing t with
  | nil =>
    simp only [serviceImagery, Option.some.injEq] at h
    subst h; rfl
  | cons l rest ih =>
    simp only [serviceImagery] at h
    split at h
    · cases h
    · rename_i t2 h2
      rw [ih t2 h, genRequest_serviceImageLayer t t2 terrain mapf l h2]

theorem genRequest_serviceElevationRequests (t : CustomTile) (skirtHeight : Rat) :
    (t.serviceElevationRequests skirtHeight)._tileGenRequest = t._tileGenRequest := by
  unfold serviceElevationRequests
  repeat' split
  all_goals rfl

theorem technique_setCustomColorLayer (t : CustomTile) (c : CustomColorLayer) (w : Bool) :
    (t.setCustomColorLayer c w)._terrainTechnique = t._terrainTechnique := by
  unfold setCustomColorLayer setCustomColorLayerUnlocked
  cases w <;> simp only [Bool.false_eq_true, if_true, if_false] <;> split_ifs <;> rfl

theorem technique_serviceImageRequest (t : CustomTile) (mapf : MapFrame)
    (imageLayer : ImageLayer) (r : TileColorLayerRequest) :
    (t.serviceImageRequest mapf imageLayer r).1._terrainTechnique = t._terrainTechnique := by
  unfold serviceImageRequest
  repeat' split
  all_goals first
    | rfl
    | simp only [queueTileUpdate_eq, technique_setCustomColorLayer]

theorem technique_imageRequestsLoop (mapf : MapFrame) (imageLayer : ImageLayer)
    (t : CustomTile) (l : List TileColorLayerRequest) :
    (imageRequestsLoop mapf imageLayer t l).1._terrainTechnique = t._terrainTechnique := by
  induction l generalizing t with
  | nil => rfl
  | cons r rest ih =>
    simp only [imageRequestsLoop]
    rw [ih, technique_serviceImageRequest]

theorem technique_checkImageLayer (t t1 : CustomTile) (terrain : CustomTerrain)
    (imageLayer : ImageLayer) (b : Bool) (h : t.checkImageLayer terrain imageLayer = some (t1, b)) :
    t1._terrainTechnique = t._terrainTechnique := by
  unfold checkImageLayer at h
  repeat' split at h
  all_goals
    cases h
    try first
      | rfl
      | simp only [queueTileUpdate_eq, technique_setCustomColorLayer]

theorem technique_serviceImageLayer (t t1 : CustomTile) (terrain : CustomTerrain)
    (mapf : MapFrame) (imageLayer : ImageLayer)
    (h : t.serviceImageLayer terrain mapf imageLayer = some t1) :
    t1._terrainTechnique = t._terrainTechnique := by
  unfold serviceImageLayer at h
  split at h
  · cases h
  · rename_i t2 b hc
    have h2 := technique_checkImageLayer t t2 terrain imageLayer b hc
    split at h
    · cases h
      rw [← h2, ← technique_imageRequestsLoop mapf imageLayer t2 t2._requests]
    · cases h
      exact h2

theorem technique_serviceImagery (terrain : CustomTerrain) (mapf : MapFrame)
    (ls : List ImageLayer) (t t1 : CustomTile)
    (h : serviceImagery terrain mapf t ls = some t1) :
    t1._terrainTechnique = t._terrainTechnique := by
  induction ls generalizing t with
  | nil =>
    simp only [serviceImagery, Option.some.injEq] at h
    subst h; rfl
  | cons l rest ih =>
    simp only [serviceImagery] at h
    split at h
    · cases h
    · rename_i t2 h2
      rw [ih t2 h, technique_serviceImageLayer t t2 terrain mapf l h2]

theorem technique_serviceElevationRequests (t : CustomTile) (skirtHeight : Rat) :
    (t.serviceElevationRequests skirtHeight)._terrainTechnique = t._terrainTechnique := by
  unfold serviceElevationRequests
  repeat' split
  all_goals rfl

theorem technique_queueTileGenRequest (t : CustomTile) (terrain : CustomTerrain) :
    (t.queueTileGenRequest terrain).1._terrainTechnique = t._terrainTechnique := by
  unfold queueTileGenRequest
  split <;> rfl

/-! ## Lemmas on the update queue: the imagery and elevation parts only append -/

theorem tileUpdates_setCustomColorLayer (t : CustomTile) (c : CustomColorLayer) (w : Bool) :
    (t.setCustomColorLayer c w)._tileUpdates = t._tileUpdates := by
  unfold setCustomColorLayer setCustomColorLayerUnlocked
  cases w <;> simp only [Bool.false_eq_true, if_true, if_false] <;> split_ifs <;> rfl

theorem tileUpdates_queueTileUpdate (t : CustomTile) (a : TileUpdate.Action) (v : Int) :
    (t.queueTileUpdate a v)._tileUpdates = t._tileUpdates ++ [⟨a, v⟩] := rfl

theorem tileUpdates_serviceImageRequest (t : CustomTile) (mapf : MapFrame)
    (imageLayer : ImageLayer) (r : TileColorLayerRequest) :
    ∃ added, (t.serviceImageRequest mapf imageLayer r).1._tileUpdates
      = t._tileUpdates ++ added := by
  unfold serviceImageRequest
  repeat' split
  all_goals first
    | exact ⟨[], (List.append_nil _).symm⟩
    | exact ⟨[], by rw [tileUpdates_setCustomColorLayer, List.append_nil]⟩
    | (apply Exists.intro
       rw [tileUpdates_queueTileUpdate, tileUpdates_setCustomColorLayer])

theorem tileUpdates_imageRequestsLoop (mapf : MapFrame) (imageLayer : ImageLayer)
    (t : CustomTile) (l : List TileColorLayerRequest) :
    ∃ added, (imageRequestsLoop mapf imageLayer t l).1._tileUpdates
      = t._tileUpdates ++ added := by
  induction l generalizing t with
  | nil => exact ⟨[], (List.append_nil _).symm⟩
  | cons r rest ih =>
    simp only [imageRequestsLoop]
    obtain ⟨a1, h1⟩ := tileUpdates_serviceImageRequest t mapf imageLayer r
    obtain ⟨a2, h2⟩ := ih (t.serviceImageRequest mapf imageLayer r).1
    exact ⟨a1 ++ a2, by rw [h2, h1, List.append_assoc]⟩

theorem tileUpdates_checkImageLayer (t t1 : CustomTile) (terrain : CustomTerrain)
    (imageLayer : ImageLayer) (b : Bool) (h : t.checkImageLayer terrain imageLayer = some (t1, b)) :
    ∃ added, t1._tileUpdates = t._tileUpdates ++ added := by
  unfold checkImageLayer at h
  repeat' split at h
  all_goals
    cases h <;> first
      | exact ⟨[], (List.append_nil _).symm⟩
      | (apply Exists.intro
         rw [tileUpdates_queueTileUpdate, tileUpdates_setCustomColorLayer])
      | (apply Exists.intro
         rw [tileUpdates_queueTileUpdate])

theorem tileUpdates_serviceImageLayer (t t1 : CustomTile) (terrain : CustomTerrain)
    (mapf : MapFrame) (imageLayer : ImageLayer)
    (h : t.serviceImageLayer terrain mapf imageLayer = some t1) :
    ∃ added, t1._tileUpdates = t._tileUpdates ++ added := by
  unfold serviceImageLayer at h
  split at h
  · cases h
  · rename_i t2 b hc
    obtain ⟨a1, h1⟩ := tileUpdates_checkImageLayer t t2 terrain imageLayer b hc
    split at h
    · cases h
      obtain ⟨a2, h2⟩ := tileUpdates_imageRequestsLoop mapf imageLayer t2 t2._requests
      exact ⟨a1 ++ a2, by
        show (imageRequestsLoop mapf imageLayer t2 t2._requests).1._tileUpdates = _
        rw [h2, h1, List.append_assoc]⟩
    · cases h
      exact ⟨a1, h1⟩

theorem tileUpdates_serviceImagery (terrain : CustomTerrain) (mapf : MapFrame)
    (ls : List ImageLayer) (t t1 : CustomTile)
    (h : serviceImagery terrain mapf t ls = some t1) :
    ∃ added, t1._tileUpdates = t._tileUpdates ++ added := by
  induction ls generalizing t with
  | nil =>
    simp only [serviceImagery, Option.some.injEq] at h
    subst h
    exact ⟨[], (List.append_nil _).symm⟩
  | cons l rest ih =>
    simp only [serviceImagery] at h
    split at h
    · cases h
    · rename_i t2 h2
      obtain ⟨a1, h1⟩ := tileUpdates_serviceImageLayer t t2 terrain mapf l h2
      obtain ⟨a2, h3⟩ := ih t2 h
      exact ⟨a1 ++ a2, by rw [h3, h1, List.append_assoc]⟩

theorem tileUpdates_serviceElevationRequests (t : CustomTile) (skirtHeight : Rat) :
    ∃ added, (t.serviceElevationRequests skirtHeight)._tileUpdates
      = t._tileUpdates ++ added := by
  unfold serviceElevationRequests
  repeat' split
  all_goals first
    | exact ⟨[], (List.append_nil _).symm⟩
    | exact ⟨[⟨.UPDATE_ELEVATION, TileUpdate.defaultValue⟩], rfl⟩

theorem tileUpdates_serviceTileGenerator (t : CustomTile) :
    t.serviceTileGenerator.1._tileUpdates = t._tileUpdates
    ∧ t.serviceTileGenerator.1._hasBeenTraversed = t._hasBeenTraversed
    ∧ t.serviceTileGenerator.1._requestsInstalled = t._requestsInstalled
    ∧ t.serviceTileGenerator.1._key = t._key := by
  unfold serviceTileGenerator
  repeat' split
  all_goals exact ⟨rfl, rfl, rfl, rfl⟩

/-! ## Lemmas on the regeneration of any tile -/

theorem key_of_elevationView {t t1 : CustomTile} (h : t1.elevationView = t.elevationView) :
    t1._key = t._key := congrArg Prod.fst h

theorem checkImageLayer_isSome (t : CustomTile) (terrain : CustomTerrain)
    (imageLayer : ImageLayer) (h : t.PassesReturn terrain) :
    (t.checkImageLayer terrain imageLayer).isSome = true := by
  unfold checkImageLayer
  repeat' split
  all_goals first
    | rfl
    | (rename_i hseq _ _ _ hnone
       rcases h with hmode | hparent
       · exact absurd hseq.1 hmode
       · rw [hnone] at hparent
         cases hparent)

theorem serviceImagery_isSome (terrain : CustomTerrain) (mapf : MapFrame)
    (ls : List ImageLayer) (t : CustomTile) (h : t.PassesReturn terrain) :
    (serviceImagery terrain mapf t ls).isSome = true := by
  induction ls generalizing t with
  | nil => rfl
  | cons l rest ih =>
    simp only [serviceImagery]
    cases hl : t.serviceImageLayer terrain mapf l with
    | none =>
      exfalso
      have hc := checkImageLayer_isSome t terrain l h
      unfold serviceImageLayer at hl
      split at hl
      · rename_i hn
        rw [hn] at hc
        cases hc
      · split at hl <;> cases hl
    | some t1 =>
      simp only []
      apply ih
      unfold PassesReturn at h ⊢
      rw [family_serviceImageLayer t t1 terrain mapf l hl]
      exact h

theorem passesReturn_congr {t t1 : CustomTile} {terrain terrain1 : CustomTerrain}
    (hf : t1._family = t._family) (hm : terrain1.loadingMode = terrain.loadingMode)
    (ht : terrain1.tiles = terrain.tiles) (h : t.PassesReturn terrain) :
    t1.PassesReturn terrain1 := by
  unfold PassesReturn CustomTerrain.getCustomTile at h ⊢
  rw [hf, hm, ht]
  exact h

theorem terrain_queueTileGenRequest (t : CustomTile) (terrain : CustomTerrain) :
    (t.queueTileGenRequest terrain).2.loadingMode = terrain.loadingMode
    ∧ (t.queueTileGenRequest terrain).2.tiles = terrain.tiles := by
  unfold queueTileGenRequest
  split <;> exact ⟨rfl, rfl⟩

theorem tileUpdates_executeTileGenRequest (t : CustomTile) :
    t.executeTileGenRequest._tileUpdates = t._tileUpdates
    ∧ t.executeTileGenRequest._hasBeenTraversed = t._hasBeenTraversed
    ∧ t.executeTileGenRequest._requestsInstalled = t._requestsInstalled
    ∧ t.executeTileGenRequest._key = t._key
    ∧ t.executeTileGenRequest._family = t._family := by
  unfold executeTileGenRequest tileGenRequestRun
  repeat' split
  all_goals exact ⟨rfl, rfl, rfl, rfl, rfl⟩

/-- The tile at line 1168 of a call of `serviceCompletedRequests` that returns, on a tile
that has been traversed and whose requests are installed: the result of the call is
what the last part makes of it; the imagery and elevation parts have left the
regeneration request, the technique, the key, the flags and the family as the tile
generator part left them and have only appended to the update queue. -/
theorem serviceCompletedRequests_parts (t : CustomTile) (terrain : CustomTerrain)
    (mapf : MapFrame) (locked : Bool) (skirtHeight : Rat)
    (out : CustomTile × CustomTerrain × Bool)
    (htrav : t._hasBeenTraversed = true) (hinst : t._requestsInstalled = true)
    (h : t.serviceCompletedRequests terrain mapf locked skirtHeight = some out) :
    ∃ mid : CustomTile,
      out = ((mid.queueTileGenRequest terrain).1, (mid.queueTileGenRequest terrain).2,
                  t.serviceTileGenerator.2)
      ∧ mid._tileGenRequest = t.serviceTileGenerator.1._tileGenRequest
      ∧ mid._terrainTechnique = t.serviceTileGenerator.1._terrainTechnique
      ∧ (∃ added, mid._tileUpdates = t._tileUpdates ++ added)
      ∧ (t.passQueuesNothing terrain mapf skirtHeight = true → mid._tileUpdates = t._tileUpdates)
      ∧ mid._hasBeenTraversed = true ∧ mid._requestsInstalled = true
      ∧ mid._key = t._key ∧ mid._family = t._family := by
  cases himg : serviceImagery terrain mapf t.serviceTileGenerator.1 mapf.imageLayers with
  | none =>
    simp [serviceCompletedRequests, htrav, hinst, himg] at h
  | some t2 =>
    have e := serviceCompletedRequests_of_imagery t t2 terrain mapf locked skirtHeight htrav
      hinst himg
    rw [h] at e
    obtain ⟨a1, h1⟩ := tileUpdates_serviceImagery terrain mapf _ _ _ himg
    obtain ⟨a2, h2⟩ := tileUpdates_serviceElevationRequests t2 skirtHeight
    obtain ⟨hg1, hg2, hg3, hg4⟩ := tileUpdates_serviceTileGenerator t
    refine ⟨t2.serviceElevationRequests skirtHeight, Option.some.inj e, ?_, ?_, ?_, ?_, ?_, ?_,
      ?_, ?_⟩
    · rw [genRequest_serviceElevationRequests, genRequest_serviceImagery terrain mapf _ _ _ himg]
    · rw [technique_serviceElevationRequests, technique_serviceImagery terrain mapf _ _ _ himg]
    · exact ⟨a1 ++ a2, by rw [h2, h1, hg1, List.append_assoc]⟩
    · intro hn
      unfold passQueuesNothing at hn
      simp only [htrav, hinst, Bool.not_true, Bool.false_eq_true, if_false, himg] at hn
      exact of_decide_eq_true hn
    · rw [traversed_serviceElevationRequests, traversed_serviceImagery terrain mapf _ _ _ himg,
        hg2, htrav]
    · rw [installed_serviceElevationRequests, installed_serviceImagery terrain mapf _ _ _ himg,
        hg3, hinst]
    · have hv := elevationView_serviceImagery terrain mapf _ _ _ himg
      have hk : t2._key = t.serviceTileGenerator.1._key := key_of_elevationView hv
      have hk2 : (t2.serviceElevationRequests skirtHeight)._key = t2._key := by
        unfold serviceElevationRequests
        repeat' split
        all_goals rfl
      rw [hk2, hk, hg4]
    · rw [family_serviceElevationRequests, family_serviceImagery terrain mapf _ _ _ himg,
        family_serviceTileGenerator]

/-- A call of `serviceCompletedRequests` returns when the passes on the tile return. -/
theorem serviceCompletedRequests_isSome (t : CustomTile) (terrain : CustomTerrain)
    (mapf : MapFrame) (locked : Bool) (skirtHeight : Rat) (h : t.PassesReturn terrain) :
    (t.serviceCompletedRequests terrain mapf locked skirtHeight).isSome = true := by
  by_cases htrav : t._hasBeenTraversed = true
  · by_cases hinst : t._requestsInstalled = true
    · have hp : t.serviceTileGenerator.1.PassesReturn terrain :=
        passesReturn_congr (family_serviceTileGenerator t) rfl rfl h
      have hs := serviceImagery_isSome terrain mapf mapf.imageLayers _ hp
      cases himg : serviceImagery terrain mapf t.serviceTileGenerator.1 mapf.imageLayers with
      | none => rw [himg] at hs; cases hs
      | some t2 =>
        rw [serviceCompletedRequests_of_imagery t t2 terrain mapf locked skirtHeight htrav hinst
          himg]
        rfl
    · simp only [serviceCompletedRequests, htrav, hinst, Bool.not_true, Bool.not_false,
        Bool.false_eq_true, if_false, if_true, Option.isSome]
  · simp only [serviceCompletedRequests, htrav, Bool.not_false, if_true, Option.isSome]

/-- A call of `serviceCompletedRequests` leaves the loading mode and the tile table of
the terrain, and the family of the tile, as they are. -/
theorem passesReturn_serviceCompletedRequests (t : CustomTile) (terrain : CustomTerrain)
    (mapf : MapFrame) (locked : Bool) (skirtHeight : Rat)
    (out : CustomTile × CustomTerrain × Bool) (hp : t.PassesReturn terrain)
    (h : t.serviceCompletedRequests terrain mapf locked skirtHeight = some out) :
    out.1.PassesReturn out.2.1 ∧ out.1.executeTileGenRequest.PassesReturn out.2.1 := by
  have hf := (serviceCompletedRequests_view t terrain mapf locked skirtHeight out h).1
  have ht : out.2.1.loadingMode = terrain.loadingMode ∧ out.2.1.tiles = terrain.tiles := by
    by_cases htrav : t._hasBeenTraversed = true
    · by_cases hinst : t._requestsInstalled = true
      · obtain ⟨mid, ho, _⟩ := serviceCompletedRequests_parts t terrain mapf locked skirtHeight
          out htrav hinst h
        rw [ho]
        exact terrain_queueTileGenRequest mid terrain
      · simp only [serviceCompletedRequests, htrav, hinst, Bool.not_true, Bool.not_false,
          Bool.false_eq_true, if_false, if_true, Option.some.injEq] at h
        subst h
        exact ⟨rfl, rfl⟩
    · simp only [serviceCompletedRequests, htrav, Bool.not_false, if_true,
        Option.some.injEq] at h
      subst h
      exact ⟨rfl, rfl⟩
  have h1 : out.1.PassesReturn out.2.1 := passesReturn_congr hf ht.1 ht.2 hp
  exact ⟨h1, passesReturn_congr (tileUpdates_executeTileGenRequest out.1).2.2.2.2 rfl rfl h1⟩

theorem regenerationRounds_isSome (mapf : MapFrame) (locked : Bool) (skirtHeight : Rat)
    (k : Nat) : ∀ (t : CustomTile) (terrain : CustomTerrain), t.PassesReturn terrain →
      ∃ tk terraink, regenerationRounds mapf locked skirtHeight k (t, terrain)
          = some (tk, terraink) ∧ tk.PassesReturn terraink := by
  induction k with
  | zero => intro t terrain h; exact ⟨t, terrain, rfl, h⟩
  | succ k ih =>
    intro t terrain h
    have hs := serviceCompletedRequests_isSome t terrain mapf locked skirtHeight h
    cases hp : t.serviceCompletedRequests terrain mapf locked skirtHeight with
    | none => rw [hp] at hs; cases hs
    | some out =>
      obtain ⟨tk, terraink, hr, hk⟩ := ih out.1.executeTileGenRequest out.2.1
        (passesReturn_serviceCompletedRequests t terrain mapf locked skirtHeight out h hp).2
      refine ⟨tk, terraink, ?_, hk⟩
      simp only [regenerationRounds, hp]
      exact hr

theorem serviceTileGenerator_nonempty (t : CustomTile) (u : TileUpdate) (rest : List TileUpdate)
    (hqueue : t._tileUpdates = u :: rest)
    (hreq : ∀ g, t._tileGenRequest = some g → g.isCompleted = true) :
    t.serviceTileGenerator.1._tileGenRequest = none
    ∧ t.serviceTileGenerator.1._terrainTechnique = t._terrainTechnique
    ∧ t.serviceTileGenerator.2 = false := by
  cases hg : t._tileGenRequest with
  | none =>
    have e : t.serviceTileGenerator = (t, false) := by
      unfold serviceTileGenerator
      rw [hg]
    rw [e]
    exact ⟨hg, rfl, rfl⟩
  | some g =>
    have hdone := hreq g hg
    have e : t.serviceTileGenerator = ({ t with _tileGenRequest := none }, false) := by
      unfold serviceTileGenerator
      rw [hg]
      simp only [hdone, if_true]
      cases t._terrainTechnique with
      | none => rfl
      | some tech =>
        simp only [hqueue, List.length_cons, Nat.succ_ne_zero, if_false]
    rw [e]
    exact ⟨rfl, rfl, rfl⟩

theorem queueTileGenRequest_submit (mid : CustomTile) (terrain : CustomTerrain) (u : TileUpdate)
    (q : List TileUpdate) (hq : mid._tileUpdates = u :: q) (hg : mid._tileGenRequest = none) :
    mid.queueTileGenRequest terrain
      = ({ mid with _tileGenRequest := some (newTileGenRequest u), _tileUpdates := q },
         { terrain with
           tileGenService := terrain.tileGenService ++ [(mid._key, newTileGenRequest u)] }) := by
  unfold queueTileGenRequest
  rw [hq, hg]
  rfl

theorem executeTileGenRequest_new (t : CustomTile) (u : TileUpdate)
    (hg : t._tileGenRequest = some (newTileGenRequest u)) :
    t.executeTileGenRequest._tileGenRequest
        = some { newTileGenRequest u with _state := .STATE_COMPLETED }
    ∧ t.executeTileGenRequest._terrainTechnique
        = t._terrainTechnique.map (fun tech => tech.compile u) := by
  cases htech : t._terrainTechnique <;>
    simp [executeTileGenRequest, tileGenRequestRun, hg, htech, newTileGenRequest,
      TaskRequest.isRunning, TaskRequest.submitted]

/-- One update pass that returns, on a traversed tile with installed requests, a
non-empty update queue and no regeneration request in flight: the pass submits a request
for the oldest update and leaves the others queued, followed by what the pass itself has
queued; nothing is applied. -/
theorem regeneration_pass (t : CustomTile) (terrain : CustomTerrain) (mapf : MapFrame)
    (locked : Bool) (skirtHeight : Rat) (out : CustomTile × CustomTerrain × Bool)
    (u : TileUpdate) (rest : List TileUpdate)
    (htrav : t._hasBeenTraversed = true) (hinst : t._requestsInstalled = true)
    (hqueue : t._tileUpdates = u :: rest)
    (hreq : ∀ g, t._tileGenRequest = some g → g.isCompleted = true)
    (h : t.serviceCompletedRequests terrain mapf locked skirtHeight = some out) :
    out.1._tileGenRequest = some (newTileGenRequest u)
    ∧ (∃ added, out.1._tileUpdates = rest ++ added)
    ∧ (t.passQueuesNothing terrain mapf skirtHeight = true → out.1._tileUpdates = rest)
    ∧ out.2.1 = { terrain with
                  tileGenService := terrain.tileGenService ++ [(t._key, newTileGenRequest u)] }
    ∧ out.2.2 = false
    ∧ out.1._terrainTechnique = t._terrainTechnique
    ∧ out.1._hasBeenTraversed = true ∧ out.1._requestsInstalled = true
    ∧ out.1._key = t._key := by
  obtain ⟨mid, ho, hm1, hm2, ⟨added, hm3⟩, hm4, hm5, hm6, hm7, _⟩ :=
    serviceCompletedRequests_parts t terrain mapf locked skirtHeight out htrav hinst h
  obtain ⟨hg1, hg2, hg3⟩ := serviceTileGenerator_nonempty t u rest hqueue hreq
  have hq : mid._tileUpdates = u :: (rest ++ added) := by rw [hm3, hqueue]; rfl
  have hs := queueTileGenRequest_submit mid terrain u (rest ++ added) hq (hm1.trans hg1)
  rw [hs] at ho
  subst ho
  refine ⟨rfl, ⟨added, rfl⟩, ?_, ?_, hg3, hm2.trans hg2, hm5, hm6, hm7⟩
  · intro hn
    have e := hm4 hn
    rw [hq, hqueue] at e
    show rest ++ added = rest
    exact List.tail_eq_of_cons_eq e
  · show ({ terrain with
            tileGenService := terrain.tileGenService ++ [(mid._key, newTileGenRequest u)] }
          : CustomTerrain) = _
    rw [hm7]

/-- The rounds of regeneration on any traversed tile with installed requests whose
update queue starts with the updates `us` and which has no regeneration request in
flight, as far as the rounds return: after `k` rounds, `k` at most the number of
updates, the service has received the first `k` updates, one request each, in order;
the others are still queued, followed by what the passes have queued; the technique,
when there is one, has compiled the first `k`. -/
theorem regenerationRounds_general (mapf : MapFrame) (locked : Bool) (skirtHeight : Rat)
    (k : Nat) :
    ∀ (us extra : List TileUpdate) (t : CustomTile) (terrain : CustomTerrain)
      (tk : CustomTile) (terraink : CustomTerrain),
      t._hasBeenTraversed = true → t._requestsInstalled = true →
      t._tileUpdates = us ++ extra → k ≤ us.length →
      (∀ g, t._tileGenRequest = some g → g.isCompleted = true) →
      regenerationRounds mapf locked skirtHeight k (t, terrain) = some (tk, terraink) →
      tk._hasBeenTraversed = true ∧ tk._requestsInstalled = true ∧ tk._key = t._key
      ∧ (∃ added, tk._tileUpdates = us.drop k ++ (extra ++ added))
      ∧ tk._terrainTechnique
          = t._terrainTechnique.map
              (fun tech => { tech with compiled := tech.compiled ++ us.take k })
      ∧ terraink.tileGenService
          = terrain.tileGenService ++ (us.take k).map (fun u => (t._key, newTileGenRequest u))
      ∧ (∀ g, tk._tileGenRequest = some g → g.isCompleted = true)
      ∧ (0 < k → ∃ g, tk._tileGenRequest = some g ∧ g.isCompleted = true
          ∧ some g._update = us[k - 1]?)
      ∧ (∀ m, roundsQueueNothing mapf locked skirtHeight (k + m) (t, terrain) = true →
          tk._tileUpdates = us.drop k ++ extra
          ∧ roundsQueueNothing mapf locked skirtHeight m (tk, terraink) = true) := by
  induction k with
  | zero =>
    intro us extra t terrain tk terraink htrav hinst hqueue _ hreq hr
    simp only [regenerationRounds, Option.some.injEq, Prod.mk.injEq] at hr
    obtain ⟨hr1, hr2⟩ := hr
    subst hr1
    subst hr2
    refine ⟨htrav, hinst, rfl, ⟨[], by simpa using hqueue⟩, ?_, by simp, hreq, ?_, ?_⟩
    · cases t._terrainTechnique with
      | none => rfl
      | some tech => simp
    · intro h; exact absurd h (by decide)
    · intro m hm
      refine ⟨by simpa using hqueue, ?_⟩
      rw [Nat.zero_add] at hm
      exact hm
  | succ k ih =>
    intro us extra t terrain tk terraink htrav hinst hqueue hk hreq hr
    cases us with
    | nil => simp at hk
    | cons u rest =>
      have hk' : k ≤ rest.length := by simpa using hk
      have hqueue' : t._tileUpdates = u :: (rest ++ extra) := hqueue
      cases hp : t.serviceCompletedRequests terrain mapf locked skirtHeight with
      | none => simp [regenerationRounds, hp] at hr
      | some out =>
        simp only [regenerationRounds, hp] at hr
        obtain ⟨h1, ⟨added, h2⟩, h3, h4, _, h6, h7, h8, h9⟩ :=
          regeneration_pass t terrain mapf locked skirtHeight out u (rest ++ extra) htrav hinst
            hqueue' hreq hp
        obtain ⟨e1, e2, e3, e4, _⟩ := tileUpdates_executeTileGenRequest out.1
        obtain ⟨x1, x2⟩ := executeTileGenRequest_new out.1 u h1
        have hq1 : out.1.executeTileGenRequest._tileUpdates = rest ++ (extra ++ added) := by
          rw [e1, h2, List.append_assoc]
        have hreq1 : ∀ g, out.1.executeTileGenRequest._tileGenRequest = some g →
            g.isCompleted = true := by
          intro g hg
          rw [x1] at hg
          cases hg
          rfl
        obtain ⟨r1, r2, r3, ⟨added1, r4⟩, r5, r6, r7, r8, r9⟩ :=
          ih rest (extra ++ added) out.1.executeTileGenRequest out.2.1 tk terraink
            (e2.trans h7) (e3.trans h8) hq1 hk' hreq1 hr
        have hkey : out.1.executeTileGenRequest._key = t._key := e4.trans h9
        refine ⟨r1, r2, r3.trans hkey, ⟨added ++ added1, ?_⟩, ?_, ?_, r7, ?_, ?_⟩
        · rw [r4]
          simp
        · rw [r5, x2, h6]
          cases t._terrainTechnique with
          | none => rfl
          | some tech => simp [CustomTerrainTechnique.compile]
        · rw [r6, h4, hkey]
          simp
        · intro _
          rcases Nat.eq_zero_or_pos k with hk0 | hkpos
          · subst hk0
            simp only [regenerationRounds, Option.some.injEq, Prod.mk.injEq] at hr
            obtain ⟨hr1, _⟩ := hr
            subst hr1
            exact ⟨_, x1, rfl, by simp [newTileGenRequest]⟩
          · obtain ⟨g, hg1, hg2, hg3⟩ := r8 hkpos
            refine ⟨g, hg1, hg2, ?_⟩
            rw [hg3]
            have : k + 1 - 1 = (k - 1) + 1 := by omega
            rw [this, List.getElem?_cons_succ]
        · intro m hm
          have hkm : k + 1 + m = (k + m) + 1 := by omega
          rw [hkm] at hm
          simp only [roundsQueueNothing, hp, Bool.and_eq_true] at hm
          obtain ⟨hn, hm'⟩ := hm
          have hadd : added = [] := by
            have e := h3 hn
            rw [h2] at e
            exact List.append_right_eq_self.mp e
          subst hadd
          obtain ⟨s1, s2⟩ := r9 m hm'
          refine ⟨?_, s2⟩
          rw [s1]
          simp

/-- The update pass that finds the update queue empty and the regeneration request
completed, on a traversed tile with installed requests that has its technique: when it
returns, `applyTileUpdates` has been invoked and its value is the value returned; when
the pass has queued nothing, the tile holds no request afterwards, its queue is empty
and nothing is submitted. -/
theorem regeneration_apply_pass (t : CustomTile) (terrain : CustomTerrain) (mapf : MapFrame)
    (locked : Bool) (skirtHeight : Rat) (out : CustomTile × CustomTerrain × Bool)
    (tech : CustomTerrainTechnique) (g : TileGenRequest)
    (htrav : t._hasBeenTraversed = true) (hinst : t._requestsInstalled = true)
    (htech : t._terrainTechnique = some tech) (hqueue : t._tileUpdates = [])
    (hg : t._tileGenRequest = some g) (hdone : g.isCompleted = true)
    (h : t.serviceCompletedRequests terrain mapf locked skirtHeight = some out) :
    out.2.2 = tech.applyTileUpdates.1
    ∧ out.1._terrainTechnique = some tech.applyTileUpdates.2
    ∧ out.1._hasBeenTraversed = true ∧ out.1._requestsInstalled = true
    ∧ (t.passQueuesNothing terrain mapf skirtHeight = true →
        out.1._tileGenRequest = none ∧ out.1._tileUpdates = [] ∧ out.2.1 = terrain) := by
  obtain ⟨mid, ho, hm1, hm2, _, hm4, hm5, hm6, _, _⟩ :=
    serviceCompletedRequests_parts t terrain mapf locked skirtHeight out htrav hinst h
  have e : t.serviceTileGenerator
      = ({ t with _terrainTechnique := some tech.applyTileUpdates.2, _tileGenRequest := none },
         tech.applyTileUpdates.1) := by
    unfold serviceTileGenerator
    rw [hg]
    simp only [hdone, if_true, htech, hqueue, List.length_nil]
  rw [e] at ho hm1 hm2
  subst ho
  refine ⟨rfl, ?_, ?_, ?_, ?_⟩
  · show (mid.queueTileGenRequest terrain).1._terrainTechnique = _
    rw [technique_queueTileGenRequest, hm2]
  · show (mid.queueTileGenRequest terrain).1._hasBeenTraversed = _
    rw [traversed_queueTileGenRequest, hm5]
  · show (mid.queueTileGenRequest terrain).1._requestsInstalled = _
    rw [installed_queueTileGenRequest, hm6]
  · intro hn
    have hq : mid._tileUpdates = [] := (hm4 hn).trans hqueue
    have e2 : mid.queueTileGenRequest terrain = (mid, terrain) := by
      unfold queueTileGenRequest
      rw [hq]
    show (mid.queueTileGenRequest terrain).1._tileGenRequest = none
      ∧ (mid.queueTileGenRequest terrain).1._tileUpdates = []
      ∧ (mid.queueTileGenRequest terrain).2 = terrain
    rw [e2]
    exact ⟨hm1, hq, rfl⟩

/-- An update pass on a tile that holds no regeneration request invokes
`applyTileUpdates` not at all: it returns false and leaves the technique as it is. -/
theorem serviceCompletedRequests_no_request (t : CustomTile) (terrain : CustomTerrain)
    (mapf : MapFrame) (locked : Bool) (skirtHeight : Rat)
    (out : CustomTile × CustomTerrain × Bool) (hg : t._tileGenRequest = none)
    (h : t.serviceCompletedRequests terrain mapf locked skirtHeight = some out) :
    out.2.2 = false ∧ out.1._terrainTechnique = t._terrainTechnique := by
  by_cases htrav : t._hasBeenTraversed = true
  · by_cases hinst : t._requestsInstalled = true
    · obtain ⟨mid, ho, _, hm2, _⟩ :=
        serviceCompletedRequests_parts t terrain mapf locked skirtHeight out htrav hinst h
      have e : t.serviceTileGenerator = (t, false) := by
        unfold serviceTileGenerator
        rw [hg]
      rw [e] at ho hm2
      subst ho
      refine ⟨rfl, ?_⟩
      show (mid.queueTileGenRequest terrain).1._terrainTechnique = _
      rw [technique_queueTileGenRequest, hm2]
    · simp only [serviceCompletedRequests, htrav, hinst, Bool.not_true, Bool.not_false,
        Bool.false_eq_true, if_false, if_true, Option.some.injEq] at h
      subst h
      exact ⟨rfl, rfl⟩
  · simp only [serviceCompletedRequests, htrav, Bool.not_false, if_true,
      Option.some.injEq] at h
    subst h
    exact ⟨rfl, rfl⟩

end CustomTile

/-! ## Theorems -/

/-- C1. For a callback that has not yet reported cancellation, `reportProgress` returns
true exactly when (service stamp - request stamp) > 2; in particular a request whose
stamp was refreshed to `s0` is not reported canceled while the service stamp is at most
`s0 + 2`; and once a call on any callback has returned true, every later call returns
true, whatever stamps it reads. -/
theorem reportProgress_canceled_iff (cb : StampedProgressCallback) (serviceStamp requestStamp : Int) :
    (cb._canceled = false →
      (((cb.reportProgress serviceStamp requestStamp).1 = true ↔ serviceStamp - requestStamp > 2)
        ∧ (serviceStamp ≤ requestStamp + 2 →
            (cb.reportProgress serviceStamp requestStamp).1 = false)))
    ∧ ((cb.reportProgress serviceStamp requestStamp).1 = true →
        ∀ later : List (Int × Int),
          ∀ b ∈ (cb.reportProgress serviceStamp requestStamp).2.reportAll later, b = true) := by
  refine ⟨fun h => ?_, fun h later => ?_⟩
  · have hiff : (cb.reportProgress serviceStamp requestStamp).1 = true
        ↔ serviceStamp - requestStamp > 2 := by
      simp [StampedProgressCallback.reportProgress, h]
    refine ⟨hiff, fun hle => ?_⟩
    cases hb : (cb.reportProgress serviceStamp requestStamp).1
    · rfl
    · have := hiff.mp hb
      omega
  · have hc : (cb.reportProgress serviceStamp requestStamp).2._canceled = true := by
      unfold StampedProgressCallback.reportProgress at h ⊢
      by_cases hcb : cb._canceled = true
      · simp [hcb]
      · simp only [hcb, Bool.false_eq_true, if_false] at h ⊢
        exact h
    generalize (cb.reportProgress serviceStamp requestStamp).2 = cb1 at hc
    induction later generalizing cb1 with
    | nil => simp [StampedProgressCallback.reportAll]
    | cons p rest ih =>
      obtain ⟨s, r⟩ := p
      have h1 : cb1.reportProgress s r = (true, cb1) := by
        simp [StampedProgressCallback.reportProgress, hc]
      intro b hb
      simp only [StampedProgressCallback.reportAll, h1, List.mem_cons] at hb
      rcases hb with hb | hb
      · exact hb
      · exact ih cb1 hc b hb

/-- Witness of C1: a fresh callback, request stamp refreshed to 10, service stamp 12
and then 13. -/
theorem reportProgress_canceled_iff_witness :
    ((({} : StampedProgressCallback).reportProgress 12 10).1 = false)
    ∧ ((({} : StampedProgressCallback).reportProgress 13 10).1 = true)
    ∧ (∀ b ∈ (({} : StampedProgressCallback).reportProgress 13 10).2.reportAll [(0, 10), (5, 5)],
        b = true) :=
  ⟨((reportProgress_canceled_iff {} 12 10).1 rfl).2 (by decide),
   ((reportProgress_canceled_iff {} 13 10).1 rfl).1.mpr (by decide),
   (reportProgress_canceled_iff {} 13 10).2
     (((reportProgress_canceled_iff {} 13 10).1 rfl).1.mpr (by decide)) [(0, 10), (5, 5)]⟩

/-- C2, counterexample: key LOD 5, current elevation LOD 3, parent at LOD 5, and an
expected west neighbour whose elevation LOD is -1 (no data yet): the tile is ready
although an expected family member has an elevation LOD strictly lower than 3. -/
theorem readyForNewElevation_unknown_neighbour_not_blocking :
    ¬ ((sampleTile 5 3 familyWestUnknown).readyForNewElevation = true →
        ∀ i : Direction, ((sampleTile 5 3 familyWestUnknown)._family.get i).expected = true →
          ¬ (((sampleTile 5 3 familyWestUnknown)._family.get i).elevLOD
              < (sampleTile 5 3 familyWestUnknown)._elevationLOD)) := by
  intro h
  exact h (by decide) .WEST (by decide) (by decide)

/-- C2, amended. If `readyForNewElevation` returns true then no expected family member
(parent, west, north, east, south) whose elevation LOD is known (not negative) has an
elevation LOD strictly lower than the tile's current elevation LOD.  Scenario of the
spec: an expected west neighbour at elevation LOD 2 with the tile at elevation LOD 3
gives readiness false. -/
theorem readyForNewElevation_no_known_relative_lags (t : CustomTile) :
    (t.readyForNewElevation = true →
      ∀ i : Direction, (t._family.get i).expected = true → 0 ≤ (t._family.get i).elevLOD →
        ¬ ((t._family.get i).elevLOD < t._elevationLOD))
    ∧ ((t._family.get .WEST).expected = true → (t._family.get .WEST).elevLOD = 2 →
        t._elevationLOD = 3 → t.readyForNewElevation = false) := by
  have key := CustomTile.readyForNewElevation_eq_true_iff t
  refine ⟨fun h i he h0 hlt => (key.mp h).2.2.1 i ⟨he, h0, hlt⟩, fun he hw hc => ?_⟩
  cases hr : t.readyForNewElevation
  · rfl
  · exact absurd ⟨he, by omega, by omega⟩ ((key.mp hr).2.2.1 .WEST)

/-- Witness of C2 (amended): a ready tile (key LOD 5, current LOD 3, parent at 5), and
the scenario with the west neighbour at LOD 2. -/
theorem readyForNewElevation_no_known_relative_lags_witness :
    (∀ i : Direction, ((sampleTile 5 3 familyParent5)._family.get i).expected = true →
        0 ≤ ((sampleTile 5 3 familyParent5)._family.get i).elevLOD →
        ¬ (((sampleTile 5 3 familyParent5)._family.get i).elevLOD
            < (sampleTile 5 3 familyParent5)._elevationLOD))
    ∧ (sampleTile 5 3 familyWest2).readyForNewElevation = false :=
  ⟨(readyForNewElevation_no_known_relative_lags (sampleTile 5 3 familyParent5)).1 (by decide),
   (readyForNewElevation_no_known_relative_lags (sampleTile 5 3 familyWest2)).2
     (by decide) (by decide) (by decide)⟩

/-- C3, counterexample: a tile of key LOD 5 whose elevation LOD has been set to 6 with
`setElevationLOD`, parent at LOD 6: `readyForNewElevation` returns true although the
current elevation LOD is not less than the key LOD. -/
theorem readyForNewElevation_above_key_lod :
    ¬ (((sampleTile 5 3 familyParent6).setElevationLOD 6).readyForNewElevation = true →
        ((sampleTile 5 3 familyParent6).setElevationLOD 6)._elevationLOD
          < ((sampleTile 5 3 familyParent6).setElevationLOD 6).keyLOD) := by
  intro h
  exact absurd (h (by decide)) (by decide)

/-- C3, amended. If `readyForNewElevation` returns true then the tile's current
elevation LOD differs from the tile's key LOD; so it is strictly less than the key LOD
whenever it does not exceed the key LOD. -/
theorem readyForNewElevation_not_final (t : CustomTile) (h : t.readyForNewElevation = true) :
    t._elevationLOD ≠ t.keyLOD ∧ (t._elevationLOD ≤ t.keyLOD → t._elevationLOD < t.keyLOD) := by
  have h1 := ((CustomTile.readyForNewElevation_eq_true_iff t).mp h).1
  exact ⟨h1, fun hle => lt_of_le_of_ne hle h1⟩

/-- Witness of C3 (amended): key LOD 5, current LOD 3, parent at 5. -/
theorem readyForNewElevation_not_final_witness :
    (sampleTile 5 3 familyParent5).readyForNewElevation = true
    ∧ (sampleTile 5 3 familyParent5)._elevationLOD ≠ (sampleTile 5 3 familyParent5).keyLOD
    ∧ ((sampleTile 5 3 familyParent5)._elevationLOD ≤ (sampleTile 5 3 familyParent5).keyLOD →
        (sampleTile 5 3 familyParent5)._elevationLOD < (sampleTile 5 3 familyParent5).keyLOD) :=
  ⟨by decide, readyForNewElevation_not_final (sampleTile 5 3 familyParent5) (by decide)⟩

/-- C4. Guard 4 of `readyForNewElevation`: when current elevation LOD + 1 is less than
the key LOD (the next LOD would still be a placeholder) and the parent's elevation LOD
equals the tile's current elevation LOD, `readyForNewElevation` returns false. -/
theorem readyForNewElevation_placeholder_up_to_date (t : CustomTile)
    (hnext : t._elevationLOD + 1 < t.keyLOD)
    (hparent : (t._family.get .PARENT).elevLOD = t._elevationLOD) :
    t.readyForNewElevation = false := by
  cases hr : t.readyForNewElevation
  · rfl
  · exact absurd ⟨hnext, hparent.symm⟩ ((CustomTile.readyForNewElevation_eq_true_iff t).mp hr).2.2.2

/-- Witness of C4: key LOD 5, current LOD 3, parent at LOD 3. -/
theorem readyForNewElevation_placeholder_up_to_date_witness :
    (sampleTile 5 3 familyParent3)._elevationLOD + 1 < (sampleTile 5 3 familyParent3).keyLOD
    ∧ ((sampleTile 5 3 familyParent3)._family.get .PARENT).elevLOD
        = (sampleTile 5 3 familyParent3)._elevationLOD
    ∧ (sampleTile 5 3 familyParent3).readyForNewElevation = false :=
  ⟨by decide, by decide,
   readyForNewElevation_placeholder_up_to_date (sampleTile 5 3 familyParent3)
     (by decide) (by decide)⟩

/-- C5. Sufficiency of the four guards: when (1) the current elevation LOD is less
than the key LOD, (2) the parent's elevation LOD is at least 0, (3) every expected
family member has an elevation LOD at least the current elevation LOD, and (4) it is
not the case that current LOD + 1 < key LOD and parent LOD = current LOD, then
`readyForNewElevation` returns true; and whenever the parent's elevation LOD is
negative it returns false. -/
theorem readyForNewElevation_sufficient (t : CustomTile) :
    (t._elevationLOD < t.keyLOD → 0 ≤ (t._family.get .PARENT).elevLOD →
      (∀ i : Direction, (t._family.get i).expected = true →
        t._elevationLOD ≤ (t._family.get i).elevLOD) →
      ¬ (t._elevationLOD + 1 < t.keyLOD ∧ (t._family.get .PARENT).elevLOD = t._elevationLOD) →
      t.readyForNewElevation = true)
    ∧ ((t._family.get .PARENT).elevLOD < 0 → t.readyForNewElevation = false) := by
  have key := CustomTile.readyForNewElevation_eq_true_iff t
  constructor
  · intro h1 h2 h3 h4
    refine key.mpr ⟨by omega, h2, fun i hi => ?_, fun h => h4 ⟨h.1, h.2.symm⟩⟩
    have := h3 i hi.1
    omega
  · intro hneg
    cases hr : t.readyForNewElevation
    · rfl
    · have := (key.mp hr).2.1
      omega

/-- Witness of C5: key LOD 5, parent at LOD 5, current LOD 3; key LOD 5, current LOD 4;
and a parent without data (LOD -1). -/
theorem readyForNewElevation_sufficient_witness :
    (sampleTile 5 3 familyParent5).readyForNewElevation = true
    ∧ (sampleTile 5 4 familyParent5).readyForNewElevation = true
    ∧ (sampleTile 5 3 { familyParent5 with parent := Relative.atLOD (-1) }).readyForNewElevation
        = false :=
  ⟨(readyForNewElevation_sufficient (sampleTile 5 3 familyParent5)).1
      (by decide) (by decide) (by intro i; cases i <;> decide) (by decide),
   (readyForNewElevation_sufficient (sampleTile 5 4 familyParent5)).1
      (by decide) (by decide) (by intro i; cases i <;> decide) (by decide),
   (readyForNewElevation_sufficient
      (sampleTile 5 3 { familyParent5 with parent := Relative.atLOD (-1) })).2 (by decide)⟩

/-- C6, counterexample: key LOD 5, current elevation LOD 3, parent at LOD 5 and found
in the tile table, both elevation requests idle, the tile ready; the parent tile holds
no elevation layer.  The call does not add the placeholder request: lines 856-857
dereference the parent's elevation layer, which is null. -/
theorem servicePendingElevationRequests_parent_without_layer :
    (sampleElevTile 5 3 familyParent5).readyForNewElevation = true
    ∧ (sampleTerrain sampleParentNoLayer).getCustomTile
        ((sampleElevTile 5 3 familyParent5)._family.get .PARENT).tileID = some sampleParentNoLayer
    ∧ ¬ ∃ out, (sampleElevTile 5 3 familyParent5).servicePendingElevationRequests
          (sampleTerrain sampleParentNoLayer) ⟨[]⟩ 10 false 0 = some out := by
  refine ⟨by decide, by decide, ?_⟩
  rintro ⟨out, h⟩
  have hnone : (sampleElevTile 5 3 familyParent5).servicePendingElevationRequests
      (sampleTerrain sampleParentNoLayer) ⟨[]⟩ 10 false 0 = none := by decide
  rw [hnone] at h
  cases h

/-- C6, amended. Choice of the next request in `servicePendingElevationRequests`: for a
traversed tile with installed requests, an elevation hint, elevation not up to date,
both elevation requests idle and `readyForNewElevation` true: if current elevation
LOD + 1 equals the key LOD, exactly the FINAL request is stamped with the pass's stamp
and added to the elevation task service (the placeholder request is untouched);
otherwise, if the parent's elevation LOD exceeds the current elevation LOD and the
parent tile is found and holds an elevation layer, exactly the placeholder request is
stamped, given the parent's height field and next LOD = the parent's elevation LOD, and
added; and if the parent's elevation LOD does not exceed the current one or the parent
tile is not found, nothing is added and nothing changes. -/
theorem servicePendingElevationRequests_choice (t : CustomTile) (terrain : CustomTerrain)
    (mapf : MapFrame) (stamp : Int) (tileTableLocked : Bool) (indeterminate : Int)
    (er : TileElevationLayerRequest) (pr : TileElevationPlaceholderLayerRequest)
    (htrav : t._hasBeenTraversed = true) (hinst : t._requestsInstalled = true)
    (hhint : t._hasElevation = true) (hup : t._elevationLayerUpToDate = false)
    (her : t._elevRequest = some er) (hpr : t._elevPlaceholderRequest = some pr)
    (hei : er.isIdle = true) (hpi : pr.isIdle = true)
    (hready : t.readyForNewElevation = true) :
    (t._elevationLOD + 1 = t.keyLOD →
      ∃ er1 : TileElevationLayerRequest,
        er1 = { er with toTaskRequest := ((er.setStamp stamp).setProgressCallback {}).submitted }
        ∧ er1._stamp = stamp ∧ er1.isIdle = false
        ∧ t.servicePendingElevationRequests terrain mapf stamp tileTableLocked indeterminate
            = some ({ t with _elevRequest := some er1 },
                    { terrain with
                      elevationService := terrain.elevationService ++ [.final t._key er1] }))
    ∧ (t._elevationLOD + 1 ≠ t.keyLOD →
        (t._family.get .PARENT).elevLOD > t._elevationLOD →
        ∀ (parent : CustomTile) (hfLayer : HeightFieldLayer),
          terrain.getCustomTile (t._family.get .PARENT).tileID = some parent →
          parent._elevationLayer = some hfLayer →
          ∃ pr1 : TileElevationPlaceholderLayerRequest,
            pr1 = { pr with
                    toTaskRequest := (((pr.setStamp stamp).setProgressCallback {}).setPriority
                      (t._key.getLevelOfDetail : Rat)).submitted,
                    _parentHF := hfLayer.heightField,
                    _nextLOD := (t._family.get .PARENT).elevLOD }
            ∧ pr1._stamp = stamp ∧ pr1._nextLOD = (t._family.get .PARENT).elevLOD
            ∧ pr1.isIdle = false
            ∧ t.servicePendingElevationRequests terrain mapf stamp tileTableLocked indeterminate
                = some ({ t with _elevPlaceholderRequest := some pr1 },
                        { terrain with
                          elevationService :=
                            terrain.elevationService ++ [.placeholder t._key pr1] }))
    ∧ (t._elevationLOD + 1 ≠ t.keyLOD →
        (¬ (t._family.get .PARENT).elevLOD > t._elevationLOD
          ∨ terrain.getCustomTile (t._family.get .PARENT).tileID = none) →
        t.servicePendingElevationRequests terrain mapf stamp tileTableLocked indeterminate
          = some (t, terrain)) := by
  refine ⟨fun hfinal => ⟨_, rfl, rfl, rfl, ?_⟩, fun hnf hgt parent hfLayer hfound hlayer =>
    ⟨_, rfl, rfl, rfl, rfl, ?_⟩, fun hnf hno => ?_⟩
  · simp [CustomTile.servicePendingElevationRequests, CustomTile.scheduleElevationRequest, htrav, hinst, hhint, hup, her, hpr, hei,
      hpi, hready, hfinal]
  · simp [CustomTile.servicePendingElevationRequests, CustomTile.scheduleElevationRequest, htrav, hinst, hhint, hup, her, hpr, hei,
      hpi, hready, hnf, hgt, hfound, hlayer]
  · rcases hno with hno | hno
    · simp [CustomTile.servicePendingElevationRequests, CustomTile.scheduleElevationRequest, htrav, hinst, hhint, hup, her, hpr, hei,
        hpi, hready, hnf, hno]
    · by_cases hgt : (t._family.get .PARENT).elevLOD > t._elevationLOD
      · simp [CustomTile.servicePendingElevationRequests, CustomTile.scheduleElevationRequest, htrav, hinst, hhint, hup, her, hpr,
          hei, hpi, hready, hnf, hgt, hno]
      · simp [CustomTile.servicePendingElevationRequests, CustomTile.scheduleElevationRequest, htrav, hinst, hhint, hup, her, hpr,
          hei, hpi, hready, hnf, hgt]

/-- Witness of C6 (amended): the two scenarios of the spec.  Key LOD 5 and current LOD
4: the FINAL request is added.  Key LOD 5, current LOD 3, parent at LOD 5 and holding
an elevation layer: the placeholder request is added with next LOD 5. -/
theorem servicePendingElevationRequests_choice_witness :
    (∃ er1 : TileElevationLayerRequest, er1._stamp = 10 ∧ er1.isIdle = false
      ∧ (sampleElevTile 5 4 familyParent5).servicePendingElevationRequests
            (sampleTerrain sampleParent) ⟨[]⟩ 10 false 0
          = some ({ sampleElevTile 5 4 familyParent5 with _elevRequest := some er1 },
                  { sampleTerrain sampleParent with
                    elevationService := (sampleTerrain sampleParent).elevationService
                      ++ [.final (sampleElevTile 5 4 familyParent5)._key er1] }))
    ∧ (∃ pr1 : TileElevationPlaceholderLayerRequest, pr1._stamp = 10
      ∧ pr1._nextLOD = ((sampleElevTile 5 3 familyParent5)._family.get .PARENT).elevLOD
      ∧ pr1.isIdle = false
      ∧ (sampleElevTile 5 3 familyParent5).servicePendingElevationRequests
            (sampleTerrain sampleParent) ⟨[]⟩ 10 false 0
          = some ({ sampleElevTile 5 3 familyParent5 with _elevPlaceholderRequest := some pr1 },
                  { sampleTerrain sampleParent with
                    elevationService := (sampleTerrain sampleParent).elevationService
                      ++ [.placeholder (sampleElevTile 5 3 familyParent5)._key pr1] })) := by
  constructor
  · obtain ⟨er1, _, h2, h3, h4⟩ :=
      (servicePendingElevationRequests_choice (sampleElevTile 5 4 familyParent5)
        (sampleTerrain sampleParent) ⟨[]⟩ 10 false 0 (sampleElevRequest 5)
        (samplePlaceholderRequest 5) rfl rfl rfl rfl rfl rfl (by decide) (by decide)
        (by decide)).1 (by decide)
    exact ⟨er1, h2, h3, h4⟩
  · obtain ⟨pr1, _, h2, h3, h4, h5⟩ :=
      (servicePendingElevationRequests_choice (sampleElevTile 5 3 familyParent5)
        (sampleTerrain sampleParent) ⟨[]⟩ 10 false 0 (sampleElevRequest 5)
        (samplePlaceholderRequest 5) rfl rfl rfl rfl rfl rfl (by decide) (by decide)
        (by decide)).2.1 (by decide) (by decide) sampleParent (sampleLayer 7) (by decide) rfl
    exact ⟨pr1, h2, h3, h4, h5⟩

/-- C7. FINAL elevation success in `serviceCompletedRequests`: for a tile whose
elevation branch is active (elevation hint set, elevation not up to date, both requests
valid) and whose FINAL elevation request is completed, not canceled, with a height-field
result, the elevation part of the call makes the result (with the skirt height set on
its height field) the tile's elevation layer, sets the elevation LOD to the key LOD,
sets the up-to-date flag, and appends exactly one UPDATE_ELEVATION action to the
tile-update queue.  For the whole call: whenever its imagery part completes, leaving
the tile `t2`, the call returns, the tile it returns has that elevation layer, elevation
LOD and flag, and the elevation part has appended exactly one UPDATE_ELEVATION action
to the queue of `t2`. -/
theorem serviceCompletedRequests_final_elevation_success (t : CustomTile) (skirtHeight : Rat)
    (er : TileElevationLayerRequest) (pr : TileElevationPlaceholderLayerRequest)
    (l : HeightFieldLayer) (hf : HeightField)
    (hhint : t._hasElevation = true) (hup : t._elevationLayerUpToDate = false)
    (her : t._elevRequest = some er) (hpr : t._elevPlaceholderRequest = some pr)
    (hdone : er.isCompleted = true) (hnc : er.wasCanceled = false)
    (hres : er.getResult = some l) (hhf : l.heightField = some hf) :
    ((t.serviceElevationRequests skirtHeight)._elevationLayer = some (l.setSkirtHeight skirtHeight)
      ∧ (l.setSkirtHeight skirtHeight).ident = l.ident
      ∧ (l.setSkirtHeight skirtHeight).heightField = some { hf with skirtHeight := skirtHeight }
      ∧ (t.serviceElevationRequests skirtHeight)._elevationLOD = t.keyLOD
      ∧ (t.serviceElevationRequests skirtHeight)._elevationLayerUpToDate = true
      ∧ (t.serviceElevationRequests skirtHeight)._tileUpdates
          = t._tileUpdates ++ [⟨.UPDATE_ELEVATION, TileUpdate.defaultValue⟩])
    ∧ (∀ (terrain : CustomTerrain) (mapf : MapFrame) (locked : Bool) (t2 : CustomTile),
        t._hasBeenTraversed = true → t._requestsInstalled = true →
        CustomTile.serviceImagery terrain mapf t.serviceTileGenerator.1 mapf.imageLayers = some t2 →
        ∃ out, t.serviceCompletedRequests terrain mapf locked skirtHeight = some out
          ∧ out.1._elevationLayer = some (l.setSkirtHeight skirtHeight)
          ∧ out.1._elevationLOD = t.keyLOD
          ∧ out.1._elevationLayerUpToDate = true
          ∧ (t2.serviceElevationRequests skirtHeight)._tileUpdates
              = t2._tileUpdates ++ [⟨.UPDATE_ELEVATION, TileUpdate.defaultValue⟩]) := by
  have sec : ∀ t1 : CustomTile, t1.elevationView = t.elevationView →
      (t1.serviceElevationRequests skirtHeight)._elevationLayer
          = some (l.setSkirtHeight skirtHeight)
      ∧ (t1.serviceElevationRequests skirtHeight)._elevationLOD = t.keyLOD
      ∧ (t1.serviceElevationRequests skirtHeight)._elevationLayerUpToDate = true
      ∧ (t1.serviceElevationRequests skirtHeight)._tileUpdates
          = t1._tileUpdates ++ [⟨.UPDATE_ELEVATION, TileUpdate.defaultValue⟩] := by
    intro t1 hv
    simp only [CustomTile.elevationView, Prod.mk.injEq] at hv
    obtain ⟨h1, h2, h3, _, _, h6, h7⟩ := hv
    simp [CustomTile.serviceElevationRequests, h1, h2, h3, h6, h7, hhint, hup, her, hpr, hdone,
      hnc, hres, hhf, CustomTile.queueTileUpdate_eq, CustomTile.keyLOD]
  obtain ⟨s1, s2, s3, s4⟩ := sec t rfl
  refine ⟨⟨s1, rfl, ?_, s2, s3, s4⟩, ?_⟩
  · simp [HeightFieldLayer.setSkirtHeight, hhf]
  · intro terrain mapf locked t2 htrav hinst himg
    obtain ⟨out, ho, hview⟩ :=
      CustomTile.serviceCompletedRequests_elevationView t t2 terrain mapf locked skirtHeight
        htrav hinst himg
    have hv2 : t2.elevationView = t.elevationView := by
      rw [CustomTile.elevationView_serviceImagery terrain mapf _ _ _ himg,
        CustomTile.elevationView_serviceTileGenerator]
    simp only [CustomTile.elevationView, Prod.mk.injEq] at hview
    obtain ⟨_, _, v3, v4, v5, _, _⟩ := hview
    exact ⟨out, ho, v5.trans s1, v4.trans s2, v3.trans s3, (sec t2 hv2).2.2.2⟩

/-- Witness of C7: key LOD 5, current elevation LOD 4, FINAL request completed with the
layer 9 as result; the whole call on a map without image layers. -/
theorem serviceCompletedRequests_final_elevation_success_witness :
    ((sampleFinalTile 4 .STATE_COMPLETED false (some (sampleLayer 9))).serviceElevationRequests
        (1 / 2))._elevationLayer = some ((sampleLayer 9).setSkirtHeight (1 / 2))
    ∧ ((sampleFinalTile 4 .STATE_COMPLETED false (some (sampleLayer 9))).serviceElevationRequests
        (1 / 2))._elevationLOD = 5
    ∧ ((sampleFinalTile 4 .STATE_COMPLETED false (some (sampleLayer 9))).serviceElevationRequests
        (1 / 2))._elevationLayerUpToDate = true
    ∧ ((sampleFinalTile 4 .STATE_COMPLETED false (some (sampleLayer 9))).serviceElevationRequests
        (1 / 2))._tileUpdates = [⟨.UPDATE_ELEVATION, TileUpdate.defaultValue⟩]
    ∧ (∃ out, (sampleFinalTile 4 .STATE_COMPLETED false
            (some (sampleLayer 9))).serviceCompletedRequests
              (sampleTerrain sampleParent) ⟨[]⟩ false (1 / 2) = some out
          ∧ out.1._elevationLayer = some ((sampleLayer 9).setSkirtHeight (1 / 2))
          ∧ out.1._elevationLOD = 5 ∧ out.1._elevationLayerUpToDate = true) := by
  have h := serviceCompletedRequests_final_elevation_success
    (sampleFinalTile 4 .STATE_COMPLETED false (some (sampleLayer 9))) (1 / 2) _
    (samplePlaceholderRequest 5) (sampleLayer 9) _ rfl rfl rfl rfl rfl rfl rfl rfl
  obtain ⟨out, ho, h1, h2, h3, _⟩ := h.2 (sampleTerrain sampleParent) ⟨[]⟩ false _ rfl rfl rfl
  exact ⟨h.1.1, h.1.2.2.2.1, h.1.2.2.2.2.1, h.1.2.2.2.2.2, out, ho, h1, h2, h3⟩

/-- C8. PLACEHOLDER elevation success in `serviceCompletedRequests`: for a tile whose
elevation branch is active, whose FINAL request is not completed and whose placeholder
request is completed, not canceled, with a height-field result, the elevation part of
the call makes the result the tile's elevation layer, sets the elevation LOD to the
next LOD recorded in the request, appends one UPDATE_ELEVATION action to the update
queue, puts the placeholder request back in the idle state, and leaves the up-to-date
flag false.  For the whole call: whenever its imagery part completes, leaving the tile
`t2`, the call returns with that elevation layer, elevation LOD, flag and idle
placeholder request, and the elevation part has appended one UPDATE_ELEVATION action to
the queue of `t2`.  The recorded next LOD is the parent's LOD at request time: the
placeholder request that `servicePendingElevationRequests` adds carries the parent's
elevation LOD of that moment. -/
theorem serviceCompletedRequests_placeholder_success (t : CustomTile) (skirtHeight : Rat)
    (er : TileElevationLayerRequest) (pr : TileElevationPlaceholderLayerRequest)
    (l : HeightFieldLayer) (hf : HeightField)
    (hhint : t._hasElevation = true) (hup : t._elevationLayerUpToDate = false)
    (her : t._elevRequest = some er) (hpr : t._elevPlaceholderRequest = some pr)
    (hfinal : er.isCompleted = false)
    (hdone : pr.isCompleted = true) (hnc : pr.wasCanceled = false)
    (hres : pr.getResult = some l) (hhf : l.heightField = some hf) :
    ((t.serviceElevationRequests skirtHeight)._elevationLayer = some l
      ∧ (t.serviceElevationRequests skirtHeight)._elevationLOD = pr._nextLOD
      ∧ (t.serviceElevationRequests skirtHeight)._tileUpdates
          = t._tileUpdates ++ [⟨.UPDATE_ELEVATION, TileUpdate.defaultValue⟩]
      ∧ (∃ pr1 : TileElevationPlaceholderLayerRequest,
          (t.serviceElevationRequests skirtHeight)._elevPlaceholderRequest = some pr1
          ∧ pr1.isIdle = true)
      ∧ (t.serviceElevationRequests skirtHeight)._elevationLayerUpToDate = false)
    ∧ (∀ (terrain : CustomTerrain) (mapf : MapFrame) (locked : Bool) (t2 : CustomTile),
        t._hasBeenTraversed = true → t._requestsInstalled = true →
        CustomTile.serviceImagery terrain mapf t.serviceTileGenerator.1 mapf.imageLayers = some t2 →
        ∃ out, t.serviceCompletedRequests terrain mapf locked skirtHeight = some out
          ∧ out.1._elevationLayer = some l
          ∧ out.1._elevationLOD = pr._nextLOD
          ∧ out.1._elevationLayerUpToDate = false
          ∧ (∃ pr1 : TileElevationPlaceholderLayerRequest,
              out.1._elevPlaceholderRequest = some pr1 ∧ pr1.isIdle = true)
          ∧ (t2.serviceElevationRequests skirtHeight)._tileUpdates
              = t2._tileUpdates ++ [⟨.UPDATE_ELEVATION, TileUpdate.defaultValue⟩])
    ∧ (∀ (t0 : CustomTile) (terrain : CustomTerrain) (mapf : MapFrame) (stamp : Int)
        (locked : Bool) (indeterminate : Int) (out : CustomTile × CustomTerrain),
        t0.servicePendingElevationRequests terrain mapf stamp locked indeterminate = some out →
        ∀ pr1 : TileElevationPlaceholderLayerRequest,
          ElevationTask.placeholder out.1._key pr1 ∈ out.2.elevationService →
          ElevationTask.placeholder out.1._key pr1 ∉ terrain.elevationService →
          pr1._nextLOD = (out.1._family.get .PARENT).elevLOD
          ∧ out.1._elevPlaceholderRequest = some pr1) := by
  have sec : ∀ t1 : CustomTile, t1.elevationView = t.elevationView →
      (t1.serviceElevationRequests skirtHeight)._elevationLayer = some l
      ∧ (t1.serviceElevationRequests skirtHeight)._elevationLOD = pr._nextLOD
      ∧ (t1.serviceElevationRequests skirtHeight)._tileUpdates
          = t1._tileUpdates ++ [⟨.UPDATE_ELEVATION, TileUpdate.defaultValue⟩]
      ∧ (∃ pr1 : TileElevationPlaceholderLayerRequest,
          (t1.serviceElevationRequests skirtHeight)._elevPlaceholderRequest = some pr1
          ∧ pr1.isIdle = true)
      ∧ (t1.serviceElevationRequests skirtHeight)._elevationLayerUpToDate = false := by
    intro t1 hv
    simp only [CustomTile.elevationView, Prod.mk.injEq] at hv
    obtain ⟨h1, h2, h3, _, _, h6, h7⟩ := hv
    simp [CustomTile.serviceElevationRequests, h2, h3, h6, h7, hhint, hup, her, hpr, hdone,
      hfinal, hnc, hres, hhf, CustomTile.queueTileUpdate_eq, TaskRequest.isIdle,
      TaskRequest.reset]
  refine ⟨sec t rfl, ?_, ?_⟩
  · intro terrain mapf locked t2 htrav hinst himg
    obtain ⟨out, ho, hview⟩ :=
      CustomTile.serviceCompletedRequests_elevationView t t2 terrain mapf locked skirtHeight
        htrav hinst himg
    have hv2 : t2.elevationView = t.elevationView := by
      rw [CustomTile.elevationView_serviceImagery terrain mapf _ _ _ himg,
        CustomTile.elevationView_serviceTileGenerator]
    obtain ⟨s1, s2, _, s4, s5⟩ := sec t rfl
    simp only [CustomTile.elevationView, Prod.mk.injEq] at hview
    obtain ⟨_, _, v3, v4, v5, _, v7⟩ := hview
    exact ⟨out, ho, v5.trans s1, v4.trans s2, v3.trans s5, by rw [v7]; exact s4,
      (sec t2 hv2).2.2.1⟩
  · intro t0 terrain mapf stamp locked indeterminate out hout pr1 hin hnotin
    have body : ∀ t1 : CustomTile, t1.scheduleElevationRequest terrain stamp = some out →
        pr1._nextLOD = (out.1._family.get .PARENT).elevLOD
        ∧ out.1._elevPlaceholderRequest = some pr1 := by
      intro t1 h1
      unfold CustomTile.scheduleElevationRequest at h1
      cases hd : decide (t1._elevationLOD < (t1._family.get .PARENT).elevLOD) <;>
        cases hp : terrain.getCustomTile (t1._family.get .PARENT).tileID <;>
        simp only [hd, hp] at h1
      case true.some parent =>
        cases hl : parent._elevationLayer <;> simp only [hl] at h1 <;> repeat' split at h1
        all_goals
          cases h1
          try dsimp only at hin hnotin ⊢
          try first
            | exact absurd hin hnotin
            | (simp only [List.mem_append, List.mem_singleton] at hin
               rcases hin with hin | hin
               · exact absurd hin hnotin
               · cases hin <;> exact ⟨rfl, rfl⟩)
      all_goals repeat' split at h1
      all_goals
        cases h1
        try dsimp only at hin hnotin ⊢
        try first
          | exact absurd hin hnotin
          | (simp only [List.mem_append, List.mem_singleton] at hin
             rcases hin with hin | hin
             · exact absurd hin hnotin
             · cases hin)
    unfold CustomTile.servicePendingElevationRequests at hout
    split at hout
    · simp only [Option.some.injEq] at hout
      subst hout
      exact absurd hin hnotin
    · split at hout
      · exact body _ hout
      · exact body _ hout

/-- Witness of C8: key LOD 5, current elevation LOD 3, placeholder request completed
with the layer 8 as result and next LOD 4. -/
theorem serviceCompletedRequests_placeholder_success_witness :
    ((samplePlaceholderTile 3 4 .STATE_COMPLETED false
        (some (sampleLayer 8))).serviceElevationRequests 0)._elevationLayer = some (sampleLayer 8)
    ∧ ((samplePlaceholderTile 3 4 .STATE_COMPLETED false
        (some (sampleLayer 8))).serviceElevationRequests 0)._elevationLOD = 4
    ∧ ((samplePlaceholderTile 3 4 .STATE_COMPLETED false
        (some (sampleLayer 8))).serviceElevationRequests 0)._tileUpdates
          = [⟨.UPDATE_ELEVATION, TileUpdate.defaultValue⟩]
    ∧ (∃ pr1 : TileElevationPlaceholderLayerRequest,
        ((samplePlaceholderTile 3 4 .STATE_COMPLETED false
          (some (sampleLayer 8))).serviceElevationRequests 0)._elevPlaceholderRequest = some pr1
        ∧ pr1.isIdle = true)
    ∧ ((samplePlaceholderTile 3 4 .STATE_COMPLETED false
        (some (sampleLayer 8))).serviceElevationRequests 0)._elevationLayerUpToDate = false :=
  (serviceCompletedRequests_placeholder_success
    (samplePlaceholderTile 3 4 .STATE_COMPLETED false (some (sampleLayer 8))) 0
    (sampleElevRequest 5) _ (sampleLayer 8) _ rfl rfl rfl rfl rfl rfl rfl rfl rfl).1

/-- C9. Canceled results are never applied.  (1) FINAL elevation: when the elevation
branch is active and the FINAL request is completed and canceled, the elevation part of
`serviceCompletedRequests` changes nothing in the tile but that request, which becomes
idle, not canceled and without result, whatever result it carried; so the elevation
layer, elevation LOD, up-to-date flag, color-layer map and update queue are unchanged;
and the whole call, whenever its imagery part completes, returns a tile with the
elevation layer, elevation LOD and flag of before.  (2) Placeholder elevation: the same
when the FINAL request is not completed and the placeholder request is completed and
canceled.  (3) Imagery: when the request loop examines a completed and canceled request
of the layer it is checking, the tile is unchanged and the request stays in the list,
idle, not canceled and without result; the next pass of `servicePendingImageRequests`
stamps it and adds it to the task service again. -/
theorem serviceCompletedRequests_canceled_not_applied (t : CustomTile) (skirtHeight : Rat) :
    (∀ (er : TileElevationLayerRequest) (pr : TileElevationPlaceholderLayerRequest),
      t._hasElevation = true → t._elevationLayerUpToDate = false →
      t._elevRequest = some er → t._elevPlaceholderRequest = some pr →
      er.isCompleted = true → er.wasCanceled = true →
      (∃ er1 : TileElevationLayerRequest,
        t.serviceElevationRequests skirtHeight = { t with _elevRequest := some er1 }
        ∧ er1.isIdle = true ∧ er1.wasCanceled = false ∧ er1.getResult = none)
      ∧ (∀ (terrain : CustomTerrain) (mapf : MapFrame) (locked : Bool) (t2 : CustomTile),
          t._hasBeenTraversed = true → t._requestsInstalled = true →
          CustomTile.serviceImagery terrain mapf t.serviceTileGenerator.1 mapf.imageLayers
            = some t2 →
          ∃ out, t.serviceCompletedRequests terrain mapf locked skirtHeight = some out
            ∧ out.1._elevationLayer = t._elevationLayer
            ∧ out.1._elevationLOD = t._elevationLOD
            ∧ out.1._elevationLayerUpToDate = t._elevationLayerUpToDate
            ∧ (t2.serviceElevationRequests skirtHeight)._colorLayers = t2._colorLayers
            ∧ (t2.serviceElevationRequests skirtHeight)._tileUpdates = t2._tileUpdates))
    ∧ (∀ (er : TileElevationLayerRequest) (pr : TileElevationPlaceholderLayerRequest),
      t._hasElevation = true → t._elevationLayerUpToDate = false →
      t._elevRequest = some er → t._elevPlaceholderRequest = some pr →
      er.isCompleted = false → pr.isCompleted = true → pr.wasCanceled = true →
      (∃ pr1 : TileElevationPlaceholderLayerRequest,
        t.serviceElevationRequests skirtHeight = { t with _elevPlaceholderRequest := some pr1 }
        ∧ pr1.isIdle = true ∧ pr1.wasCanceled = false ∧ pr1.getResult = none)
      ∧ (∀ (terrain : CustomTerrain) (mapf : MapFrame) (locked : Bool) (t2 : CustomTile),
          t._hasBeenTraversed = true → t._requestsInstalled = true →
          CustomTile.serviceImagery terrain mapf t.serviceTileGenerator.1 mapf.imageLayers
            = some t2 →
          ∃ out, t.serviceCompletedRequests terrain mapf locked skirtHeight = some out
            ∧ out.1._elevationLayer = t._elevationLayer
            ∧ out.1._elevationLOD = t._elevationLOD
            ∧ out.1._elevationLayerUpToDate = t._elevationLayerUpToDate
            ∧ (t2.serviceElevationRequests skirtHeight)._colorLayers = t2._colorLayers
            ∧ (t2.serviceElevationRequests skirtHeight)._tileUpdates = t2._tileUpdates))
    ∧ (∀ (mapf : MapFrame) (imageLayer : ImageLayer) (r : TileColorLayerRequest) (stamp : Int),
      r._layerUID = imageLayer.getUID → r.isCompleted = true → r.wasCanceled = true →
      ∃ r1 : TileColorLayerRequest,
        t.serviceImageRequest mapf imageLayer r = (t, some r1)
        ∧ r1._layerUID = r._layerUID
        ∧ r1.isIdle = true ∧ r1.wasCanceled = false ∧ r1.getResult = none
        ∧ (CustomTile.servicePendingImageRequest stamp r1).2 = true
        ∧ (CustomTile.servicePendingImageRequest stamp r1).1._stamp = stamp) := by
  have whole :
      (∀ t3 : CustomTile, t3.elevationView = t.elevationView →
        (t3.serviceElevationRequests skirtHeight)._elevationLayer = t3._elevationLayer
        ∧ (t3.serviceElevationRequests skirtHeight)._elevationLOD = t3._elevationLOD
        ∧ (t3.serviceElevationRequests skirtHeight)._elevationLayerUpToDate
            = t3._elevationLayerUpToDate
        ∧ (t3.serviceElevationRequests skirtHeight)._colorLayers = t3._colorLayers
        ∧ (t3.serviceElevationRequests skirtHeight)._tileUpdates = t3._tileUpdates) →
      ∀ (terrain : CustomTerrain) (mapf : MapFrame) (locked : Bool) (t2 : CustomTile),
        t._hasBeenTraversed = true → t._requestsInstalled = true →
        CustomTile.serviceImagery terrain mapf t.serviceTileGenerator.1 mapf.imageLayers
          = some t2 →
        ∃ out, t.serviceCompletedRequests terrain mapf locked skirtHeight = some out
          ∧ out.1._elevationLayer = t._elevationLayer
          ∧ out.1._elevationLOD = t._elevationLOD
          ∧ out.1._elevationLayerUpToDate = t._elevationLayerUpToDate
          ∧ (t2.serviceElevationRequests skirtHeight)._colorLayers = t2._colorLayers
          ∧ (t2.serviceElevationRequests skirtHeight)._tileUpdates = t2._tileUpdates := by
    intro sec terrain mapf locked t2 htrav hinst himg
    obtain ⟨out, ho, hview⟩ :=
      CustomTile.serviceCompletedRequests_elevationView t t2 terrain mapf locked skirtHeight
        htrav hinst himg
    have hv2 : t2.elevationView = t.elevationView := by
      rw [CustomTile.elevationView_serviceImagery terrain mapf _ _ _ himg,
        CustomTile.elevationView_serviceTileGenerator]
    obtain ⟨s1, s2, s3, _, _⟩ := sec t rfl
    obtain ⟨_, _, _, u4, u5⟩ := sec t2 hv2
    simp only [CustomTile.elevationView, Prod.mk.injEq] at hview
    obtain ⟨_, _, v3, v4, v5, _, _⟩ := hview
    exact ⟨out, ho, v5.trans s1, v4.trans s2, v3.trans s3, u4, u5⟩
  refine ⟨?_, ?_, ?_⟩
  · intro er pr hhint hup her hpr hdone hcan
    refine ⟨⟨{ er with toTaskRequest :=
        ((er.setState .STATE_IDLE).setProgressCallback {}).reset }, ?_, rfl, rfl, rfl⟩, ?_⟩
    · simp [CustomTile.serviceElevationRequests, hhint, hup, her, hpr, hdone, hcan]
    · apply whole
      intro t3 hv
      simp only [CustomTile.elevationView, Prod.mk.injEq] at hv
      obtain ⟨_, h2, h3, _, _, h6, h7⟩ := hv
      simp [CustomTile.serviceElevationRequests, h2, h3, h6, h7, hhint, hup, her, hpr, hdone,
        hcan]
  · intro er pr hhint hup her hpr hfinal hdone hcan
    refine ⟨⟨{ pr with toTaskRequest :=
        ((pr.setState .STATE_IDLE).setProgressCallback {}).reset }, ?_, rfl, rfl, rfl⟩, ?_⟩
    · simp [CustomTile.serviceElevationRequests, hhint, hup, her, hpr, hfinal, hdone, hcan]
    · apply whole
      intro t3 hv
      simp only [CustomTile.elevationView, Prod.mk.injEq] at hv
      obtain ⟨_, h2, h3, _, _, h6, h7⟩ := hv
      simp [CustomTile.serviceElevationRequests, h2, h3, h6, h7, hhint, hup, her, hpr, hfinal,
        hdone, hcan]
  · intro mapf imageLayer r stamp huid hdone hcan
    refine ⟨{ r with toTaskRequest :=
        ((r.setState .STATE_IDLE).setProgressCallback
          ({} : StampedProgressCallback).toProgressCallback).reset }, ?_, rfl, rfl, rfl, rfl, ?_, ?_⟩
    · simp [CustomTile.serviceImageRequest, huid, hdone, hcan]
    · simp [CustomTile.servicePendingImageRequest, TaskRequest.isIdle, TaskRequest.reset]
    · simp [CustomTile.servicePendingImageRequest, TaskRequest.isIdle, TaskRequest.reset,
        TaskRequest.setStamp, TaskRequest.submitted]

/-- Witness of C9: a canceled FINAL request that carries a result (key LOD 5, current
LOD 4), a canceled placeholder request that carries a result (current LOD 3), and a
canceled imagery request of layer 9 that carries a result. -/
theorem serviceCompletedRequests_canceled_not_applied_witness :
    (∃ er1 : TileElevationLayerRequest,
      (sampleFinalTile 4 .STATE_COMPLETED true (some (sampleLayer 9))).serviceElevationRequests 0
        = { sampleFinalTile 4 .STATE_COMPLETED true (some (sampleLayer 9)) with
            _elevRequest := some er1 }
      ∧ er1.isIdle = true ∧ er1.wasCanceled = false ∧ er1.getResult = none)
    ∧ (∃ pr1 : TileElevationPlaceholderLayerRequest,
      (samplePlaceholderTile 3 4 .STATE_COMPLETED true
          (some (sampleLayer 8))).serviceElevationRequests 0
        = { samplePlaceholderTile 3 4 .STATE_COMPLETED true (some (sampleLayer 8)) with
            _elevPlaceholderRequest := some pr1 }
      ∧ pr1.isIdle = true ∧ pr1.wasCanceled = false ∧ pr1.getResult = none)
    ∧ (∃ r1 : TileColorLayerRequest,
      (sampleImageTile true).serviceImageRequest sampleMap { uid := 9, dynamic := false }
          (sampleColorRequest 9 .STATE_COMPLETED true (some ⟨sampleColorLayer 9 5⟩))
        = (sampleImageTile true, some r1)
      ∧ r1._layerUID = 9
      ∧ r1.isIdle = true ∧ r1.wasCanceled = false ∧ r1.getResult = none
      ∧ (CustomTile.servicePendingImageRequest 11 r1).2 = true
      ∧ (CustomTile.servicePendingImageRequest 11 r1).1._stamp = 11) :=
  ⟨((serviceCompletedRequests_canceled_not_applied
        (sampleFinalTile 4 .STATE_COMPLETED true (some (sampleLayer 9))) 0).1
        _ (samplePlaceholderRequest 5) rfl rfl rfl rfl rfl rfl).1,
   ((serviceCompletedRequests_canceled_not_applied
        (samplePlaceholderTile 3 4 .STATE_COMPLETED true (some (sampleLayer 8))) 0).2.1
        (sampleElevRequest 5) _ rfl rfl rfl rfl rfl rfl rfl).1,
   (serviceCompletedRequests_canceled_not_applied (sampleImageTile true) 0).2.2
        sampleMap { uid := 9, dynamic := false }
        (sampleColorRequest 9 .STATE_COMPLETED true (some ⟨sampleColorLayer 9 5⟩)) 11
        rfl rfl rfl⟩

/-- C10. Removed layer, no mutation.  Let `u` be a layer UID that is not among the image
layers of the map snapshot passed to `serviceCompletedRequests`.  Whenever the request
loop comes to a request of layer `u`, completed or not and whatever result it carries,
it leaves the tile and the request as they are.  The call treats the tile without its
requests of layer `u` exactly as it treats the tile: the two runs fail together, and
when they return, the tiles they return differ at most by the presence of the requests
of layer `u`, so that the color-layer map, the queue of tile updates, the tile
generation request and the terrain are the same; and the requests of layer `u` are in
the request list after the call as they were before. -/
theorem serviceCompletedRequests_removed_layer_no_mutation (t : CustomTile)
    (terrain : CustomTerrain) (mapf : MapFrame) (locked : Bool) (skirtHeight : Rat) (u : UID)
    (hu : ∀ l ∈ mapf.imageLayers, l.getUID ≠ u) :
    (∀ (t1 : CustomTile) (l : ImageLayer) (r : TileColorLayerRequest),
      l ∈ mapf.imageLayers → r._layerUID = u → t1.serviceImageRequest mapf l r = (t1, some r))
    ∧ (t.withoutRequestsOf u).serviceCompletedRequests terrain mapf locked skirtHeight
        = (t.serviceCompletedRequests terrain mapf locked skirtHeight).map
            (fun out => (out.1.withoutRequestsOf u, out.2))
    ∧ (∀ out, t.serviceCompletedRequests terrain mapf locked skirtHeight = some out →
        out.1.requestsOf u = t.requestsOf u
        ∧ ∃ out1, (t.withoutRequestsOf u).serviceCompletedRequests terrain mapf locked skirtHeight
              = some out1
            ∧ out1.1._colorLayers = out.1._colorLayers
            ∧ out1.1._tileUpdates = out.1._tileUpdates
            ∧ out1.1._tileGenRequest = out.1._tileGenRequest
            ∧ out1.2 = out.2) := by
  have hcomm : (t.withoutRequestsOf u).serviceCompletedRequests terrain mapf locked skirtHeight
      = (t.serviceCompletedRequests terrain mapf locked skirtHeight).map
          (fun out => (out.1.withoutRequestsOf u, out.2)) := by
    unfold CustomTile.serviceCompletedRequests
    have h1 : (t.withoutRequestsOf u)._hasBeenTraversed = t._hasBeenTraversed := rfl
    have h2 : (t.withoutRequestsOf u)._requestsInstalled = t._requestsInstalled := rfl
    rw [h1, h2]
    by_cases ht : t._hasBeenTraversed = true
    · by_cases hi : t._requestsInstalled = true
      · simp only [ht, hi, Bool.not_true, Bool.false_eq_true, if_false]
        rw [CustomTile.serviceTileGenerator_without]
        simp only []
        rw [(CustomTile.serviceImagery_without terrain mapf u mapf.imageLayers hu _).1]
        cases hs : CustomTile.serviceImagery terrain mapf t.serviceTileGenerator.1
            mapf.imageLayers with
        | none => rfl
        | some t2 =>
          simp only [Option.map_some']
          rw [CustomTile.serviceElevationRequests_without, CustomTile.queueTileGenRequest_without]
      · simp [ht, hi]
    · simp [ht]
  refine ⟨fun t1 l r hl hr => ?_, hcomm, fun out hout => ⟨?_, ?_⟩⟩
  · exact CustomTile.serviceImageRequest_other_layer t1 mapf l r
      (by rw [hr]; exact fun h => hu l hl h.symm)
  · unfold CustomTile.serviceCompletedRequests at hout
    by_cases ht : t._hasBeenTraversed = true
    · by_cases hi : t._requestsInstalled = true
      · simp only [ht, hi, Bool.not_true, Bool.false_eq_true, if_false] at hout
        cases hs : CustomTile.serviceImagery terrain mapf t.serviceTileGenerator.1
            mapf.imageLayers with
        | none => rw [hs] at hout; cases hout
        | some t2 =>
          rw [hs] at hout
          simp only [Option.some.injEq] at hout
          subst hout
          simp only []
          rw [CustomTile.requestsOf_queueTileGenRequest,
            CustomTile.requestsOf_serviceElevationRequests,
            (CustomTile.serviceImagery_without terrain mapf u mapf.imageLayers hu _).2 t2 hs,
            CustomTile.requestsOf_serviceTileGenerator]
      · simp only [ht, hi, Bool.not_true, Bool.not_false, Bool.false_eq_true, if_false, if_true,
          Option.some.injEq] at hout
        subst hout; rfl
    · simp only [ht, Bool.not_false, if_true, Option.some.injEq] at hout
      subst hout; rfl
  · rw [hcomm, hout]
    exact ⟨_, rfl, rfl, rfl, rfl, rfl⟩

/-- Witness of C10: the map snapshot holds layer 1 only; the tile holds a completed
request of layer 9 that carries a result.  The call returns, and layer 9 is not in the
snapshot. -/
theorem serviceCompletedRequests_removed_layer_no_mutation_witness :
    (∀ l ∈ sampleMap.imageLayers, l.getUID ≠ 9)
    ∧ ((sampleImageTile false).serviceCompletedRequests (sampleTerrain sampleParent) sampleMap
        false 0).isSome = true
    ∧ ((sampleImageTile false).withoutRequestsOf 9).serviceCompletedRequests
          (sampleTerrain sampleParent) sampleMap false 0
        = ((sampleImageTile false).serviceCompletedRequests (sampleTerrain sampleParent)
            sampleMap false 0).map (fun out => (out.1.withoutRequestsOf 9, out.2)) :=
  ⟨by decide, by decide,
   (serviceCompletedRequests_removed_layer_no_mutation (sampleImageTile false)
      (sampleTerrain sampleParent) sampleMap false 0 9 (by decide)).2.1⟩

/-- C18. Per-layer superseding in `updateImagery`: for every tile (every request list)
and every image layer, after `updateImagery(layer)` the request list consists of the
former requests of all other layers, in their previous order, followed by the newly
created request; that request is idle and has the layer's UID, and it is the only
request of the list with that UID.  Consequently `no two requests in the list share a
layer UID` is preserved by `updateImagery`, by `installRequests` and by
`serviceCompletedRequests`. -/
theorem updateImagery_supersedes (t : CustomTile) (terrain : CustomTerrain)
    (imageLayer : ImageLayer) (mapf : MapFrame) :
    ((t.updateImagery terrain imageLayer mapf)._requests
        = t._requests.filter (fun r => decide (r._layerUID ≠ imageLayer.getUID))
            ++ [t.newColorLayerRequest terrain imageLayer]
      ∧ (t.newColorLayerRequest terrain imageLayer)._layerUID = imageLayer.getUID
      ∧ (t.newColorLayerRequest terrain imageLayer).isIdle = true
      ∧ (t.updateImagery terrain imageLayer mapf).requestsOf imageLayer.getUID
          = [t.newColorLayerRequest terrain imageLayer])
    ∧ (CustomTile.UniqueLayers t._requests →
        CustomTile.UniqueLayers (t.updateImagery terrain imageLayer mapf)._requests
        ∧ (∀ stamp indeterminate : Int,
            CustomTile.UniqueLayers
              (t.installRequests terrain mapf stamp indeterminate)._requests)
        ∧ (∀ (locked : Bool) (skirtHeight : Rat) (out : CustomTile × CustomTerrain × Bool),
            t.serviceCompletedRequests terrain mapf locked skirtHeight = some out →
            CustomTile.UniqueLayers out.1._requests)) := by
  have hreq : (t.updateImagery terrain imageLayer mapf)._requests
      = t._requests.filter (fun r => decide (r._layerUID ≠ imageLayer.getUID))
          ++ [t.newColorLayerRequest terrain imageLayer] := by
    simp only [CustomTile.updateImagery, CustomTile.eraseRequestsOf_eq_filter]
  have hidle : (t.newColorLayerRequest terrain imageLayer).isIdle = true := by
    unfold CustomTile.newColorLayerRequest
    split_ifs <;> rfl
  refine ⟨⟨hreq, rfl, hidle, ?_⟩, fun hu => ⟨?_, ?_, ?_⟩⟩
  · have hnew : (t.newColorLayerRequest terrain imageLayer)._layerUID = imageLayer.getUID := rfl
    simp only [CustomTile.requestsOf, hreq, List.filter_append, List.filter_filter]
    have h1 : t._requests.filter (fun r => decide (r._layerUID = imageLayer.getUID)
        && decide (r._layerUID ≠ imageLayer.getUID)) = [] := by
      rw [List.filter_eq_nil_iff]
      intro r _
      by_cases h : r._layerUID = imageLayer.getUID <;> simp [h]
    rw [h1]
    simp [List.filter_cons, hnew]
  · exact CustomTile.uniqueLayers_updateImagery t terrain imageLayer mapf hu
  · intro stamp indeterminate
    exact CustomTile.uniqueLayers_installRequests t terrain mapf stamp indeterminate hu
  · intro locked skirtHeight out hout
    exact CustomTile.uniqueLayers_of_sublist
      (CustomTile.requests_serviceCompletedRequests_sublist t terrain mapf locked skirtHeight
        out hout) hu

/-- Witness of C18: the tile holds requests of layers 1 and 9; `updateImagery` for layer
1 keeps the request of layer 9 and puts a new idle request of layer 1 last. -/
theorem updateImagery_supersedes_witness :
    CustomTile.UniqueLayers (sampleImageTile false)._requests
    ∧ ((sampleImageTile false).updateImagery (sampleTerrain sampleParent)
          { uid := 1, dynamic := false } sampleMap)._requests.map (fun r => (r._layerUID, r.isIdle))
        = [(9, false), (1, true)]
    ∧ CustomTile.UniqueLayers ((sampleImageTile false).updateImagery (sampleTerrain sampleParent)
          { uid := 1, dynamic := false } sampleMap)._requests :=
  ⟨by decide,
   (congrArg (List.map (fun r => (r._layerUID, r.isIdle)))
      (updateImagery_supersedes (sampleImageTile false) (sampleTerrain sampleParent)
        { uid := 1, dynamic := false } sampleMap).1.1).trans (by decide),
   ((updateImagery_supersedes (sampleImageTile false) (sampleTerrain sampleParent)
      { uid := 1, dynamic := false } sampleMap).2 (by decide)).1⟩

/-- C19, counterexample: a tile whose requests are not installed and that owns an
imagery request created by `updateImagery`: after `cancelRequests` that request has
not been canceled. -/
theorem cancelRequests_not_installed_keeps_request :
    sampleUninstalledTile._requests.length = 1
    ∧ ¬ (∀ r ∈ (sampleUninstalledTile.cancelRequests).1._requests, r.wasCanceled = true) := by
  refine ⟨by decide, fun h => ?_⟩
  have h1 := h (sampleUninstalledTile.newColorLayerRequest (sampleTerrain sampleParent)
    { uid := 1, dynamic := false }) (List.mem_singleton.mpr rfl)
  exact absurd h1 (by decide)

/-- C19, amended. `cancelRequests` on a tile whose requests are installed: every request
of the imagery request list, the FINAL elevation request, the placeholder elevation
request and the regeneration request (each when present) is afterwards the request
after `cancel()`, so it reports `wasCanceled`; nothing else changes.  On a tile whose
requests are not installed the call changes nothing.  In both cases the call returns
true. -/
theorem cancelRequests_cancels_installed (t : CustomTile) :
    (t._requestsInstalled = true →
      (t.cancelRequests).1._requests
          = t._requests.map (fun r => { r with toTaskRequest := r.cancel })
      ∧ (∀ r ∈ (t.cancelRequests).1._requests, r.wasCanceled = true)
      ∧ (t.cancelRequests).1._requests.length = t._requests.length
      ∧ (∀ er, t._elevRequest = some er →
          (t.cancelRequests).1._elevRequest = some { er with toTaskRequest := er.cancel })
      ∧ (∀ er, (t.cancelRequests).1._elevRequest = some er → er.wasCanceled = true)
      ∧ (∀ pr, t._elevPlaceholderRequest = some pr →
          (t.cancelRequests).1._elevPlaceholderRequest
            = some { pr with toTaskRequest := pr.cancel })
      ∧ (∀ pr, (t.cancelRequests).1._elevPlaceholderRequest = some pr → pr.wasCanceled = true)
      ∧ (∀ g, t._tileGenRequest = some g →
          (t.cancelRequests).1._tileGenRequest = some { g with toTaskRequest := g.cancel })
      ∧ (∀ g, (t.cancelRequests).1._tileGenRequest = some g → g.wasCanceled = true))
    ∧ (t._requestsInstalled = false → (t.cancelRequests).1 = t)
    ∧ (t.cancelRequests).2 = true := by
  refine ⟨fun h => ?_, fun h => ?_, ?_⟩
  · have e : t.cancelRequests = ({ t with
        _requests := t._requests.map (fun r => { r with toTaskRequest := r.cancel }),
        _elevRequest := t._elevRequest.map (fun r => { r with toTaskRequest := r.cancel }),
        _elevPlaceholderRequest :=
          t._elevPlaceholderRequest.map (fun r => { r with toTaskRequest := r.cancel }),
        _tileGenRequest :=
          t._tileGenRequest.map (fun r => { r with toTaskRequest := r.cancel }) }, true) := by
      simp [CustomTile.cancelRequests, h]
    rw [e]
    refine ⟨rfl, ?_, by simp, ?_, ?_, ?_, ?_, ?_, ?_⟩
    · intro r hr
      simp only [List.mem_map] at hr
      obtain ⟨r0, _, rfl⟩ := hr
      rfl
    · intro er her; simp [her]
    · intro er her
      cases he : t._elevRequest with
      | none => simp [he] at her
      | some e => simp only [he, Option.map_some', Option.some.injEq] at her; subst her; rfl
    · intro pr hpr; simp [hpr]
    · intro pr hpr
      cases he : t._elevPlaceholderRequest with
      | none => simp [he] at hpr
      | some e => simp only [he, Option.map_some', Option.some.injEq] at hpr; subst hpr; rfl
    · intro g hg; simp [hg]
    · intro g hg
      cases he : t._tileGenRequest with
      | none => simp [he] at hg
      | some e => simp only [he, Option.map_some', Option.some.injEq] at hg; subst hg; rfl
  · simp [CustomTile.cancelRequests, h]
  · unfold CustomTile.cancelRequests
    split <;> rfl

/-- Witness of C19 (amended): two imagery requests and one elevation request in flight
on a tile with installed requests: all three are canceled and the call returns true. -/
theorem cancelRequests_cancels_installed_witness :
    (∀ r ∈ ((sampleBusyTile true).cancelRequests).1._requests, r.wasCanceled = true)
    ∧ ((sampleBusyTile true).cancelRequests).1._requests.length = 2
    ∧ (∀ er, ((sampleBusyTile true).cancelRequests).1._elevRequest = some er →
        er.wasCanceled = true)
    ∧ ((sampleBusyTile true).cancelRequests).1._elevRequest.isSome = true
    ∧ ((sampleBusyTile true).cancelRequests).2 = true :=
  ⟨((cancelRequests_cancels_installed (sampleBusyTile true)).1 rfl).2.1,
   ((cancelRequests_cancels_installed (sampleBusyTile true)).1 rfl).2.2.1,
   ((cancelRequests_cancels_installed (sampleBusyTile true)).1 rfl).2.2.2.2.1,
   by decide,
   (cancelRequests_cancels_installed (sampleBusyTile true)).2.2⟩

/-- C20. Imagery priority order by loading mode: for two tiles with key LODs a < b, the
request that `updateImagery` appends has, in sequential mode, priority -LOD + 1/10, which
is strictly greater for the tile at LOD a than for the tile at LOD b; in preemptive mode
it has priority 1/10 + LOD, which is strictly greater for the tile at LOD b than for the
tile at LOD a (priorities as exact rationals). -/
theorem updateImagery_priority_order (ta tb : CustomTile) (terrain : CustomTerrain)
    (imageLayer : ImageLayer) (mapf : MapFrame)
    (hab : ta._key.getLevelOfDetail < tb._key.getLevelOfDetail) :
    (∀ t : CustomTile, (t.updateImagery terrain imageLayer mapf)._requests.getLast?
        = some (t.newColorLayerRequest terrain imageLayer))
    ∧ (terrain.loadingMode = .MODE_SEQUENTIAL →
        (ta.newColorLayerRequest terrain imageLayer)._priority
            = -(ta._key.getLevelOfDetail : Rat) + 1 / 10
        ∧ (tb.newColorLayerRequest terrain imageLayer)._priority
            = -(tb._key.getLevelOfDetail : Rat) + 1 / 10
        ∧ (ta.newColorLayerRequest terrain imageLayer)._priority
            > (tb.newColorLayerRequest terrain imageLayer)._priority)
    ∧ (terrain.loadingMode = .MODE_PREEMPTIVE →
        (ta.newColorLayerRequest terrain imageLayer)._priority
            = 1 / 10 + (ta._key.getLevelOfDetail : Rat)
        ∧ (tb.newColorLayerRequest terrain imageLayer)._priority
            = 1 / 10 + (tb._key.getLevelOfDetail : Rat)
        ∧ (tb.newColorLayerRequest terrain imageLayer)._priority
            > (ta.newColorLayerRequest terrain imageLayer)._priority) := by
  have hq : (ta._key.getLevelOfDetail : Rat) < (tb._key.getLevelOfDetail : Rat) := by
    exact_mod_cast hab
  refine ⟨fun t => ?_, fun hs => ?_, fun hp => ?_⟩
  · simp [CustomTile.updateImagery]
  · have e : ∀ t : CustomTile, (t.newColorLayerRequest terrain imageLayer)._priority
        = -(t._key.getLevelOfDetail : Rat) + 1 / 10 := by
      intro t
      simp [CustomTile.newColorLayerRequest, hs, TaskRequest.setPriority,
        TaskRequest.setProgressCallback, PRI_IMAGE_OFFSET]
    refine ⟨e ta, e tb, ?_⟩
    rw [e ta, e tb]
    linarith
  · have e : ∀ t : CustomTile, (t.newColorLayerRequest terrain imageLayer)._priority
        = 1 / 10 + (t._key.getLevelOfDetail : Rat) := by
      intro t
      simp [CustomTile.newColorLayerRequest, hp, TaskRequest.setPriority,
        TaskRequest.setProgressCallback, PRI_IMAGE_OFFSET]
    refine ⟨e ta, e tb, ?_⟩
    rw [e ta, e tb]
    linarith

/-- Witness of C20: tiles at key LODs 3 and 5, in sequential and in preemptive mode. -/
theorem updateImagery_priority_order_witness :
    ((sampleTile 3 3 familyParent5).newColorLayerRequest sampleSequentialTerrain
        { uid := 1, dynamic := false })._priority
      > ((sampleTile 5 5 familyParent5).newColorLayerRequest sampleSequentialTerrain
        { uid := 1, dynamic := false })._priority
    ∧ ((sampleTile 5 5 familyParent5).newColorLayerRequest (sampleTerrain sampleParent)
        { uid := 1, dynamic := false })._priority
      > ((sampleTile 3 3 familyParent5).newColorLayerRequest (sampleTerrain sampleParent)
        { uid := 1, dynamic := false })._priority :=
  ⟨((updateImagery_priority_order (sampleTile 3 3 familyParent5) (sampleTile 5 5 familyParent5)
      sampleSequentialTerrain { uid := 1, dynamic := false } sampleMap (by decide)).2.1 rfl).2.2,
   ((updateImagery_priority_order (sampleTile 3 3 familyParent5) (sampleTile 5 5 familyParent5)
      (sampleTerrain sampleParent) { uid := 1, dynamic := false } sampleMap
      (by decide)).2.2 rfl).2.2⟩

/-- C11, the code at the failing input: the map snapshot holds layer 1 only, and the
tile holds a completed, not canceled request of layer 9 that carries a result.
`serviceCompletedRequests` returns, and the request list is what it was: the request
of layer 9 has not been removed. -/
theorem serviceCompletedRequests_removed_layer_request_kept :
    sampleMap.getImageLayerByUID 9 = none
    ∧ ((sampleImageTile false)._requests.map
          (fun r => (r._layerUID, r.isCompleted, r.wasCanceled, r.getResult.isSome)))
        = [(1, false, false, false), (9, true, false, true)]
    ∧ ((sampleImageTile false).serviceCompletedRequests (sampleTerrain sampleParent) sampleMap
          false 0).map (fun out => out.1._requests)
        = some (sampleImageTile false)._requests := by
  refine ⟨by decide, by decide, ?_⟩
  rfl

/-- C12, counterexample: a request of layer 1 whose attempt counter has reached the cap
of 3, completed with an empty result and not canceled, on a tile that holds an image of
layer 1: `serviceCompletedRequests` does not give up; the request stays in the list and
is idle again, for a fourth attempt. -/
theorem serviceCompletedRequests_retries_at_cap :
    ((sampleRetryTile 3)._requests.map
        (fun r => (r._layerUID, r._numTries, r._maxTries, r.isCompleted, r.getResult.isSome)))
      = [(1, 3, 3, true, false)]
    ∧ ((sampleRetryTile 3).serviceCompletedRequests (sampleTerrain sampleParent) sampleMap
          false 0).map
        (fun out => (out.1._requests.map (fun r => (r._layerUID, r._numTries, r.isIdle)),
                     out.1._colorLayers.map (fun e => (e.1, e.2.lod))))
      = some ([(1, 3, true)], [(1, 3)]) := by
  refine ⟨by decide, ?_⟩
  rfl

/-- C12, amended. Imagery retry cap: an imagery request is created with attempt counter 0
and cap 3.  When the request loop examines a request of the layer it is checking that
is completed, not canceled and without result: while the attempt counter is at most the
cap, the request is reset to idle for another attempt; once the counter exceeds the cap
(it has reached 4), the tile gives up: it re-commits the existing image under the key
LOD and removes the request.  So a request that keeps completing with an empty result
is executed four times: after each of the first three attempts it is idle again, and
the fourth attempt ends with the give-up. -/
theorem serviceCompletedRequests_retry_cap (t : CustomTile) (terrain : CustomTerrain)
    (mapf : MapFrame) (imageLayer : ImageLayer) (old : CustomColorLayer) (stamp : Int)
    (hl : imageLayer ∈ mapf.imageLayers)
    (hold : t.getCustomColorLayer imageLayer.getUID = some old) :
    ((t.newColorLayerRequest terrain imageLayer)._numTries = 0
      ∧ (t.newColorLayerRequest terrain imageLayer)._maxTries = 3)
    ∧ (∀ r : TileColorLayerRequest, r._layerUID = imageLayer.getUID → r.isCompleted = true →
        r.wasCanceled = false → r.getResult = none →
        (r._numTries ≤ r._maxTries →
          t.serviceImageRequest mapf imageLayer r
            = (t, some { r with toTaskRequest := (r.setState .STATE_IDLE).reset }))
        ∧ (r._numTries > r._maxTries →
          t.serviceImageRequest mapf imageLayer r
            = (t.setCustomColorLayer
                { mapLayer := old.mapLayer, image := old.image, locator := old.locator,
                  lod := (t._key.getLevelOfDetail : Int) }, none)))
    ∧ (∃ r1 r2 r3 : TileColorLayerRequest,
        t.failedAttempt mapf imageLayer stamp (t.newColorLayerRequest terrain imageLayer)
          = (t, some r1)
        ∧ r1._numTries = 1 ∧ r1.isIdle = true
        ∧ t.failedAttempt mapf imageLayer stamp r1 = (t, some r2)
        ∧ r2._numTries = 2 ∧ r2.isIdle = true
        ∧ t.failedAttempt mapf imageLayer stamp r2 = (t, some r3)
        ∧ r3._numTries = 3 ∧ r3.isIdle = true
        ∧ t.failedAttempt mapf imageLayer stamp r3
          = (t.setCustomColorLayer
              { mapLayer := old.mapLayer, image := old.image, locator := old.locator,
                lod := (t._key.getLevelOfDetail : Int) }, none)) := by
  refine ⟨⟨rfl, rfl⟩, fun r huid hdone hnc hres => ⟨fun h => ?_, fun h => ?_⟩, ?_⟩
  · exact CustomTile.serviceImageRequest_retry t mapf imageLayer r hl huid hdone hnc hres h
  · exact CustomTile.serviceImageRequest_giveUp t mapf imageLayer r old hl huid hdone hnc hres h
      (by rw [huid]; exact hold)
  · have h0idle : (t.newColorLayerRequest terrain imageLayer).isIdle = true := by
      unfold CustomTile.newColorLayerRequest
      split_ifs <;> rfl
    have h0nc : (t.newColorLayerRequest terrain imageLayer).wasCanceled = false := by
      unfold CustomTile.newColorLayerRequest
      split_ifs <;> rfl
    obtain ⟨r1, e1, u1, i1, c1, n1, m1⟩ := CustomTile.failedAttempt_retry t mapf imageLayer stamp
      (t.newColorLayerRequest terrain imageLayer) hl rfl h0idle h0nc
      (by show 0 + 1 < 2 ^ 32; norm_num) (by show 0 + 1 ≤ 3; norm_num)
    have n1' : r1._numTries = 1 := n1
    have m1' : r1._maxTries = 3 := m1
    obtain ⟨r2, e2, u2, i2, c2, n2, m2⟩ := CustomTile.failedAttempt_retry t mapf imageLayer stamp
      r1 hl u1 i1 c1 (by rw [n1']; norm_num) (by omega)
    have n2' : r2._numTries = 2 := by rw [n2, n1']
    have m2' : r2._maxTries = 3 := by rw [m2, m1']
    obtain ⟨r3, e3, u3, i3, c3, n3, m3⟩ := CustomTile.failedAttempt_retry t mapf imageLayer stamp
      r2 hl u2 i2 c2 (by rw [n2']; norm_num) (by omega)
    have n3' : r3._numTries = 3 := by rw [n3, n2']
    have m3' : r3._maxTries = 3 := by rw [m3, m2']
    have e4 := CustomTile.failedAttempt_giveUp t mapf imageLayer stamp r3 old hl u3 i3 c3
      (by rw [n3']; norm_num) (by omega) hold
    exact ⟨r1, r2, r3, e1, n1', i1, e2, n2', i2, e3, n3', i3, e4⟩

/-- Witness of C12 (amended): a tile that holds an image of layer 1, with the map
snapshot that holds layer 1: the request with counter 4 is given up. -/
theorem serviceCompletedRequests_retry_cap_witness :
    ({ uid := 1, dynamic := false } : ImageLayer) ∈ sampleMap.imageLayers
    ∧ (sampleRetryTile 4).getCustomColorLayer 1 = some (sampleColorLayer 1 3)
    ∧ (sampleRetryTile 4).serviceImageRequest sampleMap { uid := 1, dynamic := false }
          { sampleColorRequest 1 .STATE_COMPLETED false none with _numTries := 4 }
        = ((sampleRetryTile 4).setCustomColorLayer
            { mapLayer := (sampleColorLayer 1 3).mapLayer, image := (sampleColorLayer 1 3).image,
              locator := (sampleColorLayer 1 3).locator,
              lod := ((sampleRetryTile 4)._key.getLevelOfDetail : Int) }, none) :=
  ⟨by decide, by decide,
   ((serviceCompletedRequests_retry_cap (sampleRetryTile 4) (sampleTerrain sampleParent)
      sampleMap { uid := 1, dynamic := false } (sampleColorLayer 1 3) 0 (by decide)
      (by decide)).2.1
      { sampleColorRequest 1 .STATE_COMPLETED false none with _numTries := 4 }
      rfl rfl rfl rfl).2 (by decide)⟩

/-- C13. Imagery give-up fallback.  The tile's request list has no two requests of one
layer and its color-layer map is keyed by the UID of its records.  When the iteration
of `serviceCompletedRequests` for a layer checks for the final imagery and finds the
layer's request completed, not canceled, without result and with its attempt counter
above its cap, then after that iteration: the tile's color-layer record for the layer
has the map layer, image and locator of before and a LOD equal to the tile's key LOD;
the request list is the former list without that request, and holds no request of that
layer; a further run of the request loop for the layer changes nothing (the re-commit
happens once); and a later pass of `servicePendingImageRequests` adds nothing to the
task services for that layer.  In preemptive mode every iteration for a layer of which
the tile holds an image checks for the final imagery. -/
theorem serviceCompletedRequests_giveUp_fallback (t : CustomTile) (terrain : CustomTerrain)
    (mapf : MapFrame) (imageLayer : ImageLayer) (r : TileColorLayerRequest)
    (old : CustomColorLayer)
    (hu : CustomTile.UniqueLayers t._requests) (hr : r ∈ t._requests)
    (hl : imageLayer ∈ mapf.imageLayers) (huid : r._layerUID = imageLayer.getUID)
    (hdone : r.isCompleted = true) (hnc : r.wasCanceled = false) (hres : r.getResult = none)
    (htries : r._numTries > r._maxTries)
    (hold : t.getCustomColorLayer r._layerUID = some old) (hkey : old.getUID = r._layerUID)
    (hcheck : t.checkImageLayer terrain imageLayer = some (t, true)) :
    (∃ t1 : CustomTile, t.serviceImageLayer terrain mapf imageLayer = some t1
      ∧ t1.getCustomColorLayer r._layerUID
          = some { mapLayer := old.mapLayer, image := old.image, locator := old.locator,
                   lod := t.keyLOD }
      ∧ t1._requests = t._requests.filter (fun x => decide (x._layerUID ≠ r._layerUID))
      ∧ r ∉ t1._requests
      ∧ t1.requestsOf r._layerUID = []
      ∧ CustomTile.imageRequestsLoop mapf imageLayer t1 t1._requests = (t1, t1._requests)
      ∧ (∀ (terrain0 : CustomTerrain) (mapf0 : MapFrame) (stamp indeterminate : Int),
          t._hasBeenTraversed = true → t._requestsInstalled = true →
          ∃ added, (t1.servicePendingImageRequests terrain0 mapf0 stamp indeterminate).2.imageryServices
              = terrain0.imageryServices ++ added
            ∧ ∀ e ∈ added, e.1 ≠ r._layerUID))
    ∧ (∀ terrain1 : CustomTerrain, terrain1.loadingMode = .MODE_PREEMPTIVE →
        t.checkImageLayer terrain1 imageLayer = some (t, true)) := by
  have hloop := CustomTile.imageRequestsLoop_giveUp mapf imageLayer t t._requests r old hu hr hl
    huid hdone hnc hres htries hold
  have hnone : ∀ x ∈ t._requests.filter (fun x => decide (x._layerUID ≠ r._layerUID)),
      x._layerUID ≠ r._layerUID := by
    intro x hx
    simpa using (List.mem_filter.mp hx).2
  have hfields : ∀ c : CustomColorLayer,
      (t.setCustomColorLayer c)._hasBeenTraversed = t._hasBeenTraversed
      ∧ (t.setCustomColorLayer c)._requestsInstalled = t._requestsInstalled := by
    intro c
    unfold CustomTile.setCustomColorLayer CustomTile.setCustomColorLayerUnlocked
    simp only [if_true]
    split_ifs <;> exact ⟨rfl, rfl⟩
  refine ⟨⟨(t.setCustomColorLayer
      ⟨old.mapLayer, old.image, old.locator, (t._key.getLevelOfDetail : Int)⟩).setRequests
      (t._requests.filter (fun x => decide (x._layerUID ≠ r._layerUID))),
    ?_, ?_, rfl, ?_, ?_, ?_, ?_⟩, ?_⟩
  · unfold CustomTile.serviceImageLayer
    rw [hcheck]
    simp only [if_true]
    rw [hloop]
    rfl
  · have hg := CustomTile.getCustomColorLayer_setCustomColorLayer t
      { mapLayer := old.mapLayer, image := old.image, locator := old.locator,
        lod := (t._key.getLevelOfDetail : Int) } true true
    have hk : CustomColorLayer.getUID
        ⟨old.mapLayer, old.image, old.locator, (t._key.getLevelOfDetail : Int)⟩
          = r._layerUID := hkey
    rw [hk] at hg
    exact hg
  · intro hmem
    exact hnone r hmem rfl
  · simp only [CustomTile.requestsOf]
    rw [List.filter_eq_nil_iff]
    intro x hx
    simpa using hnone x hx
  · exact CustomTile.imageRequestsLoop_skip mapf imageLayer _ _
      (fun x hx => by rw [← huid]; exact hnone x hx)
  · intro terrain0 mapf0 stamp indeterminate htrav hinst
    have h1 := (hfields
      ⟨old.mapLayer, old.image, old.locator, (t._key.getLevelOfDetail : Int)⟩).1
    have h2 := (hfields
      ⟨old.mapLayer, old.image, old.locator, (t._key.getLevelOfDetail : Int)⟩).2
    refine ⟨(CustomTile.pendingImageRequestsLoop
      ((t.setCustomColorLayer
        ⟨old.mapLayer, old.image, old.locator, (t._key.getLevelOfDetail : Int)⟩).setRequests
        (t._requests.filter (fun x => decide (x._layerUID ≠ r._layerUID))))._key stamp
      (t._requests.filter (fun x => decide (x._layerUID ≠ r._layerUID)))).2, ?_, ?_⟩
    · have g1 : ((t.setCustomColorLayer
          ⟨old.mapLayer, old.image, old.locator, (t._key.getLevelOfDetail : Int)⟩).setRequests
          (t._requests.filter (fun x => decide (x._layerUID ≠ r._layerUID))))._hasBeenTraversed
          = true := h1.trans htrav
      have g2 : ((t.setCustomColorLayer
          ⟨old.mapLayer, old.image, old.locator, (t._key.getLevelOfDetail : Int)⟩).setRequests
          (t._requests.filter (fun x => decide (x._layerUID ≠ r._layerUID))))._requestsInstalled
          = true := h2.trans hinst
      simp only [CustomTile.servicePendingImageRequests, g1, g2, Bool.not_true,
        Bool.false_eq_true, if_false]
      rfl
    · intro e he
      obtain ⟨x, hx, hex⟩ := CustomTile.pendingImageRequestsLoop_added _ _ _ e he
      rw [hex]
      exact hnone x hx
  · intro terrain1 hmode
    rw [huid] at hold
    simp [CustomTile.checkImageLayer, hold, hmode]

/-- Witness of C13: key LOD 5, an image of layer 1 at LOD 3, and the request of layer 1
completed without result with attempt counter 4; preemptive mode. -/
theorem serviceCompletedRequests_giveUp_fallback_witness :
    ∃ t1 : CustomTile,
      (sampleRetryTile 4).serviceImageLayer (sampleTerrain sampleParent) sampleMap
          { uid := 1, dynamic := false } = some t1
      ∧ t1.getCustomColorLayer 1
          = some { mapLayer := (sampleColorLayer 1 3).mapLayer,
                   image := (sampleColorLayer 1 3).image,
                   locator := (sampleColorLayer 1 3).locator, lod := 5 }
      ∧ t1.requestsOf 1 = [] := by
  obtain ⟨t1, h1, h2, _, _, h5, _, _⟩ :=
    (serviceCompletedRequests_giveUp_fallback (sampleRetryTile 4) (sampleTerrain sampleParent)
      sampleMap { uid := 1, dynamic := false }
      { sampleColorRequest 1 .STATE_COMPLETED false none with _numTries := 4 }
      (sampleColorLayer 1 3) (by decide) (List.mem_singleton.mpr rfl) (by decide) rfl rfl rfl rfl
      (by decide) (by decide) rfl (by decide)).1
  exact ⟨t1, h1, h2, h5⟩

/-- C16, counterexample: two tile updates are queued by `queueTileUpdate` on a tile with
no regeneration request in flight.  The first update pass submits a request that covers
the first update only and leaves the second one queued; after two rounds the
regeneration task service has received two requests, one per update. -/
theorem serviceCompletedRequests_one_request_per_update :
    ((sampleQuietTile.queueTileUpdates sampleUpdates).serviceCompletedRequests
        (sampleTerrain sampleParent) ⟨[]⟩ false 0).map
      (fun out => (out.1._tileGenRequest.map (fun g => g._update), out.1._tileUpdates,
                   out.2.1.tileGenService.length))
      = some (some ⟨.UPDATE_ELEVATION, TileUpdate.defaultValue⟩, [⟨.UPDATE_IMAGE_LAYER, 1⟩], 1)
    ∧ (CustomTile.regenerationRounds ⟨[]⟩ false 0 2
        (sampleQuietTile.queueTileUpdates sampleUpdates, sampleTerrain sampleParent)).map
      (fun s => s.2.tileGenService.map (fun e => e.2._update))
      = some [⟨.UPDATE_ELEVATION, TileUpdate.defaultValue⟩, ⟨.UPDATE_IMAGE_LAYER, 1⟩] := by
  constructor <;> rfl

/-- C16, amended. One regeneration request per queued update: N >= 1 tile updates are
queued by `queueTileUpdate` on a tile that has been traversed, has its requests
installed, has an empty update queue and has no regeneration request in flight (it
holds none, or a completed one).  Every update pass (`serviceCompletedRequests`) that
returns submits one `TileGenRequest`, which covers the oldest queued update only, and
leaves the other N - 1 queued, followed by the updates that the pass itself has queued.
Over the following rounds (each regeneration request completing before the next pass),
as far as the passes return: after k <= N rounds the task service has received k
requests, one per queued update, for the first k updates, oldest first, and the others
are still queued.  The passes return when the terrain does not load imagery in
sequential mode or the tile table holds the parent named by the family snapshot. -/
theorem serviceCompletedRequests_regeneration_per_update (t0 : CustomTile)
    (terrain : CustomTerrain) (mapf : MapFrame) (locked : Bool) (skirtHeight : Rat)
    (u : TileUpdate) (rest : List TileUpdate)
    (htrav : t0._hasBeenTraversed = true) (hinst : t0._requestsInstalled = true)
    (hqueue : t0._tileUpdates = [])
    (hreq : ∀ g, t0._tileGenRequest = some g → g.isCompleted = true) :
    (t0.queueTileUpdates (u :: rest))._tileUpdates = u :: rest
    ∧ (∀ out,
        (t0.queueTileUpdates (u :: rest)).serviceCompletedRequests terrain mapf locked skirtHeight
          = some out →
        out.1._tileGenRequest = some (CustomTile.newTileGenRequest u)
        ∧ (CustomTile.newTileGenRequest u)._update = u
        ∧ (∃ added, out.1._tileUpdates = rest ++ added)
        ∧ out.2.1 = { terrain with
                      tileGenService :=
                        terrain.tileGenService ++ [(t0._key, CustomTile.newTileGenRequest u)] })
    ∧ (∀ k, k ≤ (u :: rest).length → ∀ tk terraink,
        CustomTile.regenerationRounds mapf locked skirtHeight k
            (t0.queueTileUpdates (u :: rest), terrain) = some (tk, terraink) →
        terraink.tileGenService
            = terrain.tileGenService
              ++ ((u :: rest).take k).map (fun v => (t0._key, CustomTile.newTileGenRequest v))
        ∧ terraink.tileGenService.length = terrain.tileGenService.length + k
        ∧ (∃ added, tk._tileUpdates = (u :: rest).drop k ++ added))
    ∧ (t0.PassesReturn terrain → ∀ k, ∃ tk terraink,
        CustomTile.regenerationRounds mapf locked skirtHeight k
            (t0.queueTileUpdates (u :: rest), terrain) = some (tk, terraink)) := by
  have heq := CustomTile.queueTileUpdates_eq (u :: rest) t0
  have ht1 : (t0.queueTileUpdates (u :: rest))._hasBeenTraversed = true := by rw [heq]; exact htrav
  have hi1 : (t0.queueTileUpdates (u :: rest))._requestsInstalled = true := by rw [heq]; exact hinst
  have hqu1 : (t0.queueTileUpdates (u :: rest))._tileUpdates = u :: rest := by
    rw [heq]; simp [hqueue]
  have hr1 : ∀ g, (t0.queueTileUpdates (u :: rest))._tileGenRequest = some g →
      g.isCompleted = true := by rw [heq]; exact hreq
  have hk1 : (t0.queueTileUpdates (u :: rest))._key = t0._key := by rw [heq]
  have hf1 : (t0.queueTileUpdates (u :: rest))._family = t0._family := by rw [heq]
  refine ⟨hqu1, ?_, ?_, ?_⟩
  · intro out ho
    obtain ⟨h1, h2, _, h4, _⟩ := CustomTile.regeneration_pass _ terrain mapf locked skirtHeight
      out u rest ht1 hi1 hqu1 hr1 ho
    rw [hk1] at h4
    exact ⟨h1, rfl, h2, h4⟩
  · intro k hk tk terraink hr
    obtain ⟨_, _, _, ⟨added, h4⟩, _, h6, _⟩ :=
      CustomTile.regenerationRounds_general mapf locked skirtHeight k (u :: rest) [] _ terrain
        tk terraink ht1 hi1 (by rw [hqu1, List.append_nil]) hk hr1 hr
    rw [hk1] at h6
    refine ⟨h6, ?_, ⟨added, by rw [h4, List.nil_append]⟩⟩
    rw [h6, List.length_append, List.length_map, List.length_take]
    simp only [List.length_cons] at hk ⊢
    omega
  · intro hp k
    obtain ⟨tk, terraink, hr, _⟩ :=
      CustomTile.regenerationRounds_isSome mapf locked skirtHeight k _ terrain
        (CustomTile.passesReturn_congr hf1 rfl rfl hp)
    exact ⟨tk, terraink, hr⟩

/-- Witness of C16 (amended): the two sample updates are queued on the sample tile whose
imagery request has completed with a result; the tile has no terrain technique and its
first pass queues an image update of its own.  After two rounds the service has received
two requests, for the two sample updates, and the update that the pass has queued is
still in the queue. -/
theorem serviceCompletedRequests_regeneration_per_update_witness :
    (∃ tk terraink,
      CustomTile.regenerationRounds sampleMap false 0 2
          (sampleSuccessTile.queueTileUpdates sampleUpdates, sampleTerrain sampleParent)
        = some (tk, terraink)
      ∧ terraink.tileGenService
          = [(sampleSuccessTile._key,
              CustomTile.newTileGenRequest ⟨.UPDATE_ELEVATION, TileUpdate.defaultValue⟩),
             (sampleSuccessTile._key, CustomTile.newTileGenRequest ⟨.UPDATE_IMAGE_LAYER, 1⟩)]
      ∧ terraink.tileGenService.length = 2
      ∧ ∃ added, tk._tileUpdates = added)
    ∧ (CustomTile.regenerationRounds sampleMap false 0 2
          (sampleSuccessTile.queueTileUpdates sampleUpdates, sampleTerrain sampleParent)).map
        (fun s => s.1._tileUpdates) = some [⟨.UPDATE_IMAGE_LAYER, 1⟩] := by
  refine ⟨?_, rfl⟩
  have hthm := serviceCompletedRequests_regeneration_per_update sampleSuccessTile
    (sampleTerrain sampleParent) sampleMap false 0
    ⟨.UPDATE_ELEVATION, TileUpdate.defaultValue⟩ [⟨.UPDATE_IMAGE_LAYER, 1⟩]
    rfl rfl rfl (fun g hg => (by cases hg))
  obtain ⟨tk, terraink, hr⟩ := hthm.2.2.2 (Or.inl (by decide)) 2
  obtain ⟨h1, h2, added, h3⟩ := hthm.2.2.1 2 (by decide) tk terraink hr
  exact ⟨tk, terraink, hr, h1, h2, added, h3⟩

/-- C17. One geometry application per batch: N >= 1 tile updates are in the queue of a
tile that has been traversed, has its requests installed, has its terrain technique and
holds no regeneration request, and none is queued afterwards (no pass of the drain calls
`queueTileUpdate`).  Over the rounds that drain the queue (each regeneration request
completing before the next pass), as far as the passes return: after k <= N rounds the
first k updates have been submitted, oldest first, the others are still queued, the
technique has compiled the first k and `applyTileUpdates` has not been invoked; from the
first round on, the request the tile holds is completed before the next pass, which
submits the next one.  The pass that follows finds the update queue empty and invokes
`applyTileUpdates` once: all N updates are applied in that one application, the pass
reports the tile modified, submits nothing, and the tile holds no request.  A further
pass invokes nothing.  The passes return when the terrain does not load imagery in
sequential mode or the tile table holds the parent named by the family snapshot. -/
theorem serviceCompletedRequests_one_application (t : CustomTile)
    (terrain : CustomTerrain) (mapf : MapFrame) (locked : Bool) (skirtHeight : Rat)
    (tech : CustomTerrainTechnique) (u : TileUpdate) (rest : List TileUpdate)
    (htrav : t._hasBeenTraversed = true) (hinst : t._requestsInstalled = true)
    (htech : t._terrainTechnique = some tech)
    (hqueue : t._tileUpdates = u :: rest) (hreq : t._tileGenRequest = none)
    (hnone : CustomTile.roundsQueueNothing mapf locked skirtHeight (u :: rest).length
        (t, terrain) = true) :
    (∀ k, k ≤ (u :: rest).length → ∀ tk terraink,
      CustomTile.regenerationRounds mapf locked skirtHeight k (t, terrain) = some (tk, terraink) →
      ∃ tech1,
        terraink.tileGenService
            = terrain.tileGenService
              ++ ((u :: rest).take k).map (fun v => (t._key, CustomTile.newTileGenRequest v))
        ∧ tk._tileUpdates = (u :: rest).drop k
        ∧ tk._terrainTechnique = some tech1
        ∧ tech1.compiled = tech.compiled ++ (u :: rest).take k
        ∧ tech1.applied = tech.applied
        ∧ tech1.numApplied = tech.numApplied
        ∧ (0 < k → ∃ g, tk._tileGenRequest = some g ∧ g.isCompleted = true
            ∧ some g._update = (u :: rest)[k - 1]?))
    ∧ (∀ tN terrainN out,
        CustomTile.regenerationRounds mapf locked skirtHeight (u :: rest).length (t, terrain)
          = some (tN, terrainN) →
        tN.serviceCompletedRequests terrainN mapf locked skirtHeight = some out →
        ∃ tech2,
          tN._tileUpdates = []
          ∧ out.2.1 = terrainN
          ∧ out.2.2 = true
          ∧ out.1._terrainTechnique = some tech2
          ∧ tech2.numApplied = tech.numApplied + 1
          ∧ tech2.applied = tech.applied ++ (tech.compiled ++ (u :: rest))
          ∧ tech2.compiled = []
          ∧ out.1._tileGenRequest = none
          ∧ out.1._tileUpdates = []
          ∧ (∀ out2, out.1.serviceCompletedRequests terrainN mapf locked skirtHeight = some out2 →
              out2.2.2 = false ∧ out2.1._terrainTechnique = some tech2))
    ∧ (t.PassesReturn terrain →
        ∃ tN terrainN out out2,
          CustomTile.regenerationRounds mapf locked skirtHeight (u :: rest).length (t, terrain)
            = some (tN, terrainN)
          ∧ tN.serviceCompletedRequests terrainN mapf locked skirtHeight = some out
          ∧ out.1.serviceCompletedRequests terrainN mapf locked skirtHeight = some out2) := by
  have hreq1 : ∀ g, t._tileGenRequest = some g → g.isCompleted = true := by
    intro g hg
    rw [hreq] at hg
    cases hg
  have hq0 : t._tileUpdates = (u :: rest) ++ [] := by rw [hqueue, List.append_nil]
  refine ⟨?_, ?_, ?_⟩
  · intro k hk tk terraink hr
    obtain ⟨_, _, _, _, h5, h6, _, h8, h9⟩ :=
      CustomTile.regenerationRounds_general mapf locked skirtHeight k (u :: rest) [] t terrain
        tk terraink htrav hinst hq0 hk hreq1 hr
    have hkm : k + ((u :: rest).length - k) = (u :: rest).length := by omega
    have hq := (h9 ((u :: rest).length - k) (by rw [hkm]; exact hnone)).1
    rw [htech] at h5
    exact ⟨_, h6, by rw [hq, List.append_nil], h5, rfl, rfl, rfl, h8⟩
  · intro tN terrainN out hr ho
    obtain ⟨h1, h2, _, _, h5, _, _, h8, h9⟩ :=
      CustomTile.regenerationRounds_general mapf locked skirtHeight (u :: rest).length (u :: rest)
        [] t terrain tN terrainN htrav hinst hq0 (le_refl _) hreq1 hr
    obtain ⟨hq, hn0⟩ := h9 0 hnone
    obtain ⟨g, hg, hdone, _⟩ := h8 (by simp)
    have hempty : tN._tileUpdates = [] := by rw [hq]; simp
    rw [htech] at h5
    obtain ⟨a1, a2, _, _, a5⟩ :=
      CustomTile.regeneration_apply_pass tN terrainN mapf locked skirtHeight out _ g h1 h2 h5
        hempty hg hdone ho
    obtain ⟨b1, b2, b3⟩ := a5 hn0
    refine ⟨_, hempty, b3, ?_, a2, rfl, ?_, rfl, b1, b2, ?_⟩
    · rw [a1]
      simp [CustomTerrainTechnique.applyTileUpdates]
    · simp [CustomTerrainTechnique.applyTileUpdates]
    · intro out2 ho2
      have hx := CustomTile.serviceCompletedRequests_no_request out.1 terrainN mapf locked
        skirtHeight out2 b1 ho2
      exact ⟨hx.1, hx.2.trans a2⟩
  · intro hp
    obtain ⟨tN, terrainN, hr, hpN⟩ :=
      CustomTile.regenerationRounds_isSome mapf locked skirtHeight (u :: rest).length t terrain hp
    have hs := CustomTile.serviceCompletedRequests_isSome tN terrainN mapf locked skirtHeight hpN
    cases ho : tN.serviceCompletedRequests terrainN mapf locked skirtHeight with
    | none => rw [ho] at hs; cases hs
    | some out =>
      obtain ⟨h1, h2, _, _, h5, _, _, h8, h9⟩ :=
        CustomTile.regenerationRounds_general mapf locked skirtHeight (u :: rest).length
          (u :: rest) [] t terrain tN terrainN htrav hinst hq0 (le_refl _) hreq1 hr
      obtain ⟨hq, hn0⟩ := h9 0 hnone
      obtain ⟨g, hg, hdone, _⟩ := h8 (by simp)
      have hempty : tN._tileUpdates = [] := by rw [hq]; simp
      rw [htech] at h5
      obtain ⟨_, _, _, _, a5⟩ :=
        CustomTile.regeneration_apply_pass tN terrainN mapf locked skirtHeight out _ g h1 h2 h5
          hempty hg hdone ho
      obtain ⟨_, _, b3⟩ := a5 hn0
      have hp2 := (CustomTile.passesReturn_serviceCompletedRequests tN terrainN mapf locked
        skirtHeight out hpN ho).1
      rw [b3] at hp2
      have hs2 := CustomTile.serviceCompletedRequests_isSome out.1 terrainN mapf locked
        skirtHeight hp2
      cases ho2 : out.1.serviceCompletedRequests terrainN mapf locked skirtHeight with
      | none => rw [ho2] at hs2; cases hs2
      | some out2 => exact ⟨tN, terrainN, out, out2, hr, ho, ho2⟩

/-- Witness of C17: the two sample updates in the queue of the sample loading tile, which
has an imagery request running and elevation not up to date, on the terrain in
sequential mode. -/
theorem serviceCompletedRequests_one_application_witness :
    ∃ tN terrainN out tech2,
      CustomTile.regenerationRounds sampleMap false 0 2
          (sampleLoadingTile, sampleSequentialTerrainWithParent) = some (tN, terrainN)
      ∧ tN.serviceCompletedRequests terrainN sampleMap false 0 = some out
      ∧ out.2.2 = true
      ∧ out.1._terrainTechnique = some tech2
      ∧ tech2.numApplied = 1
      ∧ tech2.applied = sampleUpdates := by
  have hthm := serviceCompletedRequests_one_application sampleLoadingTile
    sampleSequentialTerrainWithParent sampleMap false 0
    { compiled := [], applied := [], numApplied := 0 }
    ⟨.UPDATE_ELEVATION, TileUpdate.defaultValue⟩ [⟨.UPDATE_IMAGE_LAYER, 1⟩]
    rfl rfl rfl rfl rfl rfl
  obtain ⟨tN, terrainN, out, _, hr, ho, _⟩ := hthm.2.2 (Or.inr rfl)
  obtain ⟨tech2, _, _, h3, h4, h5, h6, _⟩ := hthm.2.1 tN terrainN out hr ho
  exact ⟨tN, terrainN, out, tech2, hr, ho, h3, h4, h5, h6⟩

/-- C15. Monotonic refinement of elevation.  Start from a newly constructed tile, from
a tile whose elevation requests `installRequests` has just reset, or from any tile
neither of whose elevation requests is in flight, whatever its current elevation LOD,
key and family.  In every state reached by pending passes, task execution,
`serviceCompletedRequests`, `traverse` calls and writes of the elevation hint, the
elevation layer and the family snapshot (any family), the elevation part of
`serviceCompletedRequests` (which always returns) leaves the current elevation LOD
greater than or equal to its value before, and so does the whole call whenever it
returns: a completed placeholder or FINAL request never lowers it. -/
theorem serviceCompletedRequests_elevationLOD_monotone (key : TileKey) (hasElevation : Bool)
    (family : Family) (s : CustomTile) (terrain0 : CustomTerrain) (mapf0 : MapFrame)
    (stamp0 indeterminate0 : Int) (t0 t : CustomTile) (terrain : CustomTerrain)
    (mapf : MapFrame) (locked : Bool) (skirtHeight : Rat)
    (h0 : t0 = CustomTile.new key hasElevation family
        ∨ (s._elevationLayer.isSome = true
            ∧ t0 = s.installRequests terrain0 mapf0 stamp0 indeterminate0)
        ∨ t0.ElevationRequestsIdle)
    (hr : CustomTile.TileReachable CustomTile.anyFamily t0 t) :
    t._elevationLOD ≤ (t.serviceElevationRequests skirtHeight)._elevationLOD
    ∧ (∀ out, t.serviceCompletedRequests terrain mapf locked skirtHeight = some out →
        t._elevationLOD ≤ out.1._elevationLOD) := by
  have hidle : t0.ElevationRequestsIdle := by
    rcases h0 with h0 | ⟨hl, h0⟩ | h0
    · rw [h0]
      exact CustomTile.requestsIdle_new key hasElevation family
    · rw [h0]
      exact CustomTile.requestsIdle_installRequests s terrain0 mapf0 stamp0 indeterminate0
        (Or.inl hl)
    · exact h0
  have hinv := CustomTile.monotone_tileReachable CustomTile.anyFamily t0 t
    (CustomTile.monotone_of_idle t0 hidle) hr
  have hpart := (CustomTile.monotone_serviceElevationRequests t skirtHeight hinv).2
  refine ⟨hpart, fun out hc => ?_⟩
  obtain ⟨_, hv⟩ := CustomTile.serviceCompletedRequests_view t terrain mapf locked skirtHeight
    out hc
  rcases hv with hv | hv
  · simp only [CustomTile.elevationView, Prod.mk.injEq] at hv
    rw [hv.2.2.2.1]
  · simp only [CustomTile.elevationView, Prod.mk.injEq] at hv
    rw [hv.2.2.2.1]
    exact hpart

/-- Witness of C15: a tile of key LOD 5 that holds data of LOD 3, parent at LOD 5.  After
`installRequests`, the pending pass submits the placeholder request with next LOD 5 and
the task service runs it; in the state reached the tile is at LOD 3, and the elevation
part of `serviceCompletedRequests` raises it to LOD 5. -/
theorem serviceCompletedRequests_elevationLOD_monotone_witness :
    sampleCoarseTile._elevationLayer.isSome = true
    ∧ CustomTile.TileReachable CustomTile.anyFamily sampleInstalledTile sampleRefinedTile
    ∧ sampleRefinedTile._elevationLOD = 3
    ∧ (sampleRefinedTile.serviceElevationRequests 0)._elevationLOD = 5
    ∧ sampleRefinedTile._elevationLOD
        ≤ (sampleRefinedTile.serviceElevationRequests 0)._elevationLOD :=
  ⟨rfl,
   Relation.ReflTransGen.tail
     (Relation.ReflTransGen.single
       (CustomTile.TileStep.update _ _
         (CustomTile.UpdateStep.pendingElevation sampleInstalledTile sampleSubmittedTile
           (sampleTerrain sampleParent) _ sampleMap 10 false 0 rfl)))
     (CustomTile.TileStep.update _ _
       (CustomTile.UpdateStep.runPlaceholder sampleSubmittedTile sampleSubmittedPlaceholder
         (some (sampleLayer 8)) rfl rfl)),
   rfl, rfl,
   (serviceCompletedRequests_elevationLOD_monotone ⟨5, 0, 0⟩ true familyParent5
      sampleCoarseTile (sampleTerrain sampleParent) sampleMap 0 0
      sampleInstalledTile sampleRefinedTile (sampleTerrain sampleParent) sampleMap false 0
      (Or.inr (Or.inl ⟨rfl, rfl⟩))
      (Relation.ReflTransGen.tail
        (Relation.ReflTransGen.single
          (CustomTile.TileStep.update _ _
            (CustomTile.UpdateStep.pendingElevation sampleInstalledTile sampleSubmittedTile
              (sampleTerrain sampleParent) _ sampleMap 10 false 0 rfl)))
        (CustomTile.TileStep.update _ _
          (CustomTile.UpdateStep.runPlaceholder sampleSubmittedTile sampleSubmittedPlaceholder
            (some (sampleLayer 8)) rfl rfl)))).1⟩

/-- C29. The imagery and the elevation readiness predicates are the same function: when
every family member's image LOD for the layer equals that member's elevation LOD and
`currentLOD` equals the tile's elevation LOD, `readyForNewImagery layer currentLOD`
returns the value of `readyForNewElevation`. -/
theorem readyForNewImagery_eq_readyForNewElevation (t : CustomTile) (layer : ImageLayer)
    (currentLOD : Int)
    (hf : ∀ i : Direction, (t._family.get i).getImageLOD layer.getUID = (t._family.get i).elevLOD)
    (hc : currentLOD = t._elevationLOD) :
    t.readyForNewImagery layer currentLOD = t.readyForNewElevation := by
  subst hc
  unfold CustomTile.readyForNewImagery CustomTile.readyForNewElevation
  rw [hf .PARENT, CustomTile.imageryLoop_eq_elevationLoop t layer hf]

/-- Witness of C29: key LOD 5, every family member at LOD 5 for elevation and for
layer 1, current LOD 3: both predicates return true; with current LOD 5 both return
false. -/
theorem readyForNewImagery_eq_readyForNewElevation_witness :
    (sampleTile 5 3 sampleImageFamily).readyForNewImagery ⟨1, false⟩ 3
        = (sampleTile 5 3 sampleImageFamily).readyForNewElevation
    ∧ (sampleTile 5 3 sampleImageFamily).readyForNewElevation = true
    ∧ (sampleTile 5 5 sampleImageFamily).readyForNewImagery ⟨1, false⟩ 5
        = (sampleTile 5 5 sampleImageFamily).readyForNewElevation
    ∧ (sampleTile 5 5 sampleImageFamily).readyForNewElevation = false :=
  ⟨readyForNewImagery_eq_readyForNewElevation (sampleTile 5 3 sampleImageFamily) ⟨1, false⟩ 3
      (by intro i; cases i <;> rfl) rfl,
   by decide,
   readyForNewImagery_eq_readyForNewElevation (sampleTile 5 5 sampleImageFamily) ⟨1, false⟩ 5
      (by intro i; cases i <;> rfl) rfl,
   by decide⟩

/-- C30. The target position of `MoveLayerCallback`: for a layer index `i` and a layer
count `n` with `i < n < 2^32`, the new position lies in `[0, n-1]`; it is
`min (i+1) (n-1)` when moving up and `i - 1` when moving a layer of index `i > 0` down;
but moving the layer of index 0 down gives `n - 1`, the last position, not 0: the sum
`_layerIndex + dir` is taken in `unsigned int`, where `0 + (-1)` is `2^32 - 1`, and the
clamp lowers it to the maximum. -/
theorem newPosition_eq (i n : Nat) (up : Bool) (hi : i < n) (hn : n < 2 ^ 32) :
    (MoveLayerCallback.newPosition ⟨i, up⟩ n ≤ n - 1)
    ∧ (up = true → MoveLayerCallback.newPosition ⟨i, up⟩ n = min (i + 1) (n - 1))
    ∧ (up = false → 0 < i → MoveLayerCallback.newPosition ⟨i, up⟩ n = i - 1)
    ∧ (up = false → i = 0 → MoveLayerCallback.newPosition ⟨i, up⟩ n = n - 1) := by
  have hup : ((1 : Int) % 2 ^ 32).toNat = 1 := by decide
  have hdown : ((-1 : Int) % 2 ^ 32).toNat = 4294967295 := by decide
  have h32 : (2 : Nat) ^ 32 = 4294967296 := by norm_num
  rw [h32] at hn
  have hmax : (n % 4294967296 + 4294967296 - 1) % 4294967296 = n - 1 := by omega
  have hsucc : (i + 1) % 4294967296 = i + 1 := by omega
  have hpred : 0 < i → (i + 4294967295) % 4294967296 = i - 1 := by intro h; omega
  have hzero : i = 0 → (i + 4294967295) % 4294967296 = 4294967295 := by intro h; omega
  cases up
  · simp only [MoveLayerCallback.newPosition, clampBetween, hdown, h32, hmax, Bool.false_eq_true,
      if_false, Nat.not_lt_zero]
    refine ⟨?_, ?_, ?_, ?_⟩
    · split <;> omega
    · intro h
      cases h
    · intro _ h0
      rw [hpred h0]
      split <;> omega
    · intro _ h0
      rw [hzero h0]
      split <;> omega
  · simp only [MoveLayerCallback.newPosition, clampBetween, hup, h32, hmax, hsucc, if_true,
      Nat.not_lt_zero, if_false]
    refine ⟨?_, ?_, ?_, ?_⟩
    · split <;> omega
    · intro _
      split <;> omega
    · intro h
      cases h
    · intro h
      cases h

/-- Witness of C30: three layers; the layer of index 0 moved down is given position 2;
the layer of index 1 moved down is given position 0, and moved up position 2. -/
theorem newPosition_eq_witness :
    MoveLayerCallback.newPosition ⟨0, false⟩ 3 = 2
    ∧ MoveLayerCallback.newPosition ⟨1, false⟩ 3 = 0
    ∧ MoveLayerCallback.newPosition ⟨1, true⟩ 3 = 2
    ∧ MoveLayerCallback.newPosition ⟨2, true⟩ 3 = 2 :=
  ⟨(newPosition_eq 0 3 false (by decide) (by decide)).2.2.2 rfl rfl,
   (newPosition_eq 1 3 false (by decide) (by decide)).2.2.1 rfl (by decide),
   (newPosition_eq 1 3 true (by decide) (by decide)).2.1 rfl,
   (newPosition_eq 2 3 true (by decide) (by decide)).2.1 rfl⟩

/-- C21, counterexample: a tile of key LOD 5 on a terrain in sequential mode.
`resetElevationRequests` gives its elevation requests priority 5 and `updateImagery`
gives its imagery request priority -5 + 1/10 = -49/10, which is not 5 + 1/10 and is
below the elevation priority. -/
theorem updateImagery_sequential_priority_below_elevation :
    (((sampleTile 5 5 familyParent5).resetElevationRequests sampleMap 0)._elevRequest.map
        (fun er => er._priority)) = some 5
    ∧ (((sampleTile 5 5 familyParent5).updateImagery sampleSequentialTerrain ⟨1, false⟩
          sampleMap)._requests.map (fun r => r._priority)) = [-49 / 10]
    ∧ (-49 / 10 : Rat) ≠ 5 + PRI_IMAGE_OFFSET
    ∧ ¬ ((5 : Rat) < -49 / 10) := by
  refine ⟨?_, ?_, ?_, ?_⟩
  · simp [CustomTile.resetElevationRequests, TaskRequest.setPriority, sampleTile,
      TileKey.getLevelOfDetail]
  · simp [CustomTile.updateImagery, CustomTile.priority_newColorLayerRequest, sampleTile,
      CustomTile.eraseRequestsOf, sampleSequentialTerrain, TileKey.getLevelOfDetail,
      PRI_IMAGE_OFFSET]
    norm_num
  · norm_num [PRI_IMAGE_OFFSET]
  · norm_num

/-- C21, amended. The imagery priority relative to the elevation priority of the same
tile: `resetElevationRequests` gives both elevation requests the key LOD as priority.
The request that `updateImagery` appends has, in every loading mode but the sequential
one, that priority plus `PRI_IMAGE_OFFSET` (1/10), which is strictly greater; in
sequential mode it has the negated elevation priority plus `PRI_IMAGE_OFFSET`, which is
strictly less than the elevation priority for every key LOD of at least 1 (priorities
as exact rationals). -/
theorem updateImagery_priority_offset (t : CustomTile) (terrain : CustomTerrain)
    (imageLayer : ImageLayer) (mapf : MapFrame) (indeterminate : Int) :
    ∃ er pr r,
      (t.resetElevationRequests mapf indeterminate)._elevRequest = some er
      ∧ (t.resetElevationRequests mapf indeterminate)._elevPlaceholderRequest = some pr
      ∧ (t.updateImagery terrain imageLayer mapf)._requests
          = CustomTile.eraseRequestsOf imageLayer.getUID t._requests ++ [r]
      ∧ er._priority = (t._key.getLevelOfDetail : Rat)
      ∧ pr._priority = er._priority
      ∧ (terrain.loadingMode ≠ .MODE_SEQUENTIAL →
          r._priority = er._priority + PRI_IMAGE_OFFSET ∧ er._priority < r._priority)
      ∧ (terrain.loadingMode = .MODE_SEQUENTIAL →
          r._priority = -er._priority + PRI_IMAGE_OFFSET
          ∧ (1 ≤ t._key.getLevelOfDetail → r._priority < er._priority)) := by
  refine ⟨_, _, t.newColorLayerRequest terrain imageLayer, rfl, rfl, rfl, rfl, rfl, ?_, ?_⟩
  · intro hm
    have e := CustomTile.priority_newColorLayerRequest t terrain imageLayer
    rw [if_neg hm] at e
    simp only [TaskRequest.setPriority]
    rw [e]
    constructor
    · ring
    · norm_num [PRI_IMAGE_OFFSET]
  · intro hm
    have e := CustomTile.priority_newColorLayerRequest t terrain imageLayer
    rw [if_pos hm] at e
    simp only [TaskRequest.setPriority]
    rw [e]
    refine ⟨rfl, fun h1 => ?_⟩
    have hq : (1 : Rat) ≤ (t._key.getLevelOfDetail : Rat) := by exact_mod_cast h1
    norm_num [PRI_IMAGE_OFFSET]
    linarith

/-- Witness of C21 (amended): a tile of key LOD 5; in preemptive mode the imagery
priority is 51/10 = 5 + 1/10, in sequential mode it is -49/10. -/
theorem updateImagery_priority_offset_witness :
    (∃ er r, ((sampleTile 5 5 familyParent5).resetElevationRequests sampleMap 0)._elevRequest
          = some er
        ∧ ((sampleTile 5 5 familyParent5).updateImagery (sampleTerrain sampleParent) ⟨1, false⟩
            sampleMap)._requests = [r]
        ∧ er._priority = 5 ∧ r._priority = er._priority + PRI_IMAGE_OFFSET
        ∧ er._priority < r._priority)
    ∧ (∃ er r, ((sampleTile 5 5 familyParent5).resetElevationRequests sampleMap 0)._elevRequest
          = some er
        ∧ ((sampleTile 5 5 familyParent5).updateImagery sampleSequentialTerrain ⟨1, false⟩
            sampleMap)._requests = [r]
        ∧ r._priority = -er._priority + PRI_IMAGE_OFFSET ∧ r._priority < er._priority) := by
  constructor
  · obtain ⟨er, _, r, h1, _, h3, h4, _, h6, _⟩ :=
      updateImagery_priority_offset (sampleTile 5 5 familyParent5) (sampleTerrain sampleParent)
        ⟨1, false⟩ sampleMap 0
    have h6 := h6 (by decide)
    exact ⟨er, r, h1, h3, by rw [h4]; rfl, h6.1, h6.2⟩
  · obtain ⟨er, _, r, h1, _, h3, _, _, _, h7⟩ :=
      updateImagery_priority_offset (sampleTile 5 5 familyParent5) sampleSequentialTerrain
        ⟨1, false⟩ sampleMap 0
    have h7 := h7 rfl
    exact ⟨er, r, h1, h3, h7.1, h7.2 (by decide)⟩

/-- C22. The first-visit registration happens exactly once.  One `traverse` call sets
the traversed flag exactly when the flag is false, the visitor is an UPDATE visitor and
the tile has a terrain; that call applies the adjustment -1 to the update-traversal
count; the flag never goes back to false; a call by another visitor type, without a
terrain, or on a traversed tile changes nothing.  Over every sequence of `traverse`
calls at most one call changes the flag, the count after the sequence is the count
before minus the number of such calls, and a tile that is traversed is left unchanged
by the whole sequence.  For a newly constructed tile the count after the sequence is 1
while the tile is not traversed and 0 once it is: the registering call cancels the +1
of the constructor. -/
theorem traverse_registers_once (key : TileKey) (hasElevation : Bool) (family : Family)
    (t : CustomTile) (calls : List (VisitorType × Bool)) :
    (∀ v h, (t.traverse v h)._hasBeenTraversed = true
        ↔ (t._hasBeenTraversed = true ∨ (v = .UPDATE_VISITOR ∧ h = true)))
    ∧ (∀ v h, (t.traverse v h)._hasBeenTraversed ≠ t._hasBeenTraversed →
        t._hasBeenTraversed = false ∧ v = .UPDATE_VISITOR ∧ h = true
        ∧ (t.traverse v h)._hasBeenTraversed = true
        ∧ (t.traverse v h)._updateTravCount = t._updateTravCount - 1)
    ∧ (∀ v h, (v ≠ .UPDATE_VISITOR ∨ h = false ∨ t._hasBeenTraversed = true) →
        t.traverse v h = t)
    ∧ t.registrations calls ≤ 1
    ∧ (t.traverseAll calls)._updateTravCount
        = t._updateTravCount - (t.registrations calls : Int)
    ∧ ((t.traverseAll calls)._hasBeenTraversed = true
        ↔ (t._hasBeenTraversed = true ∨ t.registrations calls = 1))
    ∧ (t._hasBeenTraversed = true → t.traverseAll calls = t ∧ t.registrations calls = 0)
    ∧ ((CustomTile.new key hasElevation family).traverseAll calls)._updateTravCount
        = (if ((CustomTile.new key hasElevation family).traverseAll calls)._hasBeenTraversed
           then 0 else 1) := by
  have one : ∀ v h, t.traverse v h
      = if t._hasBeenTraversed = false ∧ v = .UPDATE_VISITOR ∧ h = true
        then ({ t with _hasBeenTraversed := true }).adjustUpdateTravCount (-1) else t :=
    CustomTile.traverse_eq t
  obtain ⟨r1, r2⟩ := CustomTile.traverseAll_spec calls t
  obtain ⟨_, n2⟩ := CustomTile.traverseAll_spec calls (CustomTile.new key hasElevation family)
  refine ⟨?_, ?_, ?_, ?_, ?_, ?_, ?_, ?_⟩
  · intro v h
    rw [one]
    split
    · rename_i hc
      simp [CustomTile.adjustUpdateTravCount, hc.2.1, hc.2.2]
    · rename_i hc
      constructor
      · exact fun ht => Or.inl ht
      · rintro (ht | ⟨hv, hh⟩)
        · exact ht
        · cases ht : t._hasBeenTraversed
          · exact absurd ⟨ht, hv, hh⟩ hc
          · rfl
  · intro v h hne
    rw [one] at hne ⊢
    split at hne
    · rename_i hc
      rw [if_pos hc]
      refine ⟨hc.1, hc.2.1, hc.2.2, rfl, ?_⟩
      simp only [CustomTile.adjustUpdateTravCount]
      ring
    · exact absurd rfl hne
  · intro v h hc
    rw [one, if_neg]
    rintro ⟨h1, h2, h3⟩
    rcases hc with hc | hc | hc
    · exact hc h2
    · rw [h3] at hc
      cases hc
    · rw [h1] at hc
      cases hc
  · rw [r1]
    split <;> omega
  · rw [r1, r2]
    split
    · simp only [CustomTile.adjustUpdateTravCount]
      push_cast
      ring
    · simp
  · rw [r1, r2]
    split
    · simp [CustomTile.adjustUpdateTravCount]
    · rename_i hc
      simp only [Nat.zero_ne_one, or_false]
  · intro ht
    rw [r1, r2, if_neg, if_neg]
    · exact ⟨rfl, rfl⟩
    · rw [ht]
      simp
    · rw [ht]
      simp
  · rw [n2]
    split
    · rfl
    · rfl

/-- Witness of C22: a new tile of key LOD 5 visited by a CULL visitor, by an UPDATE
visitor without terrain, by an UPDATE visitor with terrain and by an UPDATE visitor
again: one call registers, and the count goes from 1 to 0. -/
theorem traverse_registers_once_witness :
    (CustomTile.new ⟨5, 0, 0⟩ true familyParent5)._updateTravCount = 1
    ∧ (CustomTile.new ⟨5, 0, 0⟩ true familyParent5).registrations
        [(.CULL_VISITOR, true), (.UPDATE_VISITOR, false), (.UPDATE_VISITOR, true),
         (.UPDATE_VISITOR, true)] = 1
    ∧ ((CustomTile.new ⟨5, 0, 0⟩ true familyParent5).traverseAll
        [(.CULL_VISITOR, true), (.UPDATE_VISITOR, false), (.UPDATE_VISITOR, true),
         (.UPDATE_VISITOR, true)])._hasBeenTraversed = true
    ∧ ((CustomTile.new ⟨5, 0, 0⟩ true familyParent5).traverseAll
        [(.CULL_VISITOR, true), (.UPDATE_VISITOR, false), (.UPDATE_VISITOR, true),
         (.UPDATE_VISITOR, true)])._updateTravCount
        = (CustomTile.new ⟨5, 0, 0⟩ true familyParent5)._updateTravCount
          - ((CustomTile.new ⟨5, 0, 0⟩ true familyParent5).registrations
              [(.CULL_VISITOR, true), (.UPDATE_VISITOR, false), (.UPDATE_VISITOR, true),
               (.UPDATE_VISITOR, true)] : Int) :=
  ⟨rfl, by decide, by decide,
   (traverse_registers_once ⟨5, 0, 0⟩ true familyParent5
      (CustomTile.new ⟨5, 0, 0⟩ true familyParent5)
      [(.CULL_VISITOR, true), (.UPDATE_VISITOR, false), (.UPDATE_VISITOR, true),
       (.UPDATE_VISITOR, true)]).2.2.2.2.1⟩

/-- C23. The color-layer record store, read after replace, on a tile whose color-layer
map is a `std::map` (keys strictly increasing).  After `setCustomColorLayer c`,
`getCustomColorLayer` of the UID of `c` returns true and yields `c`, and the lookup of
every other UID is as before.  After `removeCustomColorLayer u`, `getCustomColorLayer u`
returns false and leaves its output argument as it was, and the lookup of every other
UID is as before.  After `setCustomColorLayers m`, `getCustomColorLayers` yields `m`.
The map stays a `std::map`, and none of the results depends on the `writeLock` or
`readLock` flags. -/
theorem colorLayers_read_after_replace (t : CustomTile) (c : CustomColorLayer)
    (u other : UID) (m : ColorLayersByUID) (out : CustomColorLayer) (w r w2 r2 : Bool)
    (hw : t._colorLayers.WellFormed) :
    (t.setCustomColorLayer c w).getCustomColorLayerOut c.getUID out r = (true, c)
    ∧ (other ≠ c.getUID →
        (t.setCustomColorLayer c w).getCustomColorLayerOut other out r
          = t.getCustomColorLayerOut other out r)
    ∧ (t.removeCustomColorLayer u w).getCustomColorLayerOut u out r = (false, out)
    ∧ (other ≠ u →
        (t.removeCustomColorLayer u w).getCustomColorLayerOut other out r
          = t.getCustomColorLayerOut other out r)
    ∧ (t.setCustomColorLayers m w).getCustomColorLayers r = m
    ∧ (t.setCustomColorLayer c w)._colorLayers.WellFormed
    ∧ (t.removeCustomColorLayer u w)._colorLayers.WellFormed
    ∧ (t.setCustomColorLayer c w = t.setCustomColorLayer c w2
        ∧ t.removeCustomColorLayer u w = t.removeCustomColorLayer u w2
        ∧ t.setCustomColorLayers m w = t.setCustomColorLayers m w2
        ∧ t.getCustomColorLayerOut other out r = t.getCustomColorLayerOut other out r2
        ∧ t.getCustomColorLayer other r = t.getCustomColorLayer other r2
        ∧ t.getCustomColorLayers r = t.getCustomColorLayers r2) := by
  refine ⟨?_, ?_, ?_, ?_, ?_, ?_, ?_, ?_⟩
  · rw [CustomTile.getCustomColorLayerOut_eq, CustomTile.colorLayers_setCustomColorLayer,
      CustomTile.find_assign_self]
  · intro hne
    rw [CustomTile.getCustomColorLayerOut_eq, CustomTile.getCustomColorLayerOut_eq,
      CustomTile.colorLayers_setCustomColorLayer, CustomTile.find_assign_other _ _ _ _ hne]
  · rw [CustomTile.getCustomColorLayerOut_eq, CustomTile.colorLayers_removeCustomColorLayer,
      CustomTile.find_erase_self _ _ hw]
  · intro hne
    rw [CustomTile.getCustomColorLayerOut_eq, CustomTile.getCustomColorLayerOut_eq,
      CustomTile.colorLayers_removeCustomColorLayer, CustomTile.find_erase_other _ _ _ hne]
  · have e : ∀ s : CustomTile, s.getCustomColorLayers r = s._colorLayers := by
      intro s
      unfold CustomTile.getCustomColorLayers
      cases r <;> rfl
    rw [e, CustomTile.colorLayers_setCustomColorLayers]
  · rw [CustomTile.colorLayers_setCustomColorLayer]
    exact CustomTile.wellFormed_assign _ _ _ hw
  · rw [CustomTile.colorLayers_removeCustomColorLayer]
    exact CustomTile.wellFormed_erase _ _ hw
  · refine ⟨?_, ?_, ?_, ?_, ?_, ?_⟩
    · cases w <;> cases w2 <;> rfl
    · cases w <;> cases w2 <;> rfl
    · cases w <;> cases w2 <;> rfl
    · cases r <;> cases r2 <;> rfl
    · cases r <;> cases r2 <;> rfl
    · cases r <;> cases r2 <;> rfl

/-- Witness of C23: a tile that holds records of layers 1 and 4; the record of layer 4 is
replaced, then removed. -/
theorem colorLayers_read_after_replace_witness :
    sampleStoreTile._colorLayers.WellFormed
    ∧ (sampleStoreTile.setCustomColorLayer (sampleColorLayer 4 5) true).getCustomColorLayerOut
        4 (sampleColorLayer 0 0) true = (true, sampleColorLayer 4 5)
    ∧ (sampleStoreTile.setCustomColorLayer (sampleColorLayer 4 5) true).getCustomColorLayerOut
        1 (sampleColorLayer 0 0) true = (true, sampleColorLayer 1 3)
    ∧ (sampleStoreTile.removeCustomColorLayer 4 true).getCustomColorLayerOut
        4 (sampleColorLayer 0 0) true = (false, sampleColorLayer 0 0)
    ∧ (sampleStoreTile.removeCustomColorLayer 4 true).getCustomColorLayerOut
        1 (sampleColorLayer 0 0) true = (true, sampleColorLayer 1 3) := by
  have h := colorLayers_read_after_replace sampleStoreTile (sampleColorLayer 4 5) 4 1 []
    (sampleColorLayer 0 0) true true false false (by decide)
  refine ⟨by decide, h.1, ?_, h.2.2.1, ?_⟩
  · rw [h.2.1 (by decide)]
    rfl
  · rw [h.2.2.2.1 (by decide)]
    rfl

/-- C28. The bookkeeping of the update-traversal count: after the constructor and every
sequence of `traverse`, `setCustomColorLayer`, `removeCustomColorLayer` and
`setCustomColorLayers` calls (the maps passed to `setCustomColorLayers` being
`std::map`s), the sum of the adjustments the tile has applied to its update-traversal
count is 1 if the tile has not been traversed, 0 otherwise, plus the number of records
of its color-layer map whose map layer is dynamic; it is never negative. -/
theorem updateTravCount_bookkeeping (key : TileKey) (hasElevation : Bool) (family : Family)
    (ops : List CustomTile.TileOp) (hops : ∀ op ∈ ops, op.WellFormed) :
    ((CustomTile.new key hasElevation family).applyOps ops)._updateTravCount
        = (if ((CustomTile.new key hasElevation family).applyOps ops)._hasBeenTraversed
           then 0 else 1)
          + (((CustomTile.new key hasElevation family).applyOps ops)._colorLayers.dynamicCount
              : Int)
    ∧ 0 ≤ ((CustomTile.new key hasElevation family).applyOps ops)._updateTravCount := by
  have h := (CustomTile.travCountInvariant_applyOps ops _ hops
    (CustomTile.travCountInvariant_new key hasElevation family)).2
  refine ⟨h, ?_⟩
  rw [h]
  split <;> omega

/-- Witness of C28: a new tile receives the record of the dynamic layer 7, is traversed
by an UPDATE visitor, receives a record of the static layer 2, has the record of layer 7
replaced by one of a static layer 7, and has the records replaced by a map of two
dynamic layers; the count ends at 2. -/
theorem updateTravCount_bookkeeping_witness :
    ((CustomTile.new ⟨5, 0, 0⟩ true familyParent5).applyOps sampleOps)._updateTravCount = 2
    ∧ ((CustomTile.new ⟨5, 0, 0⟩ true familyParent5).applyOps sampleOps)._hasBeenTraversed = true
    ∧ ((CustomTile.new ⟨5, 0, 0⟩ true familyParent5).applyOps sampleOps)._colorLayers.dynamicCount
        = 2
    ∧ ((CustomTile.new ⟨5, 0, 0⟩ true familyParent5).applyOps (sampleOps.take 1))._updateTravCount
        = 2 := by
  have hops : ∀ op ∈ sampleOps, op.WellFormed := by
    intro op hop
    simp only [sampleOps, List.mem_cons, List.mem_singleton, List.not_mem_nil, or_false] at hop
    rcases hop with h | h | h | h | h <;> subst h
    · trivial
    · trivial
    · trivial
    · trivial
    · show ColorLayersByUID.WellFormed _
      decide
  have h := updateTravCount_bookkeeping ⟨5, 0, 0⟩ true familyParent5 sampleOps hops
  have h2 : ((CustomTile.new ⟨5, 0, 0⟩ true familyParent5).applyOps sampleOps)._hasBeenTraversed
      = true := by decide
  have h3 : ((CustomTile.new ⟨5, 0, 0⟩ true familyParent5).applyOps
      sampleOps)._colorLayers.dynamicCount = 2 := by decide
  refine ⟨?_, h2, h3, by decide⟩
  rw [h.1, h2, h3]
  rfl

/-- C24. FINAL elevation is terminal.  On a tile whose elevation up-to-date flag is true,
whatever the states and results of its two elevation requests: the pending pass
`servicePendingElevationRequests` returns, leaves the terrain as it is (nothing is added
to the elevation task service) and stamps no request: on a tile that is not traversed or
has its requests installed the tile is unchanged, and otherwise the tile is the one
`installRequests` gives, whose elevation requests are those of before or the new ones
that `resetElevationRequests` creates; elevation layer, elevation LOD and flag are as
before.  The elevation part of `serviceCompletedRequests` changes nothing, and the whole
call, whenever it returns, leaves the elevation layer, the elevation LOD, the flag and
the two elevation requests as they were. -/
theorem elevation_upToDate_terminal (t : CustomTile) (terrain : CustomTerrain)
    (mapf : MapFrame) (stamp : Int) (locked : Bool) (indeterminate : Int) (skirtHeight : Rat)
    (hup : t._elevationLayerUpToDate = true) :
    (∃ t1, t.servicePendingElevationRequests terrain mapf stamp locked indeterminate
          = some (t1, terrain)
        ∧ ((t._hasBeenTraversed = false ∨ t._requestsInstalled = true) → t1 = t)
        ∧ (t._hasBeenTraversed = true → t._requestsInstalled = false →
            t1 = t.installRequests terrain mapf stamp indeterminate)
        ∧ (t1._elevRequest = t._elevRequest
            ∨ t1._elevRequest = (t.resetElevationRequests mapf indeterminate)._elevRequest)
        ∧ (t1._elevPlaceholderRequest = t._elevPlaceholderRequest
            ∨ t1._elevPlaceholderRequest
                = (t.resetElevationRequests mapf indeterminate)._elevPlaceholderRequest)
        ∧ t1._elevationLayer = t._elevationLayer ∧ t1._elevationLOD = t._elevationLOD
        ∧ t1._elevationLayerUpToDate = true)
    ∧ t.serviceElevationRequests skirtHeight = t
    ∧ (∀ out, t.serviceCompletedRequests terrain mapf locked skirtHeight = some out →
        out.1._elevationLayer = t._elevationLayer ∧ out.1._elevationLOD = t._elevationLOD
        ∧ out.1._elevationLayerUpToDate = true ∧ out.1._elevRequest = t._elevRequest
        ∧ out.1._elevPlaceholderRequest = t._elevPlaceholderRequest) := by
  refine ⟨?_, CustomTile.serviceElevationRequests_upToDate t skirtHeight hup, ?_⟩
  · by_cases htrav : t._hasBeenTraversed = true
    · by_cases hinst : t._requestsInstalled = true
      · refine ⟨t, ?_, fun _ => rfl, ?_, Or.inl rfl, Or.inl rfl, rfl, rfl, hup⟩
        · unfold CustomTile.servicePendingElevationRequests
          simp only [htrav, hinst, Bool.not_true, Bool.false_eq_true, if_false]
          exact CustomTile.scheduleElevationRequest_upToDate t terrain stamp hup
        · intro _ hni
          rw [hinst] at hni
          cases hni
      · have hv := CustomTile.elevationView_installRequests t terrain mapf stamp indeterminate
        have hv2 : (t.installRequests terrain mapf stamp indeterminate)._elevationLayer
              = t._elevationLayer
            ∧ (t.installRequests terrain mapf stamp indeterminate)._elevationLOD = t._elevationLOD
            ∧ (t.installRequests terrain mapf stamp indeterminate)._elevationLayerUpToDate = true
            ∧ ((t.installRequests terrain mapf stamp indeterminate)._elevRequest = t._elevRequest
              ∨ (t.installRequests terrain mapf stamp indeterminate)._elevRequest
                  = (t.resetElevationRequests mapf indeterminate)._elevRequest)
            ∧ ((t.installRequests terrain mapf stamp indeterminate)._elevPlaceholderRequest
                  = t._elevPlaceholderRequest
              ∨ (t.installRequests terrain mapf stamp indeterminate)._elevPlaceholderRequest
                  = (t.resetElevationRequests mapf indeterminate)._elevPlaceholderRequest) := by
          simp only [CustomTile.elevationView, Prod.mk.injEq] at hv
          obtain ⟨_, _, h3, h4, h5, h6, h7⟩ := hv
          rw [h3, h4, h5, h6, h7]
          split
          · exact ⟨rfl, rfl, hup, Or.inr rfl, Or.inr rfl⟩
          · exact ⟨rfl, rfl, hup, Or.inl rfl, Or.inl rfl⟩
        refine ⟨t.installRequests terrain mapf stamp indeterminate, ?_, ?_, fun _ _ => rfl,
          hv2.2.2.2.1, hv2.2.2.2.2, hv2.1, hv2.2.1, hv2.2.2.1⟩
        · unfold CustomTile.servicePendingElevationRequests
          simp only [htrav, hinst, Bool.not_true, Bool.false_eq_true, if_false, Bool.not_false,
            if_true]
          exact CustomTile.scheduleElevationRequest_upToDate _ terrain stamp hv2.2.2.1
        · rintro (h | h)
          · rw [h] at htrav
            cases htrav
          · exact absurd h hinst
    · refine ⟨t, ?_, fun _ => rfl, ?_, Or.inl rfl, Or.inl rfl, rfl, rfl, hup⟩
      · unfold CustomTile.servicePendingElevationRequests
        simp [htrav]
      · intro h
        exact absurd h htrav
  · intro out hc
    obtain ⟨_, hv⟩ := CustomTile.serviceCompletedRequests_view t terrain mapf locked skirtHeight
      out hc
    rw [CustomTile.serviceElevationRequests_upToDate t skirtHeight hup, or_self] at hv
    simp only [CustomTile.elevationView, Prod.mk.injEq] at hv
    obtain ⟨_, _, h3, h4, h5, h6, h7⟩ := hv
    exact ⟨h5, h4, h3.trans hup, h6, h7⟩

/-- Witness of C24: a tile of key LOD 5 whose elevation is up to date and whose FINAL
request is completed with a result: the pending pass and the elevation part of
`serviceCompletedRequests` leave it as it is. -/
theorem elevation_upToDate_terminal_witness :
    sampleUpToDateTile._elevationLayerUpToDate = true
    ∧ sampleUpToDateTile.servicePendingElevationRequests (sampleTerrain sampleParent) sampleMap
        10 false 0 = some (sampleUpToDateTile, sampleTerrain sampleParent)
    ∧ sampleUpToDateTile.serviceElevationRequests 0 = sampleUpToDateTile := by
  obtain ⟨⟨t1, h1, h2, _⟩, h3, _⟩ :=
    elevation_upToDate_terminal sampleUpToDateTile (sampleTerrain sampleParent) sampleMap 10
      false 0 0 rfl
  rw [h2 (Or.inr rfl)] at h1
  exact ⟨rfl, h1, h3⟩

/-- C25, the code on a FINAL elevation request that keeps failing: a tile of key LOD 5 at
elevation LOD 4, parent at LOD 5, whose FINAL elevation request has made `k` attempts
(any `k`, also above its maximum of 3).  (1) When the request is completed, not canceled
and without result, `serviceCompletedRequests` resets it to idle: the attempt counter is
not compared with the maximum.  (2) The next pending pass submits it again to the
elevation task service.  (3) After `n` failed attempts in a row the request has been
submitted `n` times, it is idle again for the next attempt, and its counter is
`k + n` modulo 2^32. -/
theorem serviceCompletedRequests_elevation_retry_unbounded (k n : Nat) :
    ((sampleFailingElevTile k .STATE_COMPLETED).serviceCompletedRequests
        (sampleTerrain sampleParent) sampleMap false 0).map (fun out => out.1)
      = some (sampleFailingElevTile k .STATE_IDLE)
    ∧ ((sampleFailingElevTile k .STATE_IDLE).servicePendingElevationRequests
        (sampleTerrain sampleParent) sampleMap 10 false 0).map
          (fun s => (s.1, s.2.elevationService.length))
      = some (sampleFailingElevTile k .STATE_RUNNING, 1)
    ∧ (CustomTile.failedElevationRounds sampleMap false 0 0 10 n
        (sampleFailingElevTile (k % 2 ^ 32) .STATE_IDLE, sampleTerrain sampleParent)).map
          (fun s => (s.1, s.2.elevationService.length))
      = some (sampleFailingElevTile ((k + n) % 2 ^ 32) .STATE_IDLE, n) := by
  refine ⟨rfl, rfl, ?_⟩
  rw [CustomTile.failedElevationRounds_sample n k (sampleTerrain sampleParent)]
  simp [sampleTerrain]

/-- C27. At most one elevation request is active per tile.  Start from a newly
constructed tile, from a tile whose elevation requests `installRequests` has just reset
(both idle), or from any state in which the two requests are not both non-idle and are
held by a tile with installed requests.  In every state reached by the operations of
`UpdateStep` (pending passes, task execution, `serviceCompletedRequests`): (1) the FINAL
and the placeholder request are never both non-idle; (2) a pending pass
`servicePendingElevationRequests` that adds to the elevation task service adds exactly
one request, and no elevation request of the tile is non-idle at that moment; (3) when
the FINAL request is non-idle, the pending pass returns, adds nothing and leaves the
placeholder request unchanged. -/
theorem elevation_requests_one_active (key : TileKey) (hasElevation : Bool) (family : Family)
    (s : CustomTile) (terrain0 : CustomTerrain) (mapf0 : MapFrame) (stamp0 indeterminate0 : Int)
    (t0 t : CustomTile) (terrain : CustomTerrain) (mapf : MapFrame) (stamp : Int)
    (locked : Bool) (indeterminate : Int)
    (h0 : t0 = CustomTile.new key hasElevation family
        ∨ (s._elevationLayer.isSome = true
            ∧ t0 = s.installRequests terrain0 mapf0 stamp0 indeterminate0)
        ∨ t0.OneActiveInvariant)
    (hr : CustomTile.Reachable t0 t) :
    (∀ er pr, t._elevRequest = some er → t._elevPlaceholderRequest = some pr →
        er.isIdle = true ∨ pr.isIdle = true)
    ∧ (∀ t1 terrain1,
        t.servicePendingElevationRequests terrain mapf stamp locked indeterminate
          = some (t1, terrain1) →
        terrain1.elevationService ≠ terrain.elevationService →
        (∀ er, t._elevRequest = some er → er.isIdle = true)
        ∧ (∀ pr, t._elevPlaceholderRequest = some pr → pr.isIdle = true)
        ∧ (∃ x, terrain1.elevationService = terrain.elevationService ++ [x]))
    ∧ (∀ er, t._elevRequest = some er → er.isIdle = false →
        ∃ t1, t.servicePendingElevationRequests terrain mapf stamp locked indeterminate
            = some (t1, terrain)
          ∧ t1._elevPlaceholderRequest = t._elevPlaceholderRequest) := by
  have hinv0 : t0.OneActiveInvariant := by
    rcases h0 with h0 | ⟨hl, h0⟩ | h0
    · rw [h0]
      exact CustomTile.oneActive_new key hasElevation family
    · rw [h0]
      exact CustomTile.oneActive_installRequests s terrain0 mapf0 stamp0 indeterminate0 (Or.inl hl)
    · exact h0
  obtain ⟨hone, hinst⟩ := CustomTile.oneActive_reachable t0 t hinv0 hr
  refine ⟨hone, ?_, ?_⟩
  · intro t1 terrain1 hp hne
    unfold CustomTile.servicePendingElevationRequests at hp
    split at hp
    · simp only [Option.some.injEq, Prod.mk.injEq] at hp
      exact absurd (by rw [hp.2]) hne
    · split at hp
      · rename_i hni
        have hnone : t._elevRequest = none ∧ t._elevPlaceholderRequest = none := by
          constructor
          · cases he : t._elevRequest with
            | none => rfl
            | some er =>
              have := hinst (Or.inl (by rw [he]; rfl))
              rw [this] at hni
              simp at hni
          · cases he : t._elevPlaceholderRequest with
            | none => rfl
            | some pr =>
              have := hinst (Or.inr (by rw [he]; rfl))
              rw [this] at hni
              simp at hni
        obtain ⟨_, hc⟩ := CustomTile.scheduleElevationRequest_cases _ t1 terrain terrain1 stamp hp
        refine ⟨fun er he => (by rw [hnone.1] at he; cases he),
                fun pr he => (by rw [hnone.2] at he; cases he), ?_⟩
        rcases hc with ⟨_, e⟩ | ⟨_, _, _, e, _⟩ | ⟨_, _, _, _, _, _, e, _⟩
            | ⟨_, _, er1, _, _, _, _, _, _, e⟩ | ⟨_, _, pr1, _, _, _, _, _, _, e⟩
        · exact absurd (by rw [e]) hne
        · exact absurd (by rw [e]) hne
        · exact absurd (by rw [e]) hne
        · exact ⟨_, by rw [e]⟩
        · exact ⟨_, by rw [e]⟩
      · obtain ⟨_, hc⟩ := CustomTile.scheduleElevationRequest_cases t t1 terrain terrain1 stamp hp
        rcases hc with ⟨_, e⟩ | ⟨_, _, _, e, _⟩ | ⟨_, _, _, _, _, _, e, _⟩
            | ⟨er, pr, er1, her, hpr, hei, hpi, _, _, e⟩
            | ⟨er, pr, pr1, her, hpr, hei, hpi, _, _, e⟩
        · exact absurd (by rw [e]) hne
        · exact absurd (by rw [e]) hne
        · exact absurd (by rw [e]) hne
        · refine ⟨fun er2 he => ?_, fun pr2 he => ?_, ⟨_, by rw [e]⟩⟩
          · rw [her] at he
            cases he
            exact hei
          · rw [hpr] at he
            cases he
            exact hpi
        · refine ⟨fun er2 he => ?_, fun pr2 he => ?_, ⟨_, by rw [e]⟩⟩
          · rw [her] at he
            cases he
            exact hei
          · rw [hpr] at he
            cases he
            exact hpi
  · intro er her hef
    have hi : t._requestsInstalled = true := hinst (Or.inl (by rw [her]; rfl))
    by_cases htrav : t._hasBeenTraversed = true
    · have hsched : ∃ t1, t.scheduleElevationRequest terrain stamp = some (t1, terrain)
          ∧ t1._elevPlaceholderRequest = t._elevPlaceholderRequest := by
        unfold CustomTile.scheduleElevationRequest
        split
        · rename_i er2 pr2 _ her2 hpr2
          rw [her] at her2
          cases her2
          simp only [hef, Bool.not_false, if_true]
          split
          · exact ⟨_, rfl, rfl⟩
          · exact ⟨_, rfl, rfl⟩
        · exact ⟨_, rfl, rfl⟩
      obtain ⟨t1, h1, h2⟩ := hsched
      refine ⟨t1, ?_, h2⟩
      unfold CustomTile.servicePendingElevationRequests
      simp only [htrav, hi, Bool.not_true, Bool.false_eq_true, if_false]
      exact h1
    · refine ⟨t, ?_, rfl⟩
      unfold CustomTile.servicePendingElevationRequests
      simp [htrav]

/-- Witness of C27: a tile of key LOD 5 at elevation LOD 4 with both requests idle; the
pending pass submits the FINAL request; in the state reached the FINAL request is not
idle, the placeholder request is idle, and a further pending pass adds nothing and
leaves the placeholder request as it is. -/
theorem elevation_requests_one_active_witness :
    CustomTile.Reachable (sampleFailingElevTile 0 .STATE_IDLE)
        (sampleFailingElevTile 0 .STATE_RUNNING)
    ∧ (sampleFailingElevTile 0 .STATE_RUNNING)._elevRequest.map (fun er => er.isIdle)
        = some false
    ∧ (sampleFailingElevTile 0 .STATE_RUNNING)._elevPlaceholderRequest.map (fun pr => pr.isIdle)
        = some true
    ∧ (∃ t1, (sampleFailingElevTile 0 .STATE_RUNNING).servicePendingElevationRequests
          (sampleTerrain sampleParent) sampleMap 11 false 0
            = some (t1, sampleTerrain sampleParent)
        ∧ t1._elevPlaceholderRequest
            = (sampleFailingElevTile 0 .STATE_RUNNING)._elevPlaceholderRequest) :=
  ⟨Relation.ReflTransGen.single
      (CustomTile.UpdateStep.pendingElevation (sampleFailingElevTile 0 .STATE_IDLE) _
        (sampleTerrain sampleParent) _ sampleMap 10 false 0 rfl),
   rfl, rfl,
   (elevation_requests_one_active ⟨5, 0, 0⟩ true familyParent5 (sampleTile 5 4 familyParent5)
      (sampleTerrain sampleParent) sampleMap 0 0
      (sampleFailingElevTile 0 .STATE_IDLE) (sampleFailingElevTile 0 .STATE_RUNNING)
      (sampleTerrain sampleParent) sampleMap 11 false 0
      (Or.inr (Or.inr ⟨fun er pr h1 _ => (by cases h1; exact Or.inl rfl), fun _ => rfl⟩))
      (Relation.ReflTransGen.single
        (CustomTile.UpdateStep.pendingElevation (sampleFailingElevTile 0 .STATE_IDLE) _
          (sampleTerrain sampleParent) _ sampleMap 10 false 0 rfl))).2.2 _ rfl rfl⟩

/-- C26, counterexample: the map snapshot holds the layers 1 and 9; a traversed tile with
installed requests holds a record of layer 1 only, and a request of layer 9 that is
completed, not canceled and carries a result.  `serviceCompletedRequests` returns; the
tile still has no record of layer 9, the request of layer 9 is still in the list as it
was, and no tile update has been queued or submitted: the request loop is not run for a
layer of which the tile holds no record. -/
theorem serviceCompletedRequests_result_without_record_not_installed :
    (sampleImageTile false)._hasBeenTraversed = true
    ∧ (sampleImageTile false)._requestsInstalled = true
    ∧ sampleMapTwoLayers.getImageLayerByUID 9 = some { uid := 9, dynamic := false }
    ∧ ((sampleImageTile false)._requests.map
          (fun r => (r._layerUID, r.isCompleted, r.wasCanceled, r.getResult.isSome)))
        = [(1, false, false, false), (9, true, false, true)]
    ∧ ((sampleImageTile false).serviceCompletedRequests (sampleTerrain sampleParent)
          sampleMapTwoLayers false 0).map
        (fun out => (out.1._requests, out.1.getCustomColorLayer 9, out.1._tileUpdates,
                     out.1._tileGenRequest, out.2.1.tileGenService))
        = some ((sampleImageTile false)._requests, none, [], none, []) := by
  refine ⟨rfl, rfl, by decide, by decide, ?_⟩
  rfl

/-- C26, amended. FINAL imagery success is installed when the layer is examined.  The
tile's request list has no two requests of one layer.  When the iteration of the layer
loop of `serviceCompletedRequests` for a layer of the map snapshot checks for the final
imagery, and the layer's request is completed, not canceled and carries a result whose
record is of that layer, then that iteration installs the result as the tile's
color-layer record for the layer (the records of other layers are as before), appends
one UPDATE_IMAGE_LAYER action with the layer's UID to the update queue, and removes the
request from the list, which then holds no request of the layer.  In preemptive mode
every iteration for a layer of which the tile holds a record checks for the final
imagery; an iteration for a layer of which the tile holds no record changes nothing. -/
theorem serviceCompletedRequests_imagery_success (t : CustomTile) (terrain : CustomTerrain)
    (mapf : MapFrame) (imageLayer : ImageLayer) (r : TileColorLayerRequest)
    (res : CustomColorLayerRef)
    (hu : CustomTile.UniqueLayers t._requests) (hr : r ∈ t._requests)
    (hl : imageLayer ∈ mapf.imageLayers) (huid : r._layerUID = imageLayer.getUID)
    (hdone : r.isCompleted = true) (hnc : r.wasCanceled = false)
    (hres : r.getResult = some res) (hkey : res._layer.getUID = r._layerUID)
    (hcheck : t.checkImageLayer terrain imageLayer = some (t, true)) :
    (∃ t1 : CustomTile, t.serviceImageLayer terrain mapf imageLayer = some t1
      ∧ t1.getCustomColorLayer r._layerUID = some res._layer
      ∧ (∀ other : UID, other ≠ r._layerUID →
          t1.getCustomColorLayer other = t.getCustomColorLayer other)
      ∧ t1._tileUpdates = t._tileUpdates ++ [⟨.UPDATE_IMAGE_LAYER, r._layerUID⟩]
      ∧ t1._requests = t._requests.filter (fun x => decide (x._layerUID ≠ r._layerUID))
      ∧ r ∉ t1._requests
      ∧ t1.requestsOf r._layerUID = [])
    ∧ (∀ terrain1 : CustomTerrain, terrain1.loadingMode = .MODE_PREEMPTIVE →
        t.checkImageLayer terrain1 imageLayer = some (t, true))
    ∧ (∀ (t0 : CustomTile) (terrain0 : CustomTerrain),
        t0.getCustomColorLayer imageLayer.getUID = none →
        t0.serviceImageLayer terrain0 mapf imageLayer = some t0) := by
  have hloop := CustomTile.imageRequestsLoop_success mapf imageLayer t t._requests r res hu hr hl
    huid hdone hnc hres
  have hnone : ∀ x ∈ t._requests.filter (fun x => decide (x._layerUID ≠ r._layerUID)),
      x._layerUID ≠ r._layerUID := by
    intro x hx
    simpa using (List.mem_filter.mp hx).2
  have hlayers : (((t.setCustomColorLayer res._layer).queueTileUpdate .UPDATE_IMAGE_LAYER
      r._layerUID).setRequests
      (t._requests.filter (fun x => decide (x._layerUID ≠ r._layerUID))))._colorLayers
        = t._colorLayers.assign res._layer.getUID res._layer := by
    rw [← CustomTile.colorLayers_setCustomColorLayer t res._layer true]
    rfl
  have hupd : ∀ c : CustomColorLayer, (t.setCustomColorLayer c)._tileUpdates = t._tileUpdates := by
    intro c
    unfold CustomTile.setCustomColorLayer CustomTile.setCustomColorLayerUnlocked
    simp only [if_true]
    split_ifs <;> rfl
  refine ⟨⟨((t.setCustomColorLayer res._layer).queueTileUpdate .UPDATE_IMAGE_LAYER
      r._layerUID).setRequests
      (t._requests.filter (fun x => decide (x._layerUID ≠ r._layerUID))),
    ?_, ?_, ?_, ?_, rfl, ?_, ?_⟩, ?_, ?_⟩
  · unfold CustomTile.serviceImageLayer
    rw [hcheck]
    simp only [if_true]
    rw [hloop]
    rfl
  · rw [CustomTile.getCustomColorLayer_eq, hlayers, hkey]
    have := CustomTile.find_assign_self t._colorLayers res._layer.getUID res._layer
    rw [hkey] at this
    exact this
  · intro other hne
    rw [CustomTile.getCustomColorLayer_eq, CustomTile.getCustomColorLayer_eq, hlayers, hkey]
    exact CustomTile.find_assign_other _ _ _ _ hne
  · show ((t.setCustomColorLayer res._layer).queueTileUpdate .UPDATE_IMAGE_LAYER
      r._layerUID)._tileUpdates = _
    rw [CustomTile.queueTileUpdate_eq]
    simp only [hupd]
  · intro hmem
    exact hnone r hmem rfl
  · simp only [CustomTile.requestsOf]
    rw [List.filter_eq_nil_iff]
    intro x hx
    simpa using hnone x hx
  · intro terrain1 hmode
    have hsome : ∃ c, t.getCustomColorLayer imageLayer.getUID = some c := by
      cases hc : t.getCustomColorLayer imageLayer.getUID with
      | some c => exact ⟨c, rfl⟩
      | none =>
        simp [CustomTile.checkImageLayer, hc] at hcheck
    obtain ⟨c, hc⟩ := hsome
    simp [CustomTile.checkImageLayer, hc, hmode]
  · intro t0 terrain0 hnone0
    simp [CustomTile.serviceImageLayer, CustomTile.checkImageLayer, hnone0]

/-- Witness of C26 (amended): key LOD 5, a record of layer 1 at LOD 3 and the request of
layer 1 completed with a result at LOD 5, preemptive mode: the iteration for layer 1
installs the result, queues the update and removes the request. -/
theorem serviceCompletedRequests_imagery_success_witness :
    ∃ t1 : CustomTile,
      sampleSuccessTile.serviceImageLayer (sampleTerrain sampleParent) sampleMap
          { uid := 1, dynamic := false } = some t1
      ∧ t1.getCustomColorLayer 1 = some (sampleColorLayer 1 5)
      ∧ t1._tileUpdates = [⟨.UPDATE_IMAGE_LAYER, 1⟩]
      ∧ t1.requestsOf 1 = [] := by
  obtain ⟨t1, h1, h2, _, h4, _, _, h7⟩ :=
    (serviceCompletedRequests_imagery_success sampleSuccessTile (sampleTerrain sampleParent)
      sampleMap { uid := 1, dynamic := false }
      (sampleColorRequest 1 .STATE_COMPLETED false (some ⟨sampleColorLayer 1 5⟩))
      ⟨sampleColorLayer 1 5⟩ (by decide) (List.mem_singleton.mpr rfl) (by decide) rfl rfl rfl rfl
      rfl rfl).1
  exact ⟨t1, h1, h2, h4, h7⟩

end OsgEarth
